import Mathlib

/-!
# Flow-graph builder (kernel to IL) and type-testing stubs

A shallow embedding of `runtime/vm/compiler/frontend/kernel_to_il.cc`.
The builder is a state machine: every member function of `FlowGraphBuilder`
becomes a function from the builder state to either a failure or a result
paired with the next builder state.  A failed `ASSERT` is a failure.
-/

namespace KernelToIL

/-! ## Data model -/

/-- Why a build step aborts: a failed `ASSERT`, or the use of a null pointer. -/
inductive Failure
  | assertion
  | nullDeref
  deriving DecidableEq, Repr

/-- A lexical scope: the attributes of `LocalScope` the builder reads. -/
structure LocalScope where
  num_context_variables : Nat
  context_level : Int
  context_slots : List Nat
  deriving DecidableEq, Repr

/-- A type, seen through the queries the builder makes. -/
structure AbstractType where
  id : Nat
  IsDynamicType : Bool
  IsObjectType : Bool
  IsVoidType : Bool
  IsTopType : Bool
  instantiatedCurrentClass : Bool
  instantiatedFunctions : Bool
  deriving DecidableEq, Repr

/-- The type `dynamic`. -/
def dynamicType : AbstractType :=
  { id := 0, IsDynamicType := true, IsObjectType := false, IsVoidType := false
    IsTopType := true, instantiatedCurrentClass := true, instantiatedFunctions := true }

/-- A local variable: index, capture flag and owning scope (null for
temporaries made by `MakeTemporary`), and for a parameter its declared type,
whether it needs a type check and whether it is explicitly covariant. -/
structure LocalVariable where
  index : Int
  is_captured : Bool
  owner : Option LocalScope
  needs_type_check : Bool
  type : AbstractType
  is_explicit_covariant_parameter : Bool
  deriving DecidableEq, Repr

/-- A variable on the frame (not captured, no owning scope recorded). -/
@[reducible] def LocalVariable.frame (index : Int) : LocalVariable :=
  { index := index, is_captured := false, owner := none, needs_type_check := false
    type := dynamicType, is_explicit_covariant_parameter := false }

/-- A variable captured in the context of its owning scope. -/
@[reducible] def LocalVariable.captured (index : Int) (owner : LocalScope) : LocalVariable :=
  { index := index, is_captured := true, owner := some owner, needs_type_check := false
    type := dynamicType, is_explicit_covariant_parameter := false }

/-- The FFI element types, named by their class-id constants. -/
inductive FfiTypeCid
  | kFfiInt8Cid
  | kFfiInt16Cid
  | kFfiInt32Cid
  | kFfiInt64Cid
  | kFfiUint8Cid
  | kFfiUint16Cid
  | kFfiUint32Cid
  | kFfiUint64Cid
  | kFfiIntPtrCid
  | kFfiFloatCid
  | kFfiDoubleCid
  | kFfiPointerCid
  deriving DecidableEq, Repr

/-- The kinds of `MethodRecognizer::Kind` that `IsRecognizedMethodForFlowGraph`
names, and `kOther` standing for any other kind. -/
inductive MethodRecognizer.Kind
  | kTypedData_ByteDataView_factory
  | kTypedData_Int8ArrayView_factory
  | kTypedData_Uint8ArrayView_factory
  | kTypedData_Uint8ClampedArrayView_factory
  | kTypedData_Int16ArrayView_factory
  | kTypedData_Uint16ArrayView_factory
  | kTypedData_Int32ArrayView_factory
  | kTypedData_Uint32ArrayView_factory
  | kTypedData_Int64ArrayView_factory
  | kTypedData_Uint64ArrayView_factory
  | kTypedData_Float32ArrayView_factory
  | kTypedData_Float64ArrayView_factory
  | kTypedData_Float32x4ArrayView_factory
  | kTypedData_Int32x4ArrayView_factory
  | kTypedData_Float64x2ArrayView_factory
  | kFfiLoadInt8
  | kFfiLoadInt16
  | kFfiLoadInt32
  | kFfiLoadInt64
  | kFfiLoadUint8
  | kFfiLoadUint16
  | kFfiLoadUint32
  | kFfiLoadUint64
  | kFfiLoadIntPtr
  | kFfiLoadFloat
  | kFfiLoadDouble
  | kFfiLoadPointer
  | kFfiStoreInt8
  | kFfiStoreInt16
  | kFfiStoreInt32
  | kFfiStoreInt64
  | kFfiStoreUint8
  | kFfiStoreUint16
  | kFfiStoreUint32
  | kFfiStoreUint64
  | kFfiStoreIntPtr
  | kFfiStoreFloat
  | kFfiStoreDouble
  | kFfiStorePointer
  | kFfiFromAddress
  | kFfiGetAddress
  | kObjectEquals
  | kStringBaseLength
  | kStringBaseIsEmpty
  | kGrowableArrayLength
  | kObjectArrayLength
  | kImmutableArrayLength
  | kTypedListLength
  | kTypedListViewLength
  | kByteDataViewLength
  | kByteDataViewOffsetInBytes
  | kTypedDataViewOffsetInBytes
  | kByteDataViewTypedData
  | kTypedDataViewTypedData
  | kClassIDgetID
  | kGrowableArrayCapacity
  | kListFactory
  | kObjectArrayAllocate
  | kLinkedHashMap_getIndex
  | kLinkedHashMap_setIndex
  | kLinkedHashMap_getData
  | kLinkedHashMap_setData
  | kLinkedHashMap_getHashMask
  | kLinkedHashMap_setHashMask
  | kLinkedHashMap_getUsedData
  | kLinkedHashMap_setUsedData
  | kLinkedHashMap_getDeletedKeys
  | kLinkedHashMap_setDeletedKeys
  | kFfiAbi
  | kAsyncStackTraceHelper
  | kOther
  deriving DecidableEq, Repr

/-- Unboxed representations named by the builder.  `kUnboxedIntPtr` and
`kUnboxedFfiIntPtr` are the two pointer-width representations; `ofType cid`
stands for `compiler::ffi::TypeRepresentation(cid)`. -/
inductive Representation
  | kUnboxedIntPtr
  | kUnboxedFfiIntPtr
  | kUnboxedDouble
  | ofType (cid : FfiTypeCid)
  deriving DecidableEq, Repr

/-- A class the builder refers to: a class by id, or the FFI `Pointer` class
found at `kFfiPointerCid` in the class table. -/
inductive ClassRef
  | cls (id : Nat)
  | pointer_class
  deriving DecidableEq, Repr

/-- The type argument of the receiver type in the signature of an FFI load or
store: its class id and whether it is instantiated. -/
structure FfiTypeArg where
  type_class_id : FfiTypeCid
  instantiatedCurrentClass : Bool
  instantiatedFunctions : Bool
  deriving DecidableEq, Repr

/-- Slots of native fields the builder loads from or stores into. -/
inductive Slot
  | Context_parent
  | ContextVariable (v : LocalVariable)
  | Closure_context
  | Closure_function
  | Pointer_c_memory_address
  | TypeArguments (klass : ClassRef)
  | TypeArgumentsIndex (pos : Nat)
  | Type_arguments
  | ArgumentsDescriptor_count
  deriving DecidableEq, Repr

/-- Instantiation modes of `IsInstantiated`. -/
inductive Genericity
  | kAny
  | kCurrentClass
  | kFunctions
  deriving DecidableEq, Repr

/-- A type-argument vector, seen through the queries the builder makes.
`id` is the identity of the vector; the sharing predicates are the answers of
`CanShareInstantiatorTypeArguments(active class)` and
`CanShareFunctionTypeArguments(function)`. -/
structure TypeArguments where
  id : Nat
  IsNull : Bool
  instantiatedAny : Bool
  instantiatedCurrentClass : Bool
  instantiatedFunctions : Bool
  CanShareInstantiatorTypeArguments : Bool
  CanShareFunctionTypeArguments : Bool
  deriving DecidableEq, Repr

/-- The query `type_arguments.IsInstantiated(genericity)`. -/
def TypeArguments.IsInstantiated (t : TypeArguments) : Genericity → Bool
  | .kAny => t.instantiatedAny
  | .kCurrentClass => t.instantiatedCurrentClass
  | .kFunctions => t.instantiatedFunctions

/-- Binary integer operators used by the recognized methods. -/
inductive TokenKind
  | kMUL
  | kADD
  | kSUB
  | kLT
  deriving DecidableEq, Repr

/-- Rebind rules of a static call. -/
inductive RebindRule
  | kStatic
  | kNoRebind
  | kNSMDispatch
  deriving DecidableEq, Repr

/-- The kinds of `InvocationMirror::Kind` the forwarder encodes. -/
inductive InvocationMirrorKind
  | kMethod
  | kGetter
  | kSetter
  deriving DecidableEq, Repr

/-- The styles of unchecked entry points, `UncheckedEntryPointStyle`. -/
inductive UncheckedEntryPointStyle
  | kNone
  | kSeparate
  | kSharedWithVariable
  deriving DecidableEq, Repr

/-- Constants the builder materialises.  `invocationType` stands for the
integer `InvocationMirror::EncodeType(level, kind)` and `entryPointStyle` for
the integer value of an `UncheckedEntryPointStyle`. -/
inductive ConstValue
  | null
  | nullTypeArguments
  | typeArguments (t : TypeArguments)
  | int (n : Int)
  | bool (b : Bool)
  | str (s : String)
  | argsDescriptor (type_args_len : Nat) (count : Nat)
  | savedArgsDescriptor
  | type (class_id : Nat)
  | invocationType (top_level : Bool) (kind : InvocationMirrorKind)
  | entryPointStyle (style : UncheckedEntryPointStyle)
  deriving DecidableEq, Repr

/-- The small representations of `compiler::ffi::TypeSmallRepresentation`:
none, or one of the integer widths below 32 bits, kept by an opaque id. -/
inductive SmallRepresentation
  | kNoSmallRepresentation
  | small (id : Nat)
  deriving DecidableEq, Repr

/-- IL instructions, with the operands the builder fixes at build time.
Deoptimisation ids and token positions are not recorded. -/
inductive Instr
  | LoadLocal (v : LocalVariable)
  | StoreLocal (v : LocalVariable)
  | Drop
  | Constant (c : ConstValue)
  | LoadNativeField (slot : Slot)
  | StoreInstanceField (slot : Slot)
  | AllocateContext (slots : List Nat)
  | InstantiateTypeArguments (t : TypeArguments)
  | ReThrow (catch_try_index : Int)
  | CheckNull
  | Unbox (rep : Representation)
  | Box (rep : Representation)
  | BinaryIntegerOp (op : TokenKind) (rep : Representation) (truncate : Bool)
  | ConvertIntptrToUntagged
  | LoadIndexedTypedData (cid : FfiTypeCid)
  | StoreIndexedTypedData (cid : FfiTypeCid)
  | FloatToDouble
  | DoubleToFloat
  | AssertAssignable (dst_type : AbstractType)
  | PushArgument
  | AllocateObject (klass : ClassRef) (arg_count : Nat)
  | DropTempsPreserveTop (num_temps : Nat)
  | CreateArray
  | StoreIndexed_kArrayCid
  | StaticCall (target : Nat) (argument_count : Int) (type_args_count : Int)
      (rebind_rule : RebindRule)
  | InstanceCall (name : String) (argument_count : Int) (type_args_len : Int)
  | Return
  | CheckStackOverflow
  | DebugStepCheck
  | AssertSubtype (sub_type super_type : AbstractType)
  | RedefinitionWithType (type : AbstractType)
  | PrologueEnd
  | FunctionEntry
  | JoinEntry
  | TargetEntry
  | Goto
  | BranchIfTrue
  | BranchIfEqual
  | TestAnyTypeArgs
  | TestDelayedTypeArgs (closure : LocalVariable)
  | LoadArgDescriptor
  | StoreFpRelativeSlot (slots : Int)
  | LoadFpRelativeSlot
  | SmiBinaryOp (op : TokenKind)
  | SmiRelationalOp (op : TokenKind)
  | MakeTemp
  | EntryPointsIntrospection
  | NativeEntry (callback_id : Nat)
  | NativeParameter (index : Nat) (rep : Representation)
  | BitCast (from_rep to_rep : Representation)
  | UnboxedWidthExtender (rep : Representation) (from_rep : SmallRepresentation)
  | NativeReturn (rep : Representation)
  | FfiCall
  | CatchBlockEntry (handler_index : Int) (needs_stacktrace is_synthesized : Bool)
  deriving Repr

/-- Equality test of two instructions: the same kind of instruction with the
same operands. -/
def Instr.beq : Instr → Instr → Bool
  | .LoadLocal a0, y => match y with
    | .LoadLocal b0 => decide (a0 = b0)
    | _ => false
  | .StoreLocal a0, y => match y with
    | .StoreLocal b0 => decide (a0 = b0)
    | _ => false
  | .Drop, y => match y with
    | .Drop => true
    | _ => false
  | .Constant a0, y => match y with
    | .Constant b0 => decide (a0 = b0)
    | _ => false
  | .LoadNativeField a0, y => match y with
    | .LoadNativeField b0 => decide (a0 = b0)
    | _ => false
  | .StoreInstanceField a0, y => match y with
    | .StoreInstanceField b0 => decide (a0 = b0)
    | _ => false
  | .AllocateContext a0, y => match y with
    | .AllocateContext b0 => decide (a0 = b0)
    | _ => false
  | .InstantiateTypeArguments a0, y => match y with
    | .InstantiateTypeArguments b0 => decide (a0 = b0)
    | _ => false
  | .ReThrow a0, y => match y with
    | .ReThrow b0 => decide (a0 = b0)
    | _ => false
  | .CheckNull, y => match y with
    | .CheckNull => true
    | _ => false
  | .Unbox a0, y => match y with
    | .Unbox b0 => decide (a0 = b0)
    | _ => false
  | .Box a0, y => match y with
    | .Box b0 => decide (a0 = b0)
    | _ => false
  | .BinaryIntegerOp a0 a1 a2, y => match y with
    | .BinaryIntegerOp b0 b1 b2 => decide (a0 = b0) && decide (a1 = b1) && decide (a2 = b2)
    | _ => false
  | .ConvertIntptrToUntagged, y => match y with
    | .ConvertIntptrToUntagged => true
    | _ => false
  | .LoadIndexedTypedData a0, y => match y with
    | .LoadIndexedTypedData b0 => decide (a0 = b0)
    | _ => false
  | .StoreIndexedTypedData a0, y => match y with
    | .StoreIndexedTypedData b0 => decide (a0 = b0)
    | _ => false
  | .FloatToDouble, y => match y with
    | .FloatToDouble => true
    | _ => false
  | .DoubleToFloat, y => match y with
    | .DoubleToFloat => true
    | _ => false
  | .AssertAssignable a0, y => match y with
    | .AssertAssignable b0 => decide (a0 = b0)
    | _ => false
  | .PushArgument, y => match y with
    | .PushArgument => true
    | _ => false
  | .AllocateObject a0 a1, y => match y with
    | .AllocateObject b0 b1 => decide (a0 = b0) && decide (a1 = b1)
    | _ => false
  | .DropTempsPreserveTop a0, y => match y with
    | .DropTempsPreserveTop b0 => decide (a0 = b0)
    | _ => false
  | .CreateArray, y => match y with
    | .CreateArray => true
    | _ => false
  | .StoreIndexed_kArrayCid, y => match y with
    | .StoreIndexed_kArrayCid => true
    | _ => false
  | .StaticCall a0 a1 a2 a3, y => match y with
    | .StaticCall b0 b1 b2 b3 => decide (a0 = b0) && decide (a1 = b1) && decide (a2 = b2) && decide (a3 = b3)
    | _ => false
  | .InstanceCall a0 a1 a2, y => match y with
    | .InstanceCall b0 b1 b2 => decide (a0 = b0) && decide (a1 = b1) && decide (a2 = b2)
    | _ => false
  | .Return, y => match y with
    | .Return => true
    | _ => false
  | .CheckStackOverflow, y => match y with
    | .CheckStackOverflow => true
    | _ => false
  | .DebugStepCheck, y => match y with
    | .DebugStepCheck => true
    | _ => false
  | .AssertSubtype a0 a1, y => match y with
    | .AssertSubtype b0 b1 => decide (a0 = b0) && decide (a1 = b1)
    | _ => false
  | .RedefinitionWithType a0, y => match y with
    | .RedefinitionWithType b0 => decide (a0 = b0)
    | _ => false
  | .PrologueEnd, y => match y with
    | .PrologueEnd => true
    | _ => false
  | .FunctionEntry, y => match y with
    | .FunctionEntry => true
    | _ => false
  | .JoinEntry, y => match y with
    | .JoinEntry => true
    | _ => false
  | .TargetEntry, y => match y with
    | .TargetEntry => true
    | _ => false
  | .Goto, y => match y with
    | .Goto => true
    | _ => false
  | .BranchIfTrue, y => match y with
    | .BranchIfTrue => true
    | _ => false
  | .BranchIfEqual, y => match y with
    | .BranchIfEqual => true
    | _ => false
  | .TestAnyTypeArgs, y => match y with
    | .TestAnyTypeArgs => true
    | _ => false
  | .TestDelayedTypeArgs a0, y => match y with
    | .TestDelayedTypeArgs b0 => decide (a0 = b0)
    | _ => false
  | .LoadArgDescriptor, y => match y with
    | .LoadArgDescriptor => true
    | _ => false
  | .StoreFpRelativeSlot a0, y => match y with
    | .StoreFpRelativeSlot b0 => decide (a0 = b0)
    | _ => false
  | .LoadFpRelativeSlot, y => match y with
    | .LoadFpRelativeSlot => true
    | _ => false
  | .SmiBinaryOp a0, y => match y with
    | .SmiBinaryOp b0 => decide (a0 = b0)
    | _ => false
  | .SmiRelationalOp a0, y => match y with
    | .SmiRelationalOp b0 => decide (a0 = b0)
    | _ => false
  | .MakeTemp, y => match y with
    | .MakeTemp => true
    | _ => false
  | .EntryPointsIntrospection, y => match y with
    | .EntryPointsIntrospection => true
    | _ => false
  | .NativeEntry a0, y => match y with
    | .NativeEntry b0 => decide (a0 = b0)
    | _ => false
  | .NativeParameter a0 a1, y => match y with
    | .NativeParameter b0 b1 => decide (a0 = b0) && decide (a1 = b1)
    | _ => false
  | .BitCast a0 a1, y => match y with
    | .BitCast b0 b1 => decide (a0 = b0) && decide (a1 = b1)
    | _ => false
  | .UnboxedWidthExtender a0 a1, y => match y with
    | .UnboxedWidthExtender b0 b1 => decide (a0 = b0) && decide (a1 = b1)
    | _ => false
  | .NativeReturn a0, y => match y with
    | .NativeReturn b0 => decide (a0 = b0)
    | _ => false
  | .FfiCall, y => match y with
    | .FfiCall => true
    | _ => false
  | .CatchBlockEntry a0 a1 a2, y => match y with
    | .CatchBlockEntry b0 b1 b2 => decide (a0 = b0) && decide (a1 = b1) && decide (a2 = b2)
    | _ => false

instance : DecidableEq Instr := fun x y =>
  if h : Instr.beq x y = true then
    isTrue (by
      revert h
      cases x <;> cases y <;>
        first
        | exact fun h => absurd h Bool.false_ne_true
        | exact fun _ => rfl
        | (intro h
           simp only [Instr.beq, Bool.and_eq_true, decide_eq_true_eq] at h
           simp only [h]))
  else
    isFalse (fun hxy => h (by
      subst hxy
      cases x <;> simp [Instr.beq]))

/-- Modelled from the spec: the `Fragment` class of the base flow-graph
builder (not among the source files).  A fragment is the instructions from its
entry to its cursor, in order; `closed` says the cursor is null although the
entry is not. -/
structure Fragment where
  instrs : List Instr
  closed : Bool
  deriving DecidableEq, Repr

/-- The empty fragment `Fragment()`. -/
def Fragment.empty : Fragment := ⟨[], false⟩

/-- The one-instruction fragment `Fragment(instr)`. -/
def Fragment.single (i : Instr) : Fragment := ⟨[i], false⟩

/-- Modelled from the spec: `Fragment::closed()`, the same entry with a null
cursor. -/
def Fragment.close (f : Fragment) : Fragment := ⟨f.instrs, true⟩

/-- Modelled from the spec: `Fragment::operator+=`.  An empty left operand
becomes the right one; an open left operand followed by a non-empty right one
is linked to it and adopts its cursor; otherwise (left closed, or right
empty) the left operand is unchanged. -/
def Fragment.append (a b : Fragment) : Fragment :=
  if a.instrs = [] then b
  else if !a.closed && !(b.instrs = []) then ⟨a.instrs ++ b.instrs, b.closed⟩
  else a

instance : Append Fragment := ⟨Fragment.append⟩

/-- A type parameter: the parameter as a type, its bound, and its flags. -/
structure TypeParameter where
  type : AbstractType
  bound : AbstractType
  IsGenericCovariantImpl : Bool
  IsFinalized : Bool
  deriving DecidableEq, Repr

/-- The attributes of one function object the builder queries.  `owner` is the
id of the owning class, `owner_type_parameters` the type parameters of that
class, `parameter_types` the declared parameter types, and
`end_token_pos_IsDebugPause` the answer of `end_token_pos().IsDebugPause()`,
`MethodCanSkipTypeChecksForNonCovariantArguments` the answer of the function of
that name for this method and its procedure attributes. -/
structure FunctionAttrs where
  raw : Nat
  name : String
  is_static : Bool
  kind : Nat
  num_fixed_parameters : Nat
  NumParameters : Nat
  NumImplicitParameters : Nat
  NumTypeParameters : Nat
  IsGeneric : Bool
  HasGenericParent : Bool
  IsFactory : Bool
  IsClosureFunction : Bool
  recognized_kind : MethodRecognizer.Kind
  receiver_type_arg : Option FfiTypeArg
  owner : Nat
  HasOptionalParameters : Bool
  HasOptionalNamedParameters : Bool
  NeedsArgumentTypeChecks : Bool
  MethodCanSkipTypeChecksForNonCovariantArguments : Bool
  MayHaveUncheckedEntryPoint : Bool
  PrologueSkippableOnUncheckedEntry : Bool
  IsImplicitGetterFunction : Bool
  IsGetterFunction : Bool
  IsImplicitSetterFunction : Bool
  IsSetterFunction : Bool
  result_type : AbstractType
  is_native : Bool
  is_debuggable : Bool
  IsAsyncClosure : Bool
  IsAsyncGenClosure : Bool
  type_parameters : List TypeParameter
  owner_type_parameters : List TypeParameter
  parameter_types : List AbstractType
  end_token_pos_IsDebugPause : Bool
  deriving DecidableEq, Repr

/-- A type of an FFI signature, seen through the queries of `compiler::ffi`
(which are not among the source files): whether it is a pointer or void, the
representations `TypeRepresentation(type_class_id())` and
`TypeSmallRepresentation(type)`, and for a pointer type its class and type
arguments. -/
structure FfiSignatureType where
  NativeTypeIsPointer : Bool
  NativeTypeIsVoid : Bool
  TypeRepresentation : Representation
  TypeSmallRepresentation : SmallRepresentation
  type_class : ClassRef
  arguments : TypeArguments
  deriving DecidableEq, Repr

/-- The C signature of an FFI trampoline: the types `ParameterTypeAt(i)` (the
first one is the closure), the result type, and what `compiler::ffi` derives
from it: `ArgumentRepresentations`, `ResultRepresentation` and the number of
translated callback argument locations. -/
structure FfiSignature where
  parameter_types : List FfiSignatureType
  result_type : FfiSignatureType
  ArgumentRepresentations : List Representation
  ResultRepresentation : Representation
  callback_locs_length : Nat
  deriving DecidableEq, Repr

/-- A function object: its attributes, the chain of its parent functions,
nearest first (empty when `parent_function()` is null), and for an FFI
trampoline its C signature, callback target, exceptional return value and
callback id (null or zero otherwise). -/
structure Function extends FunctionAttrs where
  parents : List FunctionAttrs
  FfiCSignature : Option FfiSignature := none
  FfiCallbackTarget : Option FunctionAttrs := none
  FfiCallbackExceptionalReturn : ConstValue := .null
  FfiCallbackId : Nat := 0
  deriving DecidableEq, Repr

/-- The accessor `function.parent_function()`; null for a function without
parent. -/
def Function.parent_function (f : Function) : Option Function :=
  match f.parents with
  | [] => none
  | p :: ps => some { toFunctionAttrs := p, parents := ps }

/-- The loop `while (function.IsClosureFunction()) function =
function.parent_function();` over a function and its parent chain; a closure
without parent leaves the null function. -/
def outermostNonClosure : FunctionAttrs → List FunctionAttrs → Option FunctionAttrs
  | f, ps =>
    if f.IsClosureFunction then
      match ps with
      | [] => none
      | p :: rest => outermostNonClosure p rest
    else some f

/-- The parsed function: the variables the builder asks it for. -/
structure ParsedFunction where
  function : Function
  current_context_var : LocalVariable
  has_receiver_var : Bool
  receiver_var : Option LocalVariable
  function_type_arguments : Option LocalVariable
  raw_parameters : List LocalVariable
  parameters : List LocalVariable
  is_forwarding_stub : Bool
  forwarding_stub_super_target : Option FunctionAttrs
  has_arg_desc_var : Bool
  expression_temp_var : LocalVariable
  has_entry_points_temp_var : Bool
  entry_points_temp_var : LocalVariable
  DefaultFunctionTypeArguments : TypeArguments
  deriving DecidableEq, Repr

/-- The result of scope building: scopes by kernel offset, the
type-arguments variable of a factory (null otherwise), and the variables of
the try and catch blocks, indexed by nesting depth. -/
structure ScopeBuildingResult where
  scopes : List (Int × LocalScope)
  type_arguments_variable : Option LocalVariable
  exception_variables : List LocalVariable := []
  stack_trace_variables : List LocalVariable := []
  raw_exception_variables : List LocalVariable := []
  raw_stack_trace_variables : List LocalVariable := []
  catch_context_variables : List LocalVariable := []
  deriving DecidableEq, Repr

/-- The map lookup `scopes_->scopes.Lookup(kernel_offset)`; null when absent. -/
def ScopeBuildingResult.Lookup (r : ScopeBuildingResult) (kernel_offset : Int) :
    Option LocalScope :=
  (r.scopes.find? (fun p => p.1 == kernel_offset)).map (fun p => p.2)

/-- A class of the class table: its id, its functions, and whether it is a
top-level class. -/
structure Class where
  id : Nat
  functions : List FunctionAttrs
  IsTopLevel : Bool
  deriving DecidableEq, Repr

/-- The lookup `owner.LookupFunction(name)`: the function of that name, null
when there is none. -/
def Class.LookupFunction (c : Class) (name : String) : Option FunctionAttrs :=
  c.functions.find? (fun f => f.name == name)

/-- What the builder reads from outside itself: the flags of the isolate and
of the VM, the class table, and the library functions it looks up (each null
when the lookup finds nothing). -/
structure Isolate where
  should_emit_strong_mode_checks : Bool
  HasAttemptedReload : Bool
  FLAG_causal_async_stacks : Bool
  FLAG_eliminate_type_checks : Bool
  classes : List Class
  async_clear_thread_stack_trace : Option FunctionAttrs
  AllocateInvocationMirrorForClosure : Option FunctionAttrs
  ThrowNewInvocation : Option FunctionAttrs
  deriving DecidableEq, Repr

/-- The class a function's `Owner()` names, null when the table has none. -/
def Isolate.classOf (I : Isolate) (id : Nat) : Option Class :=
  I.classes.find? (fun c => c.id == id)

/-- The flow graph returned by a graph builder: the instructions linked into
it, block by block, entry first. -/
structure FlowGraph where
  instrs : List Instr
  deriving DecidableEq, Repr

/-- The active class: its id and number of type arguments. -/
structure ActiveClass where
  klass : Nat
  ClassNumTypeArguments : Nat
  deriving DecidableEq, Repr

/-- Further member variables of the builder: the loop depth and the
optimizing flag, which the functions embedded here only read, and the
bookkeeping of try and catch blocks. -/
structure BuilderFields where
  loop_depth_ : Int
  optimizing_ : Bool
  try_depth_ : Int := 0
  catch_depth_ : Int := 0
  next_used_try_index_ : Int := 0
  deriving DecidableEq, Repr

/-- The state of one `FlowGraphBuilder`: the context depth, the operand-stack
model (the definitions whose values are pending, top first), the count of
pending pushed arguments, the inputs of the build pass, and in `more_` the
other member variables. -/
structure FlowGraphBuilder where
  context_depth_ : Int
  stack_ : List Instr
  pending_argument_count_ : Int
  parsed_function_ : ParsedFunction
  scopes_ : Option ScopeBuildingResult
  active_class_ : ActiveClass
  more_ : BuilderFields
  deriving DecidableEq, Repr

/-- A builder step: from a builder state to a failure, or a result and the
next builder state. -/
def Build (α : Type) : Type := FlowGraphBuilder → Except Failure (α × FlowGraphBuilder)

/-- Sequencing of builder steps. -/
def Build.bind {α β : Type} (m : Build α) (f : α → Build β) : Build β :=
  fun b => match m b with
    | .ok (a, b1) => f a b1
    | .error e => .error e

instance : Monad Build where
  pure a := fun b => .ok (a, b)
  bind := Build.bind

/-- A failed step. -/
def Build.fail {α : Type} (e : Failure) : Build α := fun _ => .error e

/-- The debug-mode `ASSERT(cond)`. -/
def ASSERT (cond : Bool) : Build Unit :=
  fun b => if cond then .ok ((), b) else .error .assertion

/-- Reads the builder state. -/
def getBuilder : Build FlowGraphBuilder := fun b => .ok (b, b)

/-- Replaces the builder state. -/
def setBuilder (b1 : FlowGraphBuilder) : Build Unit := fun _ => .ok ((), b1)

/-! ## Base builder operations -/

/-- Modelled from the spec: `BaseFlowGraphBuilder::Push`, a produced value
becomes the most recent pending value. -/
def Push (d : Instr) : Build Unit :=
  fun b => .ok ((), { b with stack_ := d :: b.stack_ })

/-- Modelled from the spec: `BaseFlowGraphBuilder::Pop`, consumes the most
recent pending value; asserts that there is one. -/
def Pop : Build Instr :=
  fun b => match b.stack_ with
    | d :: rest => .ok (d, { b with stack_ := rest })
    | [] => .error .assertion

/-- Pops `n` pending values, one `Pop` at a time. -/
def popN : Nat → Build Unit
  | 0 => pure ()
  | n + 1 => do
    let _ ← Pop
    popN n

/-- An instruction that pops `n` inputs and pushes its own value. -/
def emitDefinition (n : Nat) (i : Instr) : Build Fragment := do
  popN n
  Push i
  pure (Fragment.single i)

/-- An instruction that pops `n` inputs and produces no value. -/
def emitEffect (n : Nat) (i : Instr) : Build Fragment := do
  popN n
  pure (Fragment.single i)

/-- Modelled from the spec: `BaseFlowGraphBuilder::Drop` (not among the source
files), drops the top pending value. -/
def Drop : Build Fragment := emitEffect 1 .Drop

/-- Modelled from the spec: `BaseFlowGraphBuilder::Constant`, pushes a
constant. -/
def Constant (c : ConstValue) : Build Fragment := emitDefinition 0 (.Constant c)

/-- The null constant, `Constant(Instance::ZoneHandle())`. -/
def NullConstant : Build Fragment := Constant .null

/-- The integer constant `IntConstant(n)`. -/
def IntConstant (n : Int) : Build Fragment := Constant (.int n)

/-- Modelled from the spec: `BaseFlowGraphBuilder::LoadLocal`, the direct load
of a variable from the current frame. -/
def BaseLoadLocal (v : LocalVariable) : Build Fragment := emitDefinition 0 (.LoadLocal v)

/-- Modelled from the spec: `BaseFlowGraphBuilder::StoreLocal`, stores the top
value into the variable and leaves the stored value pending. -/
def StoreLocal (v : LocalVariable) : Build Fragment := emitDefinition 1 (.StoreLocal v)

/-- Modelled from the spec: `BaseFlowGraphBuilder::LoadNativeField`, replaces
the top value by the content of one of its slots. -/
def LoadNativeField (slot : Slot) : Build Fragment := emitDefinition 1 (.LoadNativeField slot)

/-- Modelled from the spec: `BaseFlowGraphBuilder::StoreInstanceField`,
consumes the value and the instance. -/
def StoreInstanceField (slot : Slot) : Build Fragment := emitEffect 2 (.StoreInstanceField slot)

/-- Modelled from the spec: `BaseFlowGraphBuilder::AllocateContext`, pushes a
new context with the given slots. -/
def AllocateContext (slots : List Nat) : Build Fragment :=
  emitDefinition 0 (.AllocateContext slots)

/-- Modelled from the spec: `BaseFlowGraphBuilder::MakeTemporary`, a variable
naming the top pending value; it changes neither stack nor graph. -/
def MakeTemporary : Build LocalVariable :=
  fun b => match b.stack_ with
    | _ :: _ => .ok (LocalVariable.frame (-(b.stack_.length : Int)), b)
    | [] => .error .nullDeref

/-- The parent hops of `LoadContextAt`: one `LoadNativeField(Context_parent)`
per level. -/
def loadParents : Nat → Fragment → Build Fragment
  | 0, acc => pure acc
  | n + 1, acc => do
    let f ← LoadNativeField .Context_parent
    loadParents n (acc ++ f)

/-- Modelled from the spec: `BaseFlowGraphBuilder::LoadContextAt`, loads the
current context and walks up `context_depth_ - depth` parent links. -/
def LoadContextAt (depth : Int) : Build Fragment := do
  let b ← getBuilder
  let delta := b.context_depth_ - depth
  ASSERT (decide (delta ≥ 0))
  let instructions ← BaseLoadLocal b.parsed_function_.current_context_var
  loadParents delta.toNat instructions

/-! ## `FlowGraphBuilder` (kernel_to_il.cc) -/

/-- `FlowGraphBuilder::LoadLocal`. -/
def LoadLocal (v : LocalVariable) : Build Fragment := do
  if v.is_captured then
    let mut instructions := Fragment.empty
    match v.owner with
    | none => Build.fail .nullDeref
    | some owner =>
      instructions := instructions ++ (← LoadContextAt owner.context_level)
      instructions := instructions ++ (← LoadNativeField (.ContextVariable v))
      return instructions
  else
    BaseLoadLocal v

/-- `FlowGraphBuilder::AdjustContextTo`. -/
def AdjustContextTo (depth : Int) : Build Fragment := do
  let b ← getBuilder
  ASSERT (decide (depth ≤ b.context_depth_) && decide (depth ≥ 0))
  let mut instructions := Fragment.empty
  if depth < b.context_depth_ then
    instructions := instructions ++ (← LoadContextAt depth)
    instructions := instructions ++ (← StoreLocal b.parsed_function_.current_context_var)
    instructions := instructions ++ (← Drop)
    let b1 ← getBuilder
    setBuilder { b1 with context_depth_ := depth }
  return instructions

/-- `FlowGraphBuilder::PushContext`. -/
def PushContext (scope : LocalScope) : Build Fragment := do
  ASSERT (decide (scope.num_context_variables > 0))
  let mut instructions ← AllocateContext scope.context_slots
  let context ← MakeTemporary
  let b ← getBuilder
  instructions := instructions ++ (← LoadLocal context)
  instructions := instructions ++ (← LoadLocal b.parsed_function_.current_context_var)
  instructions := instructions ++ (← StoreInstanceField .Context_parent)
  instructions := instructions ++ (← StoreLocal b.parsed_function_.current_context_var)
  let b1 ← getBuilder
  setBuilder { b1 with context_depth_ := b1.context_depth_ + 1 }
  return instructions

/-- `FlowGraphBuilder::PopContext`. -/
def PopContext : Build Fragment := do
  let b ← getBuilder
  AdjustContextTo (b.context_depth_ - 1)

/-- The lookup `scopes_->scopes.Lookup(kernel_offset)` followed by the use of
its result; a null `scopes_` or a null result cannot be used. -/
def lookupScope (kernel_offset : Int) : Build LocalScope :=
  fun b => match b.scopes_ with
    | none => .error .nullDeref
    | some r => match r.Lookup kernel_offset with
      | none => .error .nullDeref
      | some scope => .ok (scope, b)

/-- `FlowGraphBuilder::EnterScope`; the second component is the scope handed
back through `context_scope`. -/
def EnterScope (kernel_offset : Int) : Build (Fragment × LocalScope) := do
  let mut instructions := Fragment.empty
  let scope ← lookupScope kernel_offset
  if scope.num_context_variables > 0 then
    instructions := instructions ++ (← PushContext scope)
    instructions := instructions ++ (← Drop)
  return (instructions, scope)

/-- `FlowGraphBuilder::ExitScope`. -/
def ExitScope (kernel_offset : Int) : Build Fragment := do
  let mut instructions := Fragment.empty
  let context_size := (← lookupScope kernel_offset).num_context_variables
  if context_size > 0 then
    instructions := instructions ++ (← PopContext)
  return instructions

/-- The instructions of a load of the context at `depth` when the current
depth is `cur`: the current-context variable, then one parent load per level. -/
def contextLoadInstrs (ctx : LocalVariable) (cur depth : Int) : List Instr :=
  .LoadLocal ctx :: List.replicate (cur - depth).toNat (.LoadNativeField .Context_parent)

/-- A properly paired sequence of scope entries and exits: nothing, or
`EnterScope(o)`, a paired sequence, `ExitScope(o)`, and a paired sequence. -/
inductive ScopeNesting
  | done
  | scope (kernel_offset : Int) (inner rest : ScopeNesting)
  deriving Repr

/-- The kernel offsets a paired sequence enters. -/
def ScopeNesting.offsets : ScopeNesting → List Int
  | .done => []
  | .scope o inner rest => o :: (inner.offsets ++ rest.offsets)

/-- Runs the `EnterScope` and `ExitScope` calls of a paired sequence in order. -/
def ScopeNesting.run : ScopeNesting → Build Unit
  | .done => pure ()
  | .scope o inner rest => do
    let _ ← EnterScope o
    inner.run
    let _ ← ExitScope o
    rest.run

/-- The depth after entering a scope: one more when the scope owns a context
variable. -/
def depthInside (scope : LocalScope) (d : Int) : Int :=
  if scope.num_context_variables > 0 then d + 1 else d

/-- The instructions `EnterScope` emits for a scope with context variables,
from a builder with `n` pending values: allocate the context, link it to the
current context as its parent, make it the current context, drop it. -/
def enterScopeInstrs (scope : LocalScope) (ctx : LocalVariable) (n : Nat) : List Instr :=
  [.AllocateContext scope.context_slots, .LoadLocal (LocalVariable.frame (-((n : Int) + 1))),
    .LoadLocal ctx, .StoreInstanceField .Context_parent, .StoreLocal ctx, .Drop]

/-- A sample scope table: offset 5 owns one context variable, offset 9 none. -/
def witnessScopes : ScopeBuildingResult :=
  { scopes := [(5, ⟨1, 3, [7]⟩), (9, ⟨0, 2, []⟩)], type_arguments_variable := none }

/-- A function object with every count zero, every flag off and no parent. -/
def plainFunction : Function :=
  { raw := 0, name := "", is_static := false, kind := 0, num_fixed_parameters := 0
    NumParameters := 0, NumImplicitParameters := 0, NumTypeParameters := 0, IsGeneric := false
    HasGenericParent := false, IsFactory := false, IsClosureFunction := false
    recognized_kind := .kOther, receiver_type_arg := none, owner := 0
    HasOptionalParameters := false, HasOptionalNamedParameters := false
    NeedsArgumentTypeChecks := false, MethodCanSkipTypeChecksForNonCovariantArguments := false
    MayHaveUncheckedEntryPoint := false
    PrologueSkippableOnUncheckedEntry := false, IsImplicitGetterFunction := false
    IsGetterFunction := false, IsImplicitSetterFunction := false, IsSetterFunction := false
    result_type := dynamicType, is_native := false, is_debuggable := false
    IsAsyncClosure := false, IsAsyncGenClosure := false, type_parameters := []
    owner_type_parameters := [], parameter_types := [], end_token_pos_IsDebugPause := false
    parents := [] }

/-- A parsed function with a frame variable 0 as current-context variable and
no other variable. -/
def plainParsedFunction : ParsedFunction :=
  { function := plainFunction, current_context_var := LocalVariable.frame 0
    has_receiver_var := false, receiver_var := none, function_type_arguments := none
    raw_parameters := [], parameters := [], is_forwarding_stub := false
    forwarding_stub_super_target := none, has_arg_desc_var := false
    expression_temp_var := LocalVariable.frame 100, has_entry_points_temp_var := false
    entry_points_temp_var := LocalVariable.frame 101
    DefaultFunctionTypeArguments := ⟨0, true, true, true, true, false, false⟩ }

/-- A sample function. -/
def witnessFunction : Function :=
  { plainFunction with raw := 1, name := "f", num_fixed_parameters := 2, NumParameters := 2 }

/-- A sample builder at context depth 2 with one pending value. -/
def witnessBuilder : FlowGraphBuilder :=
  { context_depth_ := 2
    stack_ := [.Constant .null]
    pending_argument_count_ := 0
    parsed_function_ := { plainParsedFunction with function := witnessFunction }
    scopes_ := some witnessScopes
    active_class_ := ⟨0, 0⟩
    more_ := { loop_depth_ := 0, optimizing_ := false } }

/-- Modelled from the spec: `BaseFlowGraphBuilder::InstantiateTypeArguments`,
consumes the function and the instantiator type arguments and pushes the
instantiated vector. -/
def InstantiateTypeArguments (t : TypeArguments) : Build Fragment :=
  emitDefinition 2 (.InstantiateTypeArguments t)

/-- `FlowGraphBuilder::LoadInstantiatorTypeArguments`, the debug-mode check of
the first branch included. -/
def LoadInstantiatorTypeArguments : Build Fragment := do
  let b ← getBuilder
  let mut instructions := Fragment.empty
  match b.scopes_.bind (fun r => r.type_arguments_variable) with
  | some type_arguments_variable =>
    match outermostNonClosure b.parsed_function_.function.toFunctionAttrs
        b.parsed_function_.function.parents with
    | none => Build.fail .nullDeref
    | some function =>
      ASSERT function.IsFactory
      instructions := instructions ++ (← LoadLocal type_arguments_variable)
      return instructions
  | none =>
    if b.parsed_function_.has_receiver_var && decide (b.active_class_.ClassNumTypeArguments > 0) then
      ASSERT (!b.parsed_function_.function.IsFactory)
      match b.parsed_function_.receiver_var with
      | none => Build.fail .nullDeref
      | some receiver_var =>
        instructions := instructions ++ (← LoadLocal receiver_var)
        instructions := instructions ++ (← LoadNativeField (.TypeArguments (.cls b.active_class_.klass)))
        return instructions
    else
      instructions := instructions ++ (← NullConstant)
      return instructions

/-- `FlowGraphBuilder::LoadFunctionTypeArguments`. -/
def LoadFunctionTypeArguments : Build Fragment := do
  let b ← getBuilder
  let mut instructions := Fragment.empty
  let function := b.parsed_function_.function
  if function.IsGeneric || function.HasGenericParent then
    ASSERT b.parsed_function_.function_type_arguments.isSome
    match b.parsed_function_.function_type_arguments with
    | none => Build.fail .nullDeref
    | some v => instructions := instructions ++ (← LoadLocal v)
  else
    instructions := instructions ++ (← NullConstant)
  return instructions

/-- `FlowGraphBuilder::TranslateInstantiatedTypeArguments`. -/
def TranslateInstantiatedTypeArguments (type_arguments : TypeArguments) : Build Fragment := do
  let mut instructions := Fragment.empty
  if type_arguments.IsNull || type_arguments.IsInstantiated .kAny then
    instructions := instructions ++ (← Constant (.typeArguments type_arguments))
  else
    if type_arguments.CanShareInstantiatorTypeArguments then
      instructions := instructions ++ (← LoadInstantiatorTypeArguments)
    else if type_arguments.CanShareFunctionTypeArguments then
      instructions := instructions ++ (← LoadFunctionTypeArguments)
    else
      if !type_arguments.IsInstantiated .kCurrentClass then
        instructions := instructions ++ (← LoadInstantiatorTypeArguments)
      else
        instructions := instructions ++ (← NullConstant)
      if !type_arguments.IsInstantiated .kFunctions then
        instructions := instructions ++ (← LoadFunctionTypeArguments)
      else
        instructions := instructions ++ (← NullConstant)
      instructions := instructions ++ (← InstantiateTypeArguments type_arguments)
  return instructions

/-- Whether an instruction is an `InstantiateTypeArguments`. -/
def Instr.isInstantiateTypeArguments : Instr → Bool
  | .InstantiateTypeArguments _ => true
  | _ => false

/-- A builder step that, whenever it succeeds, pushes exactly one value,
changes nothing else, and returns an open, non-empty fragment without any
`InstantiateTypeArguments`. -/
def PushesOne (m : Build Fragment) : Prop :=
  ∀ b f b1, m b = .ok (f, b1) →
    (∃ top, b1 = { b with stack_ := top :: b.stack_ }) ∧ f.instrs ≠ [] ∧ f.closed = false ∧
      ∀ i ∈ f.instrs, i.isInstantiateTypeArguments = false

/-- Whether `LoadLocal` of the variable succeeds at the builder's depth: the
variable is on the frame, or it is captured in a scope whose context level is
not above the current depth. -/
def canLoad (b : FlowGraphBuilder) (v : LocalVariable) : Bool :=
  !v.is_captured ||
    match v.owner with
    | some owner => decide (owner.context_level ≤ b.context_depth_)
    | none => false

/-- Whether the inputs of the two type-argument loads are consistent: the
assertions of `LoadInstantiatorTypeArguments` and `LoadFunctionTypeArguments`
hold and the variables they load can be loaded. -/
def typeArgumentLoadsOk (b : FlowGraphBuilder) : Bool :=
  (match b.scopes_.bind (fun r => r.type_arguments_variable) with
    | some v =>
      (match outermostNonClosure b.parsed_function_.function.toFunctionAttrs
          b.parsed_function_.function.parents with
        | some f => f.IsFactory
        | none => false) && canLoad b v
    | none =>
      !(b.parsed_function_.has_receiver_var && decide (b.active_class_.ClassNumTypeArguments > 0))
      || (!b.parsed_function_.function.IsFactory &&
        (match b.parsed_function_.receiver_var with
          | some v => canLoad b v
          | none => false))) &&
  (!(b.parsed_function_.function.IsGeneric || b.parsed_function_.function.HasGenericParent) ||
    match b.parsed_function_.function_type_arguments with
    | some v => canLoad b v
    | none => false)

/-- The first operand of strategy 4: the instantiator type arguments when the
vector refers to class type parameters, a null constant otherwise. -/
def instantiatorOperand (t : TypeArguments) : Build Fragment :=
  if !t.IsInstantiated .kCurrentClass then LoadInstantiatorTypeArguments else NullConstant

/-- The second operand of strategy 4: the function type arguments when the
vector refers to function type parameters, a null constant otherwise. -/
def functionOperand (t : TypeArguments) : Build Fragment :=
  if !t.IsInstantiated .kFunctions then LoadFunctionTypeArguments else NullConstant

/-- The number of `InstantiateTypeArguments` instructions of a fragment. -/
def Fragment.instantiations (f : Fragment) : Nat :=
  f.instrs.countP Instr.isInstantiateTypeArguments

/-- A sample parametric vector that shares nothing. -/
def witnessTypeArguments : TypeArguments := ⟨1, false, false, false, true, false, false⟩

/-- A sample builder inside an instance method of a generic class: a receiver
variable, and a class with one type argument. -/
def witnessGenericBuilder : FlowGraphBuilder :=
  { context_depth_ := 1
    stack_ := []
    pending_argument_count_ := 0
    parsed_function_ :=
      { plainParsedFunction with
        function := witnessFunction, has_receiver_var := true
        receiver_var := some (LocalVariable.frame 1) }
    scopes_ := some witnessScopes
    active_class_ := ⟨3, 1⟩
    more_ := { loop_depth_ := 0, optimizing_ := false } }

/-- A sample parametric vector that is the class's own vector and could also
share the function type arguments. -/
def witnessSharedTypeArguments : TypeArguments := ⟨2, false, false, false, true, true, true⟩

/-- A sample captured variable, owned by a scope at context level 1. -/
def witnessCapturedVariable : LocalVariable := LocalVariable.captured 4 ⟨1, 1, [7]⟩

/-! ### Recognized FFI loads and stores -/

/-- `FlowGraphBuilder::UnboxTruncate`. -/
def UnboxTruncate (rep : Representation) : Build Fragment := emitDefinition 1 (.Unbox rep)

/-- `FlowGraphBuilder::Box`. -/
def Box (rep : Representation) : Build Fragment := emitDefinition 1 (.Box rep)

/-- Modelled from the spec: `BaseFlowGraphBuilder::CheckNullOptimized` (not
among the source files), the null check of the top value; the checked value
stays pending. -/
def CheckNullOptimized : Build Fragment := emitDefinition 1 .CheckNull

/-- Modelled from the spec: `BaseFlowGraphBuilder::BinaryIntegerOp`, consumes
two unboxed operands and pushes the result. -/
def BinaryIntegerOp (op : TokenKind) (rep : Representation) (truncate : Bool) : Build Fragment :=
  emitDefinition 2 (.BinaryIntegerOp op rep truncate)

/-- Modelled from the spec: `BaseFlowGraphBuilder::ConvertIntptrToUntagged`. -/
def ConvertIntptrToUntagged : Build Fragment := emitDefinition 1 .ConvertIntptrToUntagged

/-- Modelled from the spec: `BaseFlowGraphBuilder::LoadIndexedTypedData`,
consumes the index and the base and pushes the element read. -/
def LoadIndexedTypedData (cid : FfiTypeCid) : Build Fragment :=
  emitDefinition 2 (.LoadIndexedTypedData cid)

/-- Modelled from the spec: `BaseFlowGraphBuilder::StoreIndexedTypedData`,
consumes the value, the index and the base. -/
def StoreIndexedTypedData (cid : FfiTypeCid) : Build Fragment :=
  emitEffect 3 (.StoreIndexedTypedData cid)

/-- Modelled from the spec: `BaseFlowGraphBuilder::FloatToDouble`. -/
def FloatToDouble : Build Fragment := emitDefinition 1 .FloatToDouble

/-- Modelled from the spec: `BaseFlowGraphBuilder::DoubleToFloat`. -/
def DoubleToFloat : Build Fragment := emitDefinition 1 .DoubleToFloat

/-- Modelled from the spec: `BaseFlowGraphBuilder::AssertAssignable`, consumes
the function type arguments, the instantiator type arguments and the value,
and pushes the checked value. -/
def AssertAssignable (dst_type : AbstractType) : Build Fragment :=
  emitDefinition 3 (.AssertAssignable dst_type)

/-- Modelled from the spec: `BaseFlowGraphBuilder::PushArgument`, the top value
becomes a pushed argument, which stays pending until a call collects it. -/
def PushArgument : Build Fragment := do
  let _ ← Pop
  Push .PushArgument
  let b ← getBuilder
  setBuilder { b with pending_argument_count_ := b.pending_argument_count_ + 1 }
  pure (Fragment.single .PushArgument)

/-- The loop of `GetArguments`: each of the `count` top values must be a
pushed argument and is dropped. -/
def collectArguments : Nat → Build Unit
  | 0 => pure ()
  | n + 1 => do
    let d ← Pop
    ASSERT (decide (d = .PushArgument))
    collectArguments n

/-- Modelled from the spec: `BaseFlowGraphBuilder::GetArguments`, collects the
top `count` pushed arguments of a call. -/
def GetArguments (count : Nat) : Build Unit := do
  collectArguments count
  let b ← getBuilder
  setBuilder { b with pending_argument_count_ := b.pending_argument_count_ - count }
  ASSERT (decide (b.pending_argument_count_ - count ≥ 0))

/-- Modelled from the spec: `BaseFlowGraphBuilder::AllocateObject`, collects
its pushed arguments and pushes the new object. -/
def AllocateObject (klass : ClassRef) (argument_count : Nat) : Build Fragment := do
  GetArguments argument_count
  Push (.AllocateObject klass argument_count)
  pure (Fragment.single (.AllocateObject klass argument_count))

/-- Modelled from the spec: `BaseFlowGraphBuilder::DropTempsPreserveTop`, drops
`num_temps` values below the top one and keeps the top one. -/
def DropTempsPreserveTop (num_temps : Nat) : Build Fragment := do
  let _ ← Pop
  popN num_temps
  Push (.DropTempsPreserveTop num_temps)
  pure (Fragment.single (.DropTempsPreserveTop num_temps))

/-- The accessor `parsed_function_->RawParameterVariable(i)`. -/
def RawParameterVariable (i : Nat) : Build LocalVariable :=
  fun b => match b.parsed_function_.raw_parameters.get? i with
    | some v => .ok (v, b)
    | none => .error .assertion

/-- Modelled from the spec: `compiler::ffi::RecognizedMethodTypeArgCid` (not
among the source files), the element type a recognized FFI load or store is
named after; unreachable for any other kind. -/
def RecognizedMethodTypeArgCid : MethodRecognizer.Kind → Option FfiTypeCid
  | .kFfiLoadInt8 | .kFfiStoreInt8 => some .kFfiInt8Cid
  | .kFfiLoadInt16 | .kFfiStoreInt16 => some .kFfiInt16Cid
  | .kFfiLoadInt32 | .kFfiStoreInt32 => some .kFfiInt32Cid
  | .kFfiLoadInt64 | .kFfiStoreInt64 => some .kFfiInt64Cid
  | .kFfiLoadUint8 | .kFfiStoreUint8 => some .kFfiUint8Cid
  | .kFfiLoadUint16 | .kFfiStoreUint16 => some .kFfiUint16Cid
  | .kFfiLoadUint32 | .kFfiStoreUint32 => some .kFfiUint32Cid
  | .kFfiLoadUint64 | .kFfiStoreUint64 => some .kFfiUint64Cid
  | .kFfiLoadIntPtr | .kFfiStoreIntPtr => some .kFfiIntPtrCid
  | .kFfiLoadFloat | .kFfiStoreFloat => some .kFfiFloatCid
  | .kFfiLoadDouble | .kFfiStoreDouble => some .kFfiDoubleCid
  | .kFfiLoadPointer | .kFfiStorePointer => some .kFfiPointerCid
  | _ => none

/-- Modelled from the spec: `compiler::ffi::ElementSizeInBytes` (not among the
source files), the size of one element: 1, 2, 4, 8 bytes for the 8, 16, 32,
64-bit integers, 4 for float, 8 for double, and the word size of the target
for pointer-width integers and pointers. -/
def ElementSizeInBytes (word_size : Int) : FfiTypeCid → Int
  | .kFfiInt8Cid | .kFfiUint8Cid => 1
  | .kFfiInt16Cid | .kFfiUint16Cid => 2
  | .kFfiInt32Cid | .kFfiUint32Cid | .kFfiFloatCid => 4
  | .kFfiInt64Cid | .kFfiUint64Cid | .kFfiDoubleCid => 8
  | .kFfiIntPtrCid | .kFfiPointerCid => word_size

/-- The type parameter of the `Pointer` class,
`pointer_class.type_parameters().TypeAt(0)`: a class type parameter. -/
def pointer_type_arg : AbstractType :=
  { id := 0, IsDynamicType := false, IsObjectType := false, IsVoidType := false
    IsTopType := false, instantiatedCurrentClass := false, instantiatedFunctions := true }

/-- The constant `Pointer::kNativeTypeArgPos`, the position of the native type
among the type arguments of a `Pointer`. -/
def kNativeTypeArgPos : Nat := 0

/-- The block of the case labels `kFfiLoadInt8` ... `kFfiLoadPointer` in the
switch of `FlowGraphBuilder::BuildGraphOfRecognizedMethod`; `word_size` is
`compiler::target::kWordSize`. -/
def FfiLoadCase (word_size : Int) (function : Function) (kind : MethodRecognizer.Kind) :
    Build Fragment := do
  let mut body := Fragment.empty
  match RecognizedMethodTypeArgCid kind with
  | none => Build.fail .assertion
  | some ffi_type_arg_cid =>
    let typed_data_cid := ffi_type_arg_cid
    let representation := Representation.ofType ffi_type_arg_cid
    match function.receiver_type_arg with
    | none => Build.fail .nullDeref
    | some type_arg =>
      ASSERT (decide (ffi_type_arg_cid = type_arg.type_class_id))
      ASSERT (decide (function.NumParameters = 2))
      body := body ++ (← LoadLocal (← RawParameterVariable 0))
      body := body ++ (← CheckNullOptimized)
      body := body ++ (← LoadNativeField .Pointer_c_memory_address)
      body := body ++ (← UnboxTruncate .kUnboxedFfiIntPtr)
      body := body ++ (← LoadLocal (← RawParameterVariable 1))
      body := body ++ (← CheckNullOptimized)
      body := body ++ (← UnboxTruncate .kUnboxedFfiIntPtr)
      body := body ++ (← IntConstant (ElementSizeInBytes word_size ffi_type_arg_cid))
      body := body ++ (← UnboxTruncate .kUnboxedIntPtr)
      body := body ++ (← BinaryIntegerOp .kMUL .kUnboxedFfiIntPtr true)
      body := body ++ (← BinaryIntegerOp .kADD .kUnboxedFfiIntPtr true)
      body := body ++ (← ConvertIntptrToUntagged)
      body := body ++ (← IntConstant 0)
      body := body ++ (← LoadIndexedTypedData typed_data_cid)
      if kind = .kFfiLoadFloat ∨ kind = .kFfiLoadDouble then
        if kind = .kFfiLoadFloat then
          body := body ++ (← FloatToDouble)
        body := body ++ (← Box .kUnboxedDouble)
      else
        body := body ++ (← Box representation)
        if kind = .kFfiLoadPointer then
          ASSERT (decide (function.NumTypeParameters = 1))
          let address ← MakeTemporary
          body := body ++ (← LoadLocal (← RawParameterVariable 0))
          body := body ++ (← LoadNativeField (.TypeArguments .pointer_class))
          body := body ++ (← LoadNativeField (.TypeArgumentsIndex kNativeTypeArgPos))
          body := body ++ (← LoadNativeField .Type_arguments)
          body := body ++ (← PushArgument)
          body := body ++ (← AllocateObject .pointer_class 1)
          let pointer ← MakeTemporary
          body := body ++ (← LoadLocal pointer)
          body := body ++ (← LoadLocal address)
          body := body ++ (← StoreInstanceField .Pointer_c_memory_address)
          body := body ++ (← DropTempsPreserveTop 1)
      return body

/-- The block of the case labels `kFfiStoreInt8` ... `kFfiStorePointer` in the
switch of `FlowGraphBuilder::BuildGraphOfRecognizedMethod`. -/
def FfiStoreCase (word_size : Int) (function : Function) (kind : MethodRecognizer.Kind) :
    Build Fragment := do
  let mut body := Fragment.empty
  match RecognizedMethodTypeArgCid kind with
  | none => Build.fail .assertion
  | some ffi_type_arg_cid =>
    let typed_data_cid := ffi_type_arg_cid
    let representation := Representation.ofType ffi_type_arg_cid
    match function.receiver_type_arg with
    | none => Build.fail .nullDeref
    | some type_arg =>
      ASSERT (decide (ffi_type_arg_cid = type_arg.type_class_id))
      let arg_pointer ← RawParameterVariable 0
      let arg_index ← RawParameterVariable 1
      let arg_value ← RawParameterVariable 2
      if kind = .kFfiStorePointer then
        ASSERT (!type_arg.instantiatedFunctions)
        ASSERT type_arg.instantiatedCurrentClass
        body := body ++ (← LoadLocal arg_value)
        body := body ++ (← LoadLocal arg_pointer)
        body := body ++ (← CheckNullOptimized)
        body := body ++ (← LoadNativeField (.TypeArguments .pointer_class))
        body := body ++ (← NullConstant)
        body := body ++ (← AssertAssignable pointer_type_arg)
        body := body ++ (← Drop)
      ASSERT (decide (function.NumParameters = 3))
      body := body ++ (← LoadLocal arg_pointer)
      body := body ++ (← CheckNullOptimized)
      body := body ++ (← LoadNativeField .Pointer_c_memory_address)
      body := body ++ (← UnboxTruncate .kUnboxedFfiIntPtr)
      body := body ++ (← LoadLocal arg_index)
      body := body ++ (← CheckNullOptimized)
      body := body ++ (← UnboxTruncate .kUnboxedFfiIntPtr)
      body := body ++ (← IntConstant (ElementSizeInBytes word_size ffi_type_arg_cid))
      body := body ++ (← UnboxTruncate .kUnboxedFfiIntPtr)
      body := body ++ (← BinaryIntegerOp .kMUL .kUnboxedFfiIntPtr true)
      body := body ++ (← BinaryIntegerOp .kADD .kUnboxedFfiIntPtr true)
      body := body ++ (← ConvertIntptrToUntagged)
      body := body ++ (← IntConstant 0)
      body := body ++ (← LoadLocal arg_value)
      body := body ++ (← CheckNullOptimized)
      if kind = .kFfiStorePointer then
        body := body ++ (← LoadNativeField .Pointer_c_memory_address)
      else if kind = .kFfiStoreFloat ∨ kind = .kFfiStoreDouble then
        body := body ++ (← UnboxTruncate .kUnboxedDouble)
        if kind = .kFfiStoreFloat then
          body := body ++ (← DoubleToFloat)
      else
        body := body ++ (← UnboxTruncate representation)
      body := body ++ (← StoreIndexedTypedData typed_data_cid)
      body := body ++ (← NullConstant)
      return body

/-- A sample FFI load or store function of the given kind on element type
`cid`, with `n` parameters. -/
def witnessFfiFunction (kind : MethodRecognizer.Kind) (cid : FfiTypeCid) (n : Nat) : Function :=
  { plainFunction with
    raw := 2, name := "ffi", NumParameters := n, num_fixed_parameters := n, is_static := true
    NumTypeParameters := 1, recognized_kind := kind
    receiver_type_arg := some ⟨cid, true, false⟩ }

/-- A sample builder for a recognized FFI method: three frame parameters. -/
def witnessFfiBuilder (kind : MethodRecognizer.Kind) (cid : FfiTypeCid) (n : Nat) :
    FlowGraphBuilder :=
  { context_depth_ := 0
    stack_ := []
    pending_argument_count_ := 0
    parsed_function_ :=
      { plainParsedFunction with
        function := witnessFfiFunction kind cid n
        raw_parameters := [LocalVariable.frame 1, LocalVariable.frame 2, LocalVariable.frame 3] }
    scopes_ := none
    active_class_ := ⟨0, 0⟩
    more_ := { loop_depth_ := 0, optimizing_ := false } }

/-- The case labels of the FFI loads. -/
def isFfiLoad : MethodRecognizer.Kind → Bool
  | .kFfiLoadInt8 | .kFfiLoadInt16 | .kFfiLoadInt32 | .kFfiLoadInt64 | .kFfiLoadUint8
  | .kFfiLoadUint16 | .kFfiLoadUint32 | .kFfiLoadUint64 | .kFfiLoadIntPtr | .kFfiLoadFloat
  | .kFfiLoadDouble | .kFfiLoadPointer => true
  | _ => false

/-- The case labels of the FFI stores. -/
def isFfiStore : MethodRecognizer.Kind → Bool
  | .kFfiStoreInt8 | .kFfiStoreInt16 | .kFfiStoreInt32 | .kFfiStoreInt64 | .kFfiStoreUint8
  | .kFfiStoreUint16 | .kFfiStoreUint32 | .kFfiStoreUint64 | .kFfiStoreIntPtr | .kFfiStoreFloat
  | .kFfiStoreDouble | .kFfiStorePointer => true
  | _ => false

/-- The address computation of an FFI load or store: pointer address and index
unboxed, the element size unboxed to `size_rep`, truncating multiply, truncating
add, conversion to an untagged address. -/
def ffiAddressInstrs (pointer index : LocalVariable) (size : Int) (size_rep : Representation) :
    List Instr :=
  [.LoadLocal pointer, .CheckNull, .LoadNativeField .Pointer_c_memory_address,
    .Unbox .kUnboxedFfiIntPtr, .LoadLocal index, .CheckNull, .Unbox .kUnboxedFfiIntPtr,
    .Constant (.int size), .Unbox size_rep,
    .BinaryIntegerOp .kMUL .kUnboxedFfiIntPtr true, .BinaryIntegerOp .kADD .kUnboxedFfiIntPtr true,
    .ConvertIntptrToUntagged]

/-- The instructions after the typed-data load of an FFI load: the boxing of
the element, and for a pointer the allocation of the `Pointer` result; `n` is
the number of values pending before the load case. -/
def ffiLoadTail (kind : MethodRecognizer.Kind) (cid : FfiTypeCid) (pointer : LocalVariable)
    (n : Nat) : List Instr :=
  if kind = .kFfiLoadFloat then [.FloatToDouble, .Box .kUnboxedDouble]
  else if kind = .kFfiLoadDouble then [.Box .kUnboxedDouble]
  else if kind = .kFfiLoadPointer then
    [.Box (.ofType cid), .LoadLocal pointer, .LoadNativeField (.TypeArguments .pointer_class),
      .LoadNativeField (.TypeArgumentsIndex kNativeTypeArgPos), .LoadNativeField .Type_arguments,
      .PushArgument, .AllocateObject .pointer_class 1,
      .LoadLocal (LocalVariable.frame (-((n : Int) + 2))),
      .LoadLocal (LocalVariable.frame (-((n : Int) + 1))),
      .StoreInstanceField .Pointer_c_memory_address, .DropTempsPreserveTop 1]
  else [.Box (.ofType cid)]

/-- Run-time values of the instructions of an FFI address computation.
Unboxed integers are kept as the residue of their bit pattern. -/
inductive Value
  | null
  | pointer (address : Int)
  | integer (n : Int)
  | unboxed (bits : Int)
  | untagged (address : Int)
  | loaded (cid : FfiTypeCid) (base index : Int)
  deriving DecidableEq, Repr

/-- Modelled from the spec: the width in bits of the two pointer-width unboxed
representations, `w` on a target with `w`-bit pointers. -/
def Representation.bits (w : Nat) : Representation → Option Nat
  | .kUnboxedIntPtr => some w
  | .kUnboxedFfiIntPtr => some w
  | _ => none

/-- Modelled from the spec: what one instruction of an FFI address computation
does to the values (top first), on a target with `w`-bit pointers: integer
arithmetic on unboxed pointer-width values, truncated to the width of the
representation.  `none` is a trap or an instruction outside the fragment. -/
def evalInstr (w : Nat) (locals : LocalVariable → Value) : Instr → List Value → Option (List Value)
  | .LoadLocal v, s => some (locals v :: s)
  | .CheckNull, x :: s => if x = .null then none else some (x :: s)
  | .LoadNativeField .Pointer_c_memory_address, .pointer a :: s => some (.integer a :: s)
  | .Constant (.int n), s => some (.integer n :: s)
  | .Unbox rep, .integer n :: s => (rep.bits w).map (fun k => .unboxed (n % 2 ^ k) :: s)
  | .BinaryIntegerOp .kMUL rep true, .unboxed y :: .unboxed x :: s =>
    (rep.bits w).map (fun k => .unboxed ((x * y) % 2 ^ k) :: s)
  | .BinaryIntegerOp .kADD rep true, .unboxed y :: .unboxed x :: s =>
    (rep.bits w).map (fun k => .unboxed ((x + y) % 2 ^ k) :: s)
  | .ConvertIntptrToUntagged, .unboxed x :: s => some (.untagged x :: s)
  | .LoadIndexedTypedData cid, .integer index :: .untagged base :: s =>
    some (.loaded cid base index :: s)
  | _, _ => none

/-- Runs a list of instructions in order. -/
def evalInstrs (w : Nat) (locals : LocalVariable → Value) : List Instr → List Value →
    Option (List Value)
  | [], s => some s
  | i :: rest, s => (evalInstr w locals i s).bind (evalInstrs w locals rest)

/-- The value an FFI load leaves pending: the boxed element, or for a pointer
the new `Pointer` object. -/
def ffiLoadResult (kind : MethodRecognizer.Kind) (cid : FfiTypeCid) : Instr :=
  if kind = .kFfiLoadFloat ∨ kind = .kFfiLoadDouble then .Box .kUnboxedDouble
  else if kind = .kFfiLoadPointer then .DropTempsPreserveTop 1
  else .Box (.ofType cid)

/-- Values of the parameter variables of an FFI load: variable 1 holds a
pointer to address `a`, every other variable the integer `i`. -/
def witnessLocals (a i : Int) : LocalVariable → Value :=
  fun v => if v.index = 1 then .pointer a else .integer i

/-- Whether an instruction is an `AssertAssignable`. -/
def Instr.isAssertAssignable : Instr → Bool
  | .AssertAssignable _ => true
  | _ => false

/-- Whether an instruction produces an unboxed or untagged value. -/
def Instr.producesUnboxedOrUntagged : Instr → Bool
  | .Unbox _ => true
  | .BinaryIntegerOp _ _ _ => true
  | .ConvertIntptrToUntagged => true
  | .DoubleToFloat => true
  | .FloatToDouble => true
  | .LoadIndexedTypedData _ => true
  | _ => false

/-- The instructions of the pointer store before its type check: the value,
the pointer, its null check, its type arguments and a null for the function
type arguments. -/
def ffiStoreCheckOperands (pointer value : LocalVariable) : List Instr :=
  [.LoadLocal value, .LoadLocal pointer, .CheckNull,
    .LoadNativeField (.TypeArguments .pointer_class), .Constant .null]

/-- The conversion of the stored value to its native form. -/
def ffiStoreValueInstrs (kind : MethodRecognizer.Kind) (cid : FfiTypeCid) : List Instr :=
  if kind = .kFfiStorePointer then [.LoadNativeField .Pointer_c_memory_address]
  else if kind = .kFfiStoreFloat then [.Unbox .kUnboxedDouble, .DoubleToFloat]
  else if kind = .kFfiStoreDouble then [.Unbox .kUnboxedDouble]
  else [.Unbox (.ofType cid)]

/-- The instructions of an FFI store from the load of the pointer on: address
computation, constant index 0, the value and its conversion, the typed-data
store and the null result. -/
def ffiStoreInstrs (word_size : Int) (kind : MethodRecognizer.Kind) (cid : FfiTypeCid)
    (pointer index value : LocalVariable) : List Instr :=
  ffiAddressInstrs pointer index (ElementSizeInBytes word_size cid) .kUnboxedFfiIntPtr ++
    [.Constant (.int 0), .LoadLocal value, .CheckNull] ++ ffiStoreValueInstrs kind cid ++
    [.StoreIndexedTypedData cid, .Constant .null]

/-- `FlowGraphBuilder::RethrowException`. -/
def RethrowException (catch_try_index : Int) : Build Fragment := do
  let mut instructions := Fragment.empty
  instructions := instructions ++ (← Drop)
  instructions := instructions ++ (← Drop)
  instructions := instructions ++ (Fragment.single (.ReThrow catch_try_index)).close
  let _ ← NullConstant
  let b ← getBuilder
  setBuilder { b with pending_argument_count_ := b.pending_argument_count_ - 2 }
  return instructions

/-- A sample builder inside a catch block: the two pushed placeholders above
one other value, four pending arguments. -/
def witnessCatchBuilder : FlowGraphBuilder :=
  { witnessBuilder with
    stack_ := [.PushArgument, .PushArgument, .Constant (.int 1)]
    pending_argument_count_ := 4 }

/-! ### Sequences of steps -/

/-- Runs the steps in order, appending each returned fragment to the fragment
built so far with `+=`. -/
def Build.seqFrom (acc : Fragment) : List (Build Fragment) → Build Fragment
  | [] => pure acc
  | m :: ms => do
    let f ← m
    Build.seqFrom (acc ++ f) ms

/-- The statements `body += s1; body += s2; ...` on a fresh fragment. -/
def Build.seq (steps : List (Build Fragment)) : Build Fragment :=
  Build.seqFrom Fragment.empty steps

/-- The loop `for (i = 0; i < n; ++i) body += step(i);`. -/
def forEachIndex (n : Nat) (step : Nat → Build Fragment) : Build Fragment :=
  Build.seq ((List.range n).map step)

/-! ### The arguments array of the no-such-method dispatcher -/

/-- An arguments descriptor, seen through its accessors; `positions` lists
`PositionAt(i)` for the named arguments in order. -/
structure ArgumentsDescriptor where
  TypeArgsLen : Nat
  Count : Nat
  PositionalCount : Nat
  NamedCount : Nat
  positions : List Nat
  deriving DecidableEq, Repr

/-- The accessor `descriptor.PositionAt(i)`. -/
def ArgumentsDescriptor.PositionAt (d : ArgumentsDescriptor) (i : Nat) : Build Nat :=
  fun b => match d.positions.get? i with
    | some p => .ok (p, b)
    | none => .error .assertion

/-- The accessor `parsed_function_->ParameterVariable(i)`. -/
def ParameterVariable (i : Nat) : Build LocalVariable :=
  fun b => match b.parsed_function_.parameters.get? i with
    | some v => .ok (v, b)
    | none => .error .assertion

/-- Modelled from the spec: `BaseFlowGraphBuilder::CreateArray` (not among the
source files), consumes the length and the element type and pushes the array. -/
def CreateArray : Build Fragment := emitDefinition 2 .CreateArray

/-- Modelled from the spec: `BaseFlowGraphBuilder::StoreIndexed(kArrayCid)`,
consumes the value, the index and the array. -/
def StoreIndexed : Build Fragment := emitEffect 3 .StoreIndexed_kArrayCid

/-- The four statements that store one variable into a slot of the array. -/
def storeArgument (array : LocalVariable) (index : Int) (value : Build LocalVariable) :
    Build Fragment :=
  Build.seq [LoadLocal array, IntConstant index, value >>= LoadLocal, StoreIndexed]

/-- The block "Third, an array containing the original arguments" of
`FlowGraphBuilder::BuildGraphOfNoSuchMethodDispatcher`: it creates the array,
fills it, and pushes it as an argument. -/
def noSuchMethodDispatcherArguments (descriptor : ArgumentsDescriptor) : Build Fragment := do
  let receiver_index : Nat := if descriptor.TypeArgsLen > 0 then 1 else 0
  let create ← Build.seq [Constant .nullTypeArguments,
    IntConstant (receiver_index + descriptor.Count), CreateArray]
  let array ← MakeTemporary
  let fill ← Build.seq [
    (if receiver_index > 0 then
      storeArgument array 0 (do
        let b ← getBuilder
        ASSERT b.parsed_function_.function_type_arguments.isSome
        match b.parsed_function_.function_type_arguments with
        | some type_args => pure type_args
        | none => Build.fail .nullDeref)
    else pure Fragment.empty),
    forEachIndex descriptor.PositionalCount (fun i =>
      storeArgument array (receiver_index + i) (ParameterVariable i)),
    forEachIndex descriptor.NamedCount (fun i => do
      let parameter_index := descriptor.PositionalCount + i
      let position ← descriptor.PositionAt i
      storeArgument array (receiver_index + position) (ParameterVariable parameter_index)),
    PushArgument]
  pure (create ++ fill)

/-- Values in a trace of array stores: a variable, an integer, or the value of
another instruction. -/
inductive TraceValue
  | var (v : LocalVariable)
  | int (n : Int)
  | valueOf (i : Instr)
  deriving DecidableEq, Repr

/-- What a run of array-filling code has done: the values pending, the lengths
of the arrays created, and the stores made, in order, as (array, index,
value). -/
structure ArrayTrace where
  stack : List TraceValue
  created : List Int
  stores : List (TraceValue × Int × TraceValue)
  deriving DecidableEq, Repr

/-- Modelled from the spec: what one instruction of the array-filling code does
when run: loads and constants push, `CreateArray` consumes the length and the
element type, `StoreIndexed` consumes value, index and array and writes the
slot, `PushArgument` passes the top value on. -/
def traceInstr : Instr → ArrayTrace → Option ArrayTrace
  | .LoadLocal v, t => some { t with stack := .var v :: t.stack }
  | .Constant (.int n), t => some { t with stack := .int n :: t.stack }
  | .Constant c, t => some { t with stack := .valueOf (.Constant c) :: t.stack }
  | .CreateArray, t =>
    match t.stack with
    | .int n :: _ :: rest =>
      some { t with stack := .valueOf .CreateArray :: rest, created := t.created ++ [n] }
    | _ => none
  | .StoreIndexed_kArrayCid, t =>
    match t.stack with
    | value :: .int index :: array :: rest =>
      some { t with stack := rest, stores := t.stores ++ [(array, index, value)] }
    | _ => none
  | .PushArgument, t =>
    match t.stack with
    | _ :: rest => some { t with stack := .valueOf .PushArgument :: rest }
    | _ => none
  | _, _ => none

/-- Runs a list of instructions of array-filling code in order. -/
def traceInstrs : List Instr → ArrayTrace → Option ArrayTrace
  | [], t => some t
  | i :: rest, t => (traceInstr i t).bind (traceInstrs rest)

/-- A sample descriptor: one type-argument vector, one positional and two named
arguments, the named ones placed at positions 2 and 1. -/
def witnessDescriptor : ArgumentsDescriptor := ⟨1, 3, 1, 2, [2, 1]⟩

/-- The instructions that store variable `v` into slot `index` of the array. -/
def argumentStore (array : LocalVariable) (index : Int) (v : LocalVariable) : List Instr :=
  [.LoadLocal array, .Constant (.int index), .LoadLocal v, .StoreIndexed_kArrayCid]

/-- The slot offset of the first argument: 1 when type arguments are passed. -/
def ArgumentsDescriptor.receiver_index (d : ArgumentsDescriptor) : Nat :=
  if d.TypeArgsLen > 0 then 1 else 0

/-- The `i`-th parameter variable of a list, for `i` within the list. -/
def parameterAt (ps : List LocalVariable) (i : Nat) : LocalVariable :=
  ps.getD i (LocalVariable.frame 0)

/-- The stores the dispatcher's array-filling code is to make, in order: the
function type arguments into slot 0 when type arguments are passed, positional
parameter `i` into slot `r + i`, named parameter `i` into slot
`r + PositionAt(i)`. -/
def expectedArgumentStores (d : ArgumentsDescriptor) (ps : List LocalVariable)
    (type_args array : LocalVariable) : List (TraceValue × Int × TraceValue) :=
  (if d.receiver_index > 0 then [(.var array, 0, .var type_args)] else []) ++
  (List.range d.PositionalCount).map
    (fun i => (.var array, ((d.receiver_index + i : Nat) : Int), .var (parameterAt ps i))) ++
  (List.range d.NamedCount).map
    (fun i => (.var array, ((d.receiver_index + d.positions.getD i 0 : Nat) : Int),
      .var (parameterAt ps (d.PositionalCount + i))))

/-- The instructions of the dispatcher's array block. -/
def noSuchMethodDispatcherArgumentsInstrs (d : ArgumentsDescriptor) (ps : List LocalVariable)
    (type_args array : LocalVariable) : List Instr :=
  [.Constant .nullTypeArguments, .Constant (.int ((d.receiver_index + d.Count : Nat) : Int)),
    .CreateArray] ++
  ((if d.receiver_index > 0 then argumentStore array 0 type_args else []) ++
  (((List.range d.PositionalCount).map
    (fun i => argumentStore array ((d.receiver_index + i : Nat) : Int) (parameterAt ps i))).flatten ++
  (((List.range d.NamedCount).map
    (fun i => argumentStore array ((d.receiver_index + d.positions.getD i 0 : Nat) : Int)
      (parameterAt ps (d.PositionalCount + i)))).flatten ++
  [.PushArgument])))

/-- A well-formed descriptor: the count is the sum of the positional and the
named count, and `PositionAt` maps the named indices one-to-one onto the
positions from `PositionalCount` up to `Count`. -/
def ArgumentsDescriptor.WellFormed (d : ArgumentsDescriptor) : Prop :=
  d.Count = d.PositionalCount + d.NamedCount ∧
    d.positions.Perm (List.range' d.PositionalCount d.NamedCount)

/-- A sample builder for a dispatcher: a type-arguments variable 9 and three
parameter variables 10, 11, 12, all on the frame. -/
def witnessDispatcherBuilder : FlowGraphBuilder :=
  { witnessBuilder with
    stack_ := []
    parsed_function_ :=
      { plainParsedFunction with
        function_type_arguments := some (LocalVariable.frame 9)
        parameters := [LocalVariable.frame 10, LocalVariable.frame 11, LocalVariable.frame 12] } }

/-! ### Calls, returns and argument type checks -/

/-- Modelled from the spec: `BaseFlowGraphBuilder::CheckStackOverflowInPrologue`
(not among the source files), the stack-overflow check of the entry sequence. -/
def BaseCheckStackOverflowInPrologue : Build Fragment := emitEffect 0 .CheckStackOverflow

/-- `FlowGraphBuilder::CheckStackOverflowInPrologue`. -/
def CheckStackOverflowInPrologue : Build Fragment := do
  let b ← getBuilder
  ASSERT (decide (b.more_.loop_depth_ = 0))
  BaseCheckStackOverflowInPrologue

/-- `FlowGraphBuilder::BuildPrologue`: the prologue builder (an external
collaborator) links the entry sequence after the entry and hands back the
instruction at which the body is to be attached. -/
def BuildPrologue : Build Instr := pure .PrologueEnd

/-- Modelled from the spec: `BaseFlowGraphBuilder::Return`, consumes the result
and ends the fragment with a return. -/
def BaseReturn : Build Fragment := do
  let _ ← Pop
  pure (Fragment.single .Return).close

/-- Modelled from the spec: `BaseFlowGraphBuilder::Goto`, an unconditional
transfer; the fragment is closed. -/
def Goto : Build Fragment := pure (Fragment.single .Goto).close

/-- Modelled from the spec: `BaseFlowGraphBuilder::DebugStepCheck`. -/
def DebugStepCheck : Build Fragment := emitEffect 0 .DebugStepCheck

/-- Modelled from the spec: `BaseFlowGraphBuilder::MakeTemp`, pushes a fresh
temporary. -/
def MakeTemp : Build Fragment := emitDefinition 0 .MakeTemp

/-- Modelled from the spec: `BaseFlowGraphBuilder::LoadArgDescriptor`, pushes
the arguments descriptor of the call being built. -/
def LoadArgDescriptor : Build Fragment := emitDefinition 0 .LoadArgDescriptor

/-- Modelled from the spec: `BaseFlowGraphBuilder::StoreFpRelativeSlot`, stores
the top value into the frame slot that the value below it indexes; `slots` is
the offset in words from `frame_layout.param_end_from_fp`. -/
def StoreFpRelativeSlot (slots : Int) : Build Fragment :=
  emitEffect 2 (.StoreFpRelativeSlot slots)

/-- Modelled from the spec: `BaseFlowGraphBuilder::LoadFpRelativeSlot`, replaces
the index on top by the content of the frame slot it indexes. -/
def LoadFpRelativeSlot : Build Fragment := emitDefinition 1 .LoadFpRelativeSlot

/-- Modelled from the spec: `BaseFlowGraphBuilder::SmiBinaryOp`. -/
def SmiBinaryOp (op : TokenKind) : Build Fragment := emitDefinition 2 (.SmiBinaryOp op)

/-- Modelled from the spec: `BaseFlowGraphBuilder::SmiRelationalOp`. -/
def SmiRelationalOp (op : TokenKind) : Build Fragment := emitDefinition 2 (.SmiRelationalOp op)

/-- Modelled from the spec: `BaseFlowGraphBuilder::BranchIfTrue`, consumes the
condition and ends the fragment with a branch to two new target entries. -/
def BranchIfTrue : Build Fragment := do
  let _ ← Pop
  pure (Fragment.single .BranchIfTrue).close

/-- Modelled from the spec: `BaseFlowGraphBuilder::BranchIfEqual`, consumes the
two compared values and ends the fragment with a branch. -/
def BranchIfEqual : Build Fragment := do
  popN 2
  pure (Fragment.single .BranchIfEqual).close

/-- Modelled from the spec: `BaseFlowGraphBuilder::BuildEntryPointsIntrospection`,
consumes the entry-point style on top. -/
def BuildEntryPointsIntrospection : Build Fragment := emitEffect 1 .EntryPointsIntrospection

/-- Modelled from the spec: `BaseFlowGraphBuilder::RedefinitionWithType`. -/
def RedefinitionWithType (type : AbstractType) : Build Fragment :=
  emitDefinition 1 (.RedefinitionWithType type)

/-- Modelled from the spec: `BaseFlowGraphBuilder::TestAnyTypeArgs`, a test with
the two given arms, joined afterwards: the fragment lists the test, the
instructions of both arms, and the join, and is open. -/
def TestAnyTypeArgs (present absent : Fragment) : Build Fragment :=
  pure ⟨[.TestAnyTypeArgs] ++ present.instrs ++ absent.instrs ++ [.JoinEntry], false⟩

/-- Modelled from the spec: `BaseFlowGraphBuilder::TestDelayedTypeArgs`, a test
on the delayed type arguments of the closure with the two given arms, joined
afterwards. -/
def TestDelayedTypeArgs (closure : LocalVariable) (present absent : Fragment) : Build Fragment :=
  pure ⟨[.TestDelayedTypeArgs closure] ++ present.instrs ++ absent.instrs ++ [.JoinEntry], false⟩

/-- `FlowGraphBuilder::StaticCall` (the full overload); the names array and the
result type are not recorded. -/
def StaticCall (target : FunctionAttrs) (argument_count : Int) (rebind_rule : RebindRule)
    (type_args_count : Int) : Build Fragment := do
  let total_count := argument_count + (if type_args_count > 0 then 1 else 0)
  GetArguments total_count.toNat
  Push (.StaticCall target.raw argument_count type_args_count rebind_rule)
  pure (Fragment.single (.StaticCall target.raw argument_count type_args_count rebind_rule))

/-- `FlowGraphBuilder::InstanceCall`; the interface target, the token kind and
the call-site attributes are not recorded. -/
def InstanceCall (name : String) (type_args_len : Int) (argument_count : Int) : Build Fragment := do
  let total_count := argument_count + (if type_args_len > 0 then 1 else 0)
  GetArguments total_count.toNat
  Push (.InstanceCall name argument_count type_args_len)
  pure (Fragment.single (.InstanceCall name argument_count type_args_len))

/-- `FlowGraphBuilder::AssertAssignableLoadTypeArguments`. -/
def AssertAssignableLoadTypeArguments (I : Isolate) (dst_type : AbstractType) : Build Fragment :=
  if !I.should_emit_strong_mode_checks then pure Fragment.empty
  else Build.seq [
    (if !dst_type.instantiatedCurrentClass then LoadInstantiatorTypeArguments else NullConstant),
    (if !dst_type.instantiatedFunctions then LoadFunctionTypeArguments else NullConstant),
    AssertAssignable dst_type]

/-- `FlowGraphBuilder::CheckAssignable`. -/
def CheckAssignable (I : Isolate) (dst_type : AbstractType) : Build Fragment :=
  if !I.should_emit_strong_mode_checks then pure Fragment.empty
  else if !dst_type.IsDynamicType && !dst_type.IsObjectType && !dst_type.IsVoidType then do
    let top_of_stack ← MakeTemporary
    Build.seq [LoadLocal top_of_stack, AssertAssignableLoadTypeArguments I dst_type, Drop]
  else pure Fragment.empty

/-- `FlowGraphBuilder::AssertSubtype`. -/
def AssertSubtype (sub_type super_type : AbstractType) : Build Fragment :=
  Build.seq [
    (do let f ← LoadInstantiatorTypeArguments
        let _ ← Pop
        pure f),
    (do let f ← LoadFunctionTypeArguments
        let _ ← Pop
        pure f),
    pure (Fragment.single (.AssertSubtype sub_type super_type))]

/-- `FlowGraphBuilder::NeedsDebugStepCheck(function, position)`. -/
def NeedsDebugStepCheck (function : Function) (position_IsDebugPause : Bool) : Bool :=
  position_IsDebugPause && !function.is_native && function.is_debuggable

/-- `FlowGraphBuilder::Return`; `position_IsDebugPause` is the answer of
`position.IsDebugPause()`. -/
def Return (I : Isolate) (position_IsDebugPause : Bool) (omit_result_type_check : Bool) :
    Build Fragment := do
  let b ← getBuilder
  let function := b.parsed_function_.function
  Build.seq [
    (if !omit_result_type_check && function.is_native then
      CheckAssignable I function.result_type
    else pure Fragment.empty),
    (if NeedsDebugStepCheck function position_IsDebugPause then DebugStepCheck
    else pure Fragment.empty),
    (if I.FLAG_causal_async_stacks && (function.IsAsyncClosure || function.IsAsyncGenClosure) then
      match I.async_clear_thread_stack_trace with
      | none => Build.fail .assertion
      | some target => Build.seq [StaticCall target 0 .kStatic 0, Drop]
    else pure Fragment.empty),
    BaseReturn]

/-- The modes of `BuildArgumentTypeChecks`. -/
inductive TypeChecksToBuild
  | kCheckAllTypeParameterBounds
  | kCheckCovariantTypeParameterBounds
  | kCheckNonCovariantTypeParameterBounds
  deriving DecidableEq, Repr

/-- The three output fragments of `BuildArgumentTypeChecks`. -/
inductive CheckSink
  | explicit_checks
  | implicit_checks
  | implicit_redefinitions
  deriving DecidableEq, Repr

/-- The body of the loop over the type parameters in
`BuildArgumentTypeChecks`: the bound check of one type parameter, or nothing
when the loop continues. -/
def checkTypeParameterBound (mode : TypeChecksToBuild) (type_param : TypeParameter) :
    Build Fragment :=
  if type_param.bound.IsTopType then pure Fragment.empty
  else if mode = .kCheckCovariantTypeParameterBounds ∧ !type_param.IsGenericCovariantImpl then
    pure Fragment.empty
  else if mode = .kCheckNonCovariantTypeParameterBounds ∧ type_param.IsGenericCovariantImpl then
    pure Fragment.empty
  else do
    ASSERT type_param.IsFinalized
    AssertSubtype type_param.type type_param.bound

/-- The body of the loop over the parameters in `BuildArgumentTypeChecks`: the
appends made for parameter `i`, each with the output fragment it goes to. -/
def checkParameter (I : Isolate) (with_redefinitions : Bool) (i : Nat) :
    Build (List (CheckSink × Fragment)) := do
  let b ← getBuilder
  let param ← ParameterVariable i
  if !param.needs_type_check then pure []
  else
    let target_type ←
      (if b.parsed_function_.is_forwarding_stub then
        match b.parsed_function_.forwarding_stub_super_target with
        | none => Build.fail .assertion
        | some forwarding_target =>
          match forwarding_target.parameter_types.get? i with
          | none => Build.fail .assertion
          | some t => pure t
      else pure param.type : Build AbstractType)
    if target_type.IsTopType then pure []
    else
      let is_covariant := param.is_explicit_covariant_parameter
      let check ← Build.seq [LoadLocal param, CheckAssignable I target_type, Drop]
      if !is_covariant && with_redefinitions && b.more_.optimizing_ then
        let redefinition ← Build.seq [LoadLocal param, RedefinitionWithType target_type,
          StoreLocal param, Drop]
        pure [(.implicit_checks, check), (.implicit_redefinitions, redefinition)]
      else
        pure [(if is_covariant then .explicit_checks else .implicit_checks, check)]

/-- Runs the loop body for each index in turn and lists all appends in order. -/
def collectChecks (step : Nat → Build (List (CheckSink × Fragment))) :
    List Nat → Build (List (CheckSink × Fragment))
  | [] => pure []
  | i :: rest => do
    let a ← step i
    let r ← collectChecks step rest
    pure (a ++ r)

/-- `FlowGraphBuilder::BuildArgumentTypeChecks`: the appends it makes to its
output fragments, in order; `with_redefinitions` says that the pointer
`implicit_redefinitions` is not null. -/
def BuildArgumentTypeChecks (I : Isolate) (mode : TypeChecksToBuild) (with_redefinitions : Bool) :
    Build (List (CheckSink × Fragment)) := do
  if !I.should_emit_strong_mode_checks then pure []
  else
    let b ← getBuilder
    let dart_function := b.parsed_function_.function
    if b.parsed_function_.is_forwarding_stub then
      ASSERT b.parsed_function_.forwarding_stub_super_target.isSome
    let own_type_parameters :=
      if dart_function.IsFactory then dart_function.owner_type_parameters
      else dart_function.type_parameters
    let num_type_params := own_type_parameters.length
    let type_parameters ←
      (if b.parsed_function_.is_forwarding_stub then
        match b.parsed_function_.forwarding_stub_super_target with
        | none => Build.fail .nullDeref
        | some forwarding_target => do
          ASSERT (decide (forwarding_target.type_parameters.length = num_type_params))
          pure forwarding_target.type_parameters
      else pure own_type_parameters : Build (List TypeParameter))
    let check_bounds ← Build.seq (type_parameters.map (checkTypeParameterBound mode))
    let bounds ←
      (if dart_function.IsClosureFunction && !(check_bounds.instrs = []) &&
          I.FLAG_eliminate_type_checks then do
        let closure ← ParameterVariable 0
        TestDelayedTypeArgs closure Fragment.empty check_bounds
      else pure check_bounds : Build Fragment)
    let params ← collectChecks (checkParameter I with_redefinitions)
      (List.range' dart_function.NumImplicitParameters
        (dart_function.NumParameters - dart_function.NumImplicitParameters))
    pure ((.implicit_checks, bounds) :: params)

/-- The statements `*sink += fragment` of `BuildArgumentTypeChecks` applied to
one fragment, for the output pointers that point to it. -/
def appendChecks (points_here : CheckSink → Bool) (items : List (CheckSink × Fragment))
    (acc : Fragment) : Fragment :=
  items.foldl (fun a p => if points_here p.1 then a ++ p.2 else a) acc

/-- `FlowGraphBuilder::BuildDefaultTypeHandling`. -/
def BuildDefaultTypeHandling (function : Function) : Build Fragment := do
  let b ← getBuilder
  let default_types := b.parsed_function_.DefaultFunctionTypeArguments
  if function.IsGeneric && !default_types.IsNull then
    let otherwise ← Build.seq [TranslateInstantiatedTypeArguments default_types,
      (match b.parsed_function_.function_type_arguments with
        | none => Build.fail .nullDeref
        | some function_type_arguments => StoreLocal function_type_arguments),
      Drop]
    TestAnyTypeArgs Fragment.empty otherwise
  else pure Fragment.empty

/-- `FlowGraphBuilder::PushExplicitParameters`. -/
def PushExplicitParameters (function : Function) : Build Fragment :=
  Build.seq ((List.range' function.NumImplicitParameters
    (function.NumParameters - function.NumImplicitParameters)).map
      (fun i => Build.seq [ParameterVariable i >>= LoadLocal, PushArgument]))

/-! ### Graphs of implicit closure functions and no-such-method forwarders -/

/-- The load of the closed-over receiver from the context on top:
`LoadNativeField(Slot::GetContextVariableSlotFor(thread_, *receiver_var()))`. -/
def loadReceiverSlot : Build Fragment := do
  let b ← getBuilder
  match b.parsed_function_.receiver_var with
  | none => Build.fail .nullDeref
  | some receiver_var => LoadNativeField (.ContextVariable receiver_var)

/-- The kind of invocation the forwarder reports for a function, `im_kind`. -/
def invocationKind (function : Function) : InvocationMirrorKind :=
  if function.IsImplicitGetterFunction || function.IsGetterFunction then .kGetter
  else if function.IsImplicitSetterFunction || function.IsSetterFunction then .kSetter
  else .kMethod

/-- The loop of the forwarder that copies the arguments from the frame into the
array: the jump to the join, the join with the condition, the loop body, and
the loop exit at which the fragment continues. -/
def forwarderLoop (condition loop_body : Fragment) : Fragment :=
  ⟨[.Goto, .JoinEntry] ++ condition.instrs ++ [.TargetEntry] ++ loop_body.instrs ++
    [.TargetEntry], false⟩

/-- `FlowGraphBuilder::BuildGraphOfNoSuchMethodForwarder`. -/
def BuildGraphOfNoSuchMethodForwarder (I : Isolate) (function : Function)
    (is_implicit_closure_function throw_no_such_method_error : Bool) : Build FlowGraph := do
  let instruction_cursor ← BuildPrologue
  let b ← getBuilder
  let pf := b.parsed_function_
  let part1 ← Build.seq [
    pure (Fragment.single instruction_cursor),
    CheckStackOverflowInPrologue,
    (if is_implicit_closure_function && !function.is_static then
      (if pf.has_arg_desc_var then
        Build.seq [LoadArgDescriptor, LoadNativeField .ArgumentsDescriptor_count,
          LoadLocal pf.current_context_var, loadReceiverSlot, StoreFpRelativeSlot 0]
      else
        Build.seq [LoadLocal pf.current_context_var, loadReceiverSlot,
          StoreFpRelativeSlot function.NumParameters])
    else pure Fragment.empty),
    (if function.NeedsArgumentTypeChecks then do
      let items ← BuildArgumentTypeChecks I .kCheckAllTypeParameterBounds false
      pure (appendChecks (fun sink => sink != .implicit_redefinitions) items Fragment.empty)
    else pure Fragment.empty),
    MakeTemp]
  let result ← MakeTemporary
  let argument_count_var := pf.expression_temp_var
  let part2 ← Build.seq [
    IntConstant 0, StoreLocal argument_count_var, Drop,
    (if function.IsGeneric then do
      let otherwise ← Build.seq [IntConstant 1, StoreLocal argument_count_var, Drop]
      TestAnyTypeArgs Fragment.empty otherwise
    else pure Fragment.empty),
    (if function.HasOptionalParameters then
      Build.seq [LoadArgDescriptor, LoadNativeField .ArgumentsDescriptor_count]
    else IntConstant function.NumParameters),
    LoadLocal argument_count_var,
    SmiBinaryOp .kADD]
  let argument_count ← MakeTemporary
  let part3 ← Build.seq [Constant .nullTypeArguments, LoadLocal argument_count, CreateArray]
  let arguments ← MakeTemporary
  let index := pf.expression_temp_var
  let part4 ← Build.seq [
    IntConstant 0, StoreLocal index, Drop,
    (if function.IsGeneric then do
      let store ← Build.seq [LoadLocal arguments, IntConstant 0, LoadFunctionTypeArguments,
        StoreIndexed, IntConstant 1, StoreLocal index, Drop]
      TestAnyTypeArgs store Fragment.empty
    else pure Fragment.empty),
    (do
      let condition ← Build.seq [LoadLocal index, LoadLocal argument_count,
        SmiRelationalOp .kLT, BranchIfTrue]
      let loop_body ← Build.seq [LoadLocal arguments, LoadLocal index, LoadLocal argument_count,
        LoadLocal index, SmiBinaryOp .kSUB, LoadFpRelativeSlot, StoreIndexed,
        LoadLocal index, IntConstant 1, SmiBinaryOp .kADD, StoreLocal index, Drop, Goto]
      pure (forwarderLoop condition loop_body)),
    (if is_implicit_closure_function then
      (if throw_no_such_method_error then
        match function.parent_function with
        | none => Build.fail .nullDeref
        | some parent => Constant (.type parent.owner)
      else Build.seq [LoadLocal pf.current_context_var, loadReceiverSlot])
    else ParameterVariable 0 >>= LoadLocal),
    PushArgument,
    Constant (.str function.name),
    PushArgument,
    (if !pf.has_arg_desc_var then Constant (.argsDescriptor 0 function.NumParameters)
    else LoadArgDescriptor),
    PushArgument,
    LoadLocal arguments,
    PushArgument,
    (if throw_no_such_method_error then
      match function.parent_function with
      | none => Build.fail .nullDeref
      | some parent =>
        match I.classOf parent.owner with
        | none => Build.fail .nullDeref
        | some owner => Constant (.invocationType owner.IsTopLevel (invocationKind function))
    else NullConstant),
    PushArgument,
    (if function.IsClosureFunction then do
      let closure ← ParameterVariable 0
      let present ← Build.seq [IntConstant function.NumTypeParameters,
        StoreLocal argument_count_var, Drop]
      let otherwise ← Build.seq [IntConstant 0, StoreLocal argument_count_var, Drop]
      Build.seq [TestDelayedTypeArgs closure present otherwise, LoadLocal argument_count_var]
    else IntConstant 0),
    PushArgument,
    (match I.AllocateInvocationMirrorForClosure with
      | none => Build.fail .assertion
      | some allocation_function => StaticCall allocation_function 5 .kStatic 0),
    PushArgument,
    (if throw_no_such_method_error then
      match I.ThrowNewInvocation with
      | none => Build.fail .assertion
      | some throw_function => StaticCall throw_function 2 .kStatic 0
    else InstanceCall "noSuchMethod" 0 2),
    StoreLocal result,
    Drop,
    Drop,
    Drop,
    (if !function.result_type.IsDynamicType && !function.result_type.IsVoidType &&
        !function.result_type.IsObjectType then
      AssertAssignableLoadTypeArguments I function.result_type
    else pure Fragment.empty),
    Return I false false]
  pure ⟨.FunctionEntry :: (part1 ++ part2 ++ part3 ++ part4).instrs⟩

/-- `FlowGraphBuilder::BuildSeparateUncheckedEntryPoint`: the instructions of
the blocks it links, the normal entry first. -/
def BuildSeparateUncheckedEntryPoint (normal_entry : Fragment)
    (normal_prologue extra_prologue shared_prologue body : Fragment) : Build (List Instr) := do
  let normal ← Build.seqFrom normal_entry [
    Constant (.entryPointStyle .kNone), BuildEntryPointsIntrospection, pure normal_prologue, Goto]
  let extra ← Build.seqFrom (Fragment.single .FunctionEntry) [
    Constant (.entryPointStyle .kSeparate), BuildEntryPointsIntrospection, pure extra_prologue,
    Goto]
  let joined := Fragment.single .JoinEntry ++ shared_prologue ++ body
  pure (normal.instrs ++ extra.instrs ++ joined.instrs)

/-- `FlowGraphBuilder::BuildSharedUncheckedEntryPoint`: the instructions of the
blocks it links, the normal entry first; `shared_prologue` is the part of the
shared prologue after the normal entry. -/
def BuildSharedUncheckedEntryPoint (shared_prologue : Fragment)
    (skippable_checks redefinitions_if_skipped body : Fragment) : Build (List Instr) := do
  let b ← getBuilder
  ASSERT b.parsed_function_.has_entry_points_temp_var
  let temp := b.parsed_function_.entry_points_temp_var
  let normal_entry ← Build.seqFrom (Fragment.single .FunctionEntry) [
    Constant (.entryPointStyle .kNone), StoreLocal temp, Drop, Goto]
  let extra_entry ← Build.seqFrom (Fragment.single .FunctionEntry) [
    Constant (.entryPointStyle .kSharedWithVariable), StoreLocal temp, Drop, Goto]
  let shared ← Build.seqFrom (Fragment.single .JoinEntry ++ shared_prologue) [
    LoadLocal temp, BuildEntryPointsIntrospection, LoadLocal temp,
    Constant (.entryPointStyle .kSharedWithVariable), BranchIfEqual]
  let do_checks ← Build.seqFrom (Fragment.single .TargetEntry) [pure skippable_checks, Goto]
  let skip_checks ← Build.seqFrom (Fragment.single .TargetEntry)
    [pure redefinitions_if_skipped, Goto]
  let rest := Fragment.single .JoinEntry ++ body
  pure (normal_entry.instrs ++ extra_entry.instrs ++ shared.instrs ++ do_checks.instrs ++
    skip_checks.instrs ++ rest.instrs)

/-- The value of `target` in `BuildGraphOfImplicitClosureFunction` after the
check made for a target that is not the parent itself: the target looked up,
or null when it differs from the parent in static-ness or kind. -/
def reloadedTarget (looked_up : Option FunctionAttrs) (parent : Function) :
    Option FunctionAttrs :=
  match looked_up with
  | none => none
  | some target =>
    if target.raw ≠ parent.raw ∧
        (target.is_static ≠ parent.is_static ∨ target.kind ≠ parent.kind) then none
    else some target

/-- The statement `DEBUG_ASSERT(Isolate::Current()->HasAttemptedReload())` of
`BuildGraphOfImplicitClosureFunction`, reached when the target looked up is
not null and is not the parent. -/
def checkReloaded (I : Isolate) (looked_up : Option FunctionAttrs) (parent : Function) :
    Build Unit :=
  match looked_up with
  | some target => if target.raw ≠ parent.raw then ASSERT I.HasAttemptedReload else pure ()
  | none => pure ()

/-- `FlowGraphBuilder::BuildGraphOfImplicitClosureFunction`. -/
def BuildGraphOfImplicitClosureFunction (I : Isolate) (function : Function) :
    Build FlowGraph := do
  match function.parent_function with
  | none => Build.fail .nullDeref
  | some parent =>
    match I.classOf parent.owner with
    | none => Build.fail .nullDeref
    | some owner =>
      let looked_up := owner.LookupFunction parent.name
      checkReloaded I looked_up parent
      match reloadedTarget looked_up parent with
      | none => BuildGraphOfNoSuchMethodForwarder I function true parent.is_static
      | some target =>
        if parent.num_fixed_parameters ≠ target.num_fixed_parameters then
          BuildGraphOfNoSuchMethodForwarder I function true parent.is_static
        else
          let instruction_cursor ← BuildPrologue
          let prologue ← CheckStackOverflowInPrologue
          let default_type_handling ← BuildDefaultTypeHandling function
          let items ←
            (if function.NeedsArgumentTypeChecks then
              (if target.is_static then
                BuildArgumentTypeChecks I .kCheckAllTypeParameterBounds false
              else if parent.MethodCanSkipTypeChecksForNonCovariantArguments then
                BuildArgumentTypeChecks I .kCheckNonCovariantTypeParameterBounds false
              else pure [])
            else pure [] : Build (List (CheckSink × Fragment)))
          let implicit_checks := appendChecks (fun sink => sink == .implicit_checks) items
            Fragment.empty
          let type_args_len : Int := if function.IsGeneric then function.NumTypeParameters else 0
          let argument_count : Int :=
            (function.NumParameters : Int) - function.NumImplicitParameters +
              (if target.is_static then 0 else 1)
          let b ← getBuilder
          let body ← Build.seq [
            (if function.IsGeneric then do
              ASSERT b.parsed_function_.function_type_arguments.isSome
              match b.parsed_function_.function_type_arguments with
              | none => Build.fail .nullDeref
              | some function_type_arguments =>
                Build.seq [LoadLocal function_type_arguments, PushArgument]
            else pure Fragment.empty),
            (if !target.is_static then
              Build.seq [ParameterVariable 0 >>= LoadLocal, LoadNativeField .Closure_context,
                loadReceiverSlot, PushArgument]
            else pure Fragment.empty),
            PushExplicitParameters function,
            (do
              ASSERT (decide (argument_count = target.NumParameters))
              StaticCall target argument_count .kNoRebind type_args_len),
            Return I function.end_token_pos_IsDebugPause false]
          if function.MayHaveUncheckedEntryPoint then
            if function.PrologueSkippableOnUncheckedEntry then
              let extra_prologue ← CheckStackOverflowInPrologue
              let instrs ← BuildSeparateUncheckedEntryPoint
                (⟨[.FunctionEntry, instruction_cursor], false⟩)
                (prologue ++ default_type_handling ++ implicit_checks) extra_prologue
                Fragment.empty body
              pure ⟨instrs⟩
            else
              let instrs ← BuildSharedUncheckedEntryPoint
                (Fragment.single instruction_cursor ++ prologue)
                (default_type_handling ++ implicit_checks) Fragment.empty body
              pure ⟨instrs⟩
          else
            pure ⟨.FunctionEntry :: (Fragment.single instruction_cursor ++ prologue ++
              default_type_handling ++ implicit_checks ++ body).instrs⟩

/-! ### Inventory of the static calls of a graph -/

/-- The static calls to runtime helpers that the builders embedded here emit:
the allocation of the invocation mirror (five arguments), the throw of the
no-such-method error (two arguments) and the clearing of the asynchronous stack
trace (no argument), each with rebind rule `ICData::kStatic` and without type
arguments.  Every instruction that is not a static call passes. -/
def Isolate.isHelperCall (I : Isolate) : Instr → Bool
  | .StaticCall target argument_count type_args_count rebind_rule =>
    rebind_rule == .kStatic && type_args_count == 0 &&
      ((I.AllocateInvocationMirrorForClosure.map (fun f => f.raw) == some target &&
          argument_count == 5) ||
        (I.ThrowNewInvocation.map (fun f => f.raw) == some target && argument_count == 2) ||
        (I.async_clear_thread_stack_trace.map (fun f => f.raw) == some target &&
          argument_count == 0))
  | _ => true

/-- Whether an instruction is a static call to the function with identity
`raw`. -/
def Instr.isStaticCallTo (raw : Nat) : Instr → Bool
  | .StaticCall target _ _ _ => target == raw
  | _ => false

/-- Whether a function is one of the runtime helpers the isolate looks up. -/
def Isolate.isHelper (I : Isolate) (raw : Nat) : Bool :=
  I.AllocateInvocationMirrorForClosure.map (fun f => f.raw) == some raw ||
    I.ThrowNewInvocation.map (fun f => f.raw) == some raw ||
    I.async_clear_thread_stack_trace.map (fun f => f.raw) == some raw

/-- Every result a step can return satisfies `R`. -/
def Ensures {α : Type} (R : α → Prop) (m : Build α) : Prop :=
  ∀ b a b1, m b = .ok (a, b1) → R a

/-- Every instruction of the fragment satisfies `P`. -/
def Fragment.All (P : Instr → Prop) (f : Fragment) : Prop := ∀ i ∈ f.instrs, P i

/-- Every fragment the step can return holds only instructions satisfying
`P`. -/
@[reducible] def Sound (P : Instr → Prop) (m : Build Fragment) : Prop := Ensures (Fragment.All P) m

/-- A torn-off static method `m` with two fixed parameters, as the closure's
parent remembers it. -/
def witnessParent : Function :=
  { plainFunction with raw := 10, name := "m", is_static := true, num_fixed_parameters := 2
                       NumParameters := 2, owner := 7 }

/-- The method `m` the class holds after a reload: three fixed parameters. -/
def witnessTarget : FunctionAttrs :=
  { plainFunction.toFunctionAttrs with raw := 11, name := "m", is_static := true
                                       num_fixed_parameters := 3, NumParameters := 3, owner := 7 }

/-- The implicit closure function of `witnessParent`: the closure and two
explicit parameters. -/
def witnessClosure : Function :=
  { plainFunction with raw := 12, name := "m", is_static := true, num_fixed_parameters := 3
                       NumParameters := 3, NumImplicitParameters := 1, IsClosureFunction := true
                       owner := 7, parents := [witnessParent.toFunctionAttrs] }

/-- An isolate after a reload, whose class 7 holds `witnessTarget`. -/
def witnessIsolate : Isolate :=
  { should_emit_strong_mode_checks := true, HasAttemptedReload := true
    FLAG_causal_async_stacks := false, FLAG_eliminate_type_checks := false
    classes := [⟨7, [witnessTarget], false⟩]
    async_clear_thread_stack_trace := none
    AllocateInvocationMirrorForClosure :=
      some { plainFunction.toFunctionAttrs with raw := 20, name := "_allocateInvocationMirrorForClosure" }
    ThrowNewInvocation := some { plainFunction.toFunctionAttrs with raw := 21, name := "_throwNew" } }

/-- A builder about to build the graph of `witnessClosure`. -/
def witnessClosureBuilder : FlowGraphBuilder :=
  { context_depth_ := 0
    stack_ := []
    pending_argument_count_ := 0
    parsed_function_ :=
      { plainParsedFunction with
        function := witnessClosure
        parameters := [LocalVariable.frame 1, LocalVariable.frame 2, LocalVariable.frame 3]
        raw_parameters := [LocalVariable.frame 1, LocalVariable.frame 2, LocalVariable.frame 3] }
    scopes_ := none
    active_class_ := ⟨7, 0⟩
    more_ := { loop_depth_ := 0, optimizing_ := false } }

/-- Whether an instruction is a static call. -/
def Instr.isStaticCall : Instr → Bool
  | .StaticCall _ _ _ _ => true
  | _ => false

/-- Whether an instruction is a catch block entry. -/
def Instr.isCatchBlockEntry : Instr → Bool
  | .CatchBlockEntry _ _ _ => true
  | _ => false

/-- Whether an instruction is neither a static call nor a catch block entry. -/
def Instr.isPlain (i : Instr) : Bool := !i.isStaticCall && !i.isCatchBlockEntry

/-- Every step of the list is sound for `P`. -/
def SoundAll (P : Instr → Prop) (ms : List (Build Fragment)) : Prop := ∀ m ∈ ms, Sound P m

/-- Every fragment of a list of appends holds only instructions satisfying
`P`. -/
def ChecksAll (P : Instr → Prop) (items : List (CheckSink × Fragment)) : Prop :=
  ∀ p ∈ items, Fragment.All P p.2

/-- The steps that emit one instruction, or one load with its context walk,
and never a call. -/
inductive Leaf : Build Fragment → Prop
  | Drop : Leaf Drop
  | Constant (c : ConstValue) : Leaf (Constant c)
  | NullConstant : Leaf NullConstant
  | IntConstant (n : Int) : Leaf (IntConstant n)
  | BaseLoadLocal (v : LocalVariable) : Leaf (BaseLoadLocal v)
  | LoadLocal (v : LocalVariable) : Leaf (LoadLocal v)
  | StoreLocal (v : LocalVariable) : Leaf (StoreLocal v)
  | LoadNativeField (slot : Slot) : Leaf (LoadNativeField slot)
  | InstantiateTypeArguments (t : TypeArguments) : Leaf (InstantiateTypeArguments t)
  | AssertAssignable (t : AbstractType) : Leaf (AssertAssignable t)
  | MakeTemp : Leaf MakeTemp
  | LoadArgDescriptor : Leaf LoadArgDescriptor
  | StoreFpRelativeSlot (slots : Int) : Leaf (StoreFpRelativeSlot slots)
  | LoadFpRelativeSlot : Leaf LoadFpRelativeSlot
  | SmiBinaryOp (op : TokenKind) : Leaf (SmiBinaryOp op)
  | SmiRelationalOp (op : TokenKind) : Leaf (SmiRelationalOp op)
  | BranchIfTrue : Leaf BranchIfTrue
  | BranchIfEqual : Leaf BranchIfEqual
  | BuildEntryPointsIntrospection : Leaf BuildEntryPointsIntrospection
  | RedefinitionWithType (t : AbstractType) : Leaf (RedefinitionWithType t)
  | CreateArray : Leaf CreateArray
  | StoreIndexed : Leaf StoreIndexed
  | PushArgument : Leaf PushArgument
  | Goto : Leaf Goto
  | DebugStepCheck : Leaf DebugStepCheck
  | BaseReturn : Leaf BaseReturn
  | CheckStackOverflowInPrologue : Leaf CheckStackOverflowInPrologue
  | InstanceCall (name : String) (type_args_len argument_count : Int) :
    Leaf (InstanceCall name type_args_len argument_count)

/-- The isolate before any reload: class 7 holds the torn-off method itself. -/
def witnessIsolateBeforeReload : Isolate :=
  { witnessIsolate with HasAttemptedReload := false
                        classes := [⟨7, [witnessParent.toFunctionAttrs], false⟩] }

/-! ### FFI conversions and callbacks -/

/-- The element `list[index]` of a growable array; an index out of range
fails the bounds assertion. -/
def variableAt (list : List LocalVariable) (index : Int) : Build LocalVariable :=
  fun b =>
    if index < 0 then .error .assertion
    else match list.get? index.toNat with
      | some v => .ok (v, b)
      | none => .error .assertion

/-- The result of scope building, `scopes_`; null cannot be used. -/
def getScopes : Build ScopeBuildingResult :=
  fun b => match b.scopes_ with
    | some r => .ok (r, b)
    | none => .error .nullDeref

/-- Modelled from the spec: the accessor `CurrentException()` of the builder's
header (not among the source files), the exception variable of the catch block
being built, `scopes_->exception_variables[catch_depth_ - 1]`. -/
def CurrentException : Build LocalVariable := do
  let r ← getScopes
  let b ← getBuilder
  variableAt r.exception_variables (b.more_.catch_depth_ - 1)

/-- Modelled from the spec: the accessor `CurrentStackTrace()`,
`scopes_->stack_trace_variables[catch_depth_ - 1]`. -/
def CurrentStackTrace : Build LocalVariable := do
  let r ← getScopes
  let b ← getBuilder
  variableAt r.stack_trace_variables (b.more_.catch_depth_ - 1)

/-- Modelled from the spec: the accessor `CurrentRawException()`,
`scopes_->raw_exception_variables[catch_depth_ - 1]`. -/
def CurrentRawException : Build LocalVariable := do
  let r ← getScopes
  let b ← getBuilder
  variableAt r.raw_exception_variables (b.more_.catch_depth_ - 1)

/-- Modelled from the spec: the accessor `CurrentRawStackTrace()`,
`scopes_->raw_stack_trace_variables[catch_depth_ - 1]`. -/
def CurrentRawStackTrace : Build LocalVariable := do
  let r ← getScopes
  let b ← getBuilder
  variableAt r.raw_stack_trace_variables (b.more_.catch_depth_ - 1)

/-- Modelled from the spec: the accessor `CurrentCatchContext()`, the variable
that saves the context at the entry of the try block being built,
`scopes_->catch_context_variables[try_depth_]`. -/
def CurrentCatchContext : Build LocalVariable := do
  let r ← getScopes
  let b ← getBuilder
  variableAt r.catch_context_variables b.more_.try_depth_

/-- Sets `context_depth_`. -/
def setContextDepth (depth : Int) : Build Unit := do
  let b ← getBuilder
  setBuilder { b with context_depth_ := depth }

/-- The condition `CurrentException()->is_captured() ||
CurrentCatchContext()->is_captured()`. -/
def shouldRestoreClosureContext : Build Bool := do
  let exception ← CurrentException
  if exception.is_captured then pure true
  else
    let catch_context ← CurrentCatchContext
    pure catch_context.is_captured

/-- The assertion `!CurrentCatchContext()->is_captured() ||
CurrentCatchContext()->owner()->context_level() == 0`. -/
def assertCatchContextLevel : Build Unit := do
  let catch_context ← CurrentCatchContext
  if !catch_context.is_captured then pure ()
  else
    match catch_context.owner with
    | none => Build.fail .nullDeref
    | some owner => ASSERT (decide (owner.context_level = 0))

/-- `FlowGraphBuilder::CatchBlockEntry`; the handler types are not recorded. -/
def CatchBlockEntry (handler_index : Int) (needs_stacktrace is_synthesized : Bool) :
    Build Fragment := do
  let exception_var ← CurrentException
  let stacktrace_var ← CurrentStackTrace
  let raw_exception_var ← CurrentRawException
  let raw_stacktrace_var ← CurrentRawStackTrace
  let entry := Instr.CatchBlockEntry handler_index needs_stacktrace is_synthesized
  let should_restore_closure_context ← shouldRestoreClosureContext
  let b ← getBuilder
  let context_variable := b.parsed_function_.current_context_var
  Build.seqFrom (Fragment.single entry) [
    (if should_restore_closure_context then do
      ASSERT b.parsed_function_.function.IsClosureFunction
      let closure_parameter ← ParameterVariable 0
      ASSERT (!closure_parameter.is_captured)
      Build.seq [LoadLocal closure_parameter, LoadNativeField .Closure_context,
        StoreLocal context_variable, Drop]
    else pure Fragment.empty),
    (if exception_var.is_captured then
      Build.seq [LoadLocal context_variable, LoadLocal raw_exception_var,
        StoreInstanceField (.ContextVariable exception_var)]
    else pure Fragment.empty),
    (if stacktrace_var.is_captured then
      Build.seq [LoadLocal context_variable, LoadLocal raw_stacktrace_var,
        StoreInstanceField (.ContextVariable stacktrace_var)]
    else pure Fragment.empty),
    (do
      let saved_context_depth := (← getBuilder).context_depth_
      assertCatchContextLevel
      setContextDepth 0
      let restore ← Build.seq [CurrentCatchContext >>= LoadLocal, StoreLocal context_variable,
        Drop]
      setContextDepth saved_context_depth
      pure restore)]

/-- `FlowGraphBuilder::TryCatch`: the fragment from the save of the context to
the join entry of the try body. -/
def TryCatch (_try_handler_index : Int) : Build Fragment := do
  let b ← getBuilder
  let body ← Build.seq [LoadLocal b.parsed_function_.current_context_var,
    CurrentCatchContext >>= StoreLocal, Drop, Goto]
  pure ⟨body.instrs ++ [.JoinEntry], false⟩

/-- `FlowGraphBuilder::FfiUnboxedExtend`. -/
def FfiUnboxedExtend (representation : Representation) (ffi_type : FfiSignatureType) :
    Build Fragment :=
  let from_representation := ffi_type.TypeSmallRepresentation
  if from_representation = .kNoSmallRepresentation then pure Fragment.empty
  else emitDefinition 1 (.UnboxedWidthExtender representation from_representation)

/-- `FlowGraphBuilder::NativeReturn`: consumes the value and pushes nothing;
the fragment stays open. -/
def NativeReturn (result : Representation) : Build Fragment :=
  emitEffect 1 (.NativeReturn result)

/-- `FlowGraphBuilder::BitCast`. -/
def BitCast (from_rep to_rep : Representation) : Build Fragment :=
  emitDefinition 1 (.BitCast from_rep to_rep)

/-- `FlowGraphBuilder::FfiPointerFromAddress`. -/
def FfiPointerFromAddress (result_type : FfiSignatureType) : Build Fragment := do
  let address ← MakeTemporary
  let result := (← getBuilder).parsed_function_.expression_temp_var
  let args := result_type.arguments
  ASSERT (args.IsNull || args.IsInstantiated .kAny)
  let code ← Build.seq [Constant (.typeArguments args), PushArgument,
    AllocateObject result_type.type_class 1]
  let pointer ← MakeTemporary
  Build.seqFrom code [LoadLocal pointer, LoadLocal address,
    StoreInstanceField .Pointer_c_memory_address, StoreLocal result, Drop, Drop,
    LoadLocal result]

/-- `FlowGraphBuilder::FfiConvertArgumentToDart`. -/
def FfiConvertArgumentToDart (ffi_type : FfiSignatureType)
    (native_representation : Representation) : Build Fragment :=
  if ffi_type.NativeTypeIsPointer then
    Build.seq [Box .kUnboxedFfiIntPtr, FfiPointerFromAddress ffi_type]
  else if ffi_type.NativeTypeIsVoid then
    Build.seq [Drop, NullConstant]
  else
    let from_rep := native_representation
    let to_rep := ffi_type.TypeRepresentation
    Build.seq [
      (if from_rep ≠ to_rep then BitCast from_rep to_rep else FfiUnboxedExtend from_rep ffi_type),
      Box to_rep]

/-- `FlowGraphBuilder::FfiConvertArgumentToNative`; the function only names
the null check. -/
def FfiConvertArgumentToNative (_function : Function) (ffi_type : FfiSignatureType)
    (native_representation : Representation) : Build Fragment :=
  Build.seq (CheckNullOptimized ::
    (if ffi_type.NativeTypeIsPointer then
      [LoadNativeField .Pointer_c_memory_address, UnboxTruncate .kUnboxedFfiIntPtr]
    else
      let from_rep := ffi_type.TypeRepresentation
      let to_rep := native_representation
      [UnboxTruncate from_rep,
        (if from_rep ≠ to_rep then BitCast from_rep to_rep
        else FfiUnboxedExtend from_rep ffi_type)]))

/-- Modelled from the spec: `BaseFlowGraphBuilder::AllocateTryIndex` (not among
the source files), hands out the next unused try index. -/
def AllocateTryIndex : Build Int := do
  let b ← getBuilder
  setBuilder { b with more_ := { b.more_ with
    next_used_try_index_ := b.more_.next_used_try_index_ + 1 } }
  pure b.more_.next_used_try_index_

/-- The statements `++try_depth_` (`delta` 1) and `--try_depth_` (`delta` -1). -/
def addTryDepth (delta : Int) : Build Unit := do
  let b ← getBuilder
  setBuilder { b with more_ := { b.more_ with try_depth_ := b.more_.try_depth_ + delta } }

/-- The statements `++catch_depth_` and `--catch_depth_`. -/
def addCatchDepth (delta : Int) : Build Unit := do
  let b ← getBuilder
  setBuilder { b with more_ := { b.more_ with catch_depth_ := b.more_.catch_depth_ + delta } }

/-- The body of the loop of `BuildGraphOfFfiCallback` that boxes and pushes
argument `i`: the native parameter, its conversion, and the push. -/
def pushCallbackArgument (signature : FfiSignature) (i : Nat) : Build Fragment :=
  match signature.parameter_types.get? (i + 1), signature.ArgumentRepresentations.get? i with
  | some ffi_type, some arg_rep =>
    Build.seq [
      (do Push (.NativeParameter i arg_rep)
          pure (Fragment.single (.NativeParameter i arg_rep))),
      FfiConvertArgumentToDart ffi_type arg_rep,
      PushArgument]
  | _, _ => Build.fail .assertion

/-- The statements of `BuildGraphOfFfiCallback` that append to `catch_body`
after the catch entry: the exceptional return value in its native
representation, and the native return. -/
def exceptionalReturnSteps (function : Function) (signature : FfiSignature) :
    List (Build Fragment) :=
  let ffi_type := signature.result_type
  let result_rep := signature.ResultRepresentation
  (if ffi_type.NativeTypeIsPointer || ffi_type.NativeTypeIsVoid then
    [(do ASSERT (decide (function.FfiCallbackExceptionalReturn = .null))
         pure Fragment.empty),
      IntConstant 0, UnboxTruncate .kUnboxedFfiIntPtr]
  else
    [Constant function.FfiCallbackExceptionalReturn,
      FfiConvertArgumentToNative function ffi_type result_rep]) ++
  [NativeReturn result_rep]

/-- `FlowGraphBuilder::BuildGraphOfFfiCallback`: the instructions from the
native entry through the try body, then those of the catch block. -/
def BuildGraphOfFfiCallback (function : Function) : Build FlowGraph := do
  match function.FfiCSignature with
  | none => Build.fail .nullDeref
  | some signature =>
    let function_body ← Build.seqFrom (Fragment.single (.NativeEntry function.FfiCallbackId))
      [CheckStackOverflowInPrologue]
    let try_handler_index ← AllocateTryIndex
    let body ← TryCatch try_handler_index
    addTryDepth 1
    let body ← Build.seqFrom body
      ((List.range signature.callback_locs_length).map (pushCallbackArgument signature))
    let result_rep := signature.ResultRepresentation
    let body ← Build.seqFrom body [
      (match function.FfiCallbackTarget with
        | none => Build.fail .nullDeref
        | some target => StaticCall target signature.callback_locs_length .kNoRebind 0),
      FfiConvertArgumentToNative function signature.result_type result_rep,
      NativeReturn result_rep]
    addTryDepth (-1)
    let function_body := function_body ++ body
    addCatchDepth 1
    let catch_entry ← CatchBlockEntry try_handler_index false true
    let catch_body ← Build.seqFrom catch_entry (exceptionalReturnSteps function signature)
    addCatchDepth (-1)
    pure ⟨function_body.instrs ++ catch_body.instrs⟩

/-- The catch path of a graph: the instructions from its first catch block
entry on; empty when it has none. -/
def catchPath : List Instr → List Instr
  | [] => []
  | .CatchBlockEntry h n s :: rest => .CatchBlockEntry h n s :: rest
  | _ :: rest => catchPath rest

/-- The instructions `FfiConvertArgumentToNative` emits for a type and a
native representation. -/
def ffiConvertArgumentToNativeInstrs (ffi_type : FfiSignatureType)
    (native_representation : Representation) : List Instr :=
  .CheckNull ::
    (if ffi_type.NativeTypeIsPointer then
      [.LoadNativeField .Pointer_c_memory_address, .Unbox .kUnboxedFfiIntPtr]
    else
      .Unbox ffi_type.TypeRepresentation ::
        (if ffi_type.TypeRepresentation ≠ native_representation then
          [.BitCast ffi_type.TypeRepresentation native_representation]
        else if ffi_type.TypeSmallRepresentation = .kNoSmallRepresentation then []
        else [.UnboxedWidthExtender ffi_type.TypeRepresentation
          ffi_type.TypeSmallRepresentation]))

/-- The end of the catch path the claim describes: the exceptional return value
in the result representation, then the native return. -/
def exceptionalReturnInstrs (function : Function) (signature : FfiSignature) : List Instr :=
  (if signature.result_type.NativeTypeIsPointer || signature.result_type.NativeTypeIsVoid then
    [.Constant (.int 0), .Unbox .kUnboxedFfiIntPtr]
  else
    .Constant function.FfiCallbackExceptionalReturn ::
      ffiConvertArgumentToNativeInstrs signature.result_type signature.ResultRepresentation) ++
  [.NativeReturn signature.ResultRepresentation]

/-- A callback signature `Int32 Function(Int32)`. -/
def witnessCallbackSignature : FfiSignature :=
  { parameter_types :=
      [⟨false, false, .ofType .kFfiPointerCid, .kNoSmallRepresentation, .pointer_class,
          ⟨0, true, true, true, true, false, false⟩⟩,
        ⟨false, false, .ofType .kFfiInt32Cid, .kNoSmallRepresentation, .cls 0,
          ⟨0, true, true, true, true, false, false⟩⟩]
    result_type := ⟨false, false, .ofType .kFfiInt32Cid, .kNoSmallRepresentation, .cls 0,
      ⟨0, true, true, true, true, false, false⟩⟩
    ArgumentRepresentations := [.ofType .kFfiInt32Cid]
    ResultRepresentation := .ofType .kFfiInt32Cid
    callback_locs_length := 1 }

/-- A callback trampoline for `witnessFunction` with exceptional return 7. -/
def witnessCallback : Function :=
  { plainFunction with raw := 30, name := "callback", FfiCSignature := some witnessCallbackSignature
                       FfiCallbackTarget := some witnessFunction.toFunctionAttrs
                       FfiCallbackExceptionalReturn := .int 7, FfiCallbackId := 3 }

/-- The same trampoline with a pointer result and a null exceptional return. -/
def witnessPointerCallback : Function :=
  { witnessCallback with
    FfiCSignature := some { witnessCallbackSignature with
      result_type := ⟨true, false, .ofType .kFfiPointerCid, .kNoSmallRepresentation,
        .pointer_class, ⟨0, true, true, true, true, false, false⟩⟩
      ResultRepresentation := .kUnboxedFfiIntPtr }
    FfiCallbackExceptionalReturn := .null }

/-- A builder about to build a callback trampoline: frame variables for the
catch block and the saved context. -/
def witnessCallbackBuilder : FlowGraphBuilder :=
  { context_depth_ := 0
    stack_ := []
    pending_argument_count_ := 0
    parsed_function_ := { plainParsedFunction with function := witnessCallback }
    scopes_ := some { scopes := [], type_arguments_variable := none
                      exception_variables := [LocalVariable.frame 10]
                      stack_trace_variables := [LocalVariable.frame 11]
                      raw_exception_variables := [LocalVariable.frame 12]
                      raw_stack_trace_variables := [LocalVariable.frame 13]
                      catch_context_variables := [LocalVariable.frame 14] }
    active_class_ := ⟨0, 0⟩
    more_ := { loop_depth_ := 0, optimizing_ := false } }

/-- The fragment is open and every instruction of it satisfies `P`. -/
def Fragment.OpenAll (P : Instr → Prop) (f : Fragment) : Prop :=
  f.closed = false ∧ ∀ i ∈ f.instrs, P i

/-- Whenever the step succeeds, it returns the open fragment of the
instructions `l`. -/
def Emits (m : Build Fragment) (l : List Instr) : Prop :=
  Ensures (fun f => f = ⟨l, false⟩) m

/-! ### Parameter checks of `BuildArgumentTypeChecks` -/

/-- The type that the parameter loop of `BuildArgumentTypeChecks` checks
parameter `i` against: the type of the parameter variable, or in a forwarding
stub `forwarding_target->ParameterTypeAt(i)`; `none` when the forwarding
target has no such parameter. -/
def parameterTargetType (parsed_function : ParsedFunction) (i : Nat) (param : LocalVariable) :
    Option AbstractType :=
  if parsed_function.is_forwarding_stub then
    parsed_function.forwarding_stub_super_target.bind (fun t => t.parameter_types.get? i)
  else some param.type

/-- A builder step that, whenever it succeeds, changes the pending values and
nothing else of the builder. -/
def StackOnly {α : Type} (m : Build α) : Prop :=
  ∀ b a b1, m b = .ok (a, b1) → ∃ s, b1 = { b with stack_ := s }

/-- A sample non-top type, fully instantiated. -/
def witnessIntType : AbstractType :=
  { id := 5, IsDynamicType := false, IsObjectType := false, IsVoidType := false
    IsTopType := false, instantiatedCurrentClass := true, instantiatedFunctions := true }

/-- A parameter variable on the frame with the given check attributes. -/
def witnessParameter (index : Int) (needs_type_check : Bool) (type : AbstractType)
    (is_explicit_covariant_parameter : Bool) : LocalVariable :=
  { index := index, is_captured := false, owner := none, needs_type_check := needs_type_check
    type := type, is_explicit_covariant_parameter := is_explicit_covariant_parameter }

/-- A sample method with the receiver and four explicit parameters. -/
def witnessCheckedFunction : Function :=
  { plainFunction with raw := 40, name := "m", NumImplicitParameters := 1
                       num_fixed_parameters := 5, NumParameters := 5 }

/-- A builder in optimizing mode about to build the checks of
`witnessCheckedFunction`: parameter 1 needs a check against a non-top type,
parameter 2 also and is explicitly covariant, parameter 3 needs a check
against `dynamic`, parameter 4 needs none. -/
def witnessCheckedBuilder : FlowGraphBuilder :=
  { context_depth_ := 0
    stack_ := []
    pending_argument_count_ := 0
    parsed_function_ :=
      { plainParsedFunction with
        function := witnessCheckedFunction
        parameters := [witnessParameter 1 false dynamicType false,
          witnessParameter 2 true witnessIntType false,
          witnessParameter 3 true witnessIntType true,
          witnessParameter 4 true dynamicType false,
          witnessParameter 5 false witnessIntType false] }
    scopes_ := none
    active_class_ := ⟨0, 0⟩
    more_ := { loop_depth_ := 0, optimizing_ := true } }

/-- What one round of the parameter loop of `BuildArgumentTypeChecks` has
appended for parameter `i`, in a builder whose parsed function is that of `b`:
`per` lists the appends of the round, each with the output fragment it goes
to. -/
def ParameterRound (I : Isolate) (b : FlowGraphBuilder) (i : Nat)
    (per : List (CheckSink × Fragment)) : Prop :=
  ∃ param, b.parsed_function_.parameters.get? i = some param ∧
    (per ≠ [] ↔ param.needs_type_check = true ∧
      ∃ t, parameterTargetType b.parsed_function_ i param = some t ∧ t.IsTopType = false) ∧
    ∀ t, param.needs_type_check = true →
      parameterTargetType b.parsed_function_ i param = some t → t.IsTopType = false →
      ∃ check rest s b2,
        per = (if param.is_explicit_covariant_parameter then CheckSink.explicit_checks
          else CheckSink.implicit_checks, check) :: rest ∧
        Build.seq [LoadLocal param, CheckAssignable I t, Drop] { b with stack_ := s } =
          .ok (check, b2) ∧
        ∀ p ∈ rest, p.1 = CheckSink.implicit_redefinitions

/-- Whenever the step succeeds in a builder that differs from `b` in the
pending values only, its result satisfies `R`. -/
def EnsuresFrom {α : Type} (b : FlowGraphBuilder) (R : α → Prop) (m : Build α) : Prop :=
  ∀ s a b1, m { b with stack_ := s } = .ok (a, b1) → R a

/-! ### Context depth and catch block entries -/

/-- Every successful run of the step from context depth `d` ends at a context
depth satisfying `Q`. -/
def DepthPost {α : Type} (d : Int) (Q : Int → Prop) (m : Build α) : Prop :=
  ∀ b a b1, b.context_depth_ = d → m b = .ok (a, b1) → Q b1.context_depth_

/-- A builder at context depth 0 with the scopes of `witnessBuilder`. -/
def witnessShallowBuilder : FlowGraphBuilder :=
  { witnessBuilder with context_depth_ := 0 }
/-- The instructions of `LoadLocal(v)` when the context depth is `depth` and
`ctx` is the current-context variable: for a captured variable the load of the
context at the level of the owning scope and of the variable's slot, for any
other variable the frame load. -/
def loadLocalInstrs (ctx v : LocalVariable) (depth : Int) : List Instr :=
  if v.is_captured then
    match v.owner with
    | some owner =>
      contextLoadInstrs ctx depth owner.context_level ++ [.LoadNativeField (.ContextVariable v)]
    | none => []
  else [.LoadLocal v]

/-- From any builder that differs from `b` only in its pending values, a
successful run of the step returns a result satisfying `R` and changes only
the pending values. -/
def PostFrom {α : Type} (b : FlowGraphBuilder) (R : α → Prop) (m : Build α) : Prop :=
  ∀ s a b1, m { b with stack_ := s } = .ok (a, b1) → R a ∧ ∃ s1, b1 = { b with stack_ := s1 }

/-- From any builder that differs from `b` only in its pending values, a
successful run of the step returns the open fragment of the instructions `l`
and changes only the pending values. -/
@[reducible] def EmitsFrom (b : FlowGraphBuilder) (m : Build Fragment) (l : List Instr) : Prop :=
  PostFrom b (fun f => f = ⟨l, false⟩) m

/-- The instructions that restore the context of the closure into the
current-context variable `ctx`; `closure_parameter` is parameter 0 of the
function. -/
def closureContextRestoreInstrs (ctx : LocalVariable) (closure_parameter : Option LocalVariable) :
    List Instr :=
  match closure_parameter with
  | some p => [.LoadLocal p, .LoadNativeField .Closure_context, .StoreLocal ctx, .Drop]
  | none => []

/-- The instructions that store the raw variable `raw` into the context slot
of the captured variable `v` at context depth `depth`. -/
def contextStoreInstrs (ctx : LocalVariable) (depth : Int) (v raw : LocalVariable) : List Instr :=
  if v.is_captured then
    loadLocalInstrs ctx ctx depth ++ loadLocalInstrs ctx raw depth ++
      [.StoreInstanceField (.ContextVariable v)]
  else []

/-- The instructions that reinstate the saved catch context: its load, built
at context depth 0, the store into the current-context variable and the drop. -/
def catchContextRestoreInstrs (ctx catch_context : LocalVariable) : List Instr :=
  loadLocalInstrs ctx catch_context 0 ++ [.StoreLocal ctx, .Drop]
/-- A closure function. -/
def witnessClosureFunction : Function :=
  { plainFunction with raw := 40, name := "closure", IsClosureFunction := true }

/-- A captured exception variable in the context of level 1. -/
def witnessCapturedException : LocalVariable := LocalVariable.captured 10 ⟨2, 1, [10, 11]⟩

/-- A captured catch-context variable in the context of level 0. -/
def witnessCapturedCatchContext : LocalVariable := LocalVariable.captured 14 ⟨1, 0, [14]⟩

/-- A builder at context depth 2 inside the catch block of a closure function
whose exception and catch-context variables are captured. -/
def witnessCatchEntryBuilder : FlowGraphBuilder :=
  { context_depth_ := 2
    stack_ := []
    pending_argument_count_ := 0
    parsed_function_ := { plainParsedFunction with function := witnessClosureFunction
                                                   parameters := [LocalVariable.frame 1] }
    scopes_ := some { scopes := [], type_arguments_variable := none
                      exception_variables := [witnessCapturedException]
                      stack_trace_variables := [LocalVariable.frame 11]
                      raw_exception_variables := [LocalVariable.frame 12]
                      raw_stack_trace_variables := [LocalVariable.frame 13]
                      catch_context_variables := [witnessCapturedCatchContext] }
    active_class_ := ⟨0, 0⟩
    more_ := { loop_depth_ := 0, optimizing_ := false, catch_depth_ := 1 } }

/-! ### The dispatch on recognized methods -/

/-- `FlowGraphBuilder::IsRecognizedMethodForFlowGraph`; the kind is
`MethodRecognizer::RecognizeKind(function)`, and `FLAG_causal_async_stacks` is
a parameter. -/
def IsRecognizedMethodForFlowGraph (FLAG_causal_async_stacks : Bool) (function : Function) :
    Bool :=
  match function.recognized_kind with
  | .kTypedData_ByteDataView_factory | .kTypedData_Int8ArrayView_factory
  | .kTypedData_Uint8ArrayView_factory | .kTypedData_Uint8ClampedArrayView_factory
  | .kTypedData_Int16ArrayView_factory | .kTypedData_Uint16ArrayView_factory
  | .kTypedData_Int32ArrayView_factory | .kTypedData_Uint32ArrayView_factory
  | .kTypedData_Int64ArrayView_factory | .kTypedData_Uint64ArrayView_factory
  | .kTypedData_Float32ArrayView_factory | .kTypedData_Float64ArrayView_factory
  | .kTypedData_Float32x4ArrayView_factory | .kTypedData_Int32x4ArrayView_factory
  | .kTypedData_Float64x2ArrayView_factory | .kFfiLoadInt8 | .kFfiLoadInt16 | .kFfiLoadInt32
  | .kFfiLoadInt64 | .kFfiLoadUint8 | .kFfiLoadUint16 | .kFfiLoadUint32 | .kFfiLoadUint64
  | .kFfiLoadIntPtr | .kFfiLoadFloat | .kFfiLoadDouble | .kFfiLoadPointer | .kFfiStoreInt8
  | .kFfiStoreInt16 | .kFfiStoreInt32 | .kFfiStoreInt64 | .kFfiStoreUint8 | .kFfiStoreUint16
  | .kFfiStoreUint32 | .kFfiStoreUint64 | .kFfiStoreIntPtr | .kFfiStoreFloat | .kFfiStoreDouble
  | .kFfiStorePointer | .kFfiFromAddress | .kFfiGetAddress | .kObjectEquals | .kStringBaseLength
  | .kStringBaseIsEmpty | .kGrowableArrayLength | .kObjectArrayLength | .kImmutableArrayLength
  | .kTypedListLength | .kTypedListViewLength | .kByteDataViewLength
  | .kByteDataViewOffsetInBytes | .kTypedDataViewOffsetInBytes | .kByteDataViewTypedData
  | .kTypedDataViewTypedData | .kClassIDgetID | .kGrowableArrayCapacity | .kListFactory
  | .kObjectArrayAllocate | .kLinkedHashMap_getIndex | .kLinkedHashMap_setIndex
  | .kLinkedHashMap_getData | .kLinkedHashMap_setData | .kLinkedHashMap_getHashMask
  | .kLinkedHashMap_setHashMask | .kLinkedHashMap_getUsedData | .kLinkedHashMap_setUsedData
  | .kLinkedHashMap_getDeletedKeys | .kLinkedHashMap_setDeletedKeys | .kFfiAbi => true
  | .kAsyncStackTraceHelper => !FLAG_causal_async_stacks
  | _ => false

/-- The switch on the kind in `FlowGraphBuilder::BuildGraphOfRecognizedMethod`:
the case block it selects, named by the first label of the block; `none` is the
`default` block, which is `UNREACHABLE()`. -/
def recognizedMethodBlock : MethodRecognizer.Kind → Option MethodRecognizer.Kind
  | .kTypedData_ByteDataView_factory => some .kTypedData_ByteDataView_factory
  | .kTypedData_Int8ArrayView_factory => some .kTypedData_Int8ArrayView_factory
  | .kTypedData_Uint8ArrayView_factory => some .kTypedData_Uint8ArrayView_factory
  | .kTypedData_Uint8ClampedArrayView_factory => some .kTypedData_Uint8ClampedArrayView_factory
  | .kTypedData_Int16ArrayView_factory => some .kTypedData_Int16ArrayView_factory
  | .kTypedData_Uint16ArrayView_factory => some .kTypedData_Uint16ArrayView_factory
  | .kTypedData_Int32ArrayView_factory => some .kTypedData_Int32ArrayView_factory
  | .kTypedData_Uint32ArrayView_factory => some .kTypedData_Uint32ArrayView_factory
  | .kTypedData_Int64ArrayView_factory => some .kTypedData_Int64ArrayView_factory
  | .kTypedData_Uint64ArrayView_factory => some .kTypedData_Uint64ArrayView_factory
  | .kTypedData_Float32ArrayView_factory => some .kTypedData_Float32ArrayView_factory
  | .kTypedData_Float64ArrayView_factory => some .kTypedData_Float64ArrayView_factory
  | .kTypedData_Float32x4ArrayView_factory => some .kTypedData_Float32x4ArrayView_factory
  | .kTypedData_Int32x4ArrayView_factory => some .kTypedData_Int32x4ArrayView_factory
  | .kTypedData_Float64x2ArrayView_factory => some .kTypedData_Float64x2ArrayView_factory
  | .kObjectEquals => some .kObjectEquals
  | .kStringBaseLength | .kStringBaseIsEmpty => some .kStringBaseLength
  | .kGrowableArrayLength => some .kGrowableArrayLength
  | .kObjectArrayLength | .kImmutableArrayLength => some .kObjectArrayLength
  | .kTypedListLength | .kTypedListViewLength | .kByteDataViewLength => some .kTypedListLength
  | .kByteDataViewOffsetInBytes | .kTypedDataViewOffsetInBytes => some .kByteDataViewOffsetInBytes
  | .kByteDataViewTypedData | .kTypedDataViewTypedData => some .kByteDataViewTypedData
  | .kClassIDgetID => some .kClassIDgetID
  | .kGrowableArrayCapacity => some .kGrowableArrayCapacity
  | .kListFactory => some .kListFactory
  | .kObjectArrayAllocate => some .kObjectArrayAllocate
  | .kLinkedHashMap_getIndex => some .kLinkedHashMap_getIndex
  | .kLinkedHashMap_setIndex => some .kLinkedHashMap_setIndex
  | .kLinkedHashMap_getData => some .kLinkedHashMap_getData
  | .kLinkedHashMap_setData => some .kLinkedHashMap_setData
  | .kLinkedHashMap_getHashMask => some .kLinkedHashMap_getHashMask
  | .kLinkedHashMap_setHashMask => some .kLinkedHashMap_setHashMask
  | .kLinkedHashMap_getUsedData => some .kLinkedHashMap_getUsedData
  | .kLinkedHashMap_setUsedData => some .kLinkedHashMap_setUsedData
  | .kLinkedHashMap_getDeletedKeys => some .kLinkedHashMap_getDeletedKeys
  | .kLinkedHashMap_setDeletedKeys => some .kLinkedHashMap_setDeletedKeys
  | .kAsyncStackTraceHelper => some .kAsyncStackTraceHelper
  | .kFfiAbi => some .kFfiAbi
  | .kFfiLoadInt8 | .kFfiLoadInt16 | .kFfiLoadInt32 | .kFfiLoadInt64 | .kFfiLoadUint8
  | .kFfiLoadUint16 | .kFfiLoadUint32 | .kFfiLoadUint64 | .kFfiLoadIntPtr | .kFfiLoadFloat
  | .kFfiLoadDouble | .kFfiLoadPointer =>
    some .kFfiLoadInt8
  | .kFfiStoreInt8 | .kFfiStoreInt16 | .kFfiStoreInt32 | .kFfiStoreInt64 | .kFfiStoreUint8
  | .kFfiStoreUint16 | .kFfiStoreUint32 | .kFfiStoreUint64 | .kFfiStoreIntPtr | .kFfiStoreFloat
  | .kFfiStoreDouble | .kFfiStorePointer =>
    some .kFfiStoreInt8
  | .kFfiFromAddress => some .kFfiFromAddress
  | .kFfiGetAddress => some .kFfiGetAddress
  | _ => none

/-- The start of `FlowGraphBuilder::BuildGraphOfRecognizedMethod`: the entry
assertion `ASSERT(IsRecognizedMethodForFlowGraph(function))`, then the switch
on `MethodRecognizer::RecognizeKind(function)`; the result is the case block
the switch runs, `none` for the `default` block. -/
def recognizedMethodDispatch (FLAG_causal_async_stacks : Bool) (function : Function) :
    Except Failure (Option MethodRecognizer.Kind) :=
  if IsRecognizedMethodForFlowGraph FLAG_causal_async_stacks function then
    .ok (recognizedMethodBlock function.recognized_kind)
  else .error .assertion

/-! ### The two FFI argument conversions -/

/-- The conversion between two unboxed representations that both FFI argument
conversions apply: a bit cast when the representations differ, otherwise the
width extension when the type has a small representation, otherwise nothing. -/
def ffiRepresentationChange (ffi_type : FfiSignatureType) (from_rep to_rep : Representation) :
    List Instr :=
  if from_rep ≠ to_rep then [.BitCast from_rep to_rep]
  else if ffi_type.TypeSmallRepresentation = .kNoSmallRepresentation then []
  else [.UnboxedWidthExtender from_rep ffi_type.TypeSmallRepresentation]

/-- The instructions of `FfiPointerFromAddress` on top of an address above `n`
other pending values: the `Pointer` object is allocated, the address is stored
into it, and it goes through the temporary `result`. -/
def ffiPointerFromAddressInstrs (result_type : FfiSignatureType) (result : LocalVariable)
    (n : Nat) : List Instr :=
  [.Constant (.typeArguments result_type.arguments), .PushArgument,
    .AllocateObject result_type.type_class 1,
    .LoadLocal (LocalVariable.frame (-((n : Int) + 1 + 1))),
    .LoadLocal (LocalVariable.frame (-((n : Int) + 1))),
    .StoreInstanceField .Pointer_c_memory_address, .StoreLocal result, .Drop, .Drop,
    .LoadLocal result]

/-- The step of the opposite direction: boxing for unboxing and the bit cast
the other way round; a width extension is its own opposite. -/
def Instr.mirror : Instr → Instr
  | .Unbox rep => .Box rep
  | .Box rep => .Unbox rep
  | .BitCast from_rep to_rep => .BitCast to_rep from_rep
  | i => i

/-- A sample FFI type `Int8`: Dart-side representation that of `kFfiInt32Cid`,
with a small representation. -/
def witnessSmallType : FfiSignatureType :=
  ⟨false, false, .ofType .kFfiInt32Cid, .small 8, .cls 0,
    ⟨0, true, true, true, true, false, false⟩⟩

/-- A sample FFI pointer type. -/
def witnessPointerType : FfiSignatureType :=
  ⟨true, false, .ofType .kFfiPointerCid, .kNoSmallRepresentation, .pointer_class,
    ⟨0, true, true, true, true, false, false⟩⟩

/-- A sample FFI type `Void`. -/
def witnessVoidType : FfiSignatureType :=
  ⟨false, true, .ofType .kFfiInt32Cid, .kNoSmallRepresentation, .cls 0,
    ⟨0, true, true, true, true, false, false⟩⟩

/-- A sample FFI type `Float`, without a small representation. -/
def witnessFloatType : FfiSignatureType :=
  ⟨false, false, .ofType .kFfiFloatCid, .kNoSmallRepresentation, .cls 0,
    ⟨0, true, true, true, true, false, false⟩⟩

/-- The method `m` the class holds after a reload that added an optional
parameter: two fixed parameters as before, three parameters in all. -/
def witnessOptionalTarget : FunctionAttrs :=
  { plainFunction.toFunctionAttrs with raw := 13, name := "m", is_static := true
                                       num_fixed_parameters := 2, NumParameters := 3, owner := 7
                                       HasOptionalParameters := true }

/-- An isolate after a reload, whose class 7 holds `witnessOptionalTarget`. -/
def witnessIsolateOptional : Isolate :=
  { witnessIsolate with classes := [⟨7, [witnessOptionalTarget], false⟩] }

/-- The method `m` the class holds after a reload that left its parameters as
they were: a new function object with two parameters, both fixed. -/
def witnessUnchangedTarget : FunctionAttrs :=
  { plainFunction.toFunctionAttrs with raw := 14, name := "m", is_static := true
                                       num_fixed_parameters := 2, NumParameters := 2, owner := 7 }

/-- An isolate after a reload, whose class 7 holds `witnessUnchangedTarget`. -/
def witnessIsolateUnchanged : Isolate :=
  { witnessIsolate with classes := [⟨7, [witnessUnchangedTarget], false⟩] }

end KernelToIL

/-! # Type testing stubs (type_testing_stubs.cc) -/

namespace TypeTestingStubs

/-- Why a run stops without a result: a failed `ASSERT`, a use of a null
handle, an `UNREACHABLE()`, or a read past the end of a vector. -/
inductive Failure
  | assertion
  | nullDeref
  | unreachable
  | outOfBounds
  deriving DecidableEq, Repr

/-- The debug-mode `ASSERT(cond)`. -/
def ASSERT (cond : Bool) : Except Failure Unit :=
  if cond then .ok () else .error .assertion

/-- The flags every type object carries. -/
structure TypeFlags where
  IsCanonical : Bool
  IsFinalized : Bool
  IsInstantiated : Bool
  deriving DecidableEq, Repr

/-- A type object, seen through the queries made on it: its identity `raw`,
its flags, and by kind the class id of a `Type` (and whether it is a Dart
function type), the index of a `TypeParameter` (and whether it is a class
type parameter), the referent of a `TypeRef`; `other` is any other kind of
abstract type. -/
inductive AbstractType
  | type (raw : Nat) (flags : TypeFlags) (type_class_id : Nat) (IsDartFunctionType : Bool)
  | typeParameter (raw : Nat) (flags : TypeFlags) (index : Nat) (IsClassTypeParameter : Bool)
  | typeRef (raw : Nat) (flags : TypeFlags) (type : AbstractType)
  | other (raw : Nat) (flags : TypeFlags)
  deriving DecidableEq, Repr

/-- `type.IsType()`. -/
def AbstractType.IsType : AbstractType → Bool
  | .type _ _ _ _ => true
  | _ => false

/-- `type.IsTypeParameter()`. -/
def AbstractType.IsTypeParameter : AbstractType → Bool
  | .typeParameter _ _ _ _ => true
  | _ => false

/-- `type.IsTypeRef()`. -/
def AbstractType.IsTypeRef : AbstractType → Bool
  | .typeRef _ _ _ => true
  | _ => false

/-- The flags of a type object. -/
def AbstractType.flags : AbstractType → TypeFlags
  | .type _ f _ _ => f
  | .typeParameter _ f _ _ => f
  | .typeRef _ f _ => f
  | .other _ f => f

/-- `type.IsCanonical()`. -/
def AbstractType.IsCanonical (t : AbstractType) : Bool := t.flags.IsCanonical

/-- `type.IsFinalized()`. -/
def AbstractType.IsFinalized (t : AbstractType) : Bool := t.flags.IsFinalized

/-- `type.IsInstantiated()`. -/
def AbstractType.IsInstantiated (t : AbstractType) : Bool := t.flags.IsInstantiated

/-- `type.IsDartFunctionType()`. -/
def AbstractType.IsDartFunctionType : AbstractType → Bool
  | .type _ _ _ f => f
  | _ => false

/-- `Type::Cast(type).type_class_id()`; the cast of another kind of object is
a failed assertion. -/
def AbstractType.type_class_id : AbstractType → Except Failure Nat
  | .type _ _ cid _ => .ok cid
  | _ => .error .assertion

/-- A type-argument vector object: its identity, its entries and its flags. -/
structure TypeArgumentsObject where
  raw : Nat
  types : List AbstractType
  IsCanonical : Bool
  IsInstantiated : Bool
  deriving DecidableEq, Repr

/-- A `TypeArguments` handle: `none` is the null vector. -/
abbrev TypeArguments := Option TypeArgumentsObject

/-- `ta.Length()`; the null vector has length 0. -/
def TypeArguments.Length : TypeArguments → Nat
  | none => 0
  | some v => v.types.length

/-- `ta.TypeAt(i)`; a read of the null vector or past the end fails. -/
def TypeArguments.TypeAt : TypeArguments → Nat → Except Failure AbstractType
  | none, _ => .error .nullDeref
  | some v, i =>
    match v.types.get? i with
    | some t => .ok t
    | none => .error .outOfBounds

/-- What is read of a class: its id, the number of its type arguments (own
and inherited) and of its own type parameters, the own type parameters, and
further attributes. -/
structure ClassAttrs where
  id : Nat
  NumTypeArguments : Int
  NumTypeParameters : Nat
  type_parameters : TypeArguments
  is_implemented : Bool
  IsGeneric : Bool
  TypeArgumentsFieldOffset : Nat
  DeclarationType_arguments : TypeArguments
  deriving DecidableEq, Repr

/-- A class with its superclass chain, nearest first. -/
structure Class extends ClassAttrs where
  superclasses : List ClassAttrs
  deriving DecidableEq, Repr

/-- `klass.SuperClass()`; null for a class without superclass. -/
def Class.SuperClass (c : Class) : Option Class :=
  match c.superclasses with
  | [] => none
  | s :: rest => some { toClassAttrs := s, superclasses := rest }

/-- A range of class ids, both ends included. -/
structure CidRange where
  cid_start : Nat
  cid_end : Nat
  deriving DecidableEq, Repr

/-- `range.Contains(cid)`. -/
def CidRange.Contains (r : CidRange) (cid : Nat) : Bool :=
  decide (r.cid_start ≤ cid) && decide (cid ≤ r.cid_end)

/-- The class-hierarchy oracle `HierarchyInfo`, which is not among the source
files: its answers are taken as given. -/
structure HierarchyInfo where
  CanUseSubtypeRangeCheckFor : AbstractType → Bool
  CanUseGenericSubtypeRangeCheckFor : AbstractType → Bool
  SubtypeRangesForClass : Class → Bool → Bool → List CidRange
  SubclassRangesForClass : Class → List CidRange

/-- The registers of the type-testing stubs, named by their roles. -/
inductive Register
  | kInstanceReg
  | kClassIdReg
  | kInstanceTypeArgsReg
  | kInstantiatorTypeArgsReg
  | kFunctionTypeArgsReg
  | kOwnTypeArgReg
  | TMP
  deriving DecidableEq, Repr

/-- The labels declared by the stub generator: each is named by the local
variable that declares it, and the one declared anew by every call of
`BuildOptimizedTypeArgumentValueCheck` also by the offset the call is for. -/
inductive Label
  | non_smi_value
  | continue_checking
  | non_null
  | cid_range_failed
  | is_subtype
  | checks_failed
  | process_done
  | subclass_is_subtype
  | value_is_subtype (type_param_value_offset_i : Nat)
  deriving DecidableEq, Repr

/-- The fields a stub reads: the type-argument vector of an instance, an entry
of a type-argument vector, the class id of a type. -/
inductive Field
  | TypeArgumentsField
  | type_at (i : Nat)
  | type_class_id
  deriving DecidableEq, Repr

/-- Branch conditions. -/
inductive Condition
  | EQUAL
  | NOT_EQUAL
  deriving DecidableEq, Repr

/-- The assembler instructions the stub generator emits.  `CidRangesCheck`
stands for the code of `FlowGraphCompiler::GenerateCidRangesCheck`, which is
not among the source files; `JumpToSlowTypeTest` for the tail of the stub. -/
inductive Asm
  | BranchIfNotSmi (reg : Register) (label : Label)
  | BranchIfSmi (reg : Register) (label : Label)
  | Ret
  | Bind (label : Label)
  | CompareImmediate (reg : Register) (imm : Nat)
  | BranchIf (cond : Condition) (label : Label)
  | CompareObjectNull (reg : Register)
  | LoadClassIdMayBeSmi (dst src : Register)
  | LoadClassId (dst src : Register)
  | LoadField (dst base : Register) (field : Field)
  | CompareWithFieldValue (reg base : Register) (field : Field)
  | SmiUntag (reg : Register)
  | CidRangesCheck (class_id_reg : Register) (ranges : List CidRange)
      (inside_range_lbl outside_range_lbl : Label) (fall_through_if_inside : Bool)
  | JumpToSlowTypeTest
  deriving DecidableEq, Repr

/-- A code object: one of the shared stubs of `StubCode`, or the code built
for a type, with the type that owns it and its instructions. -/
inductive Code
  | TopTypeTypeTest
  | TypeRefTypeTest
  | LazySpecializeTypeTest
  | DefaultTypeTest
  | UnreachableTypeTest
  | built (owner : AbstractType) (instructions : List Asm)
  deriving DecidableEq, Repr

/-- The build configuration, the flags and the well-known objects the
generator reads; none of them is declared in the source files. -/
structure VM where
  TARGET_ARCH_IA32 : Bool
  DART_PRECOMPILED_RUNTIME : Bool
  FLAG_precompiled_mode : Bool
  StubCode_HasBeenInitialized : Bool
  ObjectType : AbstractType
  DynamicType : AbstractType
  VoidType : AbstractType
  IntType : AbstractType
  kDynamicCid : Nat
  kVoidCid : Nat
  kClosureCid : Nat
  kSmiCid : Nat
  kNullCid : Nat
  hierarchy_info : Option HierarchyInfo
  type_class : AbstractType → Option Class
  arguments : AbstractType → TypeArguments
  int_IsSubtypeOf : AbstractType → Bool

/-- The test of a character in `TypeTestingStubNamer::AssemblerSafeName`, on
its byte value. -/
def isAssemblerSafeChar (c : Nat) : Bool :=
  (decide (c ≥ 'a'.toNat) && decide (c ≤ 'z'.toNat)) ||
    (decide (c ≥ 'A'.toNat) && decide (c ≤ 'Z'.toNat)) ||
    (decide (c ≥ '0'.toNat) && decide (c ≤ '9'.toNat)) || decide (c = '_'.toNat)

/-- `TypeTestingStubNamer::AssemblerSafeName`, on the characters of the buffer
(as byte values): the loop stops at the first NUL. -/
def AssemblerSafeName : List Nat → List Nat
  | [] => []
  | c :: rest =>
    if c = 0 then c :: rest
    else (if !isAssemblerSafeChar c then '_'.toNat else c) :: AssemblerSafeName rest

/-- `TypeTestingStubGenerator::DefaultCodeForType`; `none` is `Code::null()`. -/
def DefaultCodeForType (vm : VM) (type : AbstractType) (lazy_specialize : Bool) :
    Except Failure (Option Code) :=
  if !vm.StubCode_HasBeenInitialized then do
    ASSERT type.IsType
    let cid ← type.type_class_id
    ASSERT (decide (cid = vm.kDynamicCid) || decide (cid = vm.kVoidCid))
    pure none
  else if decide (type = vm.ObjectType) || decide (type = vm.DynamicType) ||
      decide (type = vm.VoidType) then
    pure (some .TopTypeTypeTest)
  else if type.IsTypeRef then
    pure (some .TypeRefTypeTest)
  else if type.IsType || type.IsTypeParameter then
    let should_specialize := !vm.FLAG_precompiled_mode && lazy_specialize
    pure (some (if should_specialize then .LazySpecializeTypeTest else .DefaultTypeTest))
  else
    pure (some .UnreachableTypeTest)
/-- `ta.TypeAt(i)` for a signed index; a negative index is a read outside
the vector. -/
def TypeArguments.TypeAtOffset (ta : TypeArguments) (i : Int) : Except Failure AbstractType :=
  if i < 0 then .error .outOfBounds else ta.TypeAt i.toNat

/-- `TypeTestingStubGenerator::BuildOptimizedSubtypeRangeCheck`: the
instructions it emits. -/
def BuildOptimizedSubtypeRangeCheck (ranges : List CidRange) (class_id_reg instance_reg : Register)
    (smi_is_ok : Bool) : List Asm :=
  (if smi_is_ok then [.LoadClassIdMayBeSmi class_id_reg instance_reg]
   else [.BranchIfSmi instance_reg .cid_range_failed, .LoadClassId class_id_reg instance_reg]) ++
  [.CidRangesCheck class_id_reg ranges .is_subtype .cid_range_failed true,
    .Bind .is_subtype, .Ret, .Bind .cid_range_failed]

/-- `TypeTestingStubGenerator::BuildOptimizedSubclassRangeCheck`. -/
def BuildOptimizedSubclassRangeCheck (ranges : List CidRange)
    (class_id_reg instance_reg : Register) (check_failed : Label) : List Asm :=
  [.LoadClassIdMayBeSmi class_id_reg instance_reg,
    .CidRangesCheck class_id_reg ranges .subclass_is_subtype check_failed true,
    .Bind .subclass_is_subtype]

/-- `TypeTestingStubGenerator::BuildOptimizedTypeArgumentValueCheck` (the
overload with explicit registers). -/
def BuildOptimizedTypeArgumentValueCheck (vm : VM) (hi : HierarchyInfo) (type_arg : AbstractType)
    (type_param_value_offset_i : Nat)
    (class_id_reg instance_type_args_reg instantiator_type_args_reg function_type_args_reg
      own_type_arg_reg : Register) (check_failed : Label) : Except Failure (List Asm) :=
  if decide (type_arg ≠ vm.ObjectType) && decide (type_arg ≠ vm.DynamicType) then do
    let loads : List Asm :=
      [.LoadField .TMP instance_type_args_reg (.type_at type_param_value_offset_i),
        .LoadField class_id_reg .TMP .type_class_id]
    match type_arg with
    | .typeParameter _ _ index IsClassTypeParameter =>
      let kTypeArgumentsReg :=
        if IsClassTypeParameter then instantiator_type_args_reg else function_type_args_reg
      pure (loads ++
        [.LoadField own_type_arg_reg kTypeArgumentsReg (.type_at index),
          .CompareWithFieldValue class_id_reg own_type_arg_reg .type_class_id,
          .BranchIf .NOT_EQUAL check_failed])
    | _ =>
      match vm.type_class type_arg with
      | none => .error .nullDeref
      | some type_class =>
        let ranges := hi.SubtypeRangesForClass type_class true false
        pure (loads ++
          [.SmiUntag class_id_reg,
            .CidRangesCheck class_id_reg ranges (.value_is_subtype type_param_value_offset_i)
              check_failed true,
            .Bind (.value_is_subtype type_param_value_offset_i)])
  else pure []

/-- Modelled from the spec: the overload of
`BuildOptimizedTypeArgumentValueCheck` without registers, defined per
architecture, which passes the registers of the stub calling convention. -/
def BuildOptimizedTypeArgumentValueCheck_abi (vm : VM) (hi : HierarchyInfo)
    (type_arg : AbstractType) (type_param_value_offset_i : Nat) (check_failed : Label) :
    Except Failure (List Asm) :=
  BuildOptimizedTypeArgumentValueCheck vm hi type_arg type_param_value_offset_i .kClassIdReg
    .kInstanceTypeArgsReg .kInstantiatorTypeArgsReg .kFunctionTypeArgsReg
    .kOwnTypeArgReg check_failed

/-- One round of the loop over the type parameters in
`BuildOptimizedSubclassRangeCheckWithTypeArguments`. -/
def typeArgumentCheckRound (vm : VM) (hi : HierarchyInfo) (type_class : Class)
    (ta : TypeArguments) (i : Nat) : Except Failure (List Asm) := do
  let num_type_parameters := type_class.NumTypeParameters
  let num_type_arguments := type_class.NumTypeArguments
  let type_param_value_offset_i : Int := num_type_arguments - num_type_parameters + i
  let type_arg ← ta.TypeAtOffset type_param_value_offset_i
  ASSERT (type_arg.IsTypeParameter || hi.CanUseSubtypeRangeCheckFor type_arg)
  BuildOptimizedTypeArgumentValueCheck_abi vm hi type_arg type_param_value_offset_i.toNat
    .checks_failed

/-- The instructions of the rounds for the given indices, in order. -/
def typeArgumentCheckRounds (vm : VM) (hi : HierarchyInfo) (type_class : Class)
    (ta : TypeArguments) : List Nat → Except Failure (List Asm)
  | [] => pure []
  | i :: rest => do
    let a ← typeArgumentCheckRound vm hi type_class ta i
    let r ← typeArgumentCheckRounds vm hi type_class ta rest
    pure (a ++ r)

/-- `TypeTestingStubGenerator::BuildOptimizedSubclassRangeCheckWithTypeArguments`
(the overload with explicit registers); `tp` is not read. -/
def BuildOptimizedSubclassRangeCheckWithTypeArguments (vm : VM) (hi : HierarchyInfo)
    (type_class : Class) (ta : TypeArguments)
    (class_id_reg instance_reg instance_type_args_reg : Register) :
    Except Failure (List Asm) := do
  ASSERT (!type_class.is_implemented)
  let ranges := hi.SubclassRangesForClass type_class
  let subclass_check := BuildOptimizedSubclassRangeCheck ranges class_id_reg instance_reg
    .checks_failed
  let load : List Asm :=
    [.LoadField instance_type_args_reg instance_reg .TypeArgumentsField,
      .CompareObjectNull instance_type_args_reg,
      .BranchIf .NOT_EQUAL .process_done,
      .Ret,
      .Bind .process_done]
  let checks ← typeArgumentCheckRounds vm hi type_class ta
    (List.range type_class.NumTypeParameters)
  pure (subclass_check ++ load ++ checks ++ [.Ret, .Bind .checks_failed])

/-- Modelled from the spec: the overload of
`BuildOptimizedSubclassRangeCheckWithTypeArguments` without registers, defined
per architecture, which passes the registers of the stub calling convention. -/
def BuildOptimizedSubclassRangeCheckWithTypeArguments_abi (vm : VM) (hi : HierarchyInfo)
    (type_class : Class) (ta : TypeArguments) : Except Failure (List Asm) :=
  BuildOptimizedSubclassRangeCheckWithTypeArguments vm hi type_class ta .kClassIdReg
    .kInstanceReg .kInstanceTypeArgsReg

/-- The fast case for `int` or for a Dart function type at the start of
`BuildOptimizedTypeTestStubFastCases`. -/
def typeFastCase (vm : VM) (type : AbstractType) (instance_reg class_id_reg : Register) :
    List Asm :=
  if type = vm.IntType then
    [.BranchIfNotSmi instance_reg .non_smi_value, .Ret, .Bind .non_smi_value]
  else if type.IsDartFunctionType then
    [.CompareImmediate class_id_reg vm.kClosureCid, .BranchIf .NOT_EQUAL .continue_checking,
      .Ret, .Bind .continue_checking]
  else []

/-- The class-id range check in the middle of
`BuildOptimizedTypeTestStubFastCases`. -/
def cidRangeCheck (vm : VM) (hi : HierarchyInfo) (type : AbstractType) (type_class : Class)
    (instance_reg class_id_reg : Register) : Except Failure (List Asm) :=
  if hi.CanUseSubtypeRangeCheckFor type then
    let ranges := hi.SubtypeRangesForClass type_class false false
    let smi_is_ok := vm.int_IsSubtypeOf type
    pure (BuildOptimizedSubtypeRangeCheck ranges class_id_reg instance_reg smi_is_ok)
  else do
    ASSERT (hi.CanUseGenericSubtypeRangeCheckFor type)
    let num_type_parameters := type_class.NumTypeParameters
    let num_type_arguments := type_class.NumTypeArguments
    let tp := type_class.type_parameters
    ASSERT (decide (tp.Length = num_type_parameters))
    let ta := vm.arguments type
    ASSERT (decide ((ta.Length : Int) = num_type_arguments))
    BuildOptimizedSubclassRangeCheckWithTypeArguments_abi vm hi type_class ta

/-- The fast case for `null` at the end of
`BuildOptimizedTypeTestStubFastCases`. -/
def nullFastCase (instance_reg : Register) : List Asm :=
  [.CompareObjectNull instance_reg, .BranchIf .NOT_EQUAL .non_null, .Ret, .Bind .non_null]

/-- `TypeTestingStubGenerator::BuildOptimizedTypeTestStubFastCases`: the
instructions it emits, in order. -/
def BuildOptimizedTypeTestStubFastCases (vm : VM) (hi : HierarchyInfo) (type : AbstractType)
    (type_class : Class) (instance_reg class_id_reg : Register) : Except Failure (List Asm) := do
  ASSERT (!(decide (type = vm.ObjectType) || decide (type = vm.DynamicType)))
  let fast := typeFastCase vm type instance_reg class_id_reg
  let range ← cidRangeCheck vm hi type type_class instance_reg class_id_reg
  pure (fast ++ range ++ nullFastCase instance_reg)

/-- Modelled from the spec: `BuildOptimizedTypeTestStub`, defined per
architecture: the fast cases, and a jump to the slow type test for whatever
they do not decide. -/
def BuildOptimizedTypeTestStub (vm : VM) (hi : HierarchyInfo) (type : AbstractType)
    (type_class : Class) : Except Failure (List Asm) := do
  let fast ← BuildOptimizedTypeTestStubFastCases vm hi type type_class .kInstanceReg
    .kClassIdReg
  pure (fast ++ [.JumpToSlowTypeTest])

/-- `TypeTestingStubGenerator::BuildCodeForType` (it exists on targets other
than IA32 outside the precompiled runtime); `none` is `Code::null()`. -/
def BuildCodeForType (vm : VM) (type : AbstractType) : Except Failure (Option Code) :=
  match vm.hierarchy_info with
  | none => .error .assertion
  | some hi =>
    if !hi.CanUseSubtypeRangeCheckFor type && !hi.CanUseGenericSubtypeRangeCheckFor type then
      pure none
    else
      match vm.type_class type with
      | none => .error .assertion
      | some type_class => do
        let instructions ← BuildOptimizedTypeTestStub vm hi type type_class
        pure (some (.built type instructions))

/-- `TypeTestingStubGenerator::OptimizedCodeForType`. -/
def OptimizedCodeForType (vm : VM) (type : AbstractType) : Except Failure (Option Code) :=
  if !vm.TARGET_ARCH_IA32 then do
    ASSERT vm.StubCode_HasBeenInitialized
    if type.IsTypeRef then
      pure (some .TypeRefTypeTest)
    else if decide (type = vm.ObjectType) || decide (type = vm.DynamicType) then
      pure (some .TopTypeTypeTest)
    else if type.IsCanonical && type.IsType then
      if !vm.DART_PRECOMPILED_RUNTIME then do
        let code ← BuildCodeForType vm type
        if code.isSome then pure code
        else pure (some .DefaultTypeTest)
      else
        pure (some .DefaultTypeTest)
    else
      DefaultCodeForType vm type false
  else
    DefaultCodeForType vm type false

/-- The type testing stub installed on each type; `none` is `Code::null()`. -/
abbrev StubTable := AbstractType → Option Code

/-- `type.SetTypeTestingStub(code)`. -/
def SetTypeTestingStub (stubs : StubTable) (type : AbstractType) (code : Option Code) :
    StubTable :=
  fun t => if t = type then code else stubs t

/-- `TypeTestingStubGenerator::SpecializeStubFor` (it exists outside the
precompiled runtime). -/
def SpecializeStubFor (vm : VM) (type : AbstractType) (stubs : StubTable) :
    Except Failure StubTable := do
  let code ← OptimizedCodeForType vm type
  pure (SetTypeTestingStub stubs type code)

/-- Modelled from the spec: a type test against `type` runs the stub installed
on it, and the lazy-specialize stub is the one that calls `SpecializeStubFor`
for the type; every other stub leaves the installed stubs as they are. -/
def runTypeTest (vm : VM) (type : AbstractType) (stubs : StubTable) : Except Failure StubTable :=
  if stubs type = some .LazySpecializeTypeTest then SpecializeStubFor vm type stubs
  else pure stubs

/-- `DeoptimizeTypeTestingStubs` (it exists outside PRODUCT and the
precompiled runtime): each abstract type the heap iteration collected gets the
stub `DefaultCodeForType(type)` installed, with `lazy_specialize` at its
default `true`.  `types` are the collected types, in the order of the loop. -/
def DeoptimizeTypeTestingStubs (vm : VM) (types : List AbstractType) (stubs : StubTable) :
    Except Failure StubTable :=
  match types with
  | [] => pure stubs
  | type :: rest => do
    let code ← DefaultCodeForType vm type true
    DeoptimizeTypeTestingStubs vm rest (SetTypeTestingStub stubs type code)

/-- Modelled from the spec: type tests against the types of `tests`, in order,
with no other change of the installed stubs in between.  The result lists the
types whose test called `SpecializeStubFor` (one entry per call, in order) and
gives the stubs installed at the end. -/
def runTypeTests (vm : VM) (tests : List AbstractType) (stubs : StubTable) :
    Except Failure (List AbstractType × StubTable) :=
  match tests with
  | [] => pure ([], stubs)
  | type :: rest => do
    let stubs1 ← runTypeTest vm type stubs
    let (specialized, stubs2) ← runTypeTests vm rest stubs1
    pure (if stubs type = some .LazySpecializeTypeTest then (type :: specialized, stubs2)
      else (specialized, stubs2))

/-! ### Running the emitted code

The assembler and the machine are not among the source files; the meaning of
the emitted instructions is modelled from the spec. -/

/-- Modelled from the spec: a type object in memory, as far as a stub reads
it: the class id in its `type_class_id` field. -/
structure TypeObject where
  type_class_id : Nat
  deriving DecidableEq, Repr

/-- Modelled from the spec: the content of a register: null, a small integer,
an instance with its class id and its type-argument vector (`none` for the
null vector), a type-argument vector, a type object, the Smi-tagged class id
read from a type object, or an untagged class id. -/
inductive Word
  | null
  | smi (value : Int)
  | object (class_id : Nat) (type_arguments : Option (List TypeObject))
  | typeArguments (types : List TypeObject)
  | typeObject (t : TypeObject)
  | taggedClassId (cid : Nat)
  | classId (cid : Nat)
  deriving DecidableEq, Repr

/-- Modelled from the spec: the registers and the outcome of the last
comparison. -/
structure Machine where
  regs : Register → Word
  equal : Bool

/-- Writes a register. -/
def Machine.set (m : Machine) (r : Register) (w : Word) : Machine :=
  { m with regs := fun x => if x = r then w else m.regs x }

/-- Modelled from the spec: the content of a field of the object a register
points to; `none` when the object has no such field. -/
def readField : Word → Field → Option Word
  | .object _ none, .TypeArgumentsField => some .null
  | .object _ (some v), .TypeArgumentsField => some (.typeArguments v)
  | .typeArguments v, .type_at i => (v.get? i).map Word.typeObject
  | .typeObject t, .type_class_id => some (.taggedClassId t.type_class_id)
  | _, _ => none

/-- Modelled from the spec: the class id `LoadClassIdMayBeSmi` finds. -/
def classIdMayBeSmi (vm : VM) : Word → Option Nat
  | .smi _ => some vm.kSmiCid
  | .null => some vm.kNullCid
  | .object cid _ => some cid
  | _ => none

/-- Modelled from the spec: whether a class id lies in one of the ranges. -/
def inRanges (ranges : List CidRange) (cid : Nat) : Bool :=
  ranges.any (fun r => r.Contains cid)

/-- What one instruction does: go on, jump to a label, return to the caller
of the stub, leave for the slow type test, or get stuck (on a value the
instruction is not meant for). -/
inductive Step
  | next (m : Machine)
  | jump (label : Label) (m : Machine)
  | ret
  | slow
  | stuck

/-- Modelled from the spec: the meaning of one instruction.  The code for
`GenerateCidRangesCheck` continues at its first label when the class id lies
in one of the ranges and at its second label otherwise. -/
def step (vm : VM) : Asm → Machine → Step
  | .BranchIfNotSmi reg label, m =>
    match m.regs reg with
    | .smi _ => .next m
    | _ => .jump label m
  | .BranchIfSmi reg label, m =>
    match m.regs reg with
    | .smi _ => .jump label m
    | _ => .next m
  | .Ret, _ => .ret
  | .Bind _, m => .next m
  | .CompareImmediate reg imm, m =>
    match m.regs reg with
    | .classId cid => .next { m with equal := decide (cid = imm) }
    | _ => .stuck
  | .BranchIf .NOT_EQUAL label, m => if m.equal then .next m else .jump label m
  | .BranchIf .EQUAL label, m => if m.equal then .jump label m else .next m
  | .CompareObjectNull reg, m => .next { m with equal := decide (m.regs reg = .null) }
  | .LoadClassIdMayBeSmi dst src, m =>
    match classIdMayBeSmi vm (m.regs src) with
    | some cid => .next (m.set dst (.classId cid))
    | none => .stuck
  | .LoadClassId dst src, m =>
    match m.regs src with
    | .object cid _ => .next (m.set dst (.classId cid))
    | .null => .next (m.set dst (.classId vm.kNullCid))
    | _ => .stuck
  | .LoadField dst base field, m =>
    match readField (m.regs base) field with
    | some w => .next (m.set dst w)
    | none => .stuck
  | .CompareWithFieldValue reg base field, m =>
    match readField (m.regs base) field with
    | some w => .next { m with equal := decide (m.regs reg = w) }
    | none => .stuck
  | .SmiUntag reg, m =>
    match m.regs reg with
    | .taggedClassId cid => .next (m.set reg (.classId cid))
    | _ => .stuck
  | .CidRangesCheck class_id_reg ranges inside_range_lbl outside_range_lbl _, m =>
    match m.regs class_id_reg with
    | .classId cid =>
      if inRanges ranges cid then .jump inside_range_lbl m else .jump outside_range_lbl m
    | _ => .stuck
  | .JumpToSlowTypeTest, _ => .slow

/-- How a run of a piece of code ends: at its end, on the way to a label
bound further on (if any), or by a return, the slow type test, or stuck. -/
inductive Outcome
  | done (pending : Option Label) (m : Machine)
  | returned
  | slow
  | stuck

/-- Modelled from the spec: runs a piece of code in which every jump goes
forward; while a jump is pending, instructions are skipped up to the `Bind`
of its label. -/
def exec (vm : VM) : List Asm → Option Label → Machine → Outcome
  | [], pending, m => .done pending m
  | i :: rest, some l, m =>
    if i = .Bind l then exec vm rest none m else exec vm rest (some l) m
  | i :: rest, none, m =>
    match step vm i m with
    | .next m1 => exec vm rest none m1
    | .jump l m1 => exec vm rest (some l) m1
    | .ret => .returned
    | .slow => .slow
    | .stuck => .stuck

/-- `ta.IsNull()`. -/
def TypeArguments.IsNull : TypeArguments → Bool
  | none => true
  | some _ => false

/-- `ta.IsCanonical()`; the null object is canonical. -/
def TypeArguments.IsCanonical : TypeArguments → Bool
  | none => true
  | some v => v.IsCanonical

/-- `ta.IsInstantiated()`; the null vector stands for all-dynamic. -/
def TypeArguments.IsInstantiated : TypeArguments → Bool
  | none => true
  | some v => v.IsInstantiated

/-- Modelled from the spec: `set.HasKey(key)` of the hash sets of
`TypeUsageInfo`, whose keys are compared by identity. -/
def HasKey {α : Type} [DecidableEq α] (set : List α) (key : α) : Bool :=
  decide (key ∈ set)

/-- Modelled from the spec: `set.Insert(key)`; the iterators visit the keys
in the order of insertion. -/
def Insert {α : Type} (set : List α) (key : α) : List α :=
  set ++ [key]

/-- The state of `TypeUsageInfo`: the types tested against, and for each class
id the type-argument vectors recorded for the class. -/
structure TypeUsageInfo where
  assert_assignable_types_ : List AbstractType
  instance_creation_arguments_ : Nat → List TypeArguments

/-- What `TypeUsageInfo` reads of the rest of the VM: the class table (by
class id; `none` where there is no valid class), and the answers of
`finder_.FindClass` and of `TypeArgumentInstantiator::Instantiate`, which are
not among the source files. -/
structure TypeUsageEnv where
  class_table : List (Option Class)
  FindClass : TypeArguments → Option Class
  Instantiate : Class → TypeArguments → TypeArguments → Except Failure TypeArguments

/-- `class_table->NumCids()`. -/
def TypeUsageEnv.cid_count (env : TypeUsageEnv) : Nat := env.class_table.length

/-- `class_table->At(cid)` where `IsValidIndex(cid)` and `HasValidClassAt(cid)`
hold, null otherwise. -/
def TypeUsageEnv.At (env : TypeUsageEnv) (cid : Nat) : Option Class :=
  (env.class_table.get? cid).bind id

/-- `TypeUsageInfo::AddTypeToSet`. -/
def AddTypeToSet (set : List AbstractType) (type : AbstractType) : List AbstractType :=
  if !HasKey set type then Insert set type else set

/-- `TypeUsageInfo::UseTypeInAssertAssignable`. -/
def UseTypeInAssertAssignable (info : TypeUsageInfo) (type : AbstractType) : TypeUsageInfo :=
  if !HasKey info.assert_assignable_types_ type then
    { info with assert_assignable_types_ := AddTypeToSet info.assert_assignable_types_ type }
  else info

/-- The loop `for (i = 0; i < len; ++i) if (!set.HasKey(ta_i)) set.Insert(ta_i);`
over a list of vectors. -/
def insertAll (set : List TypeArguments) : List TypeArguments → List TypeArguments
  | [] => set
  | ta :: rest => insertAll (if !HasKey set ta then Insert set ta else set) rest

/-- The loop `while (klass.NumTypeArguments() > 0) { insert the vectors into
the set of klass; klass = klass.SuperClass(); }` of
`UseTypeArgumentsInInstanceCreation` (with one vector) and of
`PropagateTypeArguments` (with the delayed vectors), on a class and its
superclass chain; the query on the null class after the last superclass is a
use of a null handle. -/
def insertAlongSuperclasses (tas : List TypeArguments) :
    ClassAttrs → List ClassAttrs → (Nat → List TypeArguments) →
      Except Failure (Nat → List TypeArguments)
  | klass, [], sets =>
    if klass.NumTypeArguments > 0 then .error .nullDeref else .ok sets
  | klass, s :: rest, sets =>
    if klass.NumTypeArguments > 0 then
      insertAlongSuperclasses tas s rest
        (fun cid => if cid = klass.id then insertAll (sets klass.id) tas else sets cid)
    else .ok sets

/-- `TypeUsageInfo::UseTypeArgumentsInInstanceCreation`. -/
def UseTypeArgumentsInInstanceCreation (env : TypeUsageEnv) (klass : Class) (ta : TypeArguments)
    (info : TypeUsageInfo) : Except Failure TypeUsageInfo :=
  if ta.IsNull || ta.IsCanonical then do
    ASSERT (ta.IsNull || decide (klass.NumTypeArguments ≤ (ta.Length : Int)))
    if !ta.IsNull && !ta.IsInstantiated && (env.FindClass ta).isNone then
      pure info
    else do
      let sets ← insertAlongSuperclasses [ta] klass.toClassAttrs klass.superclasses
        info.instance_creation_arguments_
      pure { info with instance_creation_arguments_ := sets }
  else pure info

/-- The statement that adds one instantiated vector to the delayed list in
`PropagateTypeArguments`; the state is the flag
`null_in_delayed_type_argument_set` and the list. -/
def addDelayed (temp_type_arguments : TypeArguments) (state : Bool × List TypeArguments) :
    Bool × List TypeArguments :=
  if temp_type_arguments.IsNull && !state.1 then
    (true, state.2 ++ [temp_type_arguments])
  else
    (state.1, state.2 ++ [temp_type_arguments])

/-- The loop over the vectors recorded for the enclosing class in
`PropagateTypeArguments`. -/
def instantiateWithAll (env : TypeUsageEnv) (klass : Class) (type_arguments : TypeArguments) :
    List TypeArguments → Bool × List TypeArguments → Except Failure (Bool × List TypeArguments)
  | [], state => pure state
  | instantiator_type_arguments :: rest, state =>
    if instantiator_type_arguments.IsNull || instantiator_type_arguments.IsInstantiated then do
      let temp_type_arguments ← env.Instantiate klass type_arguments instantiator_type_arguments
      instantiateWithAll env klass type_arguments rest (addDelayed temp_type_arguments state)
    else instantiateWithAll env klass type_arguments rest state

/-- The loop over the vectors recorded for `klass` in `PropagateTypeArguments`,
which fills the delayed list; `sets` are the recorded vectors of all classes. -/
def collectDelayed (env : TypeUsageEnv) (klass : Class) (sets : Nat → List TypeArguments) :
    List TypeArguments → Bool × List TypeArguments → Except Failure (Bool × List TypeArguments)
  | [], state => pure state
  | type_arguments :: rest, state =>
    if !type_arguments.IsNull && !type_arguments.IsInstantiated then
      let enclosing_class := env.FindClass type_arguments
      if enclosing_class ≠ some klass then
        match enclosing_class with
        | none => .error .nullDeref
        | some enclosing => do
          let state1 ← instantiateWithAll env klass type_arguments (sets enclosing.id) state
          collectDelayed env klass sets rest state1
      else collectDelayed env klass sets rest state
    else collectDelayed env klass sets rest state

/-- The body of the loop over the class ids in `PropagateTypeArguments`. -/
def propagateClass (env : TypeUsageEnv) (cid : Nat) (info : TypeUsageInfo) :
    Except Failure TypeUsageInfo :=
  match env.At cid with
  | none => pure info
  | some klass => do
    let state ← collectDelayed env klass info.instance_creation_arguments_
      (info.instance_creation_arguments_ cid) (false, [])
    if state.2.length > 0 then do
      let sets ← insertAlongSuperclasses state.2 klass.toClassAttrs klass.superclasses
        info.instance_creation_arguments_
      pure { info with instance_creation_arguments_ := sets }
    else pure info

/-- The loop over the given class ids, in order. -/
def propagateClasses (env : TypeUsageEnv) : List Nat → TypeUsageInfo → Except Failure TypeUsageInfo
  | [], info => pure info
  | cid :: rest, info => do
    let info1 ← propagateClass env cid info
    propagateClasses env rest info1

/-- One round of `PropagateTypeArguments`: all class ids below `cid_count`. -/
def propagateRound (env : TypeUsageEnv) (info : TypeUsageInfo) : Except Failure TypeUsageInfo :=
  propagateClasses env (List.range env.cid_count) info

/-- The rounds of `PropagateTypeArguments`, counted down. -/
def propagateRounds (env : TypeUsageEnv) : Nat → TypeUsageInfo → Except Failure TypeUsageInfo
  | 0, info => pure info
  | n + 1, info => do
    let info1 ← propagateRound env info
    propagateRounds env n info1

/-- The constant `kPropgationRounds`. -/
def kPropgationRounds : Nat := 2

/-- `TypeUsageInfo::PropagateTypeArguments`. -/
def PropagateTypeArguments (env : TypeUsageEnv) (info : TypeUsageInfo) :
    Except Failure TypeUsageInfo :=
  propagateRounds env kPropgationRounds info

/-- `TypeUsageInfo::AddToSetIfParameter`. -/
def AddToSetIfParameter (set : List AbstractType) (type : AbstractType) : List AbstractType :=
  if type.IsTypeParameter then
    if !HasKey set type then Insert set type else set
  else set

/-- `TypeUsageInfo::CollectTypeParametersUsedInAssertAssignable`: the set it
fills, starting from the empty set. -/
def CollectTypeParametersUsedInAssertAssignable (info : TypeUsageInfo) : List AbstractType :=
  info.assert_assignable_types_.foldl AddToSetIfParameter []

/-- The loop over the vectors recorded for a class in
`UpdateAssertAssignableTypes`, for own type parameter `i`. -/
def useVectors (i : Nat) : List TypeArguments → TypeUsageInfo → Except Failure TypeUsageInfo
  | [], info => pure info
  | ta :: rest, info =>
    if !ta.IsNull then do
      let type ← ta.TypeAt i
      useVectors i rest (if type.IsInstantiated then UseTypeInAssertAssignable info type else info)
    else useVectors i rest info

/-- The loop over the own type parameters of a class in
`UpdateAssertAssignableTypes`. -/
def updateParameters (klass : Class) (cid : Nat) (parameters_tested_against : List AbstractType) :
    List Nat → TypeUsageInfo → Except Failure TypeUsageInfo
  | [], info => pure info
  | i :: rest, info => do
    let param ← klass.type_parameters.TypeAt i
    if HasKey parameters_tested_against param then do
      let info1 ← useVectors i (info.instance_creation_arguments_ cid) info
      updateParameters klass cid parameters_tested_against rest info1
    else updateParameters klass cid parameters_tested_against rest info

/-- The body of the loop over the class ids in `UpdateAssertAssignableTypes`. -/
def updateClass (env : TypeUsageEnv) (parameters_tested_against : List AbstractType) (cid : Nat)
    (info : TypeUsageInfo) : Except Failure TypeUsageInfo :=
  match env.At cid with
  | none => pure info
  | some klass =>
    if klass.NumTypeArguments ≤ 0 then pure info
    else
      updateParameters klass cid parameters_tested_against (List.range klass.NumTypeParameters)
        info

/-- The loop over the given class ids, in order. -/
def updateClasses (env : TypeUsageEnv) (parameters_tested_against : List AbstractType) :
    List Nat → TypeUsageInfo → Except Failure TypeUsageInfo
  | [], info => pure info
  | cid :: rest, info => do
    let info1 ← updateClass env parameters_tested_against cid info
    updateClasses env parameters_tested_against rest info1

/-- `TypeUsageInfo::UpdateAssertAssignableTypes`. -/
def UpdateAssertAssignableTypes (vm : VM) (env : TypeUsageEnv)
    (parameters_tested_against : List AbstractType) (info : TypeUsageInfo) :
    Except Failure TypeUsageInfo :=
  let info1 := UseTypeInAssertAssignable info vm.DynamicType
  let info2 := UseTypeInAssertAssignable info1 vm.ObjectType
  updateClasses env parameters_tested_against (List.range env.cid_count) info2

/-- `TypeUsageInfo::BuildTypeUsageInformation`. -/
def BuildTypeUsageInformation (vm : VM) (env : TypeUsageEnv) (info : TypeUsageInfo) :
    Except Failure TypeUsageInfo := do
  let info1 ← PropagateTypeArguments env info
  let parameters_tested_against := CollectTypeParametersUsedInAssertAssignable info1
  UpdateAssertAssignableTypes vm env parameters_tested_against info1

/-- `TypeUsageInfo::IsUsedInTypeTest`. -/
def IsUsedInTypeTest (info : TypeUsageInfo) (type : AbstractType) : Bool :=
  let dereferenced_type :=
    match type with
    | .typeRef _ _ t => t
    | t => t
  if dereferenced_type.IsFinalized then HasKey info.assert_assignable_types_ dereferenced_type
  else false

/-- The ids of a class and of the superclasses reached from it by following
`SuperClass` while the class at hand has `NumTypeArguments > 0`. -/
def reachedClasses : ClassAttrs → List ClassAttrs → List Nat
  | klass, [] => if klass.NumTypeArguments > 0 then [klass.id] else []
  | klass, s :: rest =>
    if klass.NumTypeArguments > 0 then klass.id :: reachedClasses s rest else []

/-- The superclass chain reaches a class without type arguments (as every
chain that ends in `Object` does). -/
def chainEnds : ClassAttrs → List ClassAttrs → Bool
  | klass, [] => decide (klass.NumTypeArguments ≤ 0)
  | klass, s :: rest => decide (klass.NumTypeArguments ≤ 0) || chainEnds s rest

/-- The types `UpdateAssertAssignableTypes` takes from the vectors recorded
for the class at class id `cid`: the class is valid and has type arguments,
one of its own type parameters, the one at index `i`, is among the
parameters tested against, and `t` is the instantiated entry read with
`TypeAt(i)` from a non-null vector recorded for the class. -/
def takenFrom (env : TypeUsageEnv) (sets : Nat → List TypeArguments)
    (parameters_tested_against : List AbstractType) (cid : Nat) (t : AbstractType) : Prop :=
  ∃ klass, env.At cid = some klass ∧ klass.NumTypeArguments > 0 ∧
    ∃ i, i < klass.NumTypeParameters ∧
      ∃ param, klass.type_parameters.TypeAt i = .ok param ∧ param ∈ parameters_tested_against ∧
        ∃ ta, ta ∈ sets cid ∧ ta.IsNull = false ∧ ta.TypeAt i = .ok t ∧ t.IsInstantiated = true

/-! ### Sample objects -/

/-- Flags of a canonical, finalized, instantiated type. -/
def canonicalFlags : TypeFlags := ⟨true, true, true⟩

/-- A sample `Object` type. -/
def witnessObjectType : AbstractType := .type 1 canonicalFlags 50 false

/-- A sample `dynamic` type. -/
def witnessDynamicType : AbstractType := .type 2 canonicalFlags 51 false

/-- A sample `void` type. -/
def witnessVoidType : AbstractType := .type 3 canonicalFlags 52 false

/-- A sample `int` type. -/
def witnessIntType : AbstractType := .type 4 canonicalFlags 60 false

/-- A sample `String` type. -/
def witnessStringType : AbstractType := .type 5 canonicalFlags 61 false

/-- A sample class without type arguments, with the given id. -/
def witnessPlainClass (id : Nat) : Class :=
  { id := id, NumTypeArguments := 0, NumTypeParameters := 0, type_parameters := none
    is_implemented := false, IsGeneric := false, TypeArgumentsFieldOffset := 0
    DeclarationType_arguments := none, superclasses := [] }

/-- A sample oracle: range checks only for `String`, whose class has the
subtype range 61..61. -/
def witnessHierarchyInfo : HierarchyInfo :=
  { CanUseSubtypeRangeCheckFor := fun t => decide (t = witnessStringType)
    CanUseGenericSubtypeRangeCheckFor := fun _ => false
    SubtypeRangesForClass := fun c _ _ => [⟨c.id, c.id⟩]
    SubclassRangesForClass := fun c => [⟨c.id, c.id⟩] }

/-- A sample configuration: a JIT on a target other than IA32, with stubs
initialized. -/
def witnessVM : VM :=
  { TARGET_ARCH_IA32 := false, DART_PRECOMPILED_RUNTIME := false, FLAG_precompiled_mode := false
    StubCode_HasBeenInitialized := true
    ObjectType := witnessObjectType, DynamicType := witnessDynamicType
    VoidType := witnessVoidType, IntType := witnessIntType
    kDynamicCid := 51, kVoidCid := 52, kClosureCid := 70, kSmiCid := 71, kNullCid := 72
    hierarchy_info := some witnessHierarchyInfo
    type_class := fun t =>
      match t with
      | .type _ _ cid _ => some (witnessPlainClass cid)
      | _ => none
    arguments := fun _ => none
    int_IsSubtypeOf := fun t => decide (t = witnessIntType) }

/-- Flags of a finalized type parameter. -/
def parameterFlags : TypeFlags := ⟨true, true, false⟩

/-- The type parameter `X` of the sample class `A<X>`. -/
def witnessX : AbstractType := .typeParameter 30 parameterFlags 0 true

/-- The type parameter `T` of the sample class `B<T> extends A<String>`; it is
the second entry of the type arguments of `B`. -/
def witnessT : AbstractType := .typeParameter 31 parameterFlags 1 true

/-- The type parameter `U` of the sample class `C<U>`. -/
def witnessU : AbstractType := .typeParameter 32 parameterFlags 0 true

/-- The sample class `A<X>`, id 90. -/
def witnessAClass : Class :=
  { id := 90, NumTypeArguments := 1, NumTypeParameters := 1
    type_parameters := some ⟨40, [witnessX], true, false⟩
    is_implemented := false, IsGeneric := true, TypeArgumentsFieldOffset := 8
    DeclarationType_arguments := some ⟨40, [witnessX], true, false⟩
    superclasses := [(witnessPlainClass 50).toClassAttrs] }

/-- The sample class `B<T> extends A<String>`, id 91: one own type parameter,
two type arguments. -/
def witnessBClass : Class :=
  { id := 91, NumTypeArguments := 2, NumTypeParameters := 1
    type_parameters := some ⟨41, [witnessT], true, false⟩
    is_implemented := false, IsGeneric := true, TypeArgumentsFieldOffset := 8
    DeclarationType_arguments := some ⟨43, [witnessStringType, witnessT], true, false⟩
    superclasses := [witnessAClass.toClassAttrs, (witnessPlainClass 50).toClassAttrs] }

/-- The sample class `C<U>`, id 92, in which `B<U>` is allocated. -/
def witnessCClass : Class :=
  { id := 92, NumTypeArguments := 1, NumTypeParameters := 1
    type_parameters := some ⟨45, [witnessU], true, false⟩
    is_implemented := false, IsGeneric := true, TypeArgumentsFieldOffset := 8
    DeclarationType_arguments := some ⟨45, [witnessU], true, false⟩
    superclasses := [(witnessPlainClass 50).toClassAttrs] }

/-- The vector `[String, U]` of the allocation `B<U>` inside `C<U>`. -/
def witnessVectorBU : TypeArguments := some ⟨42, [witnessStringType, witnessU], true, false⟩

/-- The vector `[int]` of the allocation `C<int>`. -/
def witnessVectorInt : TypeArguments := some ⟨44, [witnessIntType], true, true⟩

/-- The vector `[String, int]` of `B<int>`. -/
def witnessVectorStringInt : TypeArguments :=
  some ⟨46, [witnessStringType, witnessIntType], true, true⟩

/-- The vector `[String, dynamic]` of `B<dynamic>`. -/
def witnessVectorStringDynamic : TypeArguments :=
  some ⟨47, [witnessStringType, witnessDynamicType], true, true⟩

/-- A sample environment: the classes `Object` (50), `A` (90), `B` (91) and
`C` (92); `[String, U]` belongs to class `C`; instantiating it with `[int]`
gives `[String, int]`, with the null vector `[String, dynamic]`. -/
def witnessEnv : TypeUsageEnv :=
  { class_table := (List.range 93).map (fun cid =>
      if cid = 50 then some (witnessPlainClass 50)
      else if cid = 90 then some witnessAClass
      else if cid = 91 then some witnessBClass
      else if cid = 92 then some witnessCClass
      else none)
    FindClass := fun ta => if ta = witnessVectorBU then some witnessCClass else none
    Instantiate := fun _ v c =>
      if v = witnessVectorBU then
        if c = witnessVectorInt then .ok witnessVectorStringInt
        else if c = none then .ok witnessVectorStringDynamic
        else .error .unreachable
      else .ok none }

/-- A sample state: `T` is tested against; `[String, U]` is recorded for `B`
and `A`, and the null vector and `[int]` for `C`. -/
def witnessInfo : TypeUsageInfo :=
  { assert_assignable_types_ := [witnessT]
    instance_creation_arguments_ := fun cid =>
      if cid = 90 ∨ cid = 91 then [witnessVectorBU]
      else if cid = 92 then [none, witnessVectorInt]
      else [] }

/-- A sample state in which only `[String, int]` is recorded for `B` and `A`
(the allocation `B<int>`), and `T` is tested against. -/
def witnessInfoB : TypeUsageInfo :=
  { assert_assignable_types_ := [witnessT]
    instance_creation_arguments_ := fun cid =>
      if cid = 90 ∨ cid = 91 then [witnessVectorStringInt] else [] }

/-- The sample class `D<V>`, id 93. -/
def witnessDClass : Class :=
  { id := 93, NumTypeArguments := 1, NumTypeParameters := 1
    type_parameters := some ⟨60, [.typeParameter 33 parameterFlags 0 true], true, false⟩
    is_implemented := false, IsGeneric := true, TypeArgumentsFieldOffset := 8
    DeclarationType_arguments :=
      some ⟨60, [.typeParameter 33 parameterFlags 0 true], true, false⟩
    superclasses := [(witnessPlainClass 50).toClassAttrs] }

/-- The sample class `Pair<P, Q>`, id 94, in which `D<P>` is allocated. -/
def witnessPairClass : Class :=
  { id := 94, NumTypeArguments := 2, NumTypeParameters := 2
    type_parameters := some ⟨61, [.typeParameter 34 parameterFlags 0 true,
      .typeParameter 35 parameterFlags 1 true], true, false⟩
    is_implemented := false, IsGeneric := true, TypeArgumentsFieldOffset := 8
    DeclarationType_arguments := some ⟨61, [.typeParameter 34 parameterFlags 0 true,
      .typeParameter 35 parameterFlags 1 true], true, false⟩
    superclasses := [(witnessPlainClass 50).toClassAttrs] }

/-- The vector `[P]` of the allocation `D<P>` inside `Pair<P, Q>`. -/
def witnessVectorP : TypeArguments :=
  some ⟨62, [.typeParameter 34 parameterFlags 0 true], true, false⟩

/-- The vector `[dynamic, int]` of the allocation `Pair<dynamic, int>`. -/
def witnessVectorDynamicInt : TypeArguments :=
  some ⟨63, [witnessDynamicType, witnessIntType], true, true⟩

/-- A sample environment for `D` and `Pair`: `[P]` belongs to `Pair`, and its
instantiation with the null vector and with `[dynamic, int]` is `[dynamic]`,
whose canonical form is the null vector. -/
def witnessNullEnv : TypeUsageEnv :=
  { class_table := (List.range 95).map (fun cid =>
      if cid = 50 then some (witnessPlainClass 50)
      else if cid = 93 then some witnessDClass
      else if cid = 94 then some witnessPairClass
      else none)
    FindClass := fun ta => if ta = witnessVectorP then some witnessPairClass else none
    Instantiate := fun _ _ _ => .ok none }

/-- The vectors recorded in the sample for `D` (`[P]`) and for `Pair` (the
null vector and `[dynamic, int]`). -/
def witnessNullSets : Nat → List TypeArguments :=
  fun cid =>
    if cid = 93 then [witnessVectorP]
    else if cid = 94 then [none, witnessVectorDynamicInt]
    else []

end TypeTestingStubs

/-! ## Theorems -/

namespace KernelToIL

theorem Build.run_pure {α : Type} (a : α) (b : FlowGraphBuilder) :
    (pure a : Build α) b = .ok (a, b) := rfl

theorem Build.run_bind {α β : Type} (m : Build α) (f : α → Build β) (b : FlowGraphBuilder) :
    (m >>= f) b = match m b with
      | .ok (a, b1) => f a b1
      | .error e => .error e := rfl

theorem Fragment.append_def (a c : Fragment) : a ++ c = Fragment.append a c := rfl

/-- Appending a one-instruction fragment to an open, non-empty one. -/
theorem Fragment.append_open (l m : List Instr) (c : Bool) (hl : l ≠ []) (hm : m ≠ []) :
    (⟨l, false⟩ : Fragment) ++ ⟨m, c⟩ = ⟨l ++ m, c⟩ := by
  simp [Fragment.append_def, Fragment.append, hl, hm]

theorem Fragment.empty_append (f : Fragment) : Fragment.empty ++ f = f := by
  simp [Fragment.append_def, Fragment.append, Fragment.empty]

/-- The parent hops succeed whenever a value is pending, and extend an open
fragment by one parent load per hop. -/
theorem loadParents_ok (n : Nat) (l : List Instr) (hl : l ≠ []) (b : FlowGraphBuilder)
    (x : Instr) (rest : List Instr) (hs : b.stack_ = x :: rest) :
    ∃ y, loadParents n ⟨l, false⟩ b =
      .ok (⟨l ++ List.replicate n (.LoadNativeField .Context_parent), false⟩,
        { b with stack_ := y :: rest }) := by
  induction n generalizing l b x with
  | zero =>
    refine ⟨x, ?_⟩
    simp [loadParents, Build.run_pure, ← hs]
  | succ n ih =>
    obtain ⟨y, hy⟩ := ih (l ++ [.LoadNativeField .Context_parent]) (by simp)
      { b with stack_ := .LoadNativeField .Context_parent :: rest }
      (.LoadNativeField .Context_parent) rfl
    refine ⟨y, ?_⟩
    simp only [loadParents, Build.run_bind, LoadNativeField, emitDefinition, popN, Pop, hs,
      Push, Build.run_pure, Fragment.single]
    rw [Fragment.append_open l _ _ hl (by simp)]
    rw [hy]
    simp [List.replicate_succ]

/-- The context load at a depth not above the current one succeeds, pushes one
value and emits the current-context load followed by the parent hops. -/
theorem LoadContextAt_ok (b : FlowGraphBuilder) (depth : Int) (h : depth ≤ b.context_depth_) :
    ∃ y, LoadContextAt depth b =
      .ok (⟨contextLoadInstrs b.parsed_function_.current_context_var b.context_depth_ depth,
          false⟩, { b with stack_ := y :: b.stack_ }) := by
  obtain ⟨y, hy⟩ := loadParents_ok (b.context_depth_ - depth).toNat
    [.LoadLocal b.parsed_function_.current_context_var] (by simp)
    { b with stack_ := .LoadLocal b.parsed_function_.current_context_var :: b.stack_ }
    (.LoadLocal b.parsed_function_.current_context_var) b.stack_ rfl
  refine ⟨y, ?_⟩
  have h0 : decide (b.context_depth_ - depth ≥ 0) = true := by
    simp only [decide_eq_true_eq]; omega
  simp only [LoadContextAt, Build.run_bind, getBuilder, ASSERT, h0, if_true, BaseLoadLocal,
    emitDefinition, popN, Build.run_pure, Push, Fragment.single]
  rw [hy]
  simp [contextLoadInstrs]

/-- The context load above the current depth fails its assertion. -/
theorem LoadContextAt_fail (b : FlowGraphBuilder) (depth : Int) (h : b.context_depth_ < depth) :
    LoadContextAt depth b = .error .assertion := by
  have h0 : ¬ depth ≤ b.context_depth_ := by omega
  simp [LoadContextAt, Build.run_bind, getBuilder, ASSERT, h0]

/-- A successful `AdjustContextTo` below the current depth. -/
theorem AdjustContextTo_lower (b : FlowGraphBuilder) (t : Int) (h0 : 0 ≤ t)
    (h1 : t < b.context_depth_) :
    AdjustContextTo t b =
      .ok (⟨contextLoadInstrs b.parsed_function_.current_context_var b.context_depth_ t ++
          [.StoreLocal b.parsed_function_.current_context_var, .Drop], false⟩,
        { b with context_depth_ := t }) := by
  obtain ⟨y, hy⟩ := LoadContextAt_ok b t (le_of_lt h1)
  have ha : (decide (t ≤ b.context_depth_) && decide (t ≥ 0)) = true := by
    simp only [Bool.and_eq_true, decide_eq_true_eq]; omega
  simp only [AdjustContextTo, Build.run_bind, getBuilder, ASSERT, ha, if_true, h1, hy,
    Fragment.empty_append, StoreLocal, Drop, emitDefinition, emitEffect, popN, Pop, Push,
    Build.run_pure, Fragment.single, setBuilder]
  rw [Fragment.append_open _ _ _ (by simp [contextLoadInstrs]) (by simp)]
  rw [Fragment.append_open _ _ _ (by simp [contextLoadInstrs]) (by simp)]
  simp

/-- C2: `AdjustContextTo(t)` fails its assertion when `t` is above the current
context depth; at the current depth it returns the empty fragment and leaves
the builder as it was; for `0 <= t < depth` it succeeds, emits the load of the
context at depth `t`, the store into the current-context variable and a drop,
and leaves the depth at exactly `t`. -/
theorem AdjustContextTo_contract (b : FlowGraphBuilder) (t : Int) :
    (b.context_depth_ < t → AdjustContextTo t b = .error .assertion) ∧
    (t = b.context_depth_ → 0 ≤ t → AdjustContextTo t b = .ok (Fragment.empty, b)) ∧
    (0 ≤ t → t < b.context_depth_ →
      ∃ b1, AdjustContextTo t b =
        .ok (⟨contextLoadInstrs b.parsed_function_.current_context_var b.context_depth_ t ++
          [.StoreLocal b.parsed_function_.current_context_var, .Drop], false⟩, b1) ∧
        b1.context_depth_ = t ∧ b1 = { b with context_depth_ := t }) := by
  refine ⟨?_, ?_, ?_⟩
  · intro h
    have ha : (decide (t ≤ b.context_depth_) && decide (t ≥ 0)) = false := by
      simp only [Bool.and_eq_false_iff, decide_eq_false_iff_not]; omega
    simp [AdjustContextTo, Build.run_bind, getBuilder, ASSERT, ha]
  · intro h h0
    have ha : (decide (t ≤ b.context_depth_) && decide (t ≥ 0)) = true := by
      simp only [Bool.and_eq_true, decide_eq_true_eq]; omega
    have hlt : ¬ t < b.context_depth_ := by omega
    simp [AdjustContextTo, Build.run_bind, getBuilder, ASSERT, ha, hlt, Build.run_pure]
  · intro h0 h1
    exact ⟨_, AdjustContextTo_lower b t h0 h1, rfl, rfl⟩

/-- `EnterScope` succeeds on a known scope, changes only the context depth,
and hands the scope back. -/
theorem EnterScope_ok (b : FlowGraphBuilder) (r : ScopeBuildingResult) (scope : LocalScope)
    (o : Int) (hs : b.scopes_ = some r) (ho : r.Lookup o = some scope)
    (hc : b.parsed_function_.current_context_var.is_captured = false) :
    EnterScope o b =
      .ok ((if scope.num_context_variables > 0 then
            ⟨enterScopeInstrs scope b.parsed_function_.current_context_var b.stack_.length, false⟩
          else Fragment.empty, scope),
        { b with context_depth_ := depthInside scope b.context_depth_ }) := by
  obtain ⟨d, st, pa, pf, sc, ac, mo⟩ := b
  simp only at hs hc
  subst hs
  by_cases hn : scope.num_context_variables > 0
  · have hd : decide (scope.num_context_variables > 0) = true := by simpa using hn
    simp [EnterScope, lookupScope, Build.run_bind, ho, hn, PushContext,
      ASSERT, AllocateContext, emitDefinition, emitEffect, popN, Push, Pop, Build.run_pure,
      MakeTemporary, getBuilder, setBuilder, LoadLocal, BaseLoadLocal, hc, StoreInstanceField,
      StoreLocal, Drop, depthInside, Fragment.single,
      Fragment.empty, Fragment.append_def, Fragment.append, enterScopeInstrs]
  · simp [EnterScope, lookupScope, Build.run_bind, ho, hn, Build.run_pure, depthInside]

/-- `ExitScope` succeeds on a known scope when the depth inside the scope is
positive, and changes only the context depth. -/
theorem ExitScope_ok (b : FlowGraphBuilder) (r : ScopeBuildingResult) (scope : LocalScope)
    (o : Int) (d : Int) (hs : b.scopes_ = some r) (ho : r.Lookup o = some scope)
    (hd : 0 ≤ d) (hb : b.context_depth_ = depthInside scope d) :
    ExitScope o b =
      .ok (if scope.num_context_variables > 0 then
          ⟨contextLoadInstrs b.parsed_function_.current_context_var (d + 1) d ++
            [.StoreLocal b.parsed_function_.current_context_var, .Drop], false⟩
        else Fragment.empty, { b with context_depth_ := d }) := by
  by_cases hn : scope.num_context_variables > 0
  · have h1 : b.context_depth_ = d + 1 := by simpa [depthInside, hn] using hb
    have h2 := AdjustContextTo_lower b (b.context_depth_ - 1) (by omega) (by omega)
    have h3 : b.context_depth_ - 1 = d := by omega
    rw [h3] at h2
    obtain ⟨d0, st, pa, pf, sc, ac, mo⟩ := b
    simp only at hs h1 h2 h3
    subst hs h1
    simp only [ExitScope, lookupScope, Build.run_bind, ho, hn, if_true, PopContext,
      getBuilder, h3, h2, Build.run_pure, Fragment.empty_append]
  · have h1 : b.context_depth_ = d := by simpa [depthInside, hn] using hb
    obtain ⟨d0, st, pa, pf, sc, ac, mo⟩ := b
    simp only at hs h1
    subst hs h1
    simp [ExitScope, lookupScope, Build.run_bind, ho, hn, Build.run_pure]

/-- A properly paired sequence of scope entries and exits over known scopes
succeeds from any non-negative depth and gives the builder back unchanged. -/
theorem ScopeNesting_run_ok (n : ScopeNesting) :
    ∀ (b : FlowGraphBuilder) (r : ScopeBuildingResult), b.scopes_ = some r →
      (∀ k ∈ n.offsets, (r.Lookup k).isSome = true) →
      b.parsed_function_.current_context_var.is_captured = false →
      0 ≤ b.context_depth_ → n.run b = .ok ((), b) := by
  induction n with
  | done => intro b r _ _ _ _; rfl
  | scope o inner rest ihi ihr =>
    intro b r hs hk hc hd
    have ho : (r.Lookup o).isSome = true := hk o (by simp [ScopeNesting.offsets])
    obtain ⟨scope, hsc⟩ := Option.isSome_iff_exists.mp ho
    have hin : ∀ k ∈ inner.offsets, (r.Lookup k).isSome = true :=
      fun k hk1 => hk k (by simp [ScopeNesting.offsets, hk1])
    have hre : ∀ k ∈ rest.offsets, (r.Lookup k).isSome = true :=
      fun k hk1 => hk k (by simp [ScopeNesting.offsets, hk1])
    have hdi : 0 ≤ depthInside scope b.context_depth_ := by
      unfold depthInside; split <;> omega
    have e1 := EnterScope_ok b r scope o hs hsc hc
    have e2 := ihi { b with context_depth_ := depthInside scope b.context_depth_ } r hs hin hc hdi
    have e3 := ExitScope_ok { b with context_depth_ := depthInside scope b.context_depth_ }
      r scope o b.context_depth_ hs hsc hd rfl
    have e4 := ihr b r hs hre hc hd
    simp only [ScopeNesting.run, Build.run_bind, e1, e2, e3, e4]

/-- C1: from any depth `d >= 0`, `EnterScope` for a scope, any properly paired
entries and exits nested inside, and `ExitScope` for the same scope all
succeed and leave the context depth at `d`; between the two calls the depth is
`d + 1` when the scope owns a context variable and `d` otherwise. -/
theorem EnterScope_ExitScope_restores_depth (b : FlowGraphBuilder) (r : ScopeBuildingResult)
    (scope : LocalScope) (o : Int) (nested : ScopeNesting)
    (hs : b.scopes_ = some r) (ho : r.Lookup o = some scope)
    (hk : ∀ k ∈ nested.offsets, (r.Lookup k).isSome = true)
    (hc : b.parsed_function_.current_context_var.is_captured = false)
    (hd : 0 ≤ b.context_depth_) :
    ∃ f1 b1 b2 f2 b3,
      EnterScope o b = .ok ((f1, scope), b1) ∧
      nested.run b1 = .ok ((), b2) ∧
      ExitScope o b2 = .ok (f2, b3) ∧
      b1.context_depth_ =
        (if scope.num_context_variables > 0 then b.context_depth_ + 1 else b.context_depth_) ∧
      b2.context_depth_ = b1.context_depth_ ∧
      b3.context_depth_ = b.context_depth_ := by
  have hdi : 0 ≤ depthInside scope b.context_depth_ := by
    unfold depthInside; split <;> omega
  refine ⟨_, _, _, _, _, EnterScope_ok b r scope o hs ho hc,
    ScopeNesting_run_ok nested _ r hs hk hc hdi,
    ExitScope_ok _ r scope o b.context_depth_ hs ho hd rfl, ?_, rfl, rfl⟩
  simp [depthInside]

/-- C1 at a concrete builder: a scope with one context variable at offset 5,
a scope without at offset 9 nested inside, starting depth 2. -/
theorem EnterScope_ExitScope_restores_depth_witness :
    ∃ f1 b1 b2 f2 b3,
      EnterScope 5 witnessBuilder = .ok ((f1, ⟨1, 3, [7]⟩), b1) ∧
      (ScopeNesting.scope 9 (.scope 5 .done .done) .done).run b1 = .ok ((), b2) ∧
      ExitScope 5 b2 = .ok (f2, b3) ∧
      b1.context_depth_ =
        (if (⟨1, 3, [7]⟩ : LocalScope).num_context_variables > 0
          then witnessBuilder.context_depth_ + 1 else witnessBuilder.context_depth_) ∧
      b2.context_depth_ = b1.context_depth_ ∧
      b3.context_depth_ = witnessBuilder.context_depth_ :=
  EnterScope_ExitScope_restores_depth witnessBuilder witnessScopes ⟨1, 3, [7]⟩ 5
    (.scope 9 (.scope 5 .done .done) .done) rfl (by decide) (by decide) rfl (by decide)

/-- C2 at a concrete builder of depth 2: target 3 fails, target 2 is a no-op,
target 0 succeeds. -/
theorem AdjustContextTo_contract_witness :
    AdjustContextTo 3 witnessBuilder = .error .assertion ∧
    AdjustContextTo 2 witnessBuilder = .ok (Fragment.empty, witnessBuilder) ∧
    (∃ b1, AdjustContextTo 0 witnessBuilder =
        .ok (⟨contextLoadInstrs witnessBuilder.parsed_function_.current_context_var
              witnessBuilder.context_depth_ 0 ++
            [.StoreLocal witnessBuilder.parsed_function_.current_context_var, .Drop], false⟩,
          b1) ∧
        b1.context_depth_ = 0 ∧ b1 = { witnessBuilder with context_depth_ := 0 }) :=
  ⟨(AdjustContextTo_contract witnessBuilder 3).1 (by decide),
    (AdjustContextTo_contract witnessBuilder 2).2.1 rfl (by decide),
    (AdjustContextTo_contract witnessBuilder 0).2.2 (by decide) (by decide)⟩

/-- The frame load of a variable: one instruction, one pushed value. -/
theorem BaseLoadLocal_run (v : LocalVariable) (b : FlowGraphBuilder) :
    BaseLoadLocal v b = .ok (⟨[.LoadLocal v], false⟩, { b with stack_ := .LoadLocal v :: b.stack_ }) := by
  simp [BaseLoadLocal, emitDefinition, popN, Push, Build.run_bind, Build.run_pure, Fragment.single]

/-- A constant: one instruction, one pushed value. -/
theorem Constant_run (c : ConstValue) (b : FlowGraphBuilder) :
    Constant c b = .ok (⟨[.Constant c], false⟩, { b with stack_ := .Constant c :: b.stack_ }) := by
  simp [Constant, emitDefinition, popN, Push, Build.run_bind, Build.run_pure, Fragment.single]

/-- A native-field load replaces the top pending value. -/
theorem LoadNativeField_run (slot : Slot) (b : FlowGraphBuilder) (x : Instr) (rest : List Instr)
    (hs : b.stack_ = x :: rest) :
    LoadNativeField slot b =
      .ok (⟨[.LoadNativeField slot], false⟩, { b with stack_ := .LoadNativeField slot :: rest }) := by
  simp [LoadNativeField, emitDefinition, popN, Pop, hs, Push, Build.run_bind, Build.run_pure,
    Fragment.single]

/-- `LoadLocal` of a captured variable whose context level is reachable. -/
theorem LoadLocal_captured_run (v : LocalVariable) (owner : LocalScope) (b : FlowGraphBuilder)
    (hc : v.is_captured = true) (ho : v.owner = some owner)
    (hl : owner.context_level ≤ b.context_depth_) :
    LoadLocal v b =
      .ok (⟨contextLoadInstrs b.parsed_function_.current_context_var b.context_depth_
            owner.context_level ++ [.LoadNativeField (.ContextVariable v)], false⟩,
        { b with stack_ := .LoadNativeField (.ContextVariable v) :: b.stack_ }) := by
  obtain ⟨y, hy⟩ := LoadContextAt_ok b owner.context_level hl
  have h2 := LoadNativeField_run (.ContextVariable v) { b with stack_ := y :: b.stack_ } y
    b.stack_ rfl
  simp only [LoadLocal, hc, if_true, ho, Build.run_bind, hy, h2, Build.run_pure,
    Fragment.empty_append]
  rw [Fragment.append_open _ _ _ (by simp [contextLoadInstrs]) (by simp)]

/-- `LoadLocal` of a frame variable is the base load. -/
theorem LoadLocal_frame_run (v : LocalVariable) (b : FlowGraphBuilder)
    (hc : v.is_captured = false) :
    LoadLocal v b = .ok (⟨[.LoadLocal v], false⟩, { b with stack_ := .LoadLocal v :: b.stack_ }) := by
  simp [LoadLocal, hc, BaseLoadLocal_run]

/-- `LoadLocal` fails when the variable is captured at a level above the
current depth, or has no owner. -/
theorem LoadLocal_fails (v : LocalVariable) (b : FlowGraphBuilder) (hc : canLoad b v = false) :
    ∃ e, LoadLocal v b = .error e := by
  simp only [canLoad, Bool.or_eq_false_iff, Bool.not_eq_false'] at hc
  obtain ⟨h1, h2⟩ := hc
  cases ho : v.owner with
  | none => exact ⟨.nullDeref, by simp [LoadLocal, h1, ho, Build.fail]⟩
  | some owner =>
    simp only [ho, decide_eq_false_iff_not, not_le] at h2
    exact ⟨.assertion, by simp [LoadLocal, h1, ho, Build.run_bind, LoadContextAt_fail _ _ h2]⟩

/-- `LoadLocal` succeeds exactly on loadable variables and then pushes one value. -/
theorem LoadLocal_ok (v : LocalVariable) (b : FlowGraphBuilder) (hc : canLoad b v = true) :
    ∃ f top, LoadLocal v b = .ok (f, { b with stack_ := top :: b.stack_ }) ∧ f.instrs ≠ [] ∧
      f.closed = false ∧ ∀ i ∈ f.instrs, i.isInstantiateTypeArguments = false := by
  cases hcap : v.is_captured with
  | false =>
    exact ⟨_, _, LoadLocal_frame_run v b hcap, by simp, rfl, by
      simp [Instr.isInstantiateTypeArguments]⟩
  | true =>
    simp only [canLoad, hcap, Bool.not_true, Bool.false_or] at hc
    cases ho : v.owner with
    | none => simp [ho] at hc
    | some owner =>
      simp only [ho, decide_eq_true_eq] at hc
      refine ⟨_, _, LoadLocal_captured_run v owner b hcap ho hc, by simp, rfl, ?_⟩
      intro i hi
      simp only [contextLoadInstrs, List.cons_append, List.mem_cons, List.mem_append,
        List.mem_replicate, List.mem_singleton, List.not_mem_nil, or_false] at hi
      rcases hi with h | ⟨_, h⟩ | h <;> subst h <;> rfl

theorem LoadLocal_pushesOne (v : LocalVariable) : PushesOne (LoadLocal v) := by
  intro b f b1 h
  cases hc : canLoad b v with
  | false =>
    obtain ⟨e, he⟩ := LoadLocal_fails v b hc
    rw [he] at h; cases h
  | true =>
    obtain ⟨f0, top, h0, h1, h2, h3⟩ := LoadLocal_ok v b hc
    rw [h0] at h
    cases h
    exact ⟨⟨top, rfl⟩, h1, h2, h3⟩

/-- A successful sequence of two steps: both succeed. -/
theorem Build.bind_ok_inv {α β : Type} (m : Build α) (g : α → Build β) (b : FlowGraphBuilder)
    (r : β × FlowGraphBuilder) (h : (m >>= g) b = .ok r) :
    ∃ a b1, m b = .ok (a, b1) ∧ g a b1 = .ok r := by
  rw [Build.run_bind] at h
  cases hm : m b with
  | error e => rw [hm] at h; cases h
  | ok p =>
    obtain ⟨a, b1⟩ := p
    rw [hm] at h
    exact ⟨a, b1, rfl, h⟩

theorem NullConstant_pushesOne : PushesOne NullConstant := by
  intro b f b1 h
  rw [NullConstant, Constant_run] at h
  cases h
  exact ⟨⟨_, rfl⟩, by simp, rfl, by simp [Instr.isInstantiateTypeArguments]⟩

theorem LoadInstantiatorTypeArguments_pushesOne : PushesOne LoadInstantiatorTypeArguments := by
  intro b f b1 h
  unfold LoadInstantiatorTypeArguments at h
  simp only [Build.run_bind, getBuilder] at h
  cases hv : b.scopes_.bind (fun r => r.type_arguments_variable) with
  | some v =>
    simp only [hv] at h
    cases hfn : outermostNonClosure b.parsed_function_.function.toFunctionAttrs
        b.parsed_function_.function.parents with
    | none => simp [hfn, Build.fail] at h
    | some fn =>
      simp only [hfn, Build.run_bind, ASSERT] at h
      cases hfac : fn.IsFactory with
      | false => simp [hfac] at h
      | true =>
        simp only [hfac, if_true, Build.run_pure] at h
        cases hl : LoadLocal v b with
        | error e => simp [hl] at h
        | ok p =>
          obtain ⟨f0, b0⟩ := p
          simp only [hl, Fragment.empty_append] at h
          cases h
          exact LoadLocal_pushesOne v b f b1 hl
  | none =>
    simp only [hv] at h
    cases hc : (b.parsed_function_.has_receiver_var &&
        decide (b.active_class_.ClassNumTypeArguments > 0)) with
    | true =>
      simp only [hc, if_true, Build.run_bind, ASSERT] at h
      cases hfac : b.parsed_function_.function.IsFactory with
      | true => simp [hfac] at h
      | false =>
        simp only [hfac, Bool.not_false, if_true] at h
        cases hrv : b.parsed_function_.receiver_var with
        | none => simp [hrv, Build.fail] at h
        | some rv =>
          simp only [hrv, Build.run_bind] at h
          cases hl : LoadLocal rv b with
          | error e => simp [hl] at h
          | ok p =>
            obtain ⟨f0, b0⟩ := p
            obtain ⟨⟨top, ht⟩, hne, hop, hall⟩ := LoadLocal_pushesOne rv b f0 b0 hl
            subst ht
            have h2 := LoadNativeField_run (.TypeArguments (.cls b.active_class_.klass))
              { b with stack_ := top :: b.stack_ } top b.stack_ rfl
            simp only [hl, h2, Build.run_pure, Fragment.empty_append] at h
            cases h
            obtain ⟨l, c⟩ := f0
            simp only at hop hne
            subst hop
            rw [Fragment.append_open _ _ _ hne (by simp)]
            refine ⟨⟨_, rfl⟩, by simp, rfl, ?_⟩
            intro i hi
            simp only [List.mem_append, List.mem_singleton] at hi
            rcases hi with hi | hi
            · exact hall i hi
            · subst hi; rfl
    | false =>
      simp only [hc, Bool.false_eq_true, if_false, Build.run_bind, NullConstant, Constant_run,
        Build.run_pure, Fragment.empty_append] at h
      cases h
      exact ⟨⟨_, rfl⟩, by simp, rfl, by simp [Instr.isInstantiateTypeArguments]⟩

theorem LoadFunctionTypeArguments_pushesOne : PushesOne LoadFunctionTypeArguments := by
  intro b f b1 h
  unfold LoadFunctionTypeArguments at h
  simp only [Build.run_bind, getBuilder] at h
  cases hc : (b.parsed_function_.function.IsGeneric ||
      b.parsed_function_.function.HasGenericParent) with
  | true =>
    simp only [hc, if_true, Build.run_bind, ASSERT] at h
    cases hv : b.parsed_function_.function_type_arguments with
    | none => simp [hv] at h
    | some v =>
      simp only [hv, Option.isSome_some, if_true, Build.run_bind] at h
      cases hl : LoadLocal v b with
      | error e => simp [hl] at h
      | ok p =>
        obtain ⟨f0, b0⟩ := p
        simp only [hl, Build.run_pure, Fragment.empty_append] at h
        cases h
        exact LoadLocal_pushesOne v b f b1 hl
  | false =>
    simp only [hc, Bool.false_eq_true, if_false, Build.run_bind, NullConstant, Constant_run,
      Build.run_pure, Fragment.empty_append] at h
    cases h
    exact ⟨⟨_, rfl⟩, by simp, rfl, by simp [Instr.isInstantiateTypeArguments]⟩

/-- Changing the pending values does not change whether the loads are
consistent. -/
theorem typeArgumentLoadsOk_stack (b : FlowGraphBuilder) (s : List Instr) :
    typeArgumentLoadsOk { b with stack_ := s } = typeArgumentLoadsOk b := rfl

theorem LoadInstantiatorTypeArguments_ok (b : FlowGraphBuilder)
    (h : typeArgumentLoadsOk b = true) : ∃ f b1, LoadInstantiatorTypeArguments b = .ok (f, b1) := by
  unfold typeArgumentLoadsOk at h
  simp only [Bool.and_eq_true] at h
  obtain ⟨h, -⟩ := h
  unfold LoadInstantiatorTypeArguments
  simp only [Build.run_bind, getBuilder]
  cases hv : b.scopes_.bind (fun r => r.type_arguments_variable) with
  | some v =>
    simp only [hv, Bool.and_eq_true] at h ⊢
    obtain ⟨h1, h2⟩ := h
    cases hfn : outermostNonClosure b.parsed_function_.function.toFunctionAttrs
        b.parsed_function_.function.parents with
    | none => simp [hfn] at h1
    | some fn =>
      simp only [hfn] at h1
      obtain ⟨f0, top, h0, -⟩ := LoadLocal_ok v b h2
      simp only [Build.run_bind, ASSERT, h1, if_true, h0, Build.run_pure]
      exact ⟨_, _, rfl⟩
  | none =>
    simp only [hv] at h ⊢
    cases hc : (b.parsed_function_.has_receiver_var &&
        decide (b.active_class_.ClassNumTypeArguments > 0)) with
    | true =>
      simp only [hc, Bool.not_true, Bool.false_or, Bool.and_eq_true, Bool.not_eq_true'] at h
      obtain ⟨h1, h2⟩ := h
      cases hrv : b.parsed_function_.receiver_var with
      | none => simp [hrv] at h2
      | some rv =>
        simp only [hrv] at h2
        obtain ⟨f0, top, h0, -⟩ := LoadLocal_ok rv b h2
        have h3 := LoadNativeField_run (.TypeArguments (.cls b.active_class_.klass))
          { b with stack_ := top :: b.stack_ } top b.stack_ rfl
        simp only [if_true, Build.run_bind, ASSERT, h1, Bool.not_false, h0, h3, Build.run_pure]
        exact ⟨_, _, rfl⟩
    | false =>
      simp only [Bool.false_eq_true, if_false, Build.run_bind, NullConstant, Constant_run,
        Build.run_pure]
      exact ⟨_, _, rfl⟩

theorem LoadFunctionTypeArguments_ok (b : FlowGraphBuilder)
    (h : typeArgumentLoadsOk b = true) : ∃ f b1, LoadFunctionTypeArguments b = .ok (f, b1) := by
  unfold typeArgumentLoadsOk at h
  simp only [Bool.and_eq_true] at h
  obtain ⟨-, h⟩ := h
  unfold LoadFunctionTypeArguments
  simp only [Build.run_bind, getBuilder]
  cases hc : (b.parsed_function_.function.IsGeneric ||
      b.parsed_function_.function.HasGenericParent) with
  | true =>
    simp only [hc, Bool.not_true, Bool.false_or] at h
    cases hv : b.parsed_function_.function_type_arguments with
    | none => simp [hv] at h
    | some v =>
      simp only [hv] at h
      obtain ⟨f0, top, h0, -⟩ := LoadLocal_ok v b h
      simp only [if_true, Build.run_bind, ASSERT, Option.isSome_some, h0, Build.run_pure]
      exact ⟨_, _, rfl⟩
  | false =>
    simp only [Bool.false_eq_true, if_false, Build.run_bind, NullConstant, Constant_run,
      Build.run_pure]
    exact ⟨_, _, rfl⟩

theorem instantiatorOperand_pushesOne (t : TypeArguments) : PushesOne (instantiatorOperand t) := by
  unfold instantiatorOperand
  split
  · exact LoadInstantiatorTypeArguments_pushesOne
  · exact NullConstant_pushesOne

theorem functionOperand_pushesOne (t : TypeArguments) : PushesOne (functionOperand t) := by
  unfold functionOperand
  split
  · exact LoadFunctionTypeArguments_pushesOne
  · exact NullConstant_pushesOne

/-- Strategy 4 as a sequence of three steps. -/
theorem TranslateInstantiatedTypeArguments_general (t : TypeArguments) (b : FlowGraphBuilder)
    (h1 : (t.IsNull || t.IsInstantiated .kAny) = false)
    (h2 : t.CanShareInstantiatorTypeArguments = false)
    (h3 : t.CanShareFunctionTypeArguments = false) :
    TranslateInstantiatedTypeArguments t b =
      (do
        let fa ← instantiatorOperand t
        let fc ← functionOperand t
        let fi ← InstantiateTypeArguments t
        pure (fa ++ fc ++ fi) : Build Fragment) b := by
  unfold TranslateInstantiatedTypeArguments instantiatorOperand functionOperand
  simp only [h1, h2, h3, Bool.false_eq_true, if_false, Build.run_bind]
  cases hA : t.IsInstantiated .kCurrentClass <;> cases hB : t.IsInstantiated .kFunctions <;>
    simp only [Bool.not_false, Bool.not_true, if_true, Bool.false_eq_true, if_false,
      Build.run_bind, Build.run_pure, Fragment.empty_append]

/-- Strategy 4 once both operands are built: the two operand fragments, then
one `InstantiateTypeArguments`, and one pushed value. -/
theorem TranslateInstantiatedTypeArguments_instantiate (t : TypeArguments)
    (b b1 b2 : FlowGraphBuilder) (fa fc : Fragment)
    (h1 : (t.IsNull || t.IsInstantiated .kAny) = false)
    (h2 : t.CanShareInstantiatorTypeArguments = false)
    (h3 : t.CanShareFunctionTypeArguments = false)
    (ha : instantiatorOperand t b = .ok (fa, b1)) (hc : functionOperand t b1 = .ok (fc, b2)) :
    TranslateInstantiatedTypeArguments t b =
      .ok (⟨fa.instrs ++ fc.instrs ++ [.InstantiateTypeArguments t], false⟩,
        { b with stack_ := .InstantiateTypeArguments t :: b.stack_ }) ∧
    (fa.instrs ++ fc.instrs ++ [Instr.InstantiateTypeArguments t]).countP
      Instr.isInstantiateTypeArguments = 1 := by
  obtain ⟨⟨ta, hta⟩, hane, haop, haall⟩ := instantiatorOperand_pushesOne t b fa b1 ha
  obtain ⟨⟨tc, htc⟩, hcne, hcop, hcall⟩ := functionOperand_pushesOne t b1 fc b2 hc
  subst hta htc
  obtain ⟨la, ca⟩ := fa
  obtain ⟨lc, cc⟩ := fc
  simp only at haop hcop hane hcne haall hcall
  subst haop hcop
  constructor
  · rw [TranslateInstantiatedTypeArguments_general t b h1 h2 h3]
    simp only [Build.run_bind, ha, hc, InstantiateTypeArguments, emitDefinition, popN, Pop, Push,
      Build.run_pure, Fragment.single]
    rw [Fragment.append_open _ _ _ hane hcne, Fragment.append_open _ _ _ (by simp [hane]) (by simp)]
  · rw [List.countP_append, List.countP_append]
    have e1 : la.countP Instr.isInstantiateTypeArguments = 0 :=
      List.countP_eq_zero.mpr (fun i hi => by simp [haall i hi])
    have e2 : lc.countP Instr.isInstantiateTypeArguments = 0 :=
      List.countP_eq_zero.mpr (fun i hi => by simp [hcall i hi])
    rw [e1, e2]
    rfl

/-- Every successful translation pushes exactly one value and changes nothing
else in the builder. -/
theorem TranslateInstantiatedTypeArguments_pushesOne (t : TypeArguments) (b : FlowGraphBuilder)
    (f : Fragment) (b1 : FlowGraphBuilder)
    (h : TranslateInstantiatedTypeArguments t b = .ok (f, b1)) :
    ∃ top, b1 = { b with stack_ := top :: b.stack_ } := by
  cases h1 : (t.IsNull || t.IsInstantiated .kAny) with
  | true =>
    simp only [TranslateInstantiatedTypeArguments, h1, if_true, Build.run_bind, Constant_run,
      Build.run_pure] at h
    cases h
    exact ⟨_, rfl⟩
  | false =>
    cases h2 : t.CanShareInstantiatorTypeArguments with
    | true =>
      simp only [TranslateInstantiatedTypeArguments, h1, h2, if_true, Bool.false_eq_true,
        if_false, Build.run_bind] at h
      cases hl : LoadInstantiatorTypeArguments b with
      | error e => simp [hl] at h
      | ok p =>
        simp only [hl, Build.run_pure] at h
        cases h
        exact (LoadInstantiatorTypeArguments_pushesOne b p.1 p.2 hl).1
    | false =>
      cases h3 : t.CanShareFunctionTypeArguments with
      | true =>
        simp only [TranslateInstantiatedTypeArguments, h1, h2, h3, if_true, Bool.false_eq_true,
          if_false, Build.run_bind] at h
        cases hl : LoadFunctionTypeArguments b with
        | error e => simp [hl] at h
        | ok p =>
          simp only [hl, Build.run_pure] at h
          cases h
          exact (LoadFunctionTypeArguments_pushesOne b p.1 p.2 hl).1
      | false =>
        rw [TranslateInstantiatedTypeArguments_general t b h1 h2 h3] at h
        obtain ⟨fa, ba, ha, h⟩ := Build.bind_ok_inv _ _ _ _ h
        obtain ⟨fc, bc, hc, h⟩ := Build.bind_ok_inv _ _ _ _ h
        have h4 := (TranslateInstantiatedTypeArguments_instantiate t b ba bc fa fc h1 h2 h3 ha hc).1
        rw [TranslateInstantiatedTypeArguments_general t b h1 h2 h3] at h4
        simp only [Build.run_bind, ha, hc] at h4
        rw [Build.run_bind, h4] at h
        cases h
        exact ⟨_, rfl⟩

/-- The translation succeeds whenever the inputs of the two type-argument
loads are consistent. -/
theorem TranslateInstantiatedTypeArguments_ok (t : TypeArguments) (b : FlowGraphBuilder)
    (hw : typeArgumentLoadsOk b = true) :
    ∃ f b1, TranslateInstantiatedTypeArguments t b = .ok (f, b1) := by
  cases h1 : (t.IsNull || t.IsInstantiated .kAny) with
  | true =>
    simp only [TranslateInstantiatedTypeArguments, h1, if_true, Build.run_bind, Constant_run,
      Build.run_pure]
    exact ⟨_, _, rfl⟩
  | false =>
    cases h2 : t.CanShareInstantiatorTypeArguments with
    | true =>
      obtain ⟨f, b1, hl⟩ := LoadInstantiatorTypeArguments_ok b hw
      simp only [TranslateInstantiatedTypeArguments, h1, h2, if_true, Bool.false_eq_true,
        if_false, Build.run_bind, hl, Build.run_pure]
      exact ⟨_, _, rfl⟩
    | false =>
      cases h3 : t.CanShareFunctionTypeArguments with
      | true =>
        obtain ⟨f, b1, hl⟩ := LoadFunctionTypeArguments_ok b hw
        simp only [TranslateInstantiatedTypeArguments, h1, h2, h3, if_true, Bool.false_eq_true,
          if_false, Build.run_bind, hl, Build.run_pure]
        exact ⟨_, _, rfl⟩
      | false =>
        have ha : ∃ fa ba, instantiatorOperand t b = .ok (fa, ba) := by
          unfold instantiatorOperand
          split
          · exact LoadInstantiatorTypeArguments_ok b hw
          · exact ⟨_, _, Constant_run _ _⟩
        obtain ⟨fa, ba, ha⟩ := ha
        obtain ⟨⟨top, ht⟩, -⟩ := instantiatorOperand_pushesOne t b fa ba ha
        have hc : ∃ fc bc, functionOperand t ba = .ok (fc, bc) := by
          unfold functionOperand
          split
          · exact LoadFunctionTypeArguments_ok ba (by rw [ht, typeArgumentLoadsOk_stack]; exact hw)
          · exact ⟨_, _, Constant_run _ _⟩
        obtain ⟨fc, bc, hc⟩ := hc
        exact ⟨_, _, (TranslateInstantiatedTypeArguments_instantiate t b ba bc fa fc h1 h2 h3
          ha hc).1⟩

/-- C3: `TranslateInstantiatedTypeArguments` picks one strategy in priority
order: (1) null or instantiated vector, a single constant; (2) else a vector
sharing the instantiator type arguments, only `LoadInstantiatorTypeArguments`;
(3) else a vector sharing the function type arguments, only
`LoadFunctionTypeArguments`; (4) otherwise the instantiator operand (load or
null), the function operand (load or null) and exactly one
`InstantiateTypeArguments`.  Every successful translation pushes one value,
and the translation succeeds when the inputs of the loads are consistent. -/
theorem TranslateInstantiatedTypeArguments_strategies (t : TypeArguments)
    (b : FlowGraphBuilder) :
    ((t.IsNull || t.IsInstantiated .kAny) = true →
      TranslateInstantiatedTypeArguments t b =
        .ok (⟨[.Constant (.typeArguments t)], false⟩,
          { b with stack_ := .Constant (.typeArguments t) :: b.stack_ })) ∧
    ((t.IsNull || t.IsInstantiated .kAny) = false →
      t.CanShareInstantiatorTypeArguments = true →
      TranslateInstantiatedTypeArguments t b = LoadInstantiatorTypeArguments b) ∧
    ((t.IsNull || t.IsInstantiated .kAny) = false →
      t.CanShareInstantiatorTypeArguments = false → t.CanShareFunctionTypeArguments = true →
      TranslateInstantiatedTypeArguments t b = LoadFunctionTypeArguments b) ∧
    ((t.IsNull || t.IsInstantiated .kAny) = false →
      t.CanShareInstantiatorTypeArguments = false → t.CanShareFunctionTypeArguments = false →
      ∀ fa b1 fc b2,
        (if !t.IsInstantiated .kCurrentClass then LoadInstantiatorTypeArguments else NullConstant)
          b = .ok (fa, b1) →
        (if !t.IsInstantiated .kFunctions then LoadFunctionTypeArguments else NullConstant)
          b1 = .ok (fc, b2) →
        TranslateInstantiatedTypeArguments t b =
          .ok (⟨fa.instrs ++ fc.instrs ++ [.InstantiateTypeArguments t], false⟩,
            { b with stack_ := .InstantiateTypeArguments t :: b.stack_ }) ∧
        (fa.instrs ++ fc.instrs ++ [Instr.InstantiateTypeArguments t]).countP
          Instr.isInstantiateTypeArguments = 1) ∧
    (∀ f b1, TranslateInstantiatedTypeArguments t b = .ok (f, b1) →
      ∃ top, b1 = { b with stack_ := top :: b.stack_ }) ∧
    (typeArgumentLoadsOk b = true → ∃ f b1, TranslateInstantiatedTypeArguments t b = .ok (f, b1)) := by
  refine ⟨?_, ?_, ?_, ?_, ?_, ?_⟩
  · intro h1
    simp only [TranslateInstantiatedTypeArguments, h1, if_true, Build.run_bind, Constant_run,
      Build.run_pure, Fragment.empty_append]
  · intro h1 h2
    simp only [TranslateInstantiatedTypeArguments, h1, h2, if_true, Bool.false_eq_true,
      if_false, Build.run_bind, Build.run_pure, Fragment.empty_append]
    cases LoadInstantiatorTypeArguments b with
    | error e => rfl
    | ok p => rfl
  · intro h1 h2 h3
    simp only [TranslateInstantiatedTypeArguments, h1, h2, h3, if_true, Bool.false_eq_true,
      if_false, Build.run_bind, Build.run_pure, Fragment.empty_append]
    cases LoadFunctionTypeArguments b with
    | error e => rfl
    | ok p => rfl
  · intro h1 h2 h3 fa b1 fc b2 ha hc
    exact TranslateInstantiatedTypeArguments_instantiate t b b1 b2 fa fc h1 h2 h3 ha hc
  · exact TranslateInstantiatedTypeArguments_pushesOne t b
  · exact TranslateInstantiatedTypeArguments_ok t b

/-- C3 at concrete vectors: an instantiated vector gives one constant; a
vector that shares nothing gives two null operands and one instantiation. -/
theorem TranslateInstantiatedTypeArguments_strategies_witness :
    TranslateInstantiatedTypeArguments ⟨0, false, true, true, true, false, false⟩ witnessBuilder =
      .ok (⟨[.Constant (.typeArguments ⟨0, false, true, true, true, false, false⟩)], false⟩,
        { witnessBuilder with
          stack_ := .Constant (.typeArguments ⟨0, false, true, true, true, false, false⟩) ::
            witnessBuilder.stack_ }) ∧
    (TranslateInstantiatedTypeArguments witnessTypeArguments witnessGenericBuilder =
        .ok (⟨[.LoadLocal (LocalVariable.frame 1), .LoadNativeField (.TypeArguments (.cls 3)),
            .Constant .null, .InstantiateTypeArguments witnessTypeArguments], false⟩,
          { witnessGenericBuilder with
            stack_ := .InstantiateTypeArguments witnessTypeArguments ::
              witnessGenericBuilder.stack_ }) ∧
      ([Instr.LoadLocal (LocalVariable.frame 1), .LoadNativeField (.TypeArguments (.cls 3))] ++
        [Instr.Constant .null] ++ [Instr.InstantiateTypeArguments witnessTypeArguments]).countP
          Instr.isInstantiateTypeArguments = 1) :=
  ⟨(TranslateInstantiatedTypeArguments_strategies ⟨0, false, true, true, true, false, false⟩
      witnessBuilder).1 rfl,
    (TranslateInstantiatedTypeArguments_strategies witnessTypeArguments
      witnessGenericBuilder).2.2.2.1 rfl rfl rfl
      ⟨[.LoadLocal (LocalVariable.frame 1), .LoadNativeField (.TypeArguments (.cls 3))], false⟩
      { witnessGenericBuilder with stack_ := [.LoadNativeField (.TypeArguments (.cls 3))] }
      ⟨[.Constant .null], false⟩
      { witnessGenericBuilder with
        stack_ := [.Constant .null, .LoadNativeField (.TypeArguments (.cls 3))] }
      rfl rfl⟩

/-- C4: for a non-null, uninstantiated vector that can share the instantiator
type arguments of the active class, the translation is exactly
`LoadInstantiatorTypeArguments`, whether or not the vector could also share the
function type arguments; a returned fragment has no `InstantiateTypeArguments`,
and one is returned whenever the inputs of the load are consistent. -/
theorem TranslateInstantiatedTypeArguments_forwards_instantiator (t : TypeArguments)
    (b : FlowGraphBuilder) (hn : t.IsNull = false) (hi : t.IsInstantiated .kAny = false)
    (hs : t.CanShareInstantiatorTypeArguments = true) :
    TranslateInstantiatedTypeArguments t b = LoadInstantiatorTypeArguments b ∧
    (∀ f b1, TranslateInstantiatedTypeArguments t b = .ok (f, b1) → f.instantiations = 0) ∧
    (typeArgumentLoadsOk b = true →
      ∃ f b1, TranslateInstantiatedTypeArguments t b = .ok (f, b1) ∧ f.instantiations = 0) := by
  have h1 : (t.IsNull || t.IsInstantiated .kAny) = false := by simp [hn, hi]
  have he : TranslateInstantiatedTypeArguments t b = LoadInstantiatorTypeArguments b := by
    simp only [TranslateInstantiatedTypeArguments, h1, hs, if_true, Bool.false_eq_true,
      if_false, Build.run_bind, Build.run_pure, Fragment.empty_append]
    cases LoadInstantiatorTypeArguments b with
    | error e => rfl
    | ok p => rfl
  have hz : ∀ f b1, TranslateInstantiatedTypeArguments t b = .ok (f, b1) →
      f.instantiations = 0 := by
    intro f b1 h
    rw [he] at h
    obtain ⟨-, -, -, hall⟩ := LoadInstantiatorTypeArguments_pushesOne b f b1 h
    exact List.countP_eq_zero.mpr (fun i hi => by simp [hall i hi])
  refine ⟨he, hz, ?_⟩
  intro hw
  obtain ⟨f, b1, h⟩ := LoadInstantiatorTypeArguments_ok b hw
  exact ⟨f, b1, by rw [he, h], hz f b1 (by rw [he, h])⟩

/-- C4 at a concrete vector that shares both the instantiator and the
function type arguments, inside an instance method of a generic class. -/
theorem TranslateInstantiatedTypeArguments_forwards_instantiator_witness :
    TranslateInstantiatedTypeArguments witnessSharedTypeArguments witnessGenericBuilder =
      LoadInstantiatorTypeArguments witnessGenericBuilder ∧
    (∀ f b1, TranslateInstantiatedTypeArguments witnessSharedTypeArguments witnessGenericBuilder =
      .ok (f, b1) → f.instantiations = 0) ∧
    (typeArgumentLoadsOk witnessGenericBuilder = true →
      ∃ f b1, TranslateInstantiatedTypeArguments witnessSharedTypeArguments
        witnessGenericBuilder = .ok (f, b1) ∧ f.instantiations = 0) :=
  TranslateInstantiatedTypeArguments_forwards_instantiator witnessSharedTypeArguments
    witnessGenericBuilder rfl rfl rfl

/-- C5: `LoadLocal(v)` of a captured variable is the load of the context at
the context level of the owning scope followed by the load of the variable's
context slot (it succeeds when that level is not above the current depth and
fails the assertion of the context load otherwise); of a variable that is not
captured it is exactly the base builder's frame load, a single `LoadLocal`
and no context or slot load. -/
theorem LoadLocal_contract (v : LocalVariable) (b : FlowGraphBuilder) :
    (v.is_captured = true → ∀ owner, v.owner = some owner →
      LoadLocal v b =
        (LoadContextAt owner.context_level >>= fun fc =>
          LoadNativeField (.ContextVariable v) >>= fun fs => pure (fc ++ fs)) b ∧
      (owner.context_level ≤ b.context_depth_ →
        ∃ y, LoadContextAt owner.context_level b =
            .ok (⟨contextLoadInstrs b.parsed_function_.current_context_var b.context_depth_
              owner.context_level, false⟩, { b with stack_ := y :: b.stack_ }) ∧
          LoadLocal v b =
            .ok (⟨contextLoadInstrs b.parsed_function_.current_context_var b.context_depth_
                owner.context_level ++ [.LoadNativeField (.ContextVariable v)], false⟩,
              { b with stack_ := .LoadNativeField (.ContextVariable v) :: b.stack_ })) ∧
      (b.context_depth_ < owner.context_level → LoadLocal v b = .error .assertion)) ∧
    (v.is_captured = false →
      LoadLocal v b = BaseLoadLocal v b ∧
      LoadLocal v b =
        .ok (⟨[.LoadLocal v], false⟩, { b with stack_ := .LoadLocal v :: b.stack_ })) := by
  constructor
  · intro hc owner ho
    refine ⟨?_, ?_, ?_⟩
    · simp only [LoadLocal, hc, if_true, ho, Build.run_bind, Build.run_pure,
        Fragment.empty_append]
    · intro hl
      obtain ⟨y, hy⟩ := LoadContextAt_ok b owner.context_level hl
      exact ⟨y, hy, LoadLocal_captured_run v owner b hc ho hl⟩
    · intro hl
      simp [LoadLocal, hc, ho, Build.run_bind, LoadContextAt_fail _ _ hl]
  · intro hc
    exact ⟨by simp [LoadLocal, hc], LoadLocal_frame_run v b hc⟩

/-- C5 at concrete variables: a captured variable of level 1 loaded at depth
2 takes one parent hop and one slot load; a frame variable takes one load. -/
theorem LoadLocal_contract_witness :
    LoadLocal witnessCapturedVariable witnessBuilder =
      .ok (⟨[.LoadLocal (LocalVariable.frame 0), .LoadNativeField .Context_parent,
          .LoadNativeField (.ContextVariable witnessCapturedVariable)], false⟩,
        { witnessBuilder with
          stack_ := .LoadNativeField (.ContextVariable witnessCapturedVariable) ::
            witnessBuilder.stack_ }) ∧
    LoadLocal (LocalVariable.frame 6) witnessBuilder =
      .ok (⟨[.LoadLocal (LocalVariable.frame 6)], false⟩,
        { witnessBuilder with stack_ := .LoadLocal (LocalVariable.frame 6) :: witnessBuilder.stack_ }) :=
  ⟨(((LoadLocal_contract witnessCapturedVariable witnessBuilder).1 rfl ⟨1, 1, [7]⟩ rfl).2.1
      (by decide)).choose_spec.2,
    ((LoadLocal_contract (LocalVariable.frame 6) witnessBuilder).2 rfl).2⟩

/-- The address computation evaluates to `(a + i * size) mod 2^w`, whichever
pointer-width representation the element size is unboxed to. -/
theorem ffiAddressInstrs_eval (w : Nat) (locals : LocalVariable → Value)
    (p0 p1 : LocalVariable) (a i size : Int) (size_rep : Representation)
    (hr : size_rep.bits w = some w) (h0 : locals p0 = .pointer a) (h1 : locals p1 = .integer i)
    (s : List Value) :
    evalInstrs w locals (ffiAddressInstrs p0 p1 size size_rep) s =
      some (.untagged ((a + i * size) % 2 ^ w) :: s) := by
  have e : (a % 2 ^ w + i % 2 ^ w * (size % 2 ^ w) % 2 ^ w) % 2 ^ w = (a + i * size) % 2 ^ w := by
    rw [Int.add_emod, Int.emod_emod_of_dvd _ (dvd_refl _), Int.emod_emod_of_dvd _ (dvd_refl _),
      ← Int.mul_emod, ← Int.add_emod]
  have hf : Representation.bits w .kUnboxedFfiIntPtr = some w := rfl
  simp [ffiAddressInstrs, evalInstrs, evalInstr, h0, h1, hr, hf, e]

/-! ### Rewrite rules for straight-line builder code -/

theorem emitDefinition_zero (i : Instr) (d : Int) (st : List Instr) (pa : Int)
    (pf : ParsedFunction) (sc : Option ScopeBuildingResult) (ac : ActiveClass) (mo : BuilderFields) :
    emitDefinition 0 i ⟨d, st, pa, pf, sc, ac, mo⟩ = .ok (⟨[i], false⟩, ⟨d, i :: st, pa, pf, sc, ac, mo⟩) :=
  rfl

theorem emitDefinition_one (i x : Instr) (d : Int) (st : List Instr) (pa : Int)
    (pf : ParsedFunction) (sc : Option ScopeBuildingResult) (ac : ActiveClass) (mo : BuilderFields) :
    emitDefinition 1 i ⟨d, x :: st, pa, pf, sc, ac, mo⟩ =
      .ok (⟨[i], false⟩, ⟨d, i :: st, pa, pf, sc, ac, mo⟩) :=
  rfl

theorem emitDefinition_two (i x y : Instr) (d : Int) (st : List Instr) (pa : Int)
    (pf : ParsedFunction) (sc : Option ScopeBuildingResult) (ac : ActiveClass) (mo : BuilderFields) :
    emitDefinition 2 i ⟨d, x :: y :: st, pa, pf, sc, ac, mo⟩ =
      .ok (⟨[i], false⟩, ⟨d, i :: st, pa, pf, sc, ac, mo⟩) :=
  rfl

theorem emitDefinition_three (i x y z : Instr) (d : Int) (st : List Instr) (pa : Int)
    (pf : ParsedFunction) (sc : Option ScopeBuildingResult) (ac : ActiveClass) (mo : BuilderFields) :
    emitDefinition 3 i ⟨d, x :: y :: z :: st, pa, pf, sc, ac, mo⟩ =
      .ok (⟨[i], false⟩, ⟨d, i :: st, pa, pf, sc, ac, mo⟩) :=
  rfl

theorem emitEffect_one (i x : Instr) (d : Int) (st : List Instr) (pa : Int)
    (pf : ParsedFunction) (sc : Option ScopeBuildingResult) (ac : ActiveClass) (mo : BuilderFields) :
    emitEffect 1 i ⟨d, x :: st, pa, pf, sc, ac, mo⟩ = .ok (⟨[i], false⟩, ⟨d, st, pa, pf, sc, ac, mo⟩) :=
  rfl

theorem emitEffect_two (i x y : Instr) (d : Int) (st : List Instr) (pa : Int)
    (pf : ParsedFunction) (sc : Option ScopeBuildingResult) (ac : ActiveClass) (mo : BuilderFields) :
    emitEffect 2 i ⟨d, x :: y :: st, pa, pf, sc, ac, mo⟩ =
      .ok (⟨[i], false⟩, ⟨d, st, pa, pf, sc, ac, mo⟩) :=
  rfl

theorem emitEffect_three (i x y z : Instr) (d : Int) (st : List Instr) (pa : Int)
    (pf : ParsedFunction) (sc : Option ScopeBuildingResult) (ac : ActiveClass) (mo : BuilderFields) :
    emitEffect 3 i ⟨d, x :: y :: z :: st, pa, pf, sc, ac, mo⟩ =
      .ok (⟨[i], false⟩, ⟨d, st, pa, pf, sc, ac, mo⟩) :=
  rfl

theorem getBuilder_run (b : FlowGraphBuilder) : getBuilder b = .ok (b, b) := rfl

theorem ASSERT_true (b : FlowGraphBuilder) : ASSERT true b = .ok ((), b) := rfl

theorem ASSERT_false (b : FlowGraphBuilder) : ASSERT false b = .error .assertion := rfl

theorem MakeTemporary_run (x : Instr) (d : Int) (st : List Instr) (pa : Int)
    (pf : ParsedFunction) (sc : Option ScopeBuildingResult) (ac : ActiveClass) (mo : BuilderFields) :
    MakeTemporary ⟨d, x :: st, pa, pf, sc, ac, mo⟩ =
      .ok (LocalVariable.frame (-((st.length : Int) + 1)), ⟨d, x :: st, pa, pf, sc, ac, mo⟩) := by
  simp [MakeTemporary]

theorem PushArgument_run (x : Instr) (d : Int) (st : List Instr) (pa : Int)
    (pf : ParsedFunction) (sc : Option ScopeBuildingResult) (ac : ActiveClass) (mo : BuilderFields) :
    PushArgument ⟨d, x :: st, pa, pf, sc, ac, mo⟩ =
      .ok (⟨[.PushArgument], false⟩, ⟨d, .PushArgument :: st, pa + 1, pf, sc, ac, mo⟩) :=
  rfl

/-- `LoadLocal` of a frame variable, as a rewrite rule. -/
theorem LoadLocal_frame (v : LocalVariable) (hc : v.is_captured = false) (d : Int)
    (st : List Instr) (pa : Int) (pf : ParsedFunction) (sc : Option ScopeBuildingResult)
    (ac : ActiveClass) (mo : BuilderFields) :
    LoadLocal v ⟨d, st, pa, pf, sc, ac, mo⟩ =
      .ok (⟨[.LoadLocal v], false⟩, ⟨d, .LoadLocal v :: st, pa, pf, sc, ac, mo⟩) :=
  LoadLocal_frame_run v _ hc

theorem Fragment.append_cons (x y : Instr) (l m : List Instr) (c : Bool) :
    (⟨x :: l, false⟩ : Fragment) ++ ⟨y :: m, c⟩ = ⟨x :: (l ++ y :: m), c⟩ := by
  simp [Fragment.append_def, Fragment.append]

theorem Fragment.nil_append (f : Fragment) : (⟨[], false⟩ : Fragment) ++ f = f := by
  simp [Fragment.append_def, Fragment.append]

/-- The FFI load case on frame parameters: it succeeds, pushes one value, and
emits the address computation, the constant index 0, the typed-data load and
the boxing tail. -/
theorem FfiLoadCase_run (word_size : Int) (function : Function) (kind : MethodRecognizer.Kind)
    (cid : FfiTypeCid) (type_arg : FfiTypeArg) (b : FlowGraphBuilder) (p0 p1 : LocalVariable)
    (hk : RecognizedMethodTypeArgCid kind = some cid)
    (ht : function.receiver_type_arg = some type_arg) (hc : type_arg.type_class_id = cid)
    (hn : function.NumParameters = 2)
    (hp : kind = .kFfiLoadPointer → function.NumTypeParameters = 1)
    (h0 : b.parsed_function_.raw_parameters.get? 0 = some p0)
    (h1 : b.parsed_function_.raw_parameters.get? 1 = some p1)
    (c0 : p0.is_captured = false) (c1 : p1.is_captured = false)
    (hpa : 0 ≤ b.pending_argument_count_) :
    FfiLoadCase word_size function kind b =
      .ok (⟨ffiAddressInstrs p0 p1 (ElementSizeInBytes word_size cid) .kUnboxedIntPtr ++
          [.Constant (.int 0), .LoadIndexedTypedData cid] ++
          ffiLoadTail kind cid p0 b.stack_.length, false⟩,
        { b with stack_ := ffiLoadResult kind cid :: b.stack_ }) := by
  obtain ⟨d, st, pa, pf, sc, ac, mo⟩ := b
  simp only at h0 h1 hpa
  subst hc
  have ct : ∀ k : Int, (LocalVariable.frame k).is_captured = false := fun _ => rfl
  by_cases hF : kind = .kFfiLoadFloat
  · subst hF
    simp only [FfiLoadCase, hk, ht, hn, h0, h1, Build.run_bind, Build.run_pure,
      RawParameterVariable, LoadLocal_frame _ c0, LoadLocal_frame _ c1, decide_True,
      ASSERT_true, CheckNullOptimized, LoadNativeField, UnboxTruncate, IntConstant, Constant,
      BinaryIntegerOp, ConvertIntptrToUntagged, LoadIndexedTypedData, FloatToDouble, Box,
      emitDefinition_zero, emitDefinition_one, emitDefinition_two, Fragment.empty,
      Fragment.nil_append, Fragment.append_cons, true_or, if_true, ffiAddressInstrs,
      ffiLoadTail, ffiLoadResult, List.nil_append, List.cons_append]
  · by_cases hD : kind = .kFfiLoadDouble
    · subst hD
      simp only [FfiLoadCase, hk, ht, hn, h0, h1, Build.run_bind, Build.run_pure,
        RawParameterVariable, LoadLocal_frame _ c0, LoadLocal_frame _ c1, decide_True,
        ASSERT_true, CheckNullOptimized, LoadNativeField, UnboxTruncate, IntConstant, Constant,
        BinaryIntegerOp, ConvertIntptrToUntagged, LoadIndexedTypedData, FloatToDouble, Box,
        emitDefinition_zero, emitDefinition_one, emitDefinition_two, Fragment.empty,
        Fragment.nil_append, Fragment.append_cons, or_true, if_true, ffiAddressInstrs,
        ffiLoadTail, ffiLoadResult, List.nil_append, List.cons_append, reduceCtorEq, if_false,
        false_or]
    · by_cases hP : kind = .kFfiLoadPointer
      · subst hP
        have hq : function.NumTypeParameters = 1 := hp rfl
        simp only [FfiLoadCase, hk, ht, hn, hq, h0, h1, Build.run_bind, Build.run_pure,
          RawParameterVariable, LoadLocal_frame _ c0, LoadLocal_frame _ c1,
          LoadLocal_frame _ (ct _), decide_True,
          ASSERT_true, CheckNullOptimized, LoadNativeField, UnboxTruncate, IntConstant,
          Constant, BinaryIntegerOp, ConvertIntptrToUntagged, LoadIndexedTypedData, Box,
          MakeTemporary_run, PushArgument_run, AllocateObject, GetArguments, collectArguments,
          Pop, Push, getBuilder_run, setBuilder, StoreInstanceField, DropTempsPreserveTop, popN,
          emitDefinition_zero, emitDefinition_one, emitDefinition_two, emitEffect_two,
          Fragment.empty, Fragment.single,
          Fragment.nil_append, Fragment.append_cons, ffiAddressInstrs,
          ffiLoadTail, ffiLoadResult, List.nil_append, List.cons_append, reduceCtorEq, if_false,
          if_true, or_self, List.length_cons]
        simp [hpa, ASSERT, MakeTemporary, LoadLocal, BaseLoadLocal, emitDefinition, emitEffect,
          popN, Pop, Push, Build.run_bind, Build.run_pure, Fragment.single,
          Fragment.append_def, Fragment.append]
        omega
      · simp only [FfiLoadCase, hk, ht, hn, h0, h1, Build.run_bind, Build.run_pure,
          RawParameterVariable, LoadLocal_frame _ c0, LoadLocal_frame _ c1, decide_True,
          ASSERT_true, CheckNullOptimized, LoadNativeField, UnboxTruncate, IntConstant,
          Constant, BinaryIntegerOp, ConvertIntptrToUntagged, LoadIndexedTypedData, Box,
          emitDefinition_zero, emitDefinition_one, emitDefinition_two, Fragment.empty,
          Fragment.nil_append, Fragment.append_cons, ffiAddressInstrs, hF, hD, hP,
          ffiLoadTail, ffiLoadResult, List.nil_append, List.cons_append, if_false, or_self]

theorem evalInstrs_append (w : Nat) (locals : LocalVariable → Value) (l1 l2 : List Instr)
    (s : List Value) :
    evalInstrs w locals (l1 ++ l2) s = (evalInstrs w locals l1 s).bind (evalInstrs w locals l2) := by
  induction l1 generalizing s with
  | nil => simp [evalInstrs]
  | cons x rest ih =>
    simp only [List.cons_append, evalInstrs]
    cases evalInstr w locals x s with
    | none => simp
    | some s1 => simp [ih]

/-- C6: for every recognized FFI load kind, on a target with `word_size`-byte
pointers, the load case succeeds and starts with the address computation; for
pointer address `a` and index `i` that computation evaluates to
`(a + i * ElementSizeInBytes(kind)) mod 2^(8 * word_size)` (truncating multiply,
then truncating add), and the typed-data load that follows reads at constant
index 0 from that address; for `Uint8` the element size is 1 and the address is
`a + i` (modulo the pointer width, and exactly `a + i` when that fits). -/
theorem FfiLoad_address_computation (word_size : Nat) (function : Function)
    (kind : MethodRecognizer.Kind) (cid : FfiTypeCid) (type_arg : FfiTypeArg)
    (b : FlowGraphBuilder) (p0 p1 : LocalVariable) (a i : Int) (locals : LocalVariable → Value)
    (hl : isFfiLoad kind = true) (hk : RecognizedMethodTypeArgCid kind = some cid)
    (ht : function.receiver_type_arg = some type_arg) (hc : type_arg.type_class_id = cid)
    (hn : function.NumParameters = 2)
    (hp : kind = .kFfiLoadPointer → function.NumTypeParameters = 1)
    (h0 : b.parsed_function_.raw_parameters.get? 0 = some p0)
    (h1 : b.parsed_function_.raw_parameters.get? 1 = some p1)
    (c0 : p0.is_captured = false) (c1 : p1.is_captured = false)
    (hpa : 0 ≤ b.pending_argument_count_)
    (v0 : locals p0 = .pointer a) (v1 : locals p1 = .integer i) :
    isFfiLoad kind = true ∧
    (∃ tail b1, FfiLoadCase word_size function kind b =
      .ok (⟨ffiAddressInstrs p0 p1 (ElementSizeInBytes word_size cid) .kUnboxedIntPtr ++
        [.Constant (.int 0), .LoadIndexedTypedData cid] ++ tail, false⟩, b1)) ∧
    evalInstrs (8 * word_size) locals
        (ffiAddressInstrs p0 p1 (ElementSizeInBytes word_size cid) .kUnboxedIntPtr) [] =
      some [.untagged ((a + i * ElementSizeInBytes word_size cid) % 2 ^ (8 * word_size))] ∧
    evalInstrs (8 * word_size) locals
        (ffiAddressInstrs p0 p1 (ElementSizeInBytes word_size cid) .kUnboxedIntPtr ++
          [.Constant (.int 0), .LoadIndexedTypedData cid]) [] =
      some [.loaded cid ((a + i * ElementSizeInBytes word_size cid) % 2 ^ (8 * word_size)) 0] ∧
    (kind = .kFfiLoadUint8 →
      ElementSizeInBytes word_size cid = 1 ∧
      evalInstrs (8 * word_size) locals
          (ffiAddressInstrs p0 p1 (ElementSizeInBytes word_size cid) .kUnboxedIntPtr) [] =
        some [.untagged ((a + i) % 2 ^ (8 * word_size))] ∧
      (0 ≤ a + i → a + i < 2 ^ (8 * word_size) →
        evalInstrs (8 * word_size) locals
            (ffiAddressInstrs p0 p1 (ElementSizeInBytes word_size cid) .kUnboxedIntPtr) [] =
          some [.untagged (a + i)])) := by
  have hrun := FfiLoadCase_run word_size function kind cid type_arg b p0 p1 hk ht hc hn hp h0 h1
    c0 c1 hpa
  have hev := ffiAddressInstrs_eval (8 * word_size) locals p0 p1 a i
    (ElementSizeInBytes word_size cid) .kUnboxedIntPtr rfl v0 v1 []
  refine ⟨hl, ⟨_, _, hrun⟩, hev, ?_, ?_⟩
  · rw [evalInstrs_append, hev]
    simp [evalInstrs, evalInstr]
  · intro h8
    subst h8
    simp only [RecognizedMethodTypeArgCid, Option.some.injEq] at hk
    subst hk
    have hs : ElementSizeInBytes word_size .kFfiUint8Cid = 1 := rfl
    rw [hs] at hev ⊢
    rw [mul_one] at hev
    refine ⟨rfl, hev, ?_⟩
    intro hlo hhi
    rw [hev, Int.emod_eq_of_lt hlo hhi]

/-- C6 on a 64-bit target: the `Uint8` load from address 4096 at index 5
computes address 4101 and reads at index 0; the `Int32` load from the largest
64-bit address at index 1 wraps around to address 3. -/
theorem FfiLoad_address_computation_witness :
    evalInstrs 64 (witnessLocals 4096 5)
        (ffiAddressInstrs (LocalVariable.frame 1) (LocalVariable.frame 2)
          (ElementSizeInBytes 8 .kFfiUint8Cid) .kUnboxedIntPtr ++
          [.Constant (.int 0), .LoadIndexedTypedData .kFfiUint8Cid]) [] =
      some [.loaded .kFfiUint8Cid 4101 0] ∧
    evalInstrs 64 (witnessLocals (2 ^ 64 - 1) 1)
        (ffiAddressInstrs (LocalVariable.frame 1) (LocalVariable.frame 2)
          (ElementSizeInBytes 8 .kFfiInt32Cid) .kUnboxedIntPtr) [] =
      some [.untagged 3] :=
  ⟨(FfiLoad_address_computation 8 (witnessFfiFunction .kFfiLoadUint8 .kFfiUint8Cid 2)
      .kFfiLoadUint8 .kFfiUint8Cid ⟨.kFfiUint8Cid, true, false⟩
      (witnessFfiBuilder .kFfiLoadUint8 .kFfiUint8Cid 2) (LocalVariable.frame 1)
      (LocalVariable.frame 2) 4096 5 (witnessLocals 4096 5) rfl rfl rfl rfl rfl
      (by decide) rfl rfl rfl rfl (by decide) rfl rfl).2.2.2.1,
    (FfiLoad_address_computation 8 (witnessFfiFunction .kFfiLoadInt32 .kFfiInt32Cid 2)
      .kFfiLoadInt32 .kFfiInt32Cid ⟨.kFfiInt32Cid, true, false⟩
      (witnessFfiBuilder .kFfiLoadInt32 .kFfiInt32Cid 2) (LocalVariable.frame 1)
      (LocalVariable.frame 2) (2 ^ 64 - 1) 1 (witnessLocals (2 ^ 64 - 1) 1) rfl rfl rfl rfl rfl
      (by decide) rfl rfl rfl rfl (by decide) rfl rfl).2.2.1⟩

/-- The FFI store case of a kind other than the pointer store, on frame
parameters. -/
theorem FfiStoreCase_run (word_size : Int) (function : Function) (kind : MethodRecognizer.Kind)
    (cid : FfiTypeCid) (type_arg : FfiTypeArg) (b : FlowGraphBuilder) (p0 p1 p2 : LocalVariable)
    (hk : RecognizedMethodTypeArgCid kind = some cid)
    (ht : function.receiver_type_arg = some type_arg) (hc : type_arg.type_class_id = cid)
    (hn : function.NumParameters = 3) (hP : kind ≠ .kFfiStorePointer)
    (h0 : b.parsed_function_.raw_parameters.get? 0 = some p0)
    (h1 : b.parsed_function_.raw_parameters.get? 1 = some p1)
    (h2 : b.parsed_function_.raw_parameters.get? 2 = some p2)
    (c0 : p0.is_captured = false) (c1 : p1.is_captured = false) (c2 : p2.is_captured = false) :
    FfiStoreCase word_size function kind b =
      .ok (⟨ffiStoreInstrs word_size kind cid p0 p1 p2, false⟩,
        { b with stack_ := .Constant .null :: b.stack_ }) := by
  obtain ⟨d, st, pa, pf, sc, ac, mo⟩ := b
  simp only at h0 h1 h2
  subst hc
  by_cases hF : kind = .kFfiStoreFloat
  · subst hF
    simp only [FfiStoreCase, hk, ht, hn, h0, h1, h2, Build.run_bind, Build.run_pure,
      RawParameterVariable, LoadLocal_frame _ c0, LoadLocal_frame _ c1, LoadLocal_frame _ c2,
      decide_True, ASSERT_true, CheckNullOptimized, LoadNativeField, UnboxTruncate, IntConstant,
      NullConstant, Constant, BinaryIntegerOp, ConvertIntptrToUntagged, StoreIndexedTypedData,
      DoubleToFloat, emitDefinition_zero, emitDefinition_one, emitDefinition_two,
      emitEffect_three, Fragment.empty, Fragment.nil_append, Fragment.append_cons,
      ffiAddressInstrs, ffiStoreInstrs, ffiStoreValueInstrs, List.nil_append, List.cons_append,
      reduceCtorEq, if_false, if_true, true_or]
  · by_cases hD : kind = .kFfiStoreDouble
    · subst hD
      simp only [FfiStoreCase, hk, ht, hn, h0, h1, h2, Build.run_bind, Build.run_pure,
        RawParameterVariable, LoadLocal_frame _ c0, LoadLocal_frame _ c1, LoadLocal_frame _ c2,
        decide_True, ASSERT_true, CheckNullOptimized, LoadNativeField, UnboxTruncate,
        IntConstant, NullConstant, Constant, BinaryIntegerOp, ConvertIntptrToUntagged,
        StoreIndexedTypedData, DoubleToFloat, emitDefinition_zero, emitDefinition_one,
        emitDefinition_two, emitEffect_three, Fragment.empty, Fragment.nil_append,
        Fragment.append_cons, ffiAddressInstrs, ffiStoreInstrs, ffiStoreValueInstrs,
        List.nil_append, List.cons_append, reduceCtorEq, if_false, if_true, or_true, false_or]
    · simp only [FfiStoreCase, hk, ht, hn, h0, h1, h2, Build.run_bind, Build.run_pure,
        RawParameterVariable, LoadLocal_frame _ c0, LoadLocal_frame _ c1, LoadLocal_frame _ c2,
        decide_True, ASSERT_true, CheckNullOptimized, LoadNativeField, UnboxTruncate,
        IntConstant, NullConstant, Constant, BinaryIntegerOp, ConvertIntptrToUntagged,
        StoreIndexedTypedData, emitDefinition_zero, emitDefinition_one,
        emitDefinition_two, emitEffect_three, Fragment.empty, Fragment.nil_append,
        Fragment.append_cons, ffiAddressInstrs, ffiStoreInstrs, ffiStoreValueInstrs,
        List.nil_append, List.cons_append, if_false, hP, hF, hD, or_self]

/-- The FFI pointer store on frame parameters: the operands of the type check,
the `AssertAssignable` and its drop, then the store proper. -/
theorem FfiStorePointer_run (word_size : Int) (function : Function)
    (type_arg : FfiTypeArg) (b : FlowGraphBuilder) (p0 p1 p2 : LocalVariable)
    (ht : function.receiver_type_arg = some type_arg)
    (hc : type_arg.type_class_id = .kFfiPointerCid)
    (hf : type_arg.instantiatedFunctions = false) (hi : type_arg.instantiatedCurrentClass = true)
    (hn : function.NumParameters = 3)
    (h0 : b.parsed_function_.raw_parameters.get? 0 = some p0)
    (h1 : b.parsed_function_.raw_parameters.get? 1 = some p1)
    (h2 : b.parsed_function_.raw_parameters.get? 2 = some p2)
    (c0 : p0.is_captured = false) (c1 : p1.is_captured = false) (c2 : p2.is_captured = false) :
    FfiStoreCase word_size function .kFfiStorePointer b =
      .ok (⟨ffiStoreCheckOperands p0 p2 ++ [.AssertAssignable pointer_type_arg, .Drop] ++
          ffiStoreInstrs word_size .kFfiStorePointer .kFfiPointerCid p0 p1 p2, false⟩,
        { b with stack_ := .Constant .null :: b.stack_ }) := by
  obtain ⟨d, st, pa, pf, sc, ac, mo⟩ := b
  simp only at h0 h1 h2
  simp only [FfiStoreCase, RecognizedMethodTypeArgCid, ht, hc, hf, hi, hn, h0, h1, h2,
    Build.run_bind, Build.run_pure,
    RawParameterVariable, LoadLocal_frame _ c0, LoadLocal_frame _ c1, LoadLocal_frame _ c2,
    decide_True, Bool.not_false, ASSERT_true, CheckNullOptimized, LoadNativeField, UnboxTruncate,
    IntConstant, NullConstant, Constant, BinaryIntegerOp, ConvertIntptrToUntagged,
    StoreIndexedTypedData, AssertAssignable, Drop, emitDefinition_zero, emitDefinition_one,
    emitDefinition_two, emitDefinition_three, emitEffect_one, emitEffect_three, Fragment.empty,
    Fragment.nil_append, Fragment.append_cons, ffiAddressInstrs, ffiStoreInstrs,
    ffiStoreValueInstrs, ffiStoreCheckOperands, List.nil_append, List.cons_append, if_true]

/-- The instructions of an FFI store from the load of the pointer on hold no
`AssertAssignable`. -/
theorem ffiStoreInstrs_no_AssertAssignable (word_size : Int) (kind : MethodRecognizer.Kind)
    (cid : FfiTypeCid) (p0 p1 p2 : LocalVariable) :
    ∀ x ∈ ffiStoreInstrs word_size kind cid p0 p1 p2, x.isAssertAssignable = false := by
  intro x hx
  simp only [ffiStoreInstrs, ffiAddressInstrs, ffiStoreValueInstrs, List.mem_append,
    List.mem_cons, List.mem_singleton, List.not_mem_nil, or_false] at hx
  rcases hx with ((h | h) | h) | h
  · rcases h with h | h | h | h | h | h | h | h | h | h | h | h <;> subst h <;> rfl
  · rcases h with h | h | h <;> subst h <;> rfl
  · split at h
    · simp only [List.mem_singleton] at h; subst h; rfl
    · split at h
      · simp only [List.mem_cons, List.mem_singleton, List.not_mem_nil, or_false] at h
        rcases h with h | h <;> subst h <;> rfl
      · split at h <;> (simp only [List.mem_singleton] at h; subst h; rfl)
  · rcases h with h | h <;> subst h <;> rfl

/-- C7: in the instructions of `kFfiStorePointer` the `AssertAssignable` of the
stored value and the drop of its result come after operands none of which
produces an unboxed or untagged value, and before every `UnboxTruncate` and
`ConvertIntptrToUntagged`, which all lie in the part after the drop, where no
further `AssertAssignable` occurs; for every other FFI store kind no
`AssertAssignable` is emitted at all. -/
theorem FfiStore_type_check_order (word_size : Int) (function : Function)
    (kind : MethodRecognizer.Kind) (cid : FfiTypeCid) (type_arg : FfiTypeArg)
    (b : FlowGraphBuilder) (p0 p1 p2 : LocalVariable)
    (hs : isFfiStore kind = true) (hk : RecognizedMethodTypeArgCid kind = some cid)
    (ht : function.receiver_type_arg = some type_arg) (hc : type_arg.type_class_id = cid)
    (hn : function.NumParameters = 3)
    (h0 : b.parsed_function_.raw_parameters.get? 0 = some p0)
    (h1 : b.parsed_function_.raw_parameters.get? 1 = some p1)
    (h2 : b.parsed_function_.raw_parameters.get? 2 = some p2)
    (c0 : p0.is_captured = false) (c1 : p1.is_captured = false) (c2 : p2.is_captured = false) :
    isFfiStore kind = true ∧
    (kind = .kFfiStorePointer → type_arg.instantiatedFunctions = false →
      type_arg.instantiatedCurrentClass = true →
      ∃ b1, FfiStoreCase word_size function kind b =
          .ok (⟨ffiStoreCheckOperands p0 p2 ++ [.AssertAssignable pointer_type_arg, .Drop] ++
            ffiStoreInstrs word_size kind cid p0 p1 p2, false⟩, b1) ∧
        (∀ x ∈ ffiStoreCheckOperands p0 p2, x.producesUnboxedOrUntagged = false) ∧
        (∀ x ∈ ffiStoreInstrs word_size kind cid p0 p1 p2, x.isAssertAssignable = false) ∧
        Instr.Unbox .kUnboxedFfiIntPtr ∈ ffiStoreInstrs word_size kind cid p0 p1 p2 ∧
        Instr.ConvertIntptrToUntagged ∈ ffiStoreInstrs word_size kind cid p0 p1 p2) ∧
    (kind ≠ .kFfiStorePointer →
      ∃ f b1, FfiStoreCase word_size function kind b = .ok (f, b1) ∧
        ∀ x ∈ f.instrs, x.isAssertAssignable = false) := by
  refine ⟨hs, ?_, ?_⟩
  · intro hP hf hi
    subst hP
    simp only [RecognizedMethodTypeArgCid, Option.some.injEq] at hk
    subst hk
    refine ⟨_, FfiStorePointer_run word_size function type_arg b p0 p1 p2 ht hc hf hi hn h0 h1 h2
      c0 c1 c2, ?_, ffiStoreInstrs_no_AssertAssignable _ _ _ _ _ _, ?_, ?_⟩
    · intro x hx
      simp only [ffiStoreCheckOperands, List.mem_cons, List.mem_singleton, List.not_mem_nil,
        or_false] at hx
      rcases hx with h | h | h | h | h <;> subst h <;> rfl
    · simp [ffiStoreInstrs, ffiAddressInstrs]
    · simp [ffiStoreInstrs, ffiAddressInstrs]
  · intro hP
    exact ⟨_, _, FfiStoreCase_run word_size function kind cid type_arg b p0 p1 p2 hk ht hc hn hP
      h0 h1 h2 c0 c1 c2, ffiStoreInstrs_no_AssertAssignable _ _ _ _ _ _⟩

/-- C7 at the pointer store and at the `Uint8` store of a 64-bit target. -/
theorem FfiStore_type_check_order_witness :
    (∃ b1, FfiStoreCase 8 (witnessFfiFunction .kFfiStorePointer .kFfiPointerCid 3)
          .kFfiStorePointer (witnessFfiBuilder .kFfiStorePointer .kFfiPointerCid 3) =
          .ok (⟨ffiStoreCheckOperands (LocalVariable.frame 1) (LocalVariable.frame 3) ++
            [.AssertAssignable pointer_type_arg, .Drop] ++
            ffiStoreInstrs 8 .kFfiStorePointer .kFfiPointerCid (LocalVariable.frame 1)
              (LocalVariable.frame 2) (LocalVariable.frame 3), false⟩, b1) ∧
        (∀ x ∈ ffiStoreCheckOperands (LocalVariable.frame 1) (LocalVariable.frame 3),
          x.producesUnboxedOrUntagged = false) ∧
        (∀ x ∈ ffiStoreInstrs 8 .kFfiStorePointer .kFfiPointerCid (LocalVariable.frame 1)
          (LocalVariable.frame 2) (LocalVariable.frame 3), x.isAssertAssignable = false) ∧
        Instr.Unbox .kUnboxedFfiIntPtr ∈
          ffiStoreInstrs 8 .kFfiStorePointer .kFfiPointerCid (LocalVariable.frame 1)
            (LocalVariable.frame 2) (LocalVariable.frame 3) ∧
        Instr.ConvertIntptrToUntagged ∈
          ffiStoreInstrs 8 .kFfiStorePointer .kFfiPointerCid (LocalVariable.frame 1)
            (LocalVariable.frame 2) (LocalVariable.frame 3)) ∧
    (∃ f b1, FfiStoreCase 8 (witnessFfiFunction .kFfiStoreUint8 .kFfiUint8Cid 3) .kFfiStoreUint8
          (witnessFfiBuilder .kFfiStoreUint8 .kFfiUint8Cid 3) = .ok (f, b1) ∧
        ∀ x ∈ f.instrs, x.isAssertAssignable = false) :=
  ⟨(FfiStore_type_check_order 8 (witnessFfiFunction .kFfiStorePointer .kFfiPointerCid 3)
      .kFfiStorePointer .kFfiPointerCid ⟨.kFfiPointerCid, true, false⟩
      (witnessFfiBuilder .kFfiStorePointer .kFfiPointerCid 3) (LocalVariable.frame 1)
      (LocalVariable.frame 2) (LocalVariable.frame 3) rfl rfl rfl rfl rfl rfl rfl rfl rfl rfl
      rfl).2.1 rfl rfl rfl,
    (FfiStore_type_check_order 8 (witnessFfiFunction .kFfiStoreUint8 .kFfiUint8Cid 3)
      .kFfiStoreUint8 .kFfiUint8Cid ⟨.kFfiUint8Cid, true, false⟩
      (witnessFfiBuilder .kFfiStoreUint8 .kFfiUint8Cid 3) (LocalVariable.frame 1)
      (LocalVariable.frame 2) (LocalVariable.frame 3) rfl rfl rfl rfl rfl rfl rfl rfl rfl rfl
      rfl).2.2 (by decide)⟩

/-- C10: with at least two values pending, `RethrowException(position, idx)`
succeeds and returns the closed fragment of two drops and one `ReThrow`
carrying `idx`; anything appended to it is discarded; the null constant is
pushed on the operand-stack model but is not in the fragment, so one value
fewer is pending afterwards, and the pending-argument count goes down by 2. -/
theorem RethrowException_contract (catch_try_index : Int) (b : FlowGraphBuilder)
    (x y : Instr) (rest : List Instr) (hs : b.stack_ = x :: y :: rest) :
    ∃ f b1, RethrowException catch_try_index b = .ok (f, b1) ∧
      f = ⟨[.Drop, .Drop, .ReThrow catch_try_index], true⟩ ∧
      (∀ g : Fragment, f ++ g = f) ∧
      Instr.Constant .null ∉ f.instrs ∧
      b1.stack_ = .Constant .null :: rest ∧
      b1.stack_.length = b.stack_.length - 1 ∧
      b1.pending_argument_count_ = b.pending_argument_count_ - 2 ∧
      b1 = { b with stack_ := .Constant .null :: rest
                    pending_argument_count_ := b.pending_argument_count_ - 2 } := by
  obtain ⟨d, st, pa, pf, sc, ac, mo⟩ := b
  simp only at hs
  subst hs
  refine ⟨_, _, ?_, rfl, ?_, ?_, rfl, ?_, rfl, rfl⟩
  · simp only [RethrowException, Build.run_bind, Build.run_pure, Drop, NullConstant, Constant,
      emitEffect_one, emitDefinition_zero, getBuilder_run, setBuilder, Fragment.empty,
      Fragment.nil_append, Fragment.append_cons, Fragment.single, Fragment.close,
      List.nil_append, List.cons_append]
  · intro g
    simp [Fragment.append_def, Fragment.append]
  · simp
  · simp

/-- C10 at a builder with three pending values and four pending arguments. -/
theorem RethrowException_contract_witness :
    ∃ f b1, RethrowException 7 witnessCatchBuilder = .ok (f, b1) ∧
      f = ⟨[.Drop, .Drop, .ReThrow 7], true⟩ ∧
      (∀ g : Fragment, f ++ g = f) ∧
      Instr.Constant .null ∉ f.instrs ∧
      b1.stack_ = .Constant .null :: [.Constant (.int 1)] ∧
      b1.stack_.length = witnessCatchBuilder.stack_.length - 1 ∧
      b1.pending_argument_count_ = witnessCatchBuilder.pending_argument_count_ - 2 ∧
      b1 = { witnessCatchBuilder with
        stack_ := .Constant .null :: [.Constant (.int 1)]
        pending_argument_count_ := witnessCatchBuilder.pending_argument_count_ - 2 } :=
  RethrowException_contract 7 witnessCatchBuilder .PushArgument .PushArgument
    [.Constant (.int 1)] rfl

/-! ### The arguments array of the no-such-method dispatcher -/

theorem Fragment.append_open_open (l m : List Instr) :
    (⟨l, false⟩ : Fragment) ++ ⟨m, false⟩ = ⟨l ++ m, false⟩ := by
  cases l with
  | nil => simp [Fragment.append_def, Fragment.append]
  | cons x l =>
    cases m with
    | nil => simp [Fragment.append_def, Fragment.append]
    | cons y m => simp [Fragment.append_def, Fragment.append]

/-- A sequence of steps each of which leaves the builder as it was and returns
an open fragment: the fragments are concatenated. -/
theorem Build.seqFrom_map_ok {α : Type} (xs : List α) (step : α → Build Fragment)
    (g : α → List Instr) (b : FlowGraphBuilder)
    (h : ∀ x ∈ xs, step x b = .ok (⟨g x, false⟩, b)) (l : List Instr) :
    Build.seqFrom ⟨l, false⟩ (xs.map step) b = .ok (⟨l ++ (xs.map g).flatten, false⟩, b) := by
  induction xs generalizing l with
  | nil => simp [Build.seqFrom, Build.run_pure]
  | cons x xs ih =>
    have hx := h x (List.mem_cons_self _ _)
    have ih1 := ih (fun y hy => h y (List.mem_cons_of_mem _ hy)) (l ++ g x)
    simp only [List.map_cons, Build.seqFrom, Build.run_bind, hx, Fragment.append_open_open, ih1,
      List.flatten_cons, List.append_assoc]

/-- A loop whose steps leave the builder as it was. -/
theorem forEachIndex_ok (n : Nat) (step : Nat → Build Fragment) (g : Nat → List Instr)
    (b : FlowGraphBuilder) (h : ∀ i < n, step i b = .ok (⟨g i, false⟩, b)) :
    forEachIndex n step b = .ok (⟨((List.range n).map g).flatten, false⟩, b) := by
  have h1 := Build.seqFrom_map_ok (List.range n) step g b
    (fun i hi => h i (List.mem_range.mp hi)) []
  simpa [forEachIndex, Build.seq, Fragment.empty] using h1

/-- Storing a frame variable into a slot of a frame array leaves the builder
as it was. -/
theorem storeArgument_run (array v : LocalVariable) (index : Int) (value : Build LocalVariable)
    (ha : array.is_captured = false) (hv : v.is_captured = false) (d : Int) (st : List Instr)
    (pa : Int) (pf : ParsedFunction) (sc : Option ScopeBuildingResult) (ac : ActiveClass)
    (mo : BuilderFields)
    (hval : ∀ st1, value ⟨d, st1, pa, pf, sc, ac, mo⟩ = .ok (v, ⟨d, st1, pa, pf, sc, ac, mo⟩)) :
    storeArgument array index value ⟨d, st, pa, pf, sc, ac, mo⟩ =
      .ok (⟨argumentStore array index v, false⟩, ⟨d, st, pa, pf, sc, ac, mo⟩) := by
  simp only [storeArgument, Build.seq, Build.seqFrom, Build.run_bind, Build.run_pure,
    LoadLocal_frame _ ha, LoadLocal_frame _ hv, hval, IntConstant, Constant, StoreIndexed,
    emitDefinition_zero, emitEffect_three, Fragment.empty, Fragment.nil_append,
    Fragment.append_cons, argumentStore, List.nil_append, List.cons_append]

theorem traceInstrs_append (l1 l2 : List Instr) (t : ArrayTrace) :
    traceInstrs (l1 ++ l2) t = (traceInstrs l1 t).bind (traceInstrs l2) := by
  induction l1 generalizing t with
  | nil => simp [traceInstrs]
  | cons x rest ih =>
    simp only [List.cons_append, traceInstrs]
    cases traceInstr x t with
    | none => simp
    | some t1 => simp [ih]

/-- Running one store group records one store and leaves the pending values
as they were. -/
theorem traceInstrs_argumentStore (array v : LocalVariable) (index : Int) (t : ArrayTrace) :
    traceInstrs (argumentStore array index v) t =
      some { t with stores := t.stores ++ [(.var array, index, .var v)] } := by
  simp [argumentStore, traceInstrs, traceInstr]

/-- Running a list of store groups records their stores in order. -/
theorem traceInstrs_stores {α : Type} (xs : List α) (array : LocalVariable) (k : α → Int)
    (v : α → LocalVariable) (t : ArrayTrace) :
    traceInstrs ((xs.map (fun x => argumentStore array (k x) (v x))).flatten) t =
      some { t with stores := t.stores ++ xs.map (fun x => (.var array, k x, .var (v x))) } := by
  induction xs generalizing t with
  | nil => simp [traceInstrs]
  | cons x xs ih =>
    simp only [List.map_cons, List.flatten_cons, traceInstrs_append, traceInstrs_argumentStore,
      Option.some_bind, ih, List.append_assoc, List.singleton_append]

/-- The dispatcher's array block on frame variables: it succeeds, emits the
creation of the array, the store groups and the push of the array, and leaves
the array pending as a pushed argument. -/
theorem noSuchMethodDispatcherArguments_run (d : ArgumentsDescriptor) (b : FlowGraphBuilder)
    (type_args : LocalVariable)
    (hta : d.receiver_index > 0 → b.parsed_function_.function_type_arguments = some type_args ∧
      type_args.is_captured = false)
    (hlen : d.PositionalCount + d.NamedCount ≤ b.parsed_function_.parameters.length)
    (hcap : ∀ v ∈ b.parsed_function_.parameters, v.is_captured = false)
    (hpos : d.NamedCount ≤ d.positions.length) :
    noSuchMethodDispatcherArguments d b =
      .ok (⟨noSuchMethodDispatcherArgumentsInstrs d b.parsed_function_.parameters type_args
          (LocalVariable.frame (-((b.stack_.length : Int) + 1))), false⟩,
        { b with stack_ := .PushArgument :: b.stack_
                 pending_argument_count_ := b.pending_argument_count_ + 1 }) := by
  obtain ⟨dep, st, pa, pf, sc, ac, mo⟩ := b
  simp only at hta hlen hcap hpos
  have hget : ∀ i, i < pf.parameters.length →
      pf.parameters.get? i = some (parameterAt pf.parameters i) := by
    intro i hi
    rw [List.get?_eq_getElem?, List.getElem?_eq_getElem hi, parameterAt,
      List.getD_eq_getElem _ _ hi]
  have hparam : ∀ i, i < pf.parameters.length → (parameterAt pf.parameters i).is_captured = false := by
    intro i hi
    apply hcap
    rw [parameterAt, List.getD_eq_getElem _ _ hi]
    exact List.getElem_mem hi
  have hv : ∀ i, i < pf.parameters.length → ∀ st1,
      ParameterVariable i ⟨dep, st1, pa, pf, sc, ac, mo⟩ =
        .ok (parameterAt pf.parameters i, ⟨dep, st1, pa, pf, sc, ac, mo⟩) := by
    intro i hi st1
    simp only [ParameterVariable, hget i hi]
  have hA : (LocalVariable.frame (-((st.length : Int) + 1))).is_captured = false := rfl
  -- the three groups of stores, each leaving the builder as it was
  have h1 : (if d.receiver_index > 0 then
        storeArgument (LocalVariable.frame (-((st.length : Int) + 1))) 0 (do
          let b ← getBuilder
          ASSERT b.parsed_function_.function_type_arguments.isSome
          match b.parsed_function_.function_type_arguments with
          | some type_args => pure type_args
          | none => Build.fail .nullDeref)
      else pure Fragment.empty) ⟨dep, .CreateArray :: st, pa, pf, sc, ac, mo⟩ =
      .ok (⟨if d.receiver_index > 0 then
          argumentStore (LocalVariable.frame (-((st.length : Int) + 1))) 0 type_args else [],
          false⟩, ⟨dep, .CreateArray :: st, pa, pf, sc, ac, mo⟩) := by
    by_cases hr : d.receiver_index > 0
    · obtain ⟨e1, e2⟩ := hta hr
      simp only [hr, if_true]
      exact storeArgument_run _ type_args 0 _ hA e2 _ _ _ _ _ _ _ (by
        intro st1
        simp [Build.run_bind, getBuilder_run, e1, ASSERT_true, Build.run_pure])
    · simp only [hr, if_false, Build.run_pure, Fragment.empty]
  have h2 := forEachIndex_ok d.PositionalCount
    (fun i => storeArgument (LocalVariable.frame (-((st.length : Int) + 1)))
      ((d.receiver_index : Int) + (i : Int)) (ParameterVariable i))
    (fun i => argumentStore (LocalVariable.frame (-((st.length : Int) + 1)))
      ((d.receiver_index + i : Nat) : Int) (parameterAt pf.parameters i))
    ⟨dep, .CreateArray :: st, pa, pf, sc, ac, mo⟩ (by
      intro i hi
      have hi1 : i < pf.parameters.length := by omega
      beta_reduce
      rw [storeArgument_run _ (parameterAt pf.parameters i) _ _ hA (hparam i hi1) _ _ _ _ _ _ _
        (hv i hi1)]
      simp)
  have h3 := forEachIndex_ok d.NamedCount
    (fun i => do
      let parameter_index := d.PositionalCount + i
      let position ← d.PositionAt i
      storeArgument (LocalVariable.frame (-((st.length : Int) + 1)))
        ((d.receiver_index : Int) + (position : Int)) (ParameterVariable parameter_index))
    (fun i => argumentStore (LocalVariable.frame (-((st.length : Int) + 1)))
      ((d.receiver_index + d.positions.getD i 0 : Nat) : Int)
      (parameterAt pf.parameters (d.PositionalCount + i)))
    ⟨dep, .CreateArray :: st, pa, pf, sc, ac, mo⟩ (by
      intro i hi
      have hi1 : d.PositionalCount + i < pf.parameters.length := by omega
      have hi2 : i < d.positions.length := by omega
      have hp : d.positions.get? i = some (d.positions.getD i 0) := by
        rw [List.get?_eq_getElem?, List.getElem?_eq_getElem hi2, List.getD_eq_getElem _ _ hi2]
      simp only [Build.run_bind, ArgumentsDescriptor.PositionAt, hp]
      rw [storeArgument_run _ (parameterAt pf.parameters (d.PositionalCount + i)) _ _ hA
        (hparam _ hi1) _ _ _ _ _ _ _ (hv _ hi1)]
      simp)
  have hri : ((if d.TypeArgsLen > 0 then 1 else 0 : Nat)) = d.receiver_index := rfl
  simp only [noSuchMethodDispatcherArguments, hri, Build.run_bind, Build.run_pure, Build.seq,
    Build.seqFrom, IntConstant, Constant, CreateArray, emitDefinition_zero, emitDefinition_two,
    MakeTemporary_run, PushArgument_run, Fragment.empty_append, Fragment.append_cons]
  rw [h1]
  simp only [h2, h3, PushArgument_run, Fragment.append_open_open,
    noSuchMethodDispatcherArgumentsInstrs, List.nil_append, List.cons_append, List.append_assoc]
  simp

/-- Running the instructions of the array block: one array of length
`r + Count` is created, the expected stores are made in order, and the array
is left as a pushed argument. -/
theorem traceInstrs_noSuchMethodDispatcherArguments (d : ArgumentsDescriptor)
    (ps : List LocalVariable) (type_args array : LocalVariable) :
    traceInstrs (noSuchMethodDispatcherArgumentsInstrs d ps type_args array) ⟨[], [], []⟩ =
      some ⟨[.valueOf .PushArgument], [((d.receiver_index + d.Count : Nat) : Int)],
        expectedArgumentStores d ps type_args array⟩ := by
  have h0 : traceInstrs [.Constant .nullTypeArguments,
      .Constant (.int ((d.receiver_index + d.Count : Nat) : Int)), .CreateArray] ⟨[], [], []⟩ =
      some ⟨[.valueOf .CreateArray], [((d.receiver_index + d.Count : Nat) : Int)], []⟩ := by
    simp [traceInstrs, traceInstr]
  have h1 : ∀ t : ArrayTrace,
      traceInstrs (if d.receiver_index > 0 then argumentStore array 0 type_args else []) t =
        some { t with stores := t.stores ++
          (if d.receiver_index > 0 then [(.var array, 0, .var type_args)] else []) } := by
    intro t
    by_cases hr : d.receiver_index > 0
    · simp only [hr, if_true, traceInstrs_argumentStore]
    · simp [hr, traceInstrs]
  unfold noSuchMethodDispatcherArgumentsInstrs expectedArgumentStores
  rw [traceInstrs_append, h0, Option.some_bind, traceInstrs_append, h1, Option.some_bind,
    traceInstrs_append,
    traceInstrs_stores (List.range d.PositionalCount) array
      (fun i => ((d.receiver_index + i : Nat) : Int)) (fun i => parameterAt ps i),
    Option.some_bind, traceInstrs_append,
    traceInstrs_stores (List.range d.NamedCount) array
      (fun i => ((d.receiver_index + d.positions.getD i 0 : Nat) : Int))
      (fun i => parameterAt ps (d.PositionalCount + i)),
    Option.some_bind]
  simp [traceInstrs, traceInstr]

/-- The positions listed by a descriptor, read back through `PositionAt`. -/
theorem positions_map_getD (l : List Nat) :
    (List.range l.length).map (fun i => l.getD i 0) = l := by
  apply List.ext_getElem
  · simp
  · intro n h1 h2
    simp [List.getElem?_eq_getElem h2]

/-- For a well-formed descriptor the slots written are a rearrangement of
`0, ..., r + Count - 1`: every slot of the array is written exactly once. -/
theorem expectedArgumentStores_indices (d : ArgumentsDescriptor) (ps : List LocalVariable)
    (type_args array : LocalVariable) (hw : d.WellFormed) :
    ((expectedArgumentStores d ps type_args array).map (fun s => s.2.1)).Perm
      ((List.range (d.receiver_index + d.Count)).map (fun n : Nat => (n : Int))) := by
  obtain ⟨hc, hp⟩ := hw
  have hl : d.positions.length = d.NamedCount := by
    simpa using hp.length_eq
  have e3 : (List.range d.NamedCount).map (fun i => d.positions.getD i 0) = d.positions := by
    rw [← hl]; exact positions_map_getD _
  have hidx : (expectedArgumentStores d ps type_args array).map (fun s => s.2.1) =
      ((if d.receiver_index > 0 then [0] else []) ++
        (List.range d.PositionalCount).map (fun i => d.receiver_index + i) ++
        d.positions.map (fun p => d.receiver_index + p)).map (fun n : Nat => (n : Int)) := by
    conv_rhs => rw [← e3]
    unfold expectedArgumentStores
    by_cases hr : d.receiver_index > 0 <;>
      simp [hr, List.map_append, List.map_map, Function.comp_def]
  rw [hidx]
  apply List.Perm.map
  have hr : (if d.receiver_index > 0 then [0] else []) = List.range' 0 d.receiver_index := by
    unfold ArgumentsDescriptor.receiver_index
    split <;> rfl
  have h2 : (List.range d.PositionalCount).map (fun i => d.receiver_index + i) =
      List.range' d.receiver_index d.PositionalCount := by
    rw [List.range_eq_range', List.map_add_range']
    simp
  have h3 : (d.positions.map (fun p => d.receiver_index + p)).Perm
      (List.range' (d.receiver_index + d.PositionalCount) d.NamedCount) := by
    rw [← List.map_add_range']
    exact hp.map _
  rw [hr, h2, hc, List.range_eq_range']
  have e : List.range' 0 (d.receiver_index + (d.PositionalCount + d.NamedCount)) =
      List.range' 0 d.receiver_index ++ List.range' d.receiver_index d.PositionalCount ++
        List.range' (d.receiver_index + d.PositionalCount) d.NamedCount := by
    have a1 : List.range' 0 d.receiver_index ++ List.range' d.receiver_index d.PositionalCount =
        List.range' 0 (d.receiver_index + d.PositionalCount) := by
      have h := List.range'_append_1 0 d.receiver_index d.PositionalCount
      rw [Nat.zero_add, Nat.add_comm d.PositionalCount] at h
      exact h
    have a2 : List.range' 0 (d.receiver_index + d.PositionalCount) ++
        List.range' (d.receiver_index + d.PositionalCount) d.NamedCount =
        List.range' 0 (d.receiver_index + (d.PositionalCount + d.NamedCount)) := by
      have h := List.range'_append_1 0 (d.receiver_index + d.PositionalCount) d.NamedCount
      rw [Nat.zero_add, Nat.add_comm d.NamedCount, Nat.add_assoc] at h
      exact h
    rw [a1, a2]
  rw [e]
  exact List.Perm.append_left _ h3

/-- C9: the array block of `BuildGraphOfNoSuchMethodDispatcher` succeeds on
frame variables; run, its code creates one array of length `r + Count` (with
`r = 1` when `TypeArgsLen > 0` and `0` otherwise) and makes exactly these
stores: the function type arguments into slot 0 when `r = 1`, positional
parameter `i` into slot `r + i`, named parameter `i` (parameter variable
`PositionalCount + i`) into slot `r + PositionAt(i)`.  For a well-formed
descriptor the slots written are a rearrangement of `0 .. r + Count - 1`, so
every store is within bounds and every slot is written exactly once. -/
theorem noSuchMethodDispatcher_fills_arguments (d : ArgumentsDescriptor) (b : FlowGraphBuilder)
    (type_args : LocalVariable)
    (hta : d.receiver_index > 0 → b.parsed_function_.function_type_arguments = some type_args ∧
      type_args.is_captured = false)
    (hlen : d.PositionalCount + d.NamedCount ≤ b.parsed_function_.parameters.length)
    (hcap : ∀ v ∈ b.parsed_function_.parameters, v.is_captured = false)
    (hpos : d.NamedCount ≤ d.positions.length) :
    ∃ f b1 t array,
      noSuchMethodDispatcherArguments d b = .ok (f, b1) ∧
      traceInstrs f.instrs ⟨[], [], []⟩ = some t ∧
      d.receiver_index = (if d.TypeArgsLen > 0 then 1 else 0) ∧
      t.created = [((d.receiver_index + d.Count : Nat) : Int)] ∧
      t.stores =
        (if d.receiver_index > 0 then [(.var array, 0, .var type_args)] else []) ++
        (List.range d.PositionalCount).map
          (fun i => (.var array, ((d.receiver_index + i : Nat) : Int),
            .var (parameterAt b.parsed_function_.parameters i))) ++
        (List.range d.NamedCount).map
          (fun i => (.var array, ((d.receiver_index + d.positions.getD i 0 : Nat) : Int),
            .var (parameterAt b.parsed_function_.parameters (d.PositionalCount + i)))) ∧
      (d.WellFormed →
        (t.stores.map (fun s => s.2.1)).Perm
          ((List.range (d.receiver_index + d.Count)).map (fun n : Nat => (n : Int))) ∧
        ∀ s ∈ t.stores, 0 ≤ s.2.1 ∧ s.2.1 < ((d.receiver_index + d.Count : Nat) : Int)) := by
  refine ⟨_, _, _, _, noSuchMethodDispatcherArguments_run d b type_args hta hlen hcap hpos,
    traceInstrs_noSuchMethodDispatcherArguments d _ type_args _, rfl, rfl, rfl, ?_⟩
  intro hw
  have hperm := expectedArgumentStores_indices d b.parsed_function_.parameters type_args
    (LocalVariable.frame (-((b.stack_.length : Int) + 1))) hw
  refine ⟨hperm, ?_⟩
  intro s hs
  have hm : s.2.1 ∈ (List.range (d.receiver_index + d.Count)).map (fun n : Nat => (n : Int)) :=
    hperm.subset (List.mem_map_of_mem (fun s => s.2.1) hs)
  obtain ⟨n, hn, e⟩ := List.mem_map.mp hm
  rw [← e]
  have hn1 := List.mem_range.mp hn
  constructor
  · exact Int.ofNat_nonneg n
  · exact Int.ofNat_lt.mpr hn1

/-- C9 at a descriptor with one type-argument vector, one positional and two
named arguments placed at positions 2 and 1: an array of length 4 whose slots
0, 1, 3, 2 receive the type arguments and the parameters 10, 11, 12. -/
theorem noSuchMethodDispatcher_fills_arguments_witness :
    ∃ f b1 t array,
      noSuchMethodDispatcherArguments witnessDescriptor witnessDispatcherBuilder = .ok (f, b1) ∧
      traceInstrs f.instrs ⟨[], [], []⟩ = some t ∧
      t.created = [4] ∧
      t.stores = [(.var array, 0, .var (LocalVariable.frame 9)),
        (.var array, 1, .var (LocalVariable.frame 10)),
        (.var array, 3, .var (LocalVariable.frame 11)),
        (.var array, 2, .var (LocalVariable.frame 12))] ∧
      (t.stores.map (fun s => s.2.1)).Perm [0, 1, 2, 3] := by
  obtain ⟨f, b1, t, array, h1, h2, -, h4, h5, h6⟩ :=
    noSuchMethodDispatcher_fills_arguments witnessDescriptor witnessDispatcherBuilder
      (LocalVariable.frame 9) (fun _ => ⟨rfl, rfl⟩) (by decide) (by decide) (by decide)
  exact ⟨f, b1, t, array, h1, h2, h4, h5, (h6 ⟨rfl, by decide⟩).1⟩

/-! ### Which instructions a step can emit -/

theorem Ensures_pure {α : Type} {R : α → Prop} {a : α} (h : R a) :
    Ensures R (pure a : Build α) := by
  intro b a1 b1 hb
  rw [Build.run_pure] at hb
  simp only [Except.ok.injEq, Prod.mk.injEq] at hb
  obtain ⟨rfl, _⟩ := hb
  exact h

theorem Ensures_fail {α : Type} {R : α → Prop} (e : Failure) :
    Ensures R (Build.fail e : Build α) := by
  intro b a1 b1 hb
  simp only [Build.fail, reduceCtorEq] at hb

theorem Ensures_bind_of {α β : Type} {Q : α → Prop} {R : β → Prop} {m : Build α}
    {f : α → Build β} (hm : Ensures Q m) (h : ∀ a, Q a → Ensures R (f a)) :
    Ensures R (m >>= f) := by
  intro b r b1 hb
  obtain ⟨a, b2, h1, h2⟩ := Build.bind_ok_inv m f b (r, b1) hb
  exact h a (hm b a b2 h1) b2 r b1 h2

theorem Ensures_bind {α β : Type} {R : β → Prop} {m : Build α} {f : α → Build β}
    (h : ∀ a, Ensures R (f a)) : Ensures R (m >>= f) :=
  Ensures_bind_of (fun _ _ _ _ => trivial) (fun a (_ : True) => h a)

theorem Ensures_ite {α : Type} {R : α → Prop} {c : Prop} [Decidable c] {m n : Build α}
    (hm : Ensures R m) (hn : Ensures R n) : Ensures R (if c then m else n) := by
  split
  · exact hm
  · exact hn

theorem Ensures_mono {α : Type} {Q R : α → Prop} {m : Build α} (hm : Ensures Q m)
    (h : ∀ a, Q a → R a) : Ensures R m :=
  fun b a b1 hb => h a (hm b a b1 hb)

theorem Fragment_All_empty {P : Instr → Prop} : Fragment.All P Fragment.empty := by
  intro i hi
  simp [Fragment.empty] at hi

theorem Fragment_All_single {P : Instr → Prop} {i : Instr} (h : P i) :
    Fragment.All P (Fragment.single i) := by
  intro j hj
  simp only [Fragment.single, List.mem_singleton] at hj
  rw [hj]
  exact h

theorem Fragment_All_close {P : Instr → Prop} {f : Fragment} (h : Fragment.All P f) :
    Fragment.All P f.close := h

theorem Fragment_All_append {P : Instr → Prop} {a c : Fragment} (ha : Fragment.All P a)
    (hc : Fragment.All P c) : Fragment.All P (a ++ c) := by
  rw [Fragment.append_def]
  unfold Fragment.append
  split
  · exact hc
  · split
    · intro i hi
      simp only [List.mem_append] at hi
      rcases hi with hi | hi
      · exact ha i hi
      · exact hc i hi
    · exact ha

theorem Fragment_All_mk {P : Instr → Prop} {l : List Instr} {c : Bool} (h : ∀ i ∈ l, P i) :
    Fragment.All P ⟨l, c⟩ := h

theorem Sound_emitDefinition {P : Instr → Prop} (n : Nat) {i : Instr} (h : P i) :
    Sound P (emitDefinition n i) :=
  Ensures_bind (fun _ => Ensures_bind (fun _ => Ensures_pure (Fragment_All_single h)))

theorem Sound_emitEffect {P : Instr → Prop} (n : Nat) {i : Instr} (h : P i) :
    Sound P (emitEffect n i) :=
  Ensures_bind (fun _ => Ensures_pure (Fragment_All_single h))

theorem Sound_seqFrom {P : Instr → Prop} (ms : List (Build Fragment)) (acc : Fragment)
    (hacc : Fragment.All P acc) (h : SoundAll P ms) : Sound P (Build.seqFrom acc ms) := by
  induction ms generalizing acc with
  | nil => exact Ensures_pure hacc
  | cons m ms ih =>
    exact Ensures_bind_of (h m (List.mem_cons_self _ _))
      (fun f hf => ih (acc ++ f) (Fragment_All_append hacc hf)
        (fun x hx => h x (List.mem_cons_of_mem _ hx)))

theorem Sound_seq {P : Instr → Prop} {ms : List (Build Fragment)} (h : SoundAll P ms) :
    Sound P (Build.seq ms) :=
  Sound_seqFrom ms Fragment.empty Fragment_All_empty h

theorem SoundAll_nil {P : Instr → Prop} : SoundAll P [] := by
  intro m hm
  simp at hm

theorem SoundAll_cons {P : Instr → Prop} {m : Build Fragment} {ms : List (Build Fragment)}
    (hm : Sound P m) (hms : SoundAll P ms) : SoundAll P (m :: ms) := by
  intro x hx
  simp only [List.mem_cons] at hx
  rcases hx with rfl | hx
  · exact hm
  · exact hms x hx

theorem SoundAll_map {P : Instr → Prop} {α : Type} (xs : List α) (step : α → Build Fragment)
    (h : ∀ x, Sound P (step x)) : SoundAll P (xs.map step) := by
  intro m hm
  simp only [List.mem_map] at hm
  obtain ⟨x, _, rfl⟩ := hm
  exact h x

theorem Sound_pure {P : Instr → Prop} {f : Fragment} (h : Fragment.All P f) :
    Sound P (pure f) := Ensures_pure h

theorem Sound_Drop {P : Instr → Prop} (hP : ∀ i, Instr.isPlain i = true → P i) :
    Sound P Drop := Sound_emitEffect 1 (hP _ rfl)

theorem Sound_Constant {P : Instr → Prop} (hP : ∀ i, Instr.isPlain i = true → P i)
    (c : ConstValue) : Sound P (Constant c) := Sound_emitDefinition 0 (hP _ rfl)

theorem Sound_NullConstant {P : Instr → Prop} (hP : ∀ i, Instr.isPlain i = true → P i) :
    Sound P NullConstant := Sound_Constant hP _

theorem Sound_IntConstant {P : Instr → Prop} (hP : ∀ i, Instr.isPlain i = true → P i)
    (n : Int) : Sound P (IntConstant n) := Sound_Constant hP _

theorem Sound_BaseLoadLocal {P : Instr → Prop} (hP : ∀ i, Instr.isPlain i = true → P i)
    (v : LocalVariable) : Sound P (BaseLoadLocal v) := Sound_emitDefinition 0 (hP _ rfl)

theorem Sound_StoreLocal {P : Instr → Prop} (hP : ∀ i, Instr.isPlain i = true → P i)
    (v : LocalVariable) : Sound P (StoreLocal v) := Sound_emitDefinition 1 (hP _ rfl)

theorem Sound_LoadNativeField {P : Instr → Prop} (hP : ∀ i, Instr.isPlain i = true → P i)
    (slot : Slot) : Sound P (LoadNativeField slot) := Sound_emitDefinition 1 (hP _ rfl)

theorem Sound_InstantiateTypeArguments {P : Instr → Prop}
    (hP : ∀ i, Instr.isPlain i = true → P i) (t : TypeArguments) :
    Sound P (InstantiateTypeArguments t) := Sound_emitDefinition 2 (hP _ rfl)

theorem Sound_AssertAssignable {P : Instr → Prop} (hP : ∀ i, Instr.isPlain i = true → P i)
    (t : AbstractType) : Sound P (AssertAssignable t) := Sound_emitDefinition 3 (hP _ rfl)

theorem Sound_MakeTemp {P : Instr → Prop} (hP : ∀ i, Instr.isPlain i = true → P i) :
    Sound P MakeTemp := Sound_emitDefinition 0 (hP _ rfl)

theorem Sound_LoadArgDescriptor {P : Instr → Prop}
    (hP : ∀ i, Instr.isPlain i = true → P i) : Sound P LoadArgDescriptor :=
  Sound_emitDefinition 0 (hP _ rfl)

theorem Sound_StoreFpRelativeSlot {P : Instr → Prop}
    (hP : ∀ i, Instr.isPlain i = true → P i) (slots : Int) :
    Sound P (StoreFpRelativeSlot slots) := Sound_emitEffect 2 (hP _ rfl)

theorem Sound_LoadFpRelativeSlot {P : Instr → Prop}
    (hP : ∀ i, Instr.isPlain i = true → P i) : Sound P LoadFpRelativeSlot :=
  Sound_emitDefinition 1 (hP _ rfl)

theorem Sound_SmiBinaryOp {P : Instr → Prop} (hP : ∀ i, Instr.isPlain i = true → P i)
    (op : TokenKind) : Sound P (SmiBinaryOp op) := Sound_emitDefinition 2 (hP _ rfl)

theorem Sound_SmiRelationalOp {P : Instr → Prop} (hP : ∀ i, Instr.isPlain i = true → P i)
    (op : TokenKind) : Sound P (SmiRelationalOp op) := Sound_emitDefinition 2 (hP _ rfl)

theorem Sound_BranchIfTrue {P : Instr → Prop} (hP : ∀ i, Instr.isPlain i = true → P i) :
    Sound P BranchIfTrue :=
  Ensures_bind (fun _ => Ensures_pure (Fragment_All_close (Fragment_All_single (hP _ rfl))))

theorem Sound_BranchIfEqual {P : Instr → Prop} (hP : ∀ i, Instr.isPlain i = true → P i) :
    Sound P BranchIfEqual :=
  Ensures_bind (fun _ => Ensures_pure (Fragment_All_close (Fragment_All_single (hP _ rfl))))

theorem Sound_BuildEntryPointsIntrospection {P : Instr → Prop}
    (hP : ∀ i, Instr.isPlain i = true → P i) : Sound P BuildEntryPointsIntrospection :=
  Sound_emitEffect 1 (hP _ rfl)

theorem Sound_RedefinitionWithType {P : Instr → Prop}
    (hP : ∀ i, Instr.isPlain i = true → P i) (t : AbstractType) :
    Sound P (RedefinitionWithType t) := Sound_emitDefinition 1 (hP _ rfl)

theorem Sound_CreateArray {P : Instr → Prop} (hP : ∀ i, Instr.isPlain i = true → P i) :
    Sound P CreateArray := Sound_emitDefinition 2 (hP _ rfl)

theorem Sound_StoreIndexed {P : Instr → Prop} (hP : ∀ i, Instr.isPlain i = true → P i) :
    Sound P StoreIndexed := Sound_emitEffect 3 (hP _ rfl)

theorem Sound_PushArgument {P : Instr → Prop} (hP : ∀ i, Instr.isPlain i = true → P i) :
    Sound P PushArgument :=
  Ensures_bind (fun _ => Ensures_bind (fun _ => Ensures_bind (fun _ => Ensures_bind (fun _ =>
    Ensures_pure (Fragment_All_single (hP _ rfl))))))

theorem Sound_Goto {P : Instr → Prop} (hP : ∀ i, Instr.isPlain i = true → P i) :
    Sound P Goto := Ensures_pure (Fragment_All_close (Fragment_All_single (hP _ rfl)))

theorem Sound_DebugStepCheck {P : Instr → Prop} (hP : ∀ i, Instr.isPlain i = true → P i) :
    Sound P DebugStepCheck := Sound_emitEffect 0 (hP _ rfl)

theorem Sound_BaseReturn {P : Instr → Prop} (hP : ∀ i, Instr.isPlain i = true → P i) :
    Sound P BaseReturn :=
  Ensures_bind (fun _ => Ensures_pure (Fragment_All_close (Fragment_All_single (hP _ rfl))))

theorem Sound_CheckStackOverflowInPrologue {P : Instr → Prop}
    (hP : ∀ i, Instr.isPlain i = true → P i) : Sound P CheckStackOverflowInPrologue :=
  Ensures_bind (fun _ => Ensures_bind (fun _ => Sound_emitEffect 0 (hP _ rfl)))

theorem Sound_TestAnyTypeArgs {P : Instr → Prop} (hP : ∀ i, Instr.isPlain i = true → P i)
    {present absent : Fragment} (h1 : Fragment.All P present) (h2 : Fragment.All P absent) :
    Sound P (TestAnyTypeArgs present absent) := by
  refine Ensures_pure (fun i hi => ?_)
  simp only [List.mem_append, List.mem_singleton, List.mem_cons, List.not_mem_nil, or_false] at hi
  rcases hi with ((rfl | hi) | hi) | rfl
  · exact hP _ rfl
  · exact h1 i hi
  · exact h2 i hi
  · exact hP _ rfl

theorem Sound_TestDelayedTypeArgs {P : Instr → Prop}
    (hP : ∀ i, Instr.isPlain i = true → P i) (closure : LocalVariable)
    {present absent : Fragment} (h1 : Fragment.All P present) (h2 : Fragment.All P absent) :
    Sound P (TestDelayedTypeArgs closure present absent) := by
  refine Ensures_pure (fun i hi => ?_)
  simp only [List.mem_append, List.mem_singleton, List.mem_cons, List.not_mem_nil, or_false] at hi
  rcases hi with ((rfl | hi) | hi) | rfl
  · exact hP _ rfl
  · exact h1 i hi
  · exact h2 i hi
  · exact hP _ rfl

theorem Sound_StaticCall {P : Instr → Prop} (target : FunctionAttrs) (argument_count : Int)
    (rebind_rule : RebindRule) (type_args_count : Int)
    (h : P (.StaticCall target.raw argument_count type_args_count rebind_rule)) :
    Sound P (StaticCall target argument_count rebind_rule type_args_count) :=
  Ensures_bind (fun _ => Ensures_bind (fun _ => Ensures_pure (Fragment_All_single h)))

theorem Sound_InstanceCall {P : Instr → Prop} (hP : ∀ i, Instr.isPlain i = true → P i)
    (name : String) (type_args_len argument_count : Int) :
    Sound P (InstanceCall name type_args_len argument_count) :=
  Ensures_bind (fun _ => Ensures_bind (fun _ => Ensures_pure (Fragment_All_single (hP _ rfl))))

theorem Sound_loadParents {P : Instr → Prop} (hP : ∀ i, Instr.isPlain i = true → P i)
    (n : Nat) (acc : Fragment) (hacc : Fragment.All P acc) : Sound P (loadParents n acc) := by
  induction n generalizing acc with
  | zero => exact Ensures_pure hacc
  | succ n ih =>
    exact Ensures_bind_of (Sound_LoadNativeField hP _)
      (fun f hf => ih (acc ++ f) (Fragment_All_append hacc hf))

theorem Sound_LoadContextAt {P : Instr → Prop} (hP : ∀ i, Instr.isPlain i = true → P i)
    (depth : Int) : Sound P (LoadContextAt depth) :=
  Ensures_bind (fun _ => Ensures_bind (fun _ => Ensures_bind_of (Sound_BaseLoadLocal hP _)
    (fun _ hf => Sound_loadParents hP _ _ hf)))

theorem Sound_LoadLocal {P : Instr → Prop} (hP : ∀ i, Instr.isPlain i = true → P i)
    (v : LocalVariable) : Sound P (LoadLocal v) := by
  unfold KernelToIL.LoadLocal
  split
  · split
    · exact Ensures_fail _
    · refine Ensures_bind_of (Sound_LoadContextAt hP _) (fun f hf => ?_)
      refine Ensures_bind_of (Sound_LoadNativeField hP _) (fun g hg => ?_)
      exact Ensures_pure (Fragment_All_append (Fragment_All_append Fragment_All_empty hf) hg)
  · exact Sound_BaseLoadLocal hP v

theorem Ensures_bind_sound {β : Type} (P : Instr → Prop) {R : β → Prop} {m : Build Fragment}
    {f : Fragment → Build β} (hm : Sound P m) (h : ∀ a, Fragment.All P a → Ensures R (f a)) :
    Ensures R (m >>= f) := Ensures_bind_of hm h

/-- A step that emits no call is sound for every property that holds of all
plain instructions (neither static calls nor catch block entries). -/
theorem Sound_leaf {P : Instr → Prop} (hP : ∀ i, Instr.isPlain i = true → P i)
    {m : Build Fragment} (h : Leaf m) : Sound P m := by
  cases h
  · exact Sound_Drop hP
  · exact Sound_Constant hP _
  · exact Sound_NullConstant hP
  · exact Sound_IntConstant hP _
  · exact Sound_BaseLoadLocal hP _
  · exact Sound_LoadLocal hP _
  · exact Sound_StoreLocal hP _
  · exact Sound_LoadNativeField hP _
  · exact Sound_InstantiateTypeArguments hP _
  · exact Sound_AssertAssignable hP _
  · exact Sound_MakeTemp hP
  · exact Sound_LoadArgDescriptor hP
  · exact Sound_StoreFpRelativeSlot hP _
  · exact Sound_LoadFpRelativeSlot hP
  · exact Sound_SmiBinaryOp hP _
  · exact Sound_SmiRelationalOp hP _
  · exact Sound_BranchIfTrue hP
  · exact Sound_BranchIfEqual hP
  · exact Sound_BuildEntryPointsIntrospection hP
  · exact Sound_RedefinitionWithType hP _
  · exact Sound_CreateArray hP
  · exact Sound_StoreIndexed hP
  · exact Sound_PushArgument hP
  · exact Sound_Goto hP
  · exact Sound_DebugStepCheck hP
  · exact Sound_BaseReturn hP
  · exact Sound_CheckStackOverflowInPrologue hP
  · exact Sound_InstanceCall hP _ _ _

theorem Fragment_All_instrs {P : Instr → Prop} {f : Fragment} (h : Fragment.All P f) :
    ∀ i ∈ f.instrs, P i := h

theorem Fragment_All_instrs_append {P : Instr → Prop} {l m : List Instr} (hl : ∀ i ∈ l, P i)
    (hm : ∀ i ∈ m, P i) : ∀ i ∈ l ++ m, P i := by
  intro i hi
  simp only [List.mem_append] at hi
  rcases hi with hi | hi
  · exact hl i hi
  · exact hm i hi

theorem Fragment_All_instrs_cons {P : Instr → Prop} {x : Instr} {m : List Instr} (hx : P x)
    (hm : ∀ i ∈ m, P i) : ∀ i ∈ x :: m, P i := by
  intro i hi
  simp only [List.mem_cons] at hi
  rcases hi with rfl | hi
  · exact hx
  · exact hm i hi

theorem ChecksAll_nil {P : Instr → Prop} : ChecksAll P [] := by
  intro p hp
  simp at hp

theorem ChecksAll_cons {P : Instr → Prop} {s : CheckSink} {f : Fragment}
    {items : List (CheckSink × Fragment)} (hf : Fragment.All P f) (h : ChecksAll P items) :
    ChecksAll P ((s, f) :: items) := by
  intro p hp
  simp only [List.mem_cons] at hp
  rcases hp with rfl | hp
  · exact hf
  · exact h p hp

theorem ChecksAll_append {P : Instr → Prop} {xs ys : List (CheckSink × Fragment)}
    (hx : ChecksAll P xs) (hy : ChecksAll P ys) : ChecksAll P (xs ++ ys) := by
  intro p hp
  simp only [List.mem_append] at hp
  rcases hp with hp | hp
  · exact hx p hp
  · exact hy p hp

theorem Ensures_bind_checks {β : Type} (P : Instr → Prop) {R : β → Prop}
    {m : Build (List (CheckSink × Fragment))} {f : List (CheckSink × Fragment) → Build β}
    (hm : Ensures (ChecksAll P) m) (h : ∀ a, ChecksAll P a → Ensures R (f a)) :
    Ensures R (m >>= f) := Ensures_bind_of hm h

theorem Fragment_All_appendChecks {P : Instr → Prop} (points_here : CheckSink → Bool)
    (items : List (CheckSink × Fragment)) (acc : Fragment) (hitems : ChecksAll P items)
    (hacc : Fragment.All P acc) : Fragment.All P (appendChecks points_here items acc) := by
  unfold KernelToIL.appendChecks
  induction items generalizing acc with
  | nil => exact hacc
  | cons p items ih =>
    simp only [List.foldl_cons]
    refine ih _ (fun q hq => hitems q (List.mem_cons_of_mem _ hq)) ?_
    split
    · exact Fragment_All_append hacc (hitems p (List.mem_cons_self _ _))
    · exact hacc

theorem Isolate_isHelperCall_of_not_call (I : Isolate) (i : Instr)
    (h : Instr.isPlain i = true) : I.isHelperCall i = true := by
  cases i <;> first | rfl | simp [Instr.isPlain, Instr.isStaticCall] at h

theorem Sound_LoadInstantiatorTypeArguments {P : Instr → Prop}
    (hP : ∀ i, Instr.isPlain i = true → P i) : Sound P LoadInstantiatorTypeArguments := by
  unfold KernelToIL.LoadInstantiatorTypeArguments
  repeat' first
    | with_reducible assumption
    | with_reducible exact Fragment_All_empty
    | with_reducible exact Ensures_fail _
    | with_reducible refine Ensures_pure ?_
    | with_reducible refine Fragment_All_append ?_ ?_
    | (with_reducible refine Sound_leaf hP ?_; with_reducible constructor)
    | with_reducible refine Ensures_bind_sound P ?_ (fun f hf => ?_)
    | with_reducible refine Ensures_bind (fun _ => ?_)
    | dsimp only
    | split

theorem Sound_LoadFunctionTypeArguments {P : Instr → Prop}
    (hP : ∀ i, Instr.isPlain i = true → P i) : Sound P LoadFunctionTypeArguments := by
  unfold KernelToIL.LoadFunctionTypeArguments
  repeat' first
    | with_reducible assumption
    | with_reducible exact Fragment_All_empty
    | with_reducible refine Ensures_pure ?_
    | with_reducible refine Fragment_All_append ?_ ?_
    | (with_reducible refine Sound_leaf hP ?_; with_reducible constructor)
    | with_reducible refine Ensures_bind_sound P ?_ (fun f hf => ?_)
    | with_reducible refine Ensures_bind (fun _ => ?_)
    | dsimp only
    | split

theorem Sound_TranslateInstantiatedTypeArguments {P : Instr → Prop}
    (hP : ∀ i, Instr.isPlain i = true → P i) (t : TypeArguments) :
    Sound P (TranslateInstantiatedTypeArguments t) := by
  unfold KernelToIL.TranslateInstantiatedTypeArguments
  repeat' first
    | with_reducible assumption
    | with_reducible exact Fragment_All_empty
    | with_reducible refine Ensures_pure ?_
    | with_reducible refine Fragment_All_append ?_ ?_
    | (with_reducible refine Sound_leaf hP ?_; with_reducible constructor)
    | with_reducible exact Sound_LoadInstantiatorTypeArguments hP
    | with_reducible exact Sound_LoadFunctionTypeArguments hP
    | with_reducible refine Ensures_bind_sound P ?_ (fun f hf => ?_)
    | with_reducible refine Ensures_bind (fun _ => ?_)
    | dsimp only
    | split

theorem Sound_loadReceiverSlot {P : Instr → Prop}
    (hP : ∀ i, Instr.isPlain i = true → P i) : Sound P loadReceiverSlot := by
  unfold KernelToIL.loadReceiverSlot
  repeat' first
    | with_reducible exact Ensures_fail _
    | (with_reducible refine Sound_leaf hP ?_; with_reducible constructor)
    | with_reducible refine Ensures_bind (fun _ => ?_)
    | dsimp only
    | split

theorem Sound_AssertAssignableLoadTypeArguments {P : Instr → Prop}
    (hP : ∀ i, Instr.isPlain i = true → P i) (I : Isolate) (t : AbstractType) :
    Sound P (AssertAssignableLoadTypeArguments I t) := by
  unfold KernelToIL.AssertAssignableLoadTypeArguments
  repeat' first
    | with_reducible exact Fragment_All_empty
    | with_reducible refine Ensures_pure ?_
    | (with_reducible refine Sound_leaf hP ?_; with_reducible constructor)
    | with_reducible exact Sound_LoadInstantiatorTypeArguments hP
    | with_reducible exact Sound_LoadFunctionTypeArguments hP
    | with_reducible refine Sound_seq ?_
    | with_reducible refine SoundAll_cons ?_ ?_
    | with_reducible exact SoundAll_nil
    | dsimp only
    | split

theorem Sound_CheckAssignable {P : Instr → Prop}
    (hP : ∀ i, Instr.isPlain i = true → P i) (I : Isolate) (t : AbstractType) :
    Sound P (CheckAssignable I t) := by
  unfold KernelToIL.CheckAssignable
  repeat' first
    | with_reducible exact Fragment_All_empty
    | with_reducible refine Ensures_pure ?_
    | (with_reducible refine Sound_leaf hP ?_; with_reducible constructor)
    | with_reducible exact Sound_AssertAssignableLoadTypeArguments hP _ _
    | with_reducible refine Sound_seq ?_
    | with_reducible refine SoundAll_cons ?_ ?_
    | with_reducible exact SoundAll_nil
    | with_reducible refine Ensures_bind (fun _ => ?_)
    | split

theorem Sound_AssertSubtype {P : Instr → Prop}
    (hP : ∀ i, Instr.isPlain i = true → P i) (s t : AbstractType) :
    Sound P (AssertSubtype s t) := by
  unfold KernelToIL.AssertSubtype
  repeat' first
    | with_reducible assumption
    | with_reducible refine Ensures_pure ?_
    | with_reducible refine Fragment_All_single ?_
    | exact hP _ rfl
    | with_reducible exact Sound_LoadInstantiatorTypeArguments hP
    | with_reducible exact Sound_LoadFunctionTypeArguments hP
    | with_reducible refine Sound_seq ?_
    | with_reducible refine SoundAll_cons ?_ ?_
    | with_reducible exact SoundAll_nil
    | with_reducible refine Ensures_bind_sound P ?_ (fun f hf => ?_)
    | with_reducible refine Ensures_bind (fun _ => ?_)

theorem Sound_BuildDefaultTypeHandling {P : Instr → Prop}
    (hP : ∀ i, Instr.isPlain i = true → P i) (function : Function) :
    Sound P (BuildDefaultTypeHandling function) := by
  unfold KernelToIL.BuildDefaultTypeHandling
  repeat' first
    | with_reducible assumption
    | with_reducible exact Fragment_All_empty
    | with_reducible exact Ensures_fail _
    | with_reducible refine Ensures_pure ?_
    | (with_reducible refine Sound_leaf hP ?_; with_reducible constructor)
    | with_reducible exact Sound_TranslateInstantiatedTypeArguments hP _
    | with_reducible refine Sound_TestAnyTypeArgs hP ?_ ?_
    | with_reducible refine Sound_seq ?_
    | with_reducible refine SoundAll_cons ?_ ?_
    | with_reducible exact SoundAll_nil
    | with_reducible refine Ensures_bind_sound P ?_ (fun f hf => ?_)
    | with_reducible refine Ensures_bind (fun _ => ?_)
    | dsimp only
    | split

theorem Sound_PushExplicitParameters {P : Instr → Prop}
    (hP : ∀ i, Instr.isPlain i = true → P i) (function : Function) :
    Sound P (PushExplicitParameters function) := by
  unfold KernelToIL.PushExplicitParameters
  refine Sound_seq (SoundAll_map _ _ (fun i => ?_))
  repeat' first
    | (with_reducible refine Sound_leaf hP ?_; with_reducible constructor)
    | with_reducible refine Sound_seq ?_
    | with_reducible refine SoundAll_cons ?_ ?_
    | with_reducible exact SoundAll_nil
    | with_reducible refine Ensures_bind (fun _ => ?_)

theorem Sound_checkTypeParameterBound {P : Instr → Prop}
    (hP : ∀ i, Instr.isPlain i = true → P i) (mode : TypeChecksToBuild)
    (p : TypeParameter) : Sound P (checkTypeParameterBound mode p) := by
  unfold KernelToIL.checkTypeParameterBound
  repeat' first
    | with_reducible exact Fragment_All_empty
    | with_reducible refine Ensures_pure ?_
    | with_reducible exact Sound_AssertSubtype hP _ _
    | with_reducible refine Ensures_bind (fun _ => ?_)
    | split

theorem Sound_Return {P : Instr → Prop} (I : Isolate)
    (hH : ∀ i, I.isHelperCall i = true → P i) (position_IsDebugPause omit_check : Bool) :
    Sound P (Return I position_IsDebugPause omit_check) := by
  have hP : ∀ i, Instr.isPlain i = true → P i :=
    fun i hi => hH i (Isolate_isHelperCall_of_not_call I i hi)
  unfold KernelToIL.Return
  repeat' first
    | with_reducible exact Fragment_All_empty
    | with_reducible exact Ensures_fail _
    | with_reducible refine Ensures_pure ?_
    | (with_reducible refine Sound_leaf hP ?_; with_reducible constructor)
    | with_reducible exact Sound_CheckAssignable hP _ _
    | (with_reducible refine Sound_StaticCall _ _ _ _ (hH _ ?_); simp [Isolate.isHelperCall, *])
    | with_reducible refine Sound_seq ?_
    | with_reducible refine SoundAll_cons ?_ ?_
    | with_reducible exact SoundAll_nil
    | with_reducible refine Ensures_bind (fun _ => ?_)
    | dsimp only
    | split

theorem Ensures_checkParameter {P : Instr → Prop}
    (hP : ∀ i, Instr.isPlain i = true → P i) (I : Isolate) (with_redefinitions : Bool)
    (i : Nat) : Ensures (ChecksAll P) (checkParameter I with_redefinitions i) := by
  unfold KernelToIL.checkParameter
  repeat' first
    | with_reducible assumption
    | with_reducible refine Ensures_pure ?_
    | (with_reducible refine Sound_leaf hP ?_; with_reducible constructor)
    | with_reducible exact Sound_CheckAssignable hP _ _
    | with_reducible refine Sound_seq ?_
    | with_reducible refine SoundAll_cons ?_ ?_
    | with_reducible exact SoundAll_nil
    | with_reducible exact ChecksAll_nil
    | with_reducible refine ChecksAll_cons ?_ ?_
    | with_reducible refine Ensures_bind_sound P ?_ (fun f hf => ?_)
    | with_reducible refine Ensures_bind (fun _ => ?_)
    | dsimp only
    | split

theorem Ensures_collectChecks {P : Instr → Prop}
    (step : Nat → Build (List (CheckSink × Fragment)))
    (hstep : ∀ i, Ensures (ChecksAll P) (step i)) (xs : List Nat) :
    Ensures (ChecksAll P) (collectChecks step xs) := by
  induction xs with
  | nil => exact Ensures_pure ChecksAll_nil
  | cons i rest ih =>
    exact Ensures_bind_of (hstep i) (fun a ha => Ensures_bind_of ih
      (fun r hr => Ensures_pure (ChecksAll_append ha hr)))

theorem Ensures_BuildArgumentTypeChecks {P : Instr → Prop}
    (hP : ∀ i, Instr.isPlain i = true → P i) (I : Isolate) (mode : TypeChecksToBuild)
    (with_redefinitions : Bool) :
    Ensures (ChecksAll P) (BuildArgumentTypeChecks I mode with_redefinitions) := by
  unfold KernelToIL.BuildArgumentTypeChecks
  repeat' first
    | with_reducible assumption
    | with_reducible exact Fragment_All_empty
    | with_reducible refine Ensures_pure ?_
    | with_reducible exact Ensures_collectChecks _ (Ensures_checkParameter hP _ _) _
    | with_reducible exact SoundAll_map _ _ (Sound_checkTypeParameterBound hP _)
    | with_reducible refine Sound_TestDelayedTypeArgs hP _ ?_ ?_
    | with_reducible refine Sound_seq ?_
    | with_reducible exact ChecksAll_nil
    | with_reducible refine ChecksAll_cons ?_ ?_
    | with_reducible refine Ensures_bind_sound P ?_ (fun f hf => ?_)
    | with_reducible refine Ensures_bind_checks P ?_ (fun items hitems => ?_)
    | with_reducible refine Ensures_bind (fun _ => ?_)
    | dsimp only
    | split

theorem Ensures_BuildSeparateUncheckedEntryPoint {P : Instr → Prop}
    (hP : ∀ i, Instr.isPlain i = true → P i)
    (normal_entry normal_prologue extra_prologue shared_prologue body : Fragment)
    (h1 : Fragment.All P normal_entry) (h2 : Fragment.All P normal_prologue)
    (h3 : Fragment.All P extra_prologue) (h4 : Fragment.All P shared_prologue)
    (h5 : Fragment.All P body) :
    Ensures (fun l => ∀ i ∈ l, P i) (BuildSeparateUncheckedEntryPoint normal_entry
      normal_prologue extra_prologue shared_prologue body) := by
  unfold KernelToIL.BuildSeparateUncheckedEntryPoint
  repeat' first
    | with_reducible assumption
    | with_reducible refine Ensures_pure ?_
    | with_reducible refine Fragment_All_append ?_ ?_
    | with_reducible refine Fragment_All_single ?_
    | exact hP _ rfl
    | (with_reducible refine Sound_leaf hP ?_; with_reducible constructor)
    | with_reducible refine Sound_seqFrom _ _ ?_ ?_
    | with_reducible refine Fragment_All_instrs_append ?_ ?_
    | with_reducible refine Fragment_All_instrs ?_
    | with_reducible refine SoundAll_cons ?_ ?_
    | with_reducible exact SoundAll_nil
    | with_reducible refine Ensures_bind_sound P ?_ (fun f hf => ?_)

theorem Ensures_BuildSharedUncheckedEntryPoint {P : Instr → Prop}
    (hP : ∀ i, Instr.isPlain i = true → P i)
    (shared_prologue skippable_checks redefinitions_if_skipped body : Fragment)
    (h1 : Fragment.All P shared_prologue) (h2 : Fragment.All P skippable_checks)
    (h3 : Fragment.All P redefinitions_if_skipped) (h4 : Fragment.All P body) :
    Ensures (fun l => ∀ i ∈ l, P i) (BuildSharedUncheckedEntryPoint shared_prologue
      skippable_checks redefinitions_if_skipped body) := by
  unfold KernelToIL.BuildSharedUncheckedEntryPoint
  repeat' first
    | with_reducible assumption
    | with_reducible refine Ensures_pure ?_
    | with_reducible refine Fragment_All_append ?_ ?_
    | with_reducible refine Fragment_All_single ?_
    | exact hP _ rfl
    | (with_reducible refine Sound_leaf hP ?_; with_reducible constructor)
    | with_reducible refine Sound_seqFrom _ _ ?_ ?_
    | with_reducible refine Fragment_All_instrs_append ?_ ?_
    | with_reducible refine Fragment_All_instrs ?_
    | with_reducible refine SoundAll_cons ?_ ?_
    | with_reducible exact SoundAll_nil
    | with_reducible refine Ensures_bind_sound P ?_ (fun f hf => ?_)
    | with_reducible refine Ensures_bind (fun _ => ?_)

theorem Fragment_All_forwarderLoop {P : Instr → Prop}
    (hP : ∀ i, Instr.isPlain i = true → P i) {condition loop_body : Fragment}
    (hc : Fragment.All P condition) (hl : Fragment.All P loop_body) :
    Fragment.All P (forwarderLoop condition loop_body) := by
  intro i hi
  simp only [KernelToIL.forwarderLoop, List.mem_append, List.mem_cons, List.mem_singleton,
    List.not_mem_nil, or_false] at hi
  rcases hi with (((((rfl | rfl) | hi) | rfl) | hi) | rfl)
  · exact hP _ rfl
  · exact hP _ rfl
  · exact hc i hi
  · exact hP _ rfl
  · exact hl i hi
  · exact hP _ rfl

theorem Ensures_BuildPrologue : Ensures (fun i => i = Instr.PrologueEnd) BuildPrologue :=
  Ensures_pure rfl

/-- Every instruction of a graph built by the no-such-method forwarder is
either no static call or a call to one of the runtime helpers. -/
theorem Ensures_BuildGraphOfNoSuchMethodForwarder {P : Instr → Prop} (I : Isolate)
    (hH : ∀ i, I.isHelperCall i = true → P i) (function : Function)
    (is_implicit_closure_function throw_no_such_method_error : Bool) :
    Ensures (fun g => ∀ i ∈ g.instrs, P i) (BuildGraphOfNoSuchMethodForwarder I function
      is_implicit_closure_function throw_no_such_method_error) := by
  have hP : ∀ i, Instr.isPlain i = true → P i :=
    fun i hi => hH i (Isolate_isHelperCall_of_not_call I i hi)
  unfold KernelToIL.BuildGraphOfNoSuchMethodForwarder
  refine Ensures_bind_of Ensures_BuildPrologue (fun cursor hc => ?_)
  subst hc
  repeat' first
    | with_reducible assumption
    | with_reducible exact Fragment_All_empty
    | with_reducible exact Ensures_fail _
    | with_reducible refine Ensures_pure ?_
    | with_reducible refine Fragment_All_append ?_ ?_
    | with_reducible refine Fragment_All_single ?_
    | exact hP _ rfl
    | (with_reducible refine Sound_leaf hP ?_; with_reducible constructor)
    | with_reducible refine Fragment_All_instrs_cons ?_ ?_
    | with_reducible refine Fragment_All_instrs ?_
    | with_reducible refine Fragment_All_appendChecks _ _ _ ?_ ?_
    | with_reducible refine Fragment_All_forwarderLoop hP ?_ ?_
    | with_reducible exact Ensures_BuildArgumentTypeChecks hP _ _ _
    | with_reducible exact Sound_loadReceiverSlot hP
    | with_reducible exact Sound_LoadFunctionTypeArguments hP
    | with_reducible exact Sound_AssertAssignableLoadTypeArguments hP _ _
    | with_reducible exact Sound_Return I hH _ _
    | (with_reducible refine Sound_StaticCall _ _ _ _ (hH _ ?_); simp [Isolate.isHelperCall, *])
    | with_reducible refine Sound_TestAnyTypeArgs hP ?_ ?_
    | with_reducible refine Sound_TestDelayedTypeArgs hP _ ?_ ?_
    | with_reducible refine Sound_seq ?_
    | with_reducible refine SoundAll_cons ?_ ?_
    | with_reducible exact SoundAll_nil
    | with_reducible refine Ensures_bind_sound P ?_ (fun f hf => ?_)
    | with_reducible refine Ensures_bind_checks P ?_ (fun items hitems => ?_)
    | with_reducible refine Ensures_bind (fun _ => ?_)
    | dsimp only
    | split

theorem Ensures_ASSERT (c : Bool) : Ensures (fun _ => c = true) (ASSERT c) := by
  intro b a b1 hb
  unfold KernelToIL.ASSERT at hb
  split at hb
  · assumption
  · simp only [reduceCtorEq] at hb

theorem Fragment_All_instrs_nil {P : Instr → Prop} : ∀ i ∈ ([] : List Instr), P i := by
  intro i hi
  simp at hi

theorem Ensures_bind_instrs {β : Type} (P : Instr → Prop) {R : β → Prop}
    {m : Build (List Instr)} {f : List Instr → Build β}
    (hm : Ensures (fun l => ∀ i ∈ l, P i) m) (h : ∀ a, (∀ i ∈ a, P i) → Ensures R (f a)) :
    Ensures R (m >>= f) := Ensures_bind_of hm h

/-- Every instruction of a graph built for an implicit closure function is no
static call, a call to a runtime helper, or the forwarding call; the latter is
emitted only past the checks on the target, with the argument count computed
from the function. -/
theorem Ensures_BuildGraphOfImplicitClosureFunction {P : Instr → Prop} (I : Isolate)
    (function : Function) (hH : ∀ i, I.isHelperCall i = true → P i)
    (hcall : ∀ (parent : Function) (owner : Class) (target : FunctionAttrs) (n tal : Int),
      function.parent_function = some parent → I.classOf parent.owner = some owner →
      reloadedTarget (owner.LookupFunction parent.name) parent = some target →
      parent.num_fixed_parameters = target.num_fixed_parameters →
      n = (function.NumParameters : Int) - function.NumImplicitParameters +
        (if target.is_static then 0 else 1) →
      P (.StaticCall target.raw n tal .kNoRebind)) :
    Ensures (fun g => ∀ i ∈ g.instrs, P i) (BuildGraphOfImplicitClosureFunction I function) := by
  have hP : ∀ i, Instr.isPlain i = true → P i :=
    fun i hi => hH i (Isolate_isHelperCall_of_not_call I i hi)
  unfold KernelToIL.BuildGraphOfImplicitClosureFunction
  split
  · exact Ensures_fail _
  · rename_i parent hparent
    split
    · exact Ensures_fail _
    · rename_i owner howner
      dsimp only
      refine Ensures_bind (fun _ => ?_)
      split
      · exact Ensures_BuildGraphOfNoSuchMethodForwarder I hH _ _ _
      · rename_i target htarget
        split
        · exact Ensures_BuildGraphOfNoSuchMethodForwarder I hH _ _ _
        · rename_i hfixed
          have hc : ∀ n tal : Int,
              n = (function.NumParameters : Int) - function.NumImplicitParameters +
                (if target.is_static then 0 else 1) →
              P (.StaticCall target.raw n tal .kNoRebind) :=
            fun n tal hn => hcall parent owner target n tal hparent howner htarget
              (not_not.mp hfixed) hn
          refine Ensures_bind_of Ensures_BuildPrologue (fun cursor hcursor => ?_)
          subst hcursor
          refine Ensures_bind_sound P (Sound_CheckStackOverflowInPrologue hP)
            (fun prologue hprologue => ?_)
          refine Ensures_bind_sound P (Sound_BuildDefaultTypeHandling hP _)
            (fun default_type_handling hdefault => ?_)
          refine Ensures_bind_checks P ?_ (fun items hitems => ?_)
          · repeat' first
              | with_reducible exact Ensures_BuildArgumentTypeChecks hP _ _ _
              | with_reducible exact Ensures_pure ChecksAll_nil
              | split
          refine Ensures_bind (fun b => ?_)
          refine Ensures_bind_sound P ?_ (fun body hbody => ?_)
          · repeat' first
              | with_reducible exact Fragment_All_empty
              | with_reducible exact Ensures_fail _
              | with_reducible refine Ensures_pure ?_
              | (with_reducible refine Sound_leaf hP ?_; with_reducible constructor)
              | with_reducible exact Sound_PushExplicitParameters hP _
              | with_reducible exact Sound_loadReceiverSlot hP
              | with_reducible exact Sound_Return I hH _ _
              | with_reducible refine Ensures_bind_of (Ensures_ASSERT _) (fun _ hassert => ?_)
              | (with_reducible refine Sound_StaticCall _ _ _ _ (hc _ _ ?_); exact rfl)
              | with_reducible refine Sound_seq ?_
              | with_reducible refine SoundAll_cons ?_ ?_
              | with_reducible exact SoundAll_nil
              | with_reducible refine Ensures_bind (fun _ => ?_)
              | dsimp only
              | split
          have himplicit := Fragment_All_appendChecks (fun sink => sink == CheckSink.implicit_checks)
            items Fragment.empty hitems Fragment_All_empty
          have hcursor : Fragment.All P (Fragment.single Instr.PrologueEnd) :=
            Fragment_All_single (hP _ rfl)
          split
          · split
            · refine Ensures_bind_sound P (Sound_CheckStackOverflowInPrologue hP)
                (fun extra_prologue hextra => ?_)
              exact Ensures_bind_instrs P
                (Ensures_BuildSeparateUncheckedEntryPoint hP _ _ _ _ _
                  (Fragment_All_mk (Fragment_All_instrs_cons (hP _ rfl)
                    (Fragment_All_instrs_cons (hP _ rfl) Fragment_All_instrs_nil)))
                  (Fragment_All_append (Fragment_All_append hprologue hdefault) himplicit) hextra Fragment_All_empty hbody)
                (fun instrs hinstrs => Ensures_pure hinstrs)
            · exact Ensures_bind_instrs P
                (Ensures_BuildSharedUncheckedEntryPoint hP _ _ _ _ (Fragment_All_append hcursor hprologue)
                  (Fragment_All_append hdefault himplicit) Fragment_All_empty hbody)
                (fun instrs hinstrs => Ensures_pure hinstrs)
          · exact Ensures_pure (Fragment_All_instrs_cons (hP _ rfl) (Fragment_All_instrs
              (Fragment_All_append (Fragment_All_append (Fragment_All_append (Fragment_All_append hcursor hprologue) hdefault) himplicit) hbody)))

/-! ### The fallback of `BuildGraphOfImplicitClosureFunction` -/

theorem reloadedTarget_some (looked_up : Option FunctionAttrs) (parent : Function)
    (target : FunctionAttrs) (h : reloadedTarget looked_up parent = some target) :
    looked_up = some target ∧
      ¬(target.raw ≠ parent.raw ∧
        (target.is_static ≠ parent.is_static ∨ target.kind ≠ parent.kind)) := by
  unfold reloadedTarget at h
  cases looked_up with
  | none => simp only [reduceCtorEq] at h
  | some t =>
    simp only at h
    split at h
    · simp only [reduceCtorEq] at h
    · simp only [Option.some.injEq] at h
      subst h
      exact ⟨rfl, by assumption⟩

theorem checkReloaded_ok (I : Isolate) (looked_up : Option FunctionAttrs) (parent : Function)
    (b : FlowGraphBuilder)
    (h : ∀ t, looked_up = some t → t.raw ≠ parent.raw → I.HasAttemptedReload = true) :
    checkReloaded I looked_up parent b = .ok ((), b) := by
  unfold checkReloaded
  cases looked_up with
  | none => rfl
  | some t =>
    simp only
    split
    · rename_i hne
      simp only [ASSERT, h t rfl hne, if_true]
    · rfl

/-- A helper call is no call to a function that is not a helper. -/
theorem isHelperCall_not_to (I : Isolate) (i : Instr) (h : I.isHelperCall i = true) (t : Nat)
    (ht : I.isHelper t = false) : i.isStaticCallTo t = false := by
  cases i <;> try rfl
  rename_i target argument_count type_args_count rebind_rule
  simp only [Instr.isStaticCallTo, beq_eq_false_iff_ne, ne_eq]
  intro heq
  subst heq
  simp only [Isolate.isHelper, Bool.or_eq_false_iff] at ht
  simp only [Isolate.isHelperCall, ht.1.1, ht.1.2, ht.2, Bool.false_and, Bool.or_self,
    Bool.and_false, Bool.false_eq_true] at h

/-- The closure builder with a known parent and owner class, once the reload
check has passed: the forwarder when no target is left. -/
theorem BuildGraphOfImplicitClosureFunction_none (I : Isolate) (function parent : Function)
    (owner : Class) (b : FlowGraphBuilder) (hparent : function.parent_function = some parent)
    (howner : I.classOf parent.owner = some owner)
    (hreload : ∀ t, owner.LookupFunction parent.name = some t → t.raw ≠ parent.raw →
      I.HasAttemptedReload = true)
    (hnone : reloadedTarget (owner.LookupFunction parent.name) parent = none) :
    BuildGraphOfImplicitClosureFunction I function b =
      BuildGraphOfNoSuchMethodForwarder I function true parent.is_static b := by
  unfold BuildGraphOfImplicitClosureFunction
  simp only [hparent, howner, Build.run_bind, checkReloaded_ok I _ parent b hreload, hnone]

/-- The same, when the target left differs from the parent in the number of
fixed parameters. -/
theorem BuildGraphOfImplicitClosureFunction_fixed (I : Isolate) (function parent : Function)
    (owner : Class) (b : FlowGraphBuilder) (hparent : function.parent_function = some parent)
    (howner : I.classOf parent.owner = some owner)
    (hreload : ∀ t, owner.LookupFunction parent.name = some t → t.raw ≠ parent.raw →
      I.HasAttemptedReload = true)
    (target : FunctionAttrs)
    (hsome : reloadedTarget (owner.LookupFunction parent.name) parent = some target)
    (hfixed : parent.num_fixed_parameters ≠ target.num_fixed_parameters) :
    BuildGraphOfImplicitClosureFunction I function b =
      BuildGraphOfNoSuchMethodForwarder I function true parent.is_static b := by
  unfold BuildGraphOfImplicitClosureFunction
  simp only [hparent, howner, Build.run_bind, checkReloaded_ok I _ parent b hreload, hsome,
    hfixed, ne_eq, not_false_eq_true, if_true]

/-- `BuildGraphOfImplicitClosureFunction` for a function with parent `parent`
owned by class `owner`, the debug assertion on reloads holding.
(1) When the target looked up is missing, or is another function than the
parent and differs from it in static-ness or kind, or differs from the parent
in the number of fixed parameters, the build is the build of
`BuildGraphOfNoSuchMethodForwarder(function, true, parent.is_static())`.
(2) A graph built by the forwarder holds no static call but calls to the
runtime helpers, so none to a target that is not such a helper.
(3) In any graph the closure builder returns, a static call that is not a
helper call is the forwarding call: the target exists, passed the checks on
static-ness and kind, has as many fixed parameters as the parent, and is
called with the `argument_count` the code computes from the function,
`function.NumParameters() - function.NumImplicitParameters()` plus one for
the receiver of an instance target.  That this count is
`target.NumParameters()` is asserted by the code, not tested. -/
theorem BuildGraphOfImplicitClosureFunction_fallback (I : Isolate) (function parent : Function)
    (owner : Class) (b : FlowGraphBuilder)
    (hparent : function.parent_function = some parent)
    (howner : I.classOf parent.owner = some owner)
    (hreload : ∀ t, owner.LookupFunction parent.name = some t → t.raw ≠ parent.raw →
      I.HasAttemptedReload = true) :
    ((owner.LookupFunction parent.name = none ∨
        (∃ t, owner.LookupFunction parent.name = some t ∧ t.raw ≠ parent.raw ∧
          (t.is_static ≠ parent.is_static ∨ t.kind ≠ parent.kind)) ∨
        (∃ t, owner.LookupFunction parent.name = some t ∧
          parent.num_fixed_parameters ≠ t.num_fixed_parameters)) →
      BuildGraphOfImplicitClosureFunction I function b =
        BuildGraphOfNoSuchMethodForwarder I function true parent.is_static b) ∧
    (∀ (is_implicit_closure_function throw_no_such_method_error : Bool) (g : FlowGraph)
        (b1 : FlowGraphBuilder),
      BuildGraphOfNoSuchMethodForwarder I function is_implicit_closure_function
          throw_no_such_method_error b = .ok (g, b1) →
        ∀ i ∈ g.instrs, I.isHelperCall i = true ∧
          ∀ t, I.isHelper t = false → i.isStaticCallTo t = false) ∧
    (∀ (g : FlowGraph) (b1 : FlowGraphBuilder),
      BuildGraphOfImplicitClosureFunction I function b = .ok (g, b1) →
        ∀ i ∈ g.instrs, I.isHelperCall i = true ∨
          ∃ target tal, owner.LookupFunction parent.name = some target ∧
            ¬(target.raw ≠ parent.raw ∧
              (target.is_static ≠ parent.is_static ∨ target.kind ≠ parent.kind)) ∧
            parent.num_fixed_parameters = target.num_fixed_parameters ∧
            i = .StaticCall target.raw
              ((function.NumParameters : Int) - function.NumImplicitParameters +
                (if target.is_static then 0 else 1)) tal .kNoRebind) := by
  refine ⟨?_, ?_, ?_⟩
  · intro hcase
    cases hrt : reloadedTarget (owner.LookupFunction parent.name) parent with
    | none =>
      exact BuildGraphOfImplicitClosureFunction_none I function parent owner b hparent howner
        hreload hrt
    | some target =>
      obtain ⟨hlookup, hsame⟩ := reloadedTarget_some _ _ _ hrt
      rcases hcase with hnone | ⟨t, ht, hne, hdiff⟩ | ⟨t, ht, hfixed⟩
      · rw [hnone] at hlookup
        simp only [reduceCtorEq] at hlookup
      · rw [ht, Option.some.injEq] at hlookup
        subst hlookup
        exact absurd ⟨hne, hdiff⟩ hsame
      · rw [ht, Option.some.injEq] at hlookup
        subst hlookup
        exact BuildGraphOfImplicitClosureFunction_fixed I function parent owner b hparent
          howner hreload t hrt hfixed
  · intro ic th g b1 hg i hi
    have h := @Ensures_BuildGraphOfNoSuchMethodForwarder (fun i => I.isHelperCall i = true) I
      (fun i h => h) function ic th b g b1 hg i hi
    exact ⟨h, fun t ht => isHelperCall_not_to I i h t ht⟩
  · intro g b1 hg i hi
    refine @Ensures_BuildGraphOfImplicitClosureFunction
      (fun i => I.isHelperCall i = true ∨
        ∃ target tal, owner.LookupFunction parent.name = some target ∧
          ¬(target.raw ≠ parent.raw ∧
            (target.is_static ≠ parent.is_static ∨ target.kind ≠ parent.kind)) ∧
          parent.num_fixed_parameters = target.num_fixed_parameters ∧
          i = .StaticCall target.raw
            ((function.NumParameters : Int) - function.NumImplicitParameters +
              (if target.is_static then 0 else 1)) tal .kNoRebind)
      I function (fun i h => Or.inl h) ?_ b g b1 hg i hi
    intro parent1 owner1 target n tal hparent1 howner1 htarget hfixed hn
    rw [hparent, Option.some.injEq] at hparent1
    subst hparent1
    rw [howner, Option.some.injEq] at howner1
    subst howner1
    obtain ⟨hlookup, hsame⟩ := reloadedTarget_some _ _ _ htarget
    subst hn
    exact Or.inr ⟨target, tal, hlookup, hsame, hfixed, rfl⟩

/-- The tear-off of a static method with two fixed parameters: after a
reload the class holds a method of that name with three, the build is the
forwarder's, it succeeds, and its graph holds no static call to the target;
before any reload the target is the method itself, the build succeeds, and
the one static call in its graph that is no helper call passes the two
arguments to it. -/
theorem BuildGraphOfImplicitClosureFunction_fallback_witness :
    (BuildGraphOfImplicitClosureFunction witnessIsolate witnessClosure witnessClosureBuilder =
        BuildGraphOfNoSuchMethodForwarder witnessIsolate witnessClosure true true
          witnessClosureBuilder ∧
      ∃ g b1, BuildGraphOfNoSuchMethodForwarder witnessIsolate witnessClosure true true
          witnessClosureBuilder = .ok (g, b1) ∧
        ∀ i ∈ g.instrs, i.isStaticCallTo witnessTarget.raw = false) ∧
    ∃ g b1, BuildGraphOfImplicitClosureFunction witnessIsolateBeforeReload witnessClosure
        witnessClosureBuilder = .ok (g, b1) ∧
      Instr.StaticCall 10 2 0 .kNoRebind ∈ g.instrs ∧
      ∀ i ∈ g.instrs, witnessIsolateBeforeReload.isHelperCall i = false →
        ∃ tal, i = .StaticCall 10 2 tal .kNoRebind := by
  have h1 := BuildGraphOfImplicitClosureFunction_fallback witnessIsolate witnessClosure
    witnessParent ⟨7, [witnessTarget], false⟩ witnessClosureBuilder rfl rfl (fun _ _ _ => rfl)
  have h2 := BuildGraphOfImplicitClosureFunction_fallback witnessIsolateBeforeReload
    witnessClosure witnessParent ⟨7, [witnessParent.toFunctionAttrs], false⟩
    witnessClosureBuilder rfl rfl (fun t ht hne => by
      have : t = witnessParent.toFunctionAttrs := by
        have h3 : (⟨7, [witnessParent.toFunctionAttrs], false⟩ : Class).LookupFunction
            witnessParent.name = some witnessParent.toFunctionAttrs := by decide
        rw [h3, Option.some.injEq] at ht
        exact ht.symm
      subst this
      exact absurd rfl hne)
  refine ⟨⟨h1.1 (Or.inr (Or.inr ⟨witnessTarget, by decide, by decide⟩)), ?_⟩, ?_⟩
  · have hok : (BuildGraphOfNoSuchMethodForwarder witnessIsolate witnessClosure true true
        witnessClosureBuilder).isOk = true := by decide!
    cases hr : BuildGraphOfNoSuchMethodForwarder witnessIsolate witnessClosure true true
        witnessClosureBuilder with
    | error e => rw [hr] at hok; cases hok
    | ok r =>
      obtain ⟨g, b1⟩ := r
      exact ⟨g, b1, rfl, fun i hi => (h1.2.1 true true g b1 hr i hi).2 _ (by decide)⟩
  · have hok : (match BuildGraphOfImplicitClosureFunction witnessIsolateBeforeReload
        witnessClosure witnessClosureBuilder with
        | .ok (g, _) => decide (Instr.StaticCall 10 2 0 .kNoRebind ∈ g.instrs)
        | .error _ => false) = true := by decide!
    cases hr : BuildGraphOfImplicitClosureFunction witnessIsolateBeforeReload witnessClosure
        witnessClosureBuilder with
    | error e => rw [hr] at hok; cases hok
    | ok r =>
      obtain ⟨g, b1⟩ := r
      rw [hr] at hok
      refine ⟨g, b1, rfl, of_decide_eq_true hok, fun i hi hno => ?_⟩
      rcases h2.2.2 g b1 hr i hi with hhelper | ⟨target, tal, hlookup, _, _, hcall⟩
      · rw [hhelper] at hno
        cases hno
      · have h3 : (⟨7, [witnessParent.toFunctionAttrs], false⟩ : Class).LookupFunction
            witnessParent.name = some witnessParent.toFunctionAttrs := by decide
        rw [h3, Option.some.injEq] at hlookup
        subst hlookup
        exact ⟨tal, hcall⟩

/-- C8 at the failing input: the tear-off of the static method `m(a, b)`,
built after a reload in which the class holds `m(a, b, [c])`.  The target
exists, is another function than the parent, and agrees with it in
static-ness, kind and number of fixed parameters, so none of the fallback
conditions holds; the argument count computed from the function is 2 while
`target.NumParameters()` is 3.  The build does not take the forwarder, which
would succeed, and stops at the assertion
`argument_count == target.NumParameters()`; the statement after that
assertion emits a static call to the target with 2 arguments.  After a reload
that left the parameters of `m` as they were the same build succeeds. -/
theorem BuildGraphOfImplicitClosureFunction_optional_parameter :
    reloadedTarget ((⟨7, [witnessOptionalTarget], false⟩ : Class).LookupFunction
      witnessParent.name) witnessParent = some witnessOptionalTarget ∧
    witnessOptionalTarget.raw ≠ witnessParent.raw ∧
    witnessParent.num_fixed_parameters = witnessOptionalTarget.num_fixed_parameters ∧
    (witnessClosure.NumParameters : Int) - witnessClosure.NumImplicitParameters +
      (if witnessOptionalTarget.is_static then 0 else 1) = 2 ∧
    witnessOptionalTarget.NumParameters = 3 ∧
    BuildGraphOfImplicitClosureFunction witnessIsolateOptional witnessClosure
      witnessClosureBuilder = .error .assertion ∧
    (∃ g b1, BuildGraphOfNoSuchMethodForwarder witnessIsolateOptional witnessClosure true true
      witnessClosureBuilder = .ok (g, b1)) ∧
    (∃ b1, StaticCall witnessOptionalTarget 2 .kNoRebind 0
        { witnessClosureBuilder with stack_ := [.PushArgument, .PushArgument]
                                     pending_argument_count_ := 2 } =
      .ok (⟨[.StaticCall 13 2 0 .kNoRebind], false⟩, b1)) ∧
    (∃ g b1, BuildGraphOfImplicitClosureFunction witnessIsolateUnchanged witnessClosure
        witnessClosureBuilder = .ok (g, b1) ∧
      Instr.StaticCall 14 2 0 .kNoRebind ∈ g.instrs) := by
  refine ⟨by decide, by decide, by decide, by decide, by decide, ?_, ?_, ⟨_, rfl⟩, ?_⟩
  · have hok : (match BuildGraphOfImplicitClosureFunction witnessIsolateOptional witnessClosure
        witnessClosureBuilder with
        | .ok _ => false
        | .error e => decide (e = .assertion)) = true := by decide!
    cases hr : BuildGraphOfImplicitClosureFunction witnessIsolateOptional witnessClosure
        witnessClosureBuilder with
    | error e =>
      rw [hr] at hok
      rw [of_decide_eq_true hok]
    | ok r => rw [hr] at hok; cases hok
  · have hok : (BuildGraphOfNoSuchMethodForwarder witnessIsolateOptional witnessClosure true true
        witnessClosureBuilder).isOk = true := by decide!
    cases hr : BuildGraphOfNoSuchMethodForwarder witnessIsolateOptional witnessClosure true true
        witnessClosureBuilder with
    | error e => rw [hr] at hok; cases hok
    | ok r => exact ⟨r.1, r.2, rfl⟩
  · have hok : (match BuildGraphOfImplicitClosureFunction witnessIsolateUnchanged
        witnessClosure witnessClosureBuilder with
        | .ok (g, _) => decide (Instr.StaticCall 14 2 0 .kNoRebind ∈ g.instrs)
        | .error _ => false) = true := by decide!
    cases hr : BuildGraphOfImplicitClosureFunction witnessIsolateUnchanged witnessClosure
        witnessClosureBuilder with
    | error e => rw [hr] at hok; cases hok
    | ok r =>
      obtain ⟨g, b1⟩ := r
      rw [hr] at hok
      exact ⟨g, b1, rfl, of_decide_eq_true hok⟩

/-! ### Steps that return open fragments -/

theorem Emits_pure (l : List Instr) : Emits (pure ⟨l, false⟩) l := Ensures_pure rfl

theorem Emits_emitDefinition (n : Nat) (i : Instr) : Emits (emitDefinition n i) [i] :=
  Ensures_bind (fun _ => Ensures_bind (fun _ => Ensures_pure rfl))

theorem Emits_emitEffect (n : Nat) (i : Instr) : Emits (emitEffect n i) [i] :=
  Ensures_bind (fun _ => Ensures_pure rfl)

theorem Emits_seqFrom (ms : List (Build Fragment)) (ls : List (List Instr))
    (h : List.Forall₂ Emits ms ls) (l0 : List Instr) :
    Emits (Build.seqFrom ⟨l0, false⟩ ms) (l0 ++ ls.flatten) := by
  induction h generalizing l0 with
  | nil => simpa using Emits_pure l0
  | @cons m l ms ls hm _ ih =>
    refine Ensures_bind_of hm (fun f hf => ?_)
    subst hf
    rw [Fragment.append_open_open]
    have := ih (l0 ++ l)
    simpa [List.append_assoc] using this

theorem Emits_seq (ms : List (Build Fragment)) (ls : List (List Instr))
    (h : List.Forall₂ Emits ms ls) : Emits (Build.seq ms) ls.flatten := by
  have := Emits_seqFrom ms ls h []
  simpa [Build.seq, Fragment.empty] using this

theorem Emits_OpenAll {P : Instr → Prop} {m : Build Fragment} {l : List Instr} (h : Emits m l)
    (hl : ∀ i ∈ l, P i) : Ensures (Fragment.OpenAll P) m :=
  Ensures_mono h (fun f hf => by subst hf; exact ⟨rfl, hl⟩)

theorem Fragment_OpenAll_empty {P : Instr → Prop} : Fragment.OpenAll P Fragment.empty :=
  ⟨rfl, fun i hi => by simp [Fragment.empty] at hi⟩

theorem Fragment_OpenAll_append {P : Instr → Prop} {a c : Fragment} (ha : Fragment.OpenAll P a)
    (hc : Fragment.OpenAll P c) :
    Fragment.OpenAll P (a ++ c) ∧ (a ++ c).instrs = a.instrs ++ c.instrs := by
  obtain ⟨la, ca⟩ := a
  obtain ⟨lc, cc⟩ := c
  obtain ⟨ha1, ha2⟩ := ha
  obtain ⟨hc1, hc2⟩ := hc
  simp only at ha1 hc1 ha2 hc2
  subst ha1 hc1
  rw [Fragment.append_open_open]
  refine ⟨⟨rfl, ?_⟩, rfl⟩
  intro i hi
  simp only [List.mem_append] at hi
  rcases hi with hi | hi
  · exact ha2 i hi
  · exact hc2 i hi

/-- A sequence of steps that return open fragments, started from an open
fragment, extends it. -/
theorem Ensures_seqFrom_open {P : Instr → Prop} (ms : List (Build Fragment))
    (h : ∀ m ∈ ms, Ensures (Fragment.OpenAll P) m) (l0 : List Instr) :
    Ensures (fun f => f.closed = false ∧ ∃ extra, f.instrs = l0 ++ extra ∧ ∀ i ∈ extra, P i)
      (Build.seqFrom ⟨l0, false⟩ ms) := by
  induction ms generalizing l0 with
  | nil => exact Ensures_pure ⟨rfl, [], by simp, by simp⟩
  | cons m ms ih =>
    refine Ensures_bind_of (h m (List.mem_cons_self _ _)) (fun f hf => ?_)
    obtain ⟨lf, cf⟩ := f
    obtain ⟨hf1, hf2⟩ := hf
    simp only at hf1 hf2
    subst hf1
    rw [Fragment.append_open_open]
    refine Ensures_mono (ih (fun x hx => h x (List.mem_cons_of_mem _ hx)) (l0 ++ lf)) ?_
    rintro g ⟨hg, extra, hge, hex⟩
    refine ⟨hg, lf ++ extra, by rw [hge, List.append_assoc], ?_⟩
    intro i hi
    simp only [List.mem_append] at hi
    rcases hi with hi | hi
    · exact hf2 i hi
    · exact hex i hi

theorem Ensures_seq_open {P : Instr → Prop} (ms : List (Build Fragment))
    (h : ∀ m ∈ ms, Ensures (Fragment.OpenAll P) m) :
    Ensures (Fragment.OpenAll P) (Build.seq ms) := by
  refine Ensures_mono (Ensures_seqFrom_open ms h []) ?_
  rintro g ⟨hg, extra, hge, hex⟩
  refine ⟨hg, ?_⟩
  rw [hge]
  simpa using hex

theorem Ensures_bind_open {β : Type} (P : Instr → Prop) {R : β → Prop} {m : Build Fragment}
    {f : Fragment → Build β} (hm : Ensures (Fragment.OpenAll P) m)
    (h : ∀ a, Fragment.OpenAll P a → Ensures R (f a)) : Ensures R (m >>= f) :=
  Ensures_bind_of hm h

theorem Open_loadParents {P : Instr → Prop} (hP : ∀ i, Instr.isPlain i = true → P i)
    (n : Nat) (acc : Fragment) (hacc : Fragment.OpenAll P acc) :
    Ensures (Fragment.OpenAll P) (loadParents n acc) := by
  induction n generalizing acc with
  | zero => exact Ensures_pure hacc
  | succ n ih =>
    refine Ensures_bind_of (Emits_OpenAll (Emits_emitDefinition 1 _)
      (fun i hi => by simp only [List.mem_singleton] at hi; subst hi; exact hP _ rfl))
      (fun f hf => ih (acc ++ f) (Fragment_OpenAll_append hacc hf).1)

theorem Open_LoadLocal {P : Instr → Prop} (hP : ∀ i, Instr.isPlain i = true → P i)
    (v : LocalVariable) : Ensures (Fragment.OpenAll P) (LoadLocal v) := by
  have hsingle : ∀ (n : Nat) (i : Instr), Instr.isPlain i = true →
      Ensures (Fragment.OpenAll P) (emitDefinition n i) :=
    fun n i hi => Emits_OpenAll (Emits_emitDefinition n i)
      (fun j hj => by simp only [List.mem_singleton] at hj; subst hj; exact hP _ hi)
  unfold KernelToIL.LoadLocal
  split
  · split
    · exact Ensures_fail _
    · refine Ensures_bind_open P ?_ (fun f hf => ?_)
      · exact Ensures_bind (fun _ => Ensures_bind (fun _ =>
          Ensures_bind_of (hsingle 0 _ rfl) (fun f hf => Open_loadParents hP _ _ hf)))
      · refine Ensures_bind_of (hsingle 1 _ rfl) (fun g hg => ?_)
        exact Ensures_pure
          (Fragment_OpenAll_append (Fragment_OpenAll_append Fragment_OpenAll_empty hf).1 hg).1
  · exact hsingle 0 _ rfl

theorem Open_emitDefinition {P : Instr → Prop} (hP : ∀ i, Instr.isPlain i = true → P i)
    (n : Nat) (i : Instr) (hi : Instr.isPlain i = true) :
    Ensures (Fragment.OpenAll P) (emitDefinition n i) :=
  Emits_OpenAll (Emits_emitDefinition n i)
    (fun j hj => by simp only [List.mem_singleton] at hj; subst hj; exact hP _ hi)

theorem Open_emitEffect {P : Instr → Prop} (hP : ∀ i, Instr.isPlain i = true → P i)
    (n : Nat) (i : Instr) (hi : Instr.isPlain i = true) :
    Ensures (Fragment.OpenAll P) (emitEffect n i) :=
  Emits_OpenAll (Emits_emitEffect n i)
    (fun j hj => by simp only [List.mem_singleton] at hj; subst hj; exact hP _ hi)

/-- The fragment of `CatchBlockEntry` is open, starts with the catch block
entry, and goes on with plain instructions only. -/
theorem CatchBlockEntry_shape (handler_index : Int) (needs_stacktrace is_synthesized : Bool) :
    Ensures (fun f => f.closed = false ∧
        ∃ restore, f.instrs =
          .CatchBlockEntry handler_index needs_stacktrace is_synthesized :: restore ∧
          ∀ i ∈ restore, Instr.isPlain i = true)
      (CatchBlockEntry handler_index needs_stacktrace is_synthesized) := by
  have hP : ∀ i, Instr.isPlain i = true → Instr.isPlain i = true := fun _ h => h
  unfold KernelToIL.CatchBlockEntry
  refine Ensures_bind (fun exception_var => Ensures_bind (fun stacktrace_var =>
    Ensures_bind (fun raw_exception_var => Ensures_bind (fun raw_stacktrace_var =>
      Ensures_bind (fun should_restore => Ensures_bind (fun b => ?_))))))
  refine Ensures_mono (@Ensures_seqFrom_open (fun i => Instr.isPlain i = true) _ ?_ _) ?_
  · refine List.forall_mem_cons.mpr ⟨?_, List.forall_mem_cons.mpr ⟨?_,
      List.forall_mem_cons.mpr ⟨?_, List.forall_mem_cons.mpr ⟨?_, ?_⟩⟩⟩⟩
    · split
      · refine Ensures_bind (fun _ => Ensures_bind (fun closure_parameter =>
          Ensures_bind (fun _ => Ensures_seq_open _ ?_)))
        refine List.forall_mem_cons.mpr ⟨Open_LoadLocal hP _, List.forall_mem_cons.mpr
          ⟨Open_emitDefinition hP 1 _ rfl, List.forall_mem_cons.mpr
            ⟨Open_emitDefinition hP 1 _ rfl, List.forall_mem_cons.mpr
              ⟨Open_emitEffect hP 1 _ rfl, fun _ h => absurd h (List.not_mem_nil _)⟩⟩⟩⟩
      · exact Ensures_pure Fragment_OpenAll_empty
    · split
      · refine Ensures_seq_open _ ?_
        exact List.forall_mem_cons.mpr ⟨Open_LoadLocal hP _, List.forall_mem_cons.mpr
          ⟨Open_LoadLocal hP _, List.forall_mem_cons.mpr
            ⟨Open_emitEffect hP 2 _ rfl, fun _ h => absurd h (List.not_mem_nil _)⟩⟩⟩
      · exact Ensures_pure Fragment_OpenAll_empty
    · split
      · refine Ensures_seq_open _ ?_
        exact List.forall_mem_cons.mpr ⟨Open_LoadLocal hP _, List.forall_mem_cons.mpr
          ⟨Open_LoadLocal hP _, List.forall_mem_cons.mpr
            ⟨Open_emitEffect hP 2 _ rfl, fun _ h => absurd h (List.not_mem_nil _)⟩⟩⟩
      · exact Ensures_pure Fragment_OpenAll_empty
    · refine Ensures_bind (fun _ => Ensures_bind (fun _ => Ensures_bind (fun _ =>
        Ensures_bind_open _ (Ensures_seq_open _ ?_)
          (fun restore hrestore => Ensures_bind (fun _ => Ensures_pure hrestore)))))
      exact List.forall_mem_cons.mpr ⟨Ensures_bind (fun v => Open_LoadLocal hP v),
        List.forall_mem_cons.mpr ⟨Open_emitDefinition hP 1 _ rfl, List.forall_mem_cons.mpr
          ⟨Open_emitEffect hP 1 _ rfl, fun _ h => absurd h (List.not_mem_nil _)⟩⟩⟩
    · exact fun _ h => absurd h (List.not_mem_nil _)
  · rintro f ⟨hf, extra, hfe, hex⟩
    exact ⟨hf, extra, by simpa using hfe, hex⟩

theorem Emits_FfiUnboxedExtend (rep : Representation) (ffi_type : FfiSignatureType) :
    Emits (FfiUnboxedExtend rep ffi_type)
      (if ffi_type.TypeSmallRepresentation = .kNoSmallRepresentation then []
        else [.UnboxedWidthExtender rep ffi_type.TypeSmallRepresentation]) := by
  unfold KernelToIL.FfiUnboxedExtend
  by_cases h : ffi_type.TypeSmallRepresentation = .kNoSmallRepresentation
  · simp only [h, if_true]
    exact Emits_pure []
  · simp only [h, if_false]
    exact Emits_emitDefinition 1 _

/-- `FfiConvertArgumentToNative` returns the instructions listed by
`ffiConvertArgumentToNativeInstrs`. -/
theorem Emits_FfiConvertArgumentToNative (function : Function) (ffi_type : FfiSignatureType)
    (rep : Representation) :
    Emits (FfiConvertArgumentToNative function ffi_type rep)
      (ffiConvertArgumentToNativeInstrs ffi_type rep) := by
  unfold KernelToIL.FfiConvertArgumentToNative ffiConvertArgumentToNativeInstrs
  by_cases hp : ffi_type.NativeTypeIsPointer = true
  · simp only [hp, if_true]
    exact Emits_seq _ [[.CheckNull], [.LoadNativeField .Pointer_c_memory_address],
      [.Unbox .kUnboxedFfiIntPtr]]
      (.cons (Emits_emitDefinition 1 _) (.cons (Emits_emitDefinition 1 _)
        (.cons (Emits_emitDefinition 1 _) .nil)))
  · simp only [hp, if_false]
    by_cases hr : ffi_type.TypeRepresentation = rep
    · have h := Emits_seq _ [[.CheckNull], [.Unbox ffi_type.TypeRepresentation],
        (if ffi_type.TypeSmallRepresentation = .kNoSmallRepresentation then []
          else [.UnboxedWidthExtender ffi_type.TypeRepresentation
            ffi_type.TypeSmallRepresentation])]
        (.cons (Emits_emitDefinition 1 _) (.cons (Emits_emitDefinition 1 _)
          (.cons (Emits_FfiUnboxedExtend ffi_type.TypeRepresentation ffi_type) .nil)))
      simpa [hr] using h
    · have h := Emits_seq _ [[.CheckNull], [.Unbox ffi_type.TypeRepresentation],
        [.BitCast ffi_type.TypeRepresentation rep]]
        (.cons (Emits_emitDefinition 1 _) (.cons (Emits_emitDefinition 1 _)
          (.cons (Emits_emitDefinition 1 _) .nil)))
      simpa [hr] using h

/-- The statements after the catch entry append the exceptional return value
in its native representation and the native return. -/
theorem exceptionalReturnSteps_emit (function : Function) (signature : FfiSignature)
    (l0 : List Instr) :
    Emits (Build.seqFrom ⟨l0, false⟩ (exceptionalReturnSteps function signature))
      (l0 ++ exceptionalReturnInstrs function signature) := by
  unfold exceptionalReturnSteps exceptionalReturnInstrs
  by_cases hc : (signature.result_type.NativeTypeIsPointer ||
      signature.result_type.NativeTypeIsVoid) = true
  · simp only [hc, if_true, List.cons_append, List.nil_append]
    exact Emits_seqFrom _ [[], [.Constant (.int 0)], [.Unbox .kUnboxedFfiIntPtr],
        [.NativeReturn signature.ResultRepresentation]]
      (.cons (Ensures_bind (fun _ => Emits_pure [])) (.cons (Emits_emitDefinition 0 _)
        (.cons (Emits_emitDefinition 1 _) (.cons (Emits_emitEffect 1 _) .nil)))) l0
  · simp only [hc, if_false, List.cons_append, List.nil_append]
    have h := Emits_seqFrom [Constant function.FfiCallbackExceptionalReturn,
        FfiConvertArgumentToNative function signature.result_type signature.ResultRepresentation,
        NativeReturn signature.ResultRepresentation]
      [[.Constant function.FfiCallbackExceptionalReturn],
        ffiConvertArgumentToNativeInstrs signature.result_type signature.ResultRepresentation,
        [.NativeReturn signature.ResultRepresentation]]
      (.cons (Emits_emitDefinition 0 _)
        (.cons (Emits_FfiConvertArgumentToNative function _ _)
          (.cons (Emits_emitEffect 1 _) .nil))) l0
    simpa using h

theorem Emits_Sound {P : Instr → Prop} {m : Build Fragment} {l : List Instr} (h : Emits m l)
    (hl : ∀ i ∈ l, P i) : Sound P m :=
  Ensures_mono h (fun f hf => by subst hf; exact hl)

theorem ffiConvertArgumentToNativeInstrs_plain (ffi_type : FfiSignatureType)
    (rep : Representation) :
    ∀ i ∈ ffiConvertArgumentToNativeInstrs ffi_type rep, Instr.isPlain i = true := by
  intro i hi
  unfold ffiConvertArgumentToNativeInstrs at hi
  simp only [List.mem_cons] at hi
  rcases hi with rfl | hi
  · rfl
  · split at hi
    · simp only [List.mem_cons, List.mem_singleton, List.not_mem_nil, or_false] at hi
      rcases hi with rfl | rfl <;> rfl
    · simp only [List.mem_cons] at hi
      rcases hi with rfl | hi
      · rfl
      · split at hi
        · simp only [List.mem_singleton] at hi
          subst hi
          rfl
        · split at hi
          · simp at hi
          · simp only [List.mem_singleton] at hi
            subst hi
            rfl

theorem Sound_FfiConvertArgumentToNative {P : Instr → Prop}
    (hP : ∀ i, Instr.isPlain i = true → P i) (function : Function)
    (ffi_type : FfiSignatureType) (rep : Representation) :
    Sound P (FfiConvertArgumentToNative function ffi_type rep) :=
  Emits_Sound (Emits_FfiConvertArgumentToNative function ffi_type rep)
    (fun i hi => hP i (ffiConvertArgumentToNativeInstrs_plain ffi_type rep i hi))

theorem Sound_NativeReturn {P : Instr → Prop} (hP : ∀ i, Instr.isPlain i = true → P i)
    (rep : Representation) : Sound P (NativeReturn rep) := Sound_emitEffect 1 (hP _ rfl)

theorem Sound_BitCast {P : Instr → Prop} (hP : ∀ i, Instr.isPlain i = true → P i)
    (from_rep to_rep : Representation) : Sound P (BitCast from_rep to_rep) :=
  Sound_emitDefinition 1 (hP _ rfl)

theorem Sound_Box {P : Instr → Prop} (hP : ∀ i, Instr.isPlain i = true → P i)
    (rep : Representation) : Sound P (Box rep) := Sound_emitDefinition 1 (hP _ rfl)

theorem Sound_UnboxTruncate {P : Instr → Prop} (hP : ∀ i, Instr.isPlain i = true → P i)
    (rep : Representation) : Sound P (UnboxTruncate rep) := Sound_emitDefinition 1 (hP _ rfl)

theorem Sound_StoreInstanceField {P : Instr → Prop} (hP : ∀ i, Instr.isPlain i = true → P i)
    (slot : Slot) : Sound P (StoreInstanceField slot) := Sound_emitEffect 2 (hP _ rfl)

theorem Sound_AllocateObject {P : Instr → Prop} (hP : ∀ i, Instr.isPlain i = true → P i)
    (klass : ClassRef) (n : Nat) : Sound P (AllocateObject klass n) :=
  Ensures_bind (fun _ => Ensures_bind (fun _ => Ensures_pure (Fragment_All_single (hP _ rfl))))

theorem Sound_FfiUnboxedExtend {P : Instr → Prop} (hP : ∀ i, Instr.isPlain i = true → P i)
    (rep : Representation) (ffi_type : FfiSignatureType) :
    Sound P (FfiUnboxedExtend rep ffi_type) := by
  unfold KernelToIL.FfiUnboxedExtend
  repeat' first
    | with_reducible exact Fragment_All_empty
    | with_reducible refine Ensures_pure ?_
    | exact Sound_emitDefinition 1 (hP _ rfl)
    | dsimp only
    | split

theorem Sound_FfiPointerFromAddress {P : Instr → Prop}
    (hP : ∀ i, Instr.isPlain i = true → P i) (result_type : FfiSignatureType) :
    Sound P (FfiPointerFromAddress result_type) := by
  unfold KernelToIL.FfiPointerFromAddress
  repeat' first
    | with_reducible assumption
    | (with_reducible refine Sound_leaf hP ?_; with_reducible constructor)
    | with_reducible exact Sound_AllocateObject hP _ _
    | with_reducible exact Sound_StoreInstanceField hP _
    | with_reducible refine Sound_seqFrom _ _ ?_ ?_
    | with_reducible refine Sound_seq ?_
    | with_reducible refine SoundAll_cons ?_ ?_
    | with_reducible exact SoundAll_nil
    | with_reducible refine Ensures_bind_sound P ?_ (fun f hf => ?_)
    | with_reducible refine Ensures_bind (fun _ => ?_)

theorem Sound_FfiConvertArgumentToDart {P : Instr → Prop}
    (hP : ∀ i, Instr.isPlain i = true → P i) (ffi_type : FfiSignatureType)
    (rep : Representation) : Sound P (FfiConvertArgumentToDart ffi_type rep) := by
  unfold KernelToIL.FfiConvertArgumentToDart
  repeat' first
    | (with_reducible refine Sound_leaf hP ?_; with_reducible constructor)
    | with_reducible exact Sound_Box hP _
    | with_reducible exact Sound_BitCast hP _ _
    | with_reducible exact Sound_FfiUnboxedExtend hP _ _
    | with_reducible exact Sound_FfiPointerFromAddress hP _
    | with_reducible refine Sound_seq ?_
    | with_reducible refine SoundAll_cons ?_ ?_
    | with_reducible exact SoundAll_nil
    | dsimp only
    | split

theorem Sound_pushCallbackArgument {P : Instr → Prop}
    (hP : ∀ i, Instr.isPlain i = true → P i) (signature : FfiSignature) (i : Nat) :
    Sound P (pushCallbackArgument signature i) := by
  unfold KernelToIL.pushCallbackArgument
  repeat' first
    | with_reducible exact Ensures_fail _
    | with_reducible refine Ensures_pure ?_
    | with_reducible refine Fragment_All_single ?_
    | exact hP _ rfl
    | (with_reducible refine Sound_leaf hP ?_; with_reducible constructor)
    | with_reducible exact Sound_FfiConvertArgumentToDart hP _ _
    | with_reducible refine Sound_seq ?_
    | with_reducible refine SoundAll_cons ?_ ?_
    | with_reducible exact SoundAll_nil
    | with_reducible refine Ensures_bind (fun _ => ?_)
    | split

theorem Sound_TryCatch {P : Instr → Prop} (hP : ∀ i, Instr.isPlain i = true → P i)
    (try_handler_index : Int) : Sound P (TryCatch try_handler_index) := by
  unfold KernelToIL.TryCatch
  repeat' first
    | with_reducible assumption
    | with_reducible refine Ensures_pure ?_
    | exact hP _ rfl
    | (with_reducible refine Sound_leaf hP ?_; with_reducible constructor)
    | with_reducible refine Fragment_All_mk ?_
    | with_reducible refine Fragment_All_instrs_append ?_ ?_
    | with_reducible refine Fragment_All_instrs_cons ?_ ?_
    | with_reducible exact Fragment_All_instrs_nil
    | with_reducible refine Fragment_All_instrs ?_
    | with_reducible refine Sound_seq ?_
    | with_reducible refine SoundAll_cons ?_ ?_
    | with_reducible exact SoundAll_nil
    | with_reducible refine Ensures_bind_sound P ?_ (fun f hf => ?_)
    | with_reducible refine Ensures_bind (fun _ => ?_)

theorem catchPath_append (body rest : List Instr) (entry : Instr)
    (hentry : Instr.isCatchBlockEntry entry = true)
    (hbody : ∀ i ∈ body, Instr.isCatchBlockEntry i = false) :
    catchPath (body ++ entry :: rest) = entry :: rest := by
  induction body with
  | nil =>
    cases entry <;> first | rfl | simp [Instr.isCatchBlockEntry] at hentry
  | cons x body ih =>
    have hx := hbody x (List.mem_cons_self _ _)
    have ih1 := ih (fun i hi => hbody i (List.mem_cons_of_mem _ hi))
    cases x <;> first | exact ih1 | simp [Instr.isCatchBlockEntry] at hx

theorem exceptionalReturnInstrs_plain (function : Function) (signature : FfiSignature) :
    ∀ i ∈ exceptionalReturnInstrs function signature, Instr.isPlain i = true := by
  intro i hi
  unfold exceptionalReturnInstrs at hi
  simp only [List.mem_append, List.mem_singleton] at hi
  rcases hi with hi | rfl
  · split at hi
    · simp only [List.mem_cons, List.mem_singleton, List.not_mem_nil, or_false] at hi
      rcases hi with rfl | rfl <;> rfl
    · simp only [List.mem_cons] at hi
      rcases hi with rfl | hi
      · rfl
      · exact ffiConvertArgumentToNativeInstrs_plain _ _ i hi
  · rfl

theorem isPlain_not_call (i : Instr) (h : Instr.isPlain i = true) :
    Instr.isStaticCall i = false ∧ Instr.isCatchBlockEntry i = false := by
  simpa [Instr.isPlain] using h

/-- The graph of an FFI callback is a body without catch block entry, then the
catch block: its entry, plain instructions that restore the context, and the
exceptional return. -/
theorem Ensures_BuildGraphOfFfiCallback (function : Function) (signature : FfiSignature)
    (hsig : function.FfiCSignature = some signature) :
    Ensures (fun g => ∃ body handler_index restore,
        g.instrs = body ++ (.CatchBlockEntry handler_index false true ::
          (restore ++ exceptionalReturnInstrs function signature)) ∧
        (∀ i ∈ body, Instr.isCatchBlockEntry i = false) ∧
        (∀ i ∈ restore, Instr.isPlain i = true))
      (BuildGraphOfFfiCallback function) := by
  have hP : ∀ i, Instr.isPlain i = true → Instr.isCatchBlockEntry i = false :=
    fun i hi => (isPlain_not_call i hi).2
  unfold KernelToIL.BuildGraphOfFfiCallback
  simp only [hsig]
  refine Ensures_bind_sound (fun i => Instr.isCatchBlockEntry i = false)
    (Sound_seqFrom _ _ (Fragment_All_single rfl)
      (SoundAll_cons (Sound_CheckStackOverflowInPrologue hP) SoundAll_nil))
    (fun function_body hfunction_body => ?_)
  refine Ensures_bind (fun try_handler_index => ?_)
  refine Ensures_bind_sound (fun i => Instr.isCatchBlockEntry i = false)
    (Sound_TryCatch hP _) (fun body1 hbody1 => ?_)
  refine Ensures_bind (fun _ => ?_)
  refine Ensures_bind_sound (fun i => Instr.isCatchBlockEntry i = false)
    (Sound_seqFrom _ _ hbody1 (SoundAll_map _ _ (Sound_pushCallbackArgument hP signature)))
    (fun body2 hbody2 => ?_)
  refine Ensures_bind_sound (fun i => Instr.isCatchBlockEntry i = false)
    (Sound_seqFrom _ _ hbody2 (SoundAll_cons ?_ (SoundAll_cons
      (Sound_FfiConvertArgumentToNative hP _ _ _) (SoundAll_cons (Sound_NativeReturn hP _)
        SoundAll_nil))))
    (fun body3 hbody3 => ?_)
  · split
    · exact Ensures_fail _
    · exact Sound_StaticCall _ _ _ _ rfl
  refine Ensures_bind (fun _ => Ensures_bind (fun _ => ?_))
  refine Ensures_bind_of (CatchBlockEntry_shape _ _ _) (fun catch_entry hcatch_entry => ?_)
  obtain ⟨entry_instrs, entry_closed⟩ := catch_entry
  obtain ⟨hclosed, restore, hinstrs, hplain⟩ := hcatch_entry
  simp only at hclosed hinstrs
  subst hclosed hinstrs
  refine Ensures_bind_of (exceptionalReturnSteps_emit function signature _)
    (fun catch_body hcatch_body => ?_)
  subst hcatch_body
  refine Ensures_bind (fun _ => Ensures_pure ?_)
  exact ⟨(function_body ++ body3).instrs, try_handler_index, restore, rfl,
    Fragment_All_append hfunction_body hbody3, hplain⟩


/-- `FfiConvertArgumentToNative` succeeds on every builder with a pending
value, which it replaces by the converted one. -/
theorem FfiConvertArgumentToNative_run (function : Function) (ffi_type : FfiSignatureType)
    (rep : Representation) (x : Instr) (d : Int) (st : List Instr) (pa : Int)
    (pf : ParsedFunction) (sc : Option ScopeBuildingResult) (ac : ActiveClass)
    (mo : BuilderFields) :
    ∃ y, FfiConvertArgumentToNative function ffi_type rep ⟨d, x :: st, pa, pf, sc, ac, mo⟩ =
      .ok (⟨ffiConvertArgumentToNativeInstrs ffi_type rep, false⟩,
        ⟨d, y :: st, pa, pf, sc, ac, mo⟩) := by
  unfold KernelToIL.FfiConvertArgumentToNative ffiConvertArgumentToNativeInstrs
  by_cases hp : ffi_type.NativeTypeIsPointer = true
  · refine ⟨.Unbox .kUnboxedFfiIntPtr, ?_⟩
    simp only [hp, if_true, Build.seq, Build.seqFrom, Build.run_bind, Build.run_pure,
      CheckNullOptimized, LoadNativeField, UnboxTruncate, emitDefinition_one,
      Fragment.empty_append, Fragment.append_open_open, List.cons_append, List.nil_append]
  · by_cases hr : ffi_type.TypeRepresentation = rep
    · by_cases hs : ffi_type.TypeSmallRepresentation = .kNoSmallRepresentation
      · refine ⟨.Unbox ffi_type.TypeRepresentation, ?_⟩
        simp only [hp, hr, hs, if_true, if_false, Bool.false_eq_true, ↓reduceIte, ne_eq, not_true_eq_false, Build.seq,
          Build.seqFrom, Build.run_bind, Build.run_pure, CheckNullOptimized, UnboxTruncate,
          FfiUnboxedExtend, emitDefinition_one, Fragment.empty_append,
          Fragment.append_open_open, List.cons_append, List.nil_append, Fragment.empty,
          List.append_nil]
      · refine ⟨.UnboxedWidthExtender rep ffi_type.TypeSmallRepresentation, ?_⟩
        simp only [hp, hr, hs, if_true, if_false, Bool.false_eq_true, ↓reduceIte, ne_eq, not_true_eq_false, Build.seq,
          Build.seqFrom, Build.run_bind, Build.run_pure, CheckNullOptimized, UnboxTruncate,
          FfiUnboxedExtend, emitDefinition_one, Fragment.empty_append,
          Fragment.append_open_open, List.cons_append, List.nil_append]
    · refine ⟨.BitCast ffi_type.TypeRepresentation rep, ?_⟩
      simp only [hp, hr, if_true, if_false, Bool.false_eq_true, ↓reduceIte, ne_eq, not_false_eq_true, Build.seq,
        Build.seqFrom, Build.run_bind, Build.run_pure, CheckNullOptimized, UnboxTruncate,
        BitCast, emitDefinition_one, Fragment.empty_append, Fragment.append_open_open,
        List.cons_append, List.nil_append]

/-- The statements after the catch entry succeed on every builder and leave
it as it was: they consume only the values they produce. -/
theorem exceptionalReturnSteps_run (function : Function) (signature : FfiSignature)
    (l0 : List Instr) (b : FlowGraphBuilder)
    (hnull : (signature.result_type.NativeTypeIsPointer ||
      signature.result_type.NativeTypeIsVoid) = true →
        function.FfiCallbackExceptionalReturn = .null) :
    Build.seqFrom ⟨l0, false⟩ (exceptionalReturnSteps function signature) b =
      .ok (⟨l0 ++ exceptionalReturnInstrs function signature, false⟩, b) := by
  obtain ⟨d, st, pa, pf, sc, ac, mo⟩ := b
  unfold exceptionalReturnSteps exceptionalReturnInstrs
  by_cases hc : (signature.result_type.NativeTypeIsPointer ||
      signature.result_type.NativeTypeIsVoid) = true
  · simp only [hc, hnull hc, if_true, decide_True, List.cons_append, List.nil_append,
      Build.seqFrom, Build.run_bind, Build.run_pure, ASSERT_true, IntConstant, Constant,
      UnboxTruncate, NativeReturn, emitDefinition_zero, emitDefinition_one, emitEffect_one,
      Fragment.empty, Fragment.append_open_open, List.append_nil, List.append_assoc]
  · obtain ⟨y, hy⟩ := FfiConvertArgumentToNative_run function signature.result_type
      signature.ResultRepresentation (.Constant function.FfiCallbackExceptionalReturn) d st pa
      pf sc ac mo
    simp only [hc, if_false, Bool.false_eq_true, ↓reduceIte, List.cons_append,
      List.nil_append, Build.seqFrom, Build.run_bind,
      Build.run_pure, Constant, NativeReturn, emitDefinition_zero, hy, emitEffect_one,
      Fragment.append_open_open, List.append_assoc]

/-- C11: in any graph `BuildGraphOfFfiCallback` returns, the catch path (the
instructions from the catch block entry on) is the entry, plain instructions
restoring the context, and the exceptional return: for a pointer or void result
type the integer constant 0 unboxed to `kUnboxedFfiIntPtr`, for any other
result type the constant `FfiCallbackExceptionalReturn()` followed by what
`FfiConvertArgumentToNative` emits for the result type and representation; in
both cases a `NativeReturn` of the result representation ends the path, whose
steps consume only the values they produce.  No instruction before the catch
entry is a catch entry, and no instruction of the catch path is a static call. -/
theorem BuildGraphOfFfiCallback_catch_path (function : Function) (signature : FfiSignature)
    (hsig : function.FfiCSignature = some signature) :
    (∀ b g b1, BuildGraphOfFfiCallback function b = .ok (g, b1) →
      ∃ handler_index restore,
        catchPath g.instrs = .CatchBlockEntry handler_index false true ::
          (restore ++ exceptionalReturnInstrs function signature) ∧
        (∀ i ∈ restore, Instr.isPlain i = true) ∧
        (∀ i ∈ catchPath g.instrs, Instr.isStaticCall i = false) ∧
        ∃ body, g.instrs = body ++ catchPath g.instrs ∧
          ∀ i ∈ body, Instr.isCatchBlockEntry i = false) ∧
    ((signature.result_type.NativeTypeIsPointer || signature.result_type.NativeTypeIsVoid) = true →
      exceptionalReturnInstrs function signature =
        [.Constant (.int 0), .Unbox .kUnboxedFfiIntPtr,
          .NativeReturn signature.ResultRepresentation]) ∧
    ((signature.result_type.NativeTypeIsPointer || signature.result_type.NativeTypeIsVoid) = false →
      exceptionalReturnInstrs function signature =
        .Constant function.FfiCallbackExceptionalReturn ::
          (ffiConvertArgumentToNativeInstrs signature.result_type signature.ResultRepresentation ++
            [.NativeReturn signature.ResultRepresentation])) ∧
    Emits (FfiConvertArgumentToNative function signature.result_type
        signature.ResultRepresentation)
      (ffiConvertArgumentToNativeInstrs signature.result_type signature.ResultRepresentation) ∧
    (∀ (b : FlowGraphBuilder) (l0 : List Instr),
      ((signature.result_type.NativeTypeIsPointer ||
        signature.result_type.NativeTypeIsVoid) = true →
          function.FfiCallbackExceptionalReturn = .null) →
      Build.seqFrom ⟨l0, false⟩ (exceptionalReturnSteps function signature) b =
        .ok (⟨l0 ++ exceptionalReturnInstrs function signature, false⟩, b)) ∧
    (∀ (w : Nat) (locals : LocalVariable → Value) (s : List Value),
      evalInstrs w locals [.Constant (.int 0), .Unbox .kUnboxedFfiIntPtr] s =
        some (.unboxed 0 :: s)) := by
  refine ⟨?_, ?_, ?_, Emits_FfiConvertArgumentToNative function _ _,
    fun b l0 hnull => exceptionalReturnSteps_run function signature l0 b hnull, ?_⟩
  · intro b g b1 hok
    obtain ⟨body, handler_index, restore, hg, hbody, hrestore⟩ :=
      Ensures_BuildGraphOfFfiCallback function signature hsig b g b1 hok
    have hpath : catchPath g.instrs = .CatchBlockEntry handler_index false true ::
        (restore ++ exceptionalReturnInstrs function signature) := by
      rw [hg]
      exact catchPath_append body _ _ rfl hbody
    refine ⟨handler_index, restore, hpath, hrestore, ?_, body, by rw [hpath, hg], hbody⟩
    intro i hi
    rw [hpath] at hi
    simp only [List.mem_cons, List.mem_append] at hi
    rcases hi with rfl | hi | hi
    · rfl
    · exact (isPlain_not_call i (hrestore i hi)).1
    · exact (isPlain_not_call i (exceptionalReturnInstrs_plain function signature i hi)).1
  · intro hc
    simp [exceptionalReturnInstrs, hc]
  · intro hc
    simp [exceptionalReturnInstrs, hc]
  · intro w locals s
    simp [evalInstrs, evalInstr, Representation.bits]

/-- C11 at a callback with signature `Int32 Function(Int32)` and exceptional
return 7, and at one with a pointer result: both graphs are built, and their
catch paths return the unboxed 7 and the unboxed 0. -/
theorem BuildGraphOfFfiCallback_catch_path_witness :
    (∃ g b1, BuildGraphOfFfiCallback witnessCallback witnessCallbackBuilder = .ok (g, b1) ∧
      catchPath g.instrs =
        [.CatchBlockEntry 0 false true, .LoadLocal (LocalVariable.frame 14),
          .StoreLocal (LocalVariable.frame 0), .Drop, .Constant (.int 7), .CheckNull,
          .Unbox (.ofType .kFfiInt32Cid), .NativeReturn (.ofType .kFfiInt32Cid)] ∧
      ∀ i ∈ catchPath g.instrs, Instr.isStaticCall i = false) ∧
    (∃ g b1, BuildGraphOfFfiCallback witnessPointerCallback witnessCallbackBuilder =
        .ok (g, b1) ∧
      catchPath g.instrs =
        [.CatchBlockEntry 0 false true, .LoadLocal (LocalVariable.frame 14),
          .StoreLocal (LocalVariable.frame 0), .Drop, .Constant (.int 0),
          .Unbox .kUnboxedFfiIntPtr, .NativeReturn .kUnboxedFfiIntPtr] ∧
      ∀ i ∈ catchPath g.instrs, Instr.isStaticCall i = false) := by
  have h1 := (BuildGraphOfFfiCallback_catch_path witnessCallback witnessCallbackSignature
    rfl).1 witnessCallbackBuilder
  have h2 := (BuildGraphOfFfiCallback_catch_path witnessPointerCallback
    { witnessCallbackSignature with
      result_type := ⟨true, false, .ofType .kFfiPointerCid, .kNoSmallRepresentation,
        .pointer_class, ⟨0, true, true, true, true, false, false⟩⟩
      ResultRepresentation := .kUnboxedFfiIntPtr } rfl).1 witnessCallbackBuilder
  constructor
  · have hok : (match BuildGraphOfFfiCallback witnessCallback witnessCallbackBuilder with
        | .ok (g, _) => decide (catchPath g.instrs =
            [.CatchBlockEntry 0 false true, .LoadLocal (LocalVariable.frame 14),
              .StoreLocal (LocalVariable.frame 0), .Drop, .Constant (.int 7), .CheckNull,
              .Unbox (.ofType .kFfiInt32Cid), .NativeReturn (.ofType .kFfiInt32Cid)])
        | .error _ => false) = true := by decide!
    cases hr : BuildGraphOfFfiCallback witnessCallback witnessCallbackBuilder with
    | error e => rw [hr] at hok; cases hok
    | ok r =>
      obtain ⟨g, b1⟩ := r
      rw [hr] at hok
      obtain ⟨_, _, _, _, hcall, _⟩ := h1 g b1 hr
      exact ⟨g, b1, rfl, of_decide_eq_true hok, hcall⟩
  · have hok : (match BuildGraphOfFfiCallback witnessPointerCallback witnessCallbackBuilder with
        | .ok (g, _) => decide (catchPath g.instrs =
            [.CatchBlockEntry 0 false true, .LoadLocal (LocalVariable.frame 14),
              .StoreLocal (LocalVariable.frame 0), .Drop, .Constant (.int 0),
              .Unbox .kUnboxedFfiIntPtr, .NativeReturn .kUnboxedFfiIntPtr])
        | .error _ => false) = true := by decide!
    cases hr : BuildGraphOfFfiCallback witnessPointerCallback witnessCallbackBuilder with
    | error e => rw [hr] at hok; cases hok
    | ok r =>
      obtain ⟨g, b1⟩ := r
      rw [hr] at hok
      obtain ⟨_, _, _, _, hcall, _⟩ := h2 g b1 hr
      exact ⟨g, b1, rfl, of_decide_eq_true hok, hcall⟩

/-! ### Parameter checks of `BuildArgumentTypeChecks` -/

theorem StackOnly_pure {α : Type} (a : α) : StackOnly (pure a : Build α) := by
  intro b a1 b1 hb
  rw [Build.run_pure] at hb
  simp only [Except.ok.injEq, Prod.mk.injEq] at hb
  exact ⟨b.stack_, hb.2.symm⟩

theorem StackOnly_fail {α : Type} (e : Failure) : StackOnly (Build.fail e : Build α) := by
  intro b a1 b1 hb
  simp only [Build.fail, reduceCtorEq] at hb

theorem StackOnly_bind {α β : Type} {m : Build α} {f : α → Build β} (hm : StackOnly m)
    (h : ∀ a, StackOnly (f a)) : StackOnly (m >>= f) := by
  intro b r b1 hb
  obtain ⟨a, b2, h1, h2⟩ := Build.bind_ok_inv m f b (r, b1) hb
  obtain ⟨s, rfl⟩ := hm b a b2 h1
  obtain ⟨s1, rfl⟩ := h a _ r b1 h2
  exact ⟨s1, rfl⟩

theorem StackOnly_getBuilder : StackOnly getBuilder := by
  intro b a b1 hb
  simp only [getBuilder, Except.ok.injEq, Prod.mk.injEq] at hb
  exact ⟨b.stack_, hb.2.symm⟩

theorem StackOnly_ASSERT (c : Bool) : StackOnly (ASSERT c) := by
  intro b a b1 hb
  unfold ASSERT at hb
  split at hb
  · simp only [Except.ok.injEq, Prod.mk.injEq] at hb
    exact ⟨b.stack_, hb.2.symm⟩
  · simp only [reduceCtorEq] at hb

theorem StackOnly_Push (d : Instr) : StackOnly (Push d) := by
  intro b a b1 hb
  simp only [Push, Except.ok.injEq, Prod.mk.injEq] at hb
  exact ⟨_, hb.2.symm⟩

theorem StackOnly_Pop : StackOnly Pop := by
  intro b a b1 hb
  unfold Pop at hb
  split at hb
  · simp only [Except.ok.injEq, Prod.mk.injEq] at hb
    exact ⟨_, hb.2.symm⟩
  · simp only [reduceCtorEq] at hb

theorem StackOnly_popN (n : Nat) : StackOnly (popN n) := by
  induction n with
  | zero => exact StackOnly_pure ()
  | succ n ih => exact StackOnly_bind StackOnly_Pop (fun _ => ih)

theorem StackOnly_emitDefinition (n : Nat) (i : Instr) : StackOnly (emitDefinition n i) :=
  StackOnly_bind (StackOnly_popN n) (fun _ => StackOnly_bind (StackOnly_Push i)
    (fun _ => StackOnly_pure _))

theorem StackOnly_emitEffect (n : Nat) (i : Instr) : StackOnly (emitEffect n i) :=
  StackOnly_bind (StackOnly_popN n) (fun _ => StackOnly_pure _)

theorem StackOnly_MakeTemporary : StackOnly MakeTemporary := by
  intro b a b1 hb
  unfold MakeTemporary at hb
  split at hb
  · simp only [Except.ok.injEq, Prod.mk.injEq] at hb
    exact ⟨b.stack_, hb.2.symm⟩
  · simp only [reduceCtorEq] at hb

theorem StackOnly_ParameterVariable (i : Nat) : StackOnly (ParameterVariable i) := by
  intro b a b1 hb
  unfold ParameterVariable at hb
  split at hb
  · simp only [Except.ok.injEq, Prod.mk.injEq] at hb
    exact ⟨b.stack_, hb.2.symm⟩
  · simp only [reduceCtorEq] at hb

theorem StackOnly_loadParents (n : Nat) (acc : Fragment) : StackOnly (loadParents n acc) := by
  induction n generalizing acc with
  | zero => exact StackOnly_pure _
  | succ n ih => exact StackOnly_bind (StackOnly_emitDefinition _ _) (fun _ => ih _)

theorem StackOnly_seqFrom (ms : List (Build Fragment)) (h : ∀ m ∈ ms, StackOnly m)
    (acc : Fragment) : StackOnly (Build.seqFrom acc ms) := by
  induction ms generalizing acc with
  | nil => exact StackOnly_pure _
  | cons m ms ih =>
    exact StackOnly_bind (h m (List.mem_cons_self _ _))
      (fun _ => ih (fun m1 hm1 => h m1 (List.mem_cons_of_mem _ hm1)) _)

theorem StackOnly_seq (ms : List (Build Fragment)) (h : ∀ m ∈ ms, StackOnly m) :
    StackOnly (Build.seq ms) :=
  StackOnly_seqFrom ms h _

theorem StackOnly_LoadContextAt (depth : Int) : StackOnly (LoadContextAt depth) := by
  unfold KernelToIL.LoadContextAt
  repeat' first
    | with_reducible exact StackOnly_pure _
    | with_reducible exact StackOnly_fail _
    | with_reducible exact StackOnly_getBuilder
    | with_reducible exact StackOnly_ASSERT _
    | exact StackOnly_emitDefinition _ _
    | with_reducible exact StackOnly_loadParents _ _
    | with_reducible refine StackOnly_bind ?_ (fun _ => ?_)

theorem StackOnly_LoadLocal (v : LocalVariable) : StackOnly (LoadLocal v) := by
  unfold KernelToIL.LoadLocal
  repeat' first
    | with_reducible exact StackOnly_pure _
    | with_reducible exact StackOnly_fail _
    | exact StackOnly_emitDefinition _ _
    | with_reducible exact StackOnly_LoadContextAt _
    | with_reducible refine StackOnly_bind ?_ (fun _ => ?_)
    | dsimp only
    | split

theorem StackOnly_LoadInstantiatorTypeArguments : StackOnly LoadInstantiatorTypeArguments := by
  unfold KernelToIL.LoadInstantiatorTypeArguments
  repeat' first
    | with_reducible exact StackOnly_pure _
    | with_reducible exact StackOnly_fail _
    | with_reducible exact StackOnly_getBuilder
    | with_reducible exact StackOnly_ASSERT _
    | exact StackOnly_emitDefinition _ _
    | with_reducible exact StackOnly_LoadLocal _
    | with_reducible refine StackOnly_bind ?_ (fun _ => ?_)
    | dsimp only
    | split

theorem StackOnly_LoadFunctionTypeArguments : StackOnly LoadFunctionTypeArguments := by
  unfold KernelToIL.LoadFunctionTypeArguments
  repeat' first
    | with_reducible exact StackOnly_pure _
    | with_reducible exact StackOnly_fail _
    | with_reducible exact StackOnly_getBuilder
    | with_reducible exact StackOnly_ASSERT _
    | exact StackOnly_emitDefinition _ _
    | with_reducible exact StackOnly_LoadLocal _
    | with_reducible refine StackOnly_bind ?_ (fun _ => ?_)
    | dsimp only
    | split

theorem StackOnly_CheckAssignable (I : Isolate) (dst_type : AbstractType) :
    StackOnly (CheckAssignable I dst_type) := by
  unfold KernelToIL.CheckAssignable KernelToIL.AssertAssignableLoadTypeArguments
  repeat' first
    | with_reducible exact StackOnly_pure _
    | with_reducible exact StackOnly_MakeTemporary
    | exact StackOnly_emitDefinition _ _
    | exact StackOnly_emitEffect _ _
    | with_reducible exact StackOnly_LoadLocal _
    | with_reducible exact StackOnly_LoadInstantiatorTypeArguments
    | with_reducible exact StackOnly_LoadFunctionTypeArguments
    | with_reducible refine StackOnly_bind ?_ (fun _ => ?_)
    | (with_reducible refine StackOnly_seq _ ?_
       simp only [List.mem_cons, List.mem_singleton, List.not_mem_nil, or_false, forall_eq_or_imp,
         forall_eq])
    | with_reducible refine And.intro ?_ ?_
    | dsimp only
    | split

theorem StackOnly_checkTypeParameterBound (mode : TypeChecksToBuild)
    (type_param : TypeParameter) : StackOnly (checkTypeParameterBound mode type_param) := by
  unfold KernelToIL.checkTypeParameterBound KernelToIL.AssertSubtype
  repeat' first
    | with_reducible exact StackOnly_pure _
    | with_reducible exact StackOnly_ASSERT _
    | with_reducible exact StackOnly_Pop
    | exact StackOnly_emitDefinition _ _
    | with_reducible exact StackOnly_LoadInstantiatorTypeArguments
    | with_reducible exact StackOnly_LoadFunctionTypeArguments
    | with_reducible refine StackOnly_bind ?_ (fun _ => ?_)
    | (with_reducible refine StackOnly_seq _ ?_
       simp only [List.mem_cons, List.mem_singleton, List.not_mem_nil, or_false, forall_eq_or_imp,
         forall_eq])
    | with_reducible refine And.intro ?_ ?_
    | dsimp only
    | split

theorem StackOnly_parameterCheck (I : Isolate) (param : LocalVariable) (t : AbstractType) :
    StackOnly (Build.seq [LoadLocal param, CheckAssignable I t, Drop]) := by
  refine StackOnly_seq _ ?_
  simp only [List.mem_cons, List.mem_singleton, List.not_mem_nil, or_false, forall_eq_or_imp,
    forall_eq]
  exact ⟨StackOnly_LoadLocal _, StackOnly_CheckAssignable _ _, StackOnly_emitEffect _ _⟩

theorem StackOnly_parameterRedefinition (param : LocalVariable) (t : AbstractType) :
    StackOnly (Build.seq [LoadLocal param, RedefinitionWithType t, StoreLocal param, Drop]) := by
  refine StackOnly_seq _ ?_
  simp only [List.mem_cons, List.mem_singleton, List.not_mem_nil, or_false, forall_eq_or_imp,
    forall_eq]
  exact ⟨StackOnly_LoadLocal _, StackOnly_emitDefinition _ _, StackOnly_emitDefinition _ _,
    StackOnly_emitEffect _ _⟩

theorem checkParameter_run (I : Isolate) (with_redefinitions : Bool) (i : Nat)
    (b : FlowGraphBuilder) (per : List (CheckSink × Fragment)) (b1 : FlowGraphBuilder)
    (h : checkParameter I with_redefinitions i b = .ok (per, b1)) :
    (∃ s, b1 = { b with stack_ := s }) ∧
    ∃ param, b.parsed_function_.parameters.get? i = some param ∧
      (per ≠ [] ↔ param.needs_type_check = true ∧
        ∃ t, parameterTargetType b.parsed_function_ i param = some t ∧ t.IsTopType = false) ∧
      ∀ t, param.needs_type_check = true →
        parameterTargetType b.parsed_function_ i param = some t → t.IsTopType = false →
        ∃ check rest b2,
          per = (if param.is_explicit_covariant_parameter then CheckSink.explicit_checks
            else CheckSink.implicit_checks, check) :: rest ∧
          Build.seq [LoadLocal param, CheckAssignable I t, Drop] b = .ok (check, b2) ∧
          ∀ p ∈ rest, p.1 = CheckSink.implicit_redefinitions := by
  unfold KernelToIL.checkParameter at h
  obtain ⟨b0, b2, h1, h0⟩ := Build.bind_ok_inv _ _ _ _ h
  clear h
  simp only [getBuilder, Except.ok.injEq, Prod.mk.injEq] at h1
  obtain ⟨rfl, rfl⟩ := h1
  obtain ⟨param, b2, h1, h⟩ := Build.bind_ok_inv _ _ _ _ h0
  clear h0
  unfold ParameterVariable at h1
  split at h1
  swap
  · simp only [reduceCtorEq] at h1
  rename_i v hv
  simp only [Except.ok.injEq, Prod.mk.injEq] at h1
  obtain ⟨rfl, rfl⟩ := h1
  cases hn : v.needs_type_check with
  | false =>
    simp only [hn, Bool.not_false, if_true, Build.run_pure, Except.ok.injEq, Prod.mk.injEq] at h
    obtain ⟨rfl, rfl⟩ := h
    exact ⟨⟨_, rfl⟩, v, hv, by simp [hn], by simp [hn]⟩
  | true =>
    simp only [hn, Bool.not_true, Bool.false_eq_true, if_false] at h
    obtain ⟨t, b2, h1, h⟩ := Build.bind_ok_inv _ _ _ _ h
    have ht : parameterTargetType b.parsed_function_ i v = some t ∧ b2 = b := by
      unfold parameterTargetType
      by_cases hstub : b.parsed_function_.is_forwarding_stub = true
      · simp only [hstub, if_true] at h1 ⊢
        cases hft : b.parsed_function_.forwarding_stub_super_target with
        | none =>
          rw [hft] at h1
          simp only [Build.fail, reduceCtorEq] at h1
        | some ft =>
          rw [hft] at h1
          simp only at h1
          cases ht1 : ft.parameter_types.get? i with
          | none =>
            rw [ht1] at h1
            simp only [Build.fail, reduceCtorEq] at h1
          | some t1 =>
            rw [ht1] at h1
            simp only [Build.run_pure, Except.ok.injEq, Prod.mk.injEq] at h1
            obtain ⟨rfl, rfl⟩ := h1
            exact ⟨ht1, rfl⟩
      · simp only [hstub, if_false, Build.run_pure, Except.ok.injEq, Prod.mk.injEq] at h1 ⊢
        obtain ⟨rfl, rfl⟩ := h1
        exact ⟨rfl, rfl⟩
    obtain ⟨ht, rfl⟩ := ht
    cases htop : t.IsTopType with
    | true =>
      simp only [htop, if_true, Build.run_pure, Except.ok.injEq, Prod.mk.injEq] at h
      obtain ⟨rfl, rfl⟩ := h
      refine ⟨⟨_, rfl⟩, v, hv, by simp [ht, htop, hn], ?_⟩
      intro t1 _ ht1 htop1
      rw [ht] at ht1
      cases ht1
      rw [htop] at htop1
      cases htop1
    | false =>
      simp only [htop, Bool.false_eq_true, if_false] at h
      obtain ⟨check, b3, h1, h⟩ := Build.bind_ok_inv _ _ _ _ h
      obtain ⟨s3, rfl⟩ := StackOnly_parameterCheck I v t b2 check b3 h1
      split at h
      · rename_i hc
        obtain ⟨redefinition, b4, h2, h⟩ := Build.bind_ok_inv _ _ _ _ h
        obtain ⟨s4, rfl⟩ := StackOnly_parameterRedefinition v t _ redefinition b4 h2
        rw [Build.run_pure] at h
        simp only [Except.ok.injEq, Prod.mk.injEq] at h
        obtain ⟨rfl, rfl⟩ := h
        have hcov : v.is_explicit_covariant_parameter = false := by
          cases hx : v.is_explicit_covariant_parameter
          · rfl
          · simp [hx] at hc
        refine ⟨⟨s4, rfl⟩, v, hv, by simp [ht, htop, hn], ?_⟩
        intro t1 _ ht1 _
        rw [ht] at ht1
        cases ht1
        exact ⟨check, [(CheckSink.implicit_redefinitions, redefinition)], _, by simp [hcov], h1,
          by simp⟩
      · rw [Build.run_pure] at h
        simp only [Except.ok.injEq, Prod.mk.injEq] at h
        obtain ⟨rfl, rfl⟩ := h
        refine ⟨⟨s3, rfl⟩, v, hv, by simp [ht, htop, hn], ?_⟩
        intro t1 _ ht1 _
        rw [ht] at ht1
        cases ht1
        exact ⟨check, [], _, rfl, h1, by simp⟩

theorem ParameterRound_of_run (I : Isolate) (with_redefinitions : Bool) (i : Nat)
    (b : FlowGraphBuilder) (s : List Instr) (per : List (CheckSink × Fragment))
    (b1 : FlowGraphBuilder)
    (h : checkParameter I with_redefinitions i { b with stack_ := s } = .ok (per, b1)) :
    (∃ s1, b1 = { b with stack_ := s1 }) ∧ ParameterRound I b i per := by
  obtain ⟨⟨s1, hs1⟩, param, hp, hiff, hcheck⟩ := checkParameter_run I with_redefinitions i _ per b1 h
  refine ⟨⟨s1, hs1⟩, param, hp, hiff, ?_⟩
  intro t hn ht htop
  obtain ⟨check, rest, b2, h1, h2, h3⟩ := hcheck t hn ht htop
  exact ⟨check, rest, s, b2, h1, h2, h3⟩

theorem collectChecks_run (I : Isolate) (with_redefinitions : Bool) (xs : List Nat)
    (b : FlowGraphBuilder) (s : List Instr) (items : List (CheckSink × Fragment))
    (b1 : FlowGraphBuilder)
    (h : collectChecks (checkParameter I with_redefinitions) xs { b with stack_ := s } =
      .ok (items, b1)) :
    (∃ s1, b1 = { b with stack_ := s1 }) ∧
      ∃ per_parameter, items = per_parameter.flatten ∧
        List.Forall₂ (ParameterRound I b) xs per_parameter := by
  induction xs generalizing s items b1 with
  | nil =>
    simp only [collectChecks, Build.run_pure, Except.ok.injEq, Prod.mk.injEq] at h
    obtain ⟨rfl, rfl⟩ := h
    exact ⟨⟨s, rfl⟩, [], rfl, List.Forall₂.nil⟩
  | cons i rest ih =>
    unfold collectChecks at h
    obtain ⟨a, b2, h1, h0⟩ := Build.bind_ok_inv _ _ _ _ h
    obtain ⟨⟨s1, rfl⟩, hround⟩ := ParameterRound_of_run I with_redefinitions i b s a b2 h1
    obtain ⟨r, b3, h2, h3⟩ := Build.bind_ok_inv _ _ _ _ h0
    obtain ⟨⟨s2, rfl⟩, pers, rfl, hall⟩ := ih s1 r b3 h2
    simp only [Build.run_pure, Except.ok.injEq, Prod.mk.injEq] at h3
    obtain ⟨rfl, rfl⟩ := h3
    exact ⟨⟨s2, rfl⟩, a :: pers, by simp, List.Forall₂.cons hround hall⟩

theorem EnsuresFrom_bind {α β : Type} {b : FlowGraphBuilder} {R : β → Prop} {m : Build α}
    {f : α → Build β} (hm : StackOnly m) (h : ∀ a, EnsuresFrom b R (f a)) :
    EnsuresFrom b R (m >>= f) := by
  intro s r b1 hb
  obtain ⟨a, b2, h1, h2⟩ := Build.bind_ok_inv m f _ (r, b1) hb
  obtain ⟨s1, rfl⟩ := hm _ a b2 h1
  exact h a s1 r b1 h2

theorem EnsuresFrom_getBuilder {β : Type} {b : FlowGraphBuilder} {R : β → Prop}
    {f : FlowGraphBuilder → Build β} (h : ∀ s, EnsuresFrom b R (f { b with stack_ := s })) :
    EnsuresFrom b R (getBuilder >>= f) := by
  intro s r b1 hb
  obtain ⟨a, b2, h1, h2⟩ := Build.bind_ok_inv getBuilder f _ (r, b1) hb
  simp only [getBuilder, Except.ok.injEq, Prod.mk.injEq] at h1
  obtain ⟨rfl, rfl⟩ := h1
  exact h s s r b1 h2

theorem EnsuresFrom_fail {α : Type} {b : FlowGraphBuilder} {R : α → Prop} (e : Failure) :
    EnsuresFrom b R (Build.fail e : Build α) := by
  intro s a b1 hb
  simp only [Build.fail, reduceCtorEq] at hb

theorem EnsuresFrom_parameters (I : Isolate) (with_redefinitions : Bool)
    (b : FlowGraphBuilder) (xs : List Nat) (bounds : Fragment) :
    EnsuresFrom b
      (fun items => ∃ bounds per_parameter,
        items = (CheckSink.implicit_checks, bounds) :: per_parameter.flatten ∧
          List.Forall₂ (ParameterRound I b) xs per_parameter)
      (collectChecks (checkParameter I with_redefinitions) xs >>=
        fun params => pure ((CheckSink.implicit_checks, bounds) :: params)) := by
  intro s items b1 hb
  obtain ⟨params, b2, h1, h2⟩ := Build.bind_ok_inv _ _ _ _ hb
  obtain ⟨_, pers, rfl, hall⟩ := collectChecks_run I with_redefinitions xs b s params b2 h1
  simp only [Build.run_pure, Except.ok.injEq, Prod.mk.injEq] at h2
  obtain ⟨rfl, rfl⟩ := h2
  exact ⟨bounds, pers, rfl, hall⟩

theorem BuildArgumentTypeChecks_run (I : Isolate) (mode : TypeChecksToBuild)
    (with_redefinitions : Bool) (b : FlowGraphBuilder) (items : List (CheckSink × Fragment))
    (b1 : FlowGraphBuilder) (hstrong : I.should_emit_strong_mode_checks = true)
    (h : BuildArgumentTypeChecks I mode with_redefinitions b = .ok (items, b1)) :
    ∃ bounds per_parameter,
      items = (CheckSink.implicit_checks, bounds) :: per_parameter.flatten ∧
      List.Forall₂ (ParameterRound I b)
        (List.range' b.parsed_function_.function.NumImplicitParameters
          (b.parsed_function_.function.NumParameters -
            b.parsed_function_.function.NumImplicitParameters)) per_parameter := by
  have key : EnsuresFrom b
      (fun items => ∃ bounds per_parameter,
        items = (CheckSink.implicit_checks, bounds) :: per_parameter.flatten ∧
          List.Forall₂ (ParameterRound I b)
            (List.range' b.parsed_function_.function.NumImplicitParameters
              (b.parsed_function_.function.NumParameters -
                b.parsed_function_.function.NumImplicitParameters)) per_parameter)
      (BuildArgumentTypeChecks I mode with_redefinitions) := by
    unfold KernelToIL.BuildArgumentTypeChecks
    simp only [hstrong, Bool.not_true, Bool.false_eq_true, if_false]
    refine EnsuresFrom_getBuilder (fun s => ?_)
    dsimp only
    repeat' first
      | with_reducible exact EnsuresFrom_parameters I with_redefinitions b _ _
      | with_reducible exact EnsuresFrom_fail _
      | with_reducible exact StackOnly_pure _
      | with_reducible exact StackOnly_fail _
      | with_reducible exact StackOnly_ASSERT _
      | with_reducible exact StackOnly_ParameterVariable _
      | exact StackOnly_pure _
      | exact StackOnly_seq _ (fun m hm => by
          obtain ⟨tp, _, rfl⟩ := List.mem_map.mp hm
          exact StackOnly_checkTypeParameterBound _ _)
      | with_reducible refine StackOnly_bind ?_ (fun _ => ?_)
      | with_reducible refine EnsuresFrom_bind ?_ (fun _ => ?_)
      | dsimp only
      | split
  have hb : ({ b with stack_ := b.stack_ } : FlowGraphBuilder) = b := by cases b; rfl
  have := key b.stack_ items b1
  rw [hb] at this
  exact this h

/-- C12: with strong-mode checks disabled `BuildArgumentTypeChecks` appends
nothing, so all three output fragments are unchanged. With them enabled, every
result lists the bound checks followed by the appends of one round per
explicit parameter `i` (from `NumImplicitParameters` up to `NumParameters`),
and the round of parameter `p` appends something if and only if `p` needs a
type check and its target type is not a top type; it then appends first the
check built by `LoadLocal(p)`, `CheckAssignable(target type)`, `Drop`, to
`explicit_checks` if `p` is explicitly covariant and to `implicit_checks`
otherwise, and after it only appends to `implicit_redefinitions`. -/
theorem BuildArgumentTypeChecks_parameter_checks (I : Isolate) (mode : TypeChecksToBuild)
    (with_redefinitions : Bool) (b : FlowGraphBuilder) :
    (I.should_emit_strong_mode_checks = false →
      BuildArgumentTypeChecks I mode with_redefinitions b = .ok ([], b) ∧
        ∀ points_here acc, appendChecks points_here [] acc = acc) ∧
    (I.should_emit_strong_mode_checks = true →
      ∀ items b1, BuildArgumentTypeChecks I mode with_redefinitions b = .ok (items, b1) →
        ∃ bounds per_parameter,
          items = (CheckSink.implicit_checks, bounds) :: per_parameter.flatten ∧
          List.Forall₂
            (fun i per =>
              ∃ param, b.parsed_function_.parameters.get? i = some param ∧
                (per ≠ [] ↔ param.needs_type_check = true ∧
                  ∃ t, parameterTargetType b.parsed_function_ i param = some t ∧
                    t.IsTopType = false) ∧
                ∀ t, param.needs_type_check = true →
                  parameterTargetType b.parsed_function_ i param = some t →
                  t.IsTopType = false →
                  ∃ check rest s b2,
                    per = (if param.is_explicit_covariant_parameter then
                        CheckSink.explicit_checks
                      else CheckSink.implicit_checks, check) :: rest ∧
                    Build.seq [LoadLocal param, CheckAssignable I t, Drop]
                        { b with stack_ := s } = .ok (check, b2) ∧
                    ∀ p ∈ rest, p.1 = CheckSink.implicit_redefinitions)
            (List.range' b.parsed_function_.function.NumImplicitParameters
              (b.parsed_function_.function.NumParameters -
                b.parsed_function_.function.NumImplicitParameters))
            per_parameter) := by
  refine ⟨fun hoff => ⟨?_, fun _ _ => rfl⟩, fun hstrong items b1 h => ?_⟩
  · unfold KernelToIL.BuildArgumentTypeChecks
    simp only [hoff, Bool.not_false, if_true]
    rfl
  · exact BuildArgumentTypeChecks_run I mode with_redefinitions b items b1 hstrong h

theorem BuildArgumentTypeChecks_parameter_checks_witness :
    (BuildArgumentTypeChecks { witnessIsolate with should_emit_strong_mode_checks := false }
        .kCheckAllTypeParameterBounds true witnessCheckedBuilder = .ok ([], witnessCheckedBuilder)) ∧
    ∃ items b1, BuildArgumentTypeChecks witnessIsolate .kCheckAllTypeParameterBounds true
        witnessCheckedBuilder = .ok (items, b1) ∧
      items.map (fun p => (p.1, p.2.instrs)) =
        [(.implicit_checks, []),
          (.implicit_checks, [.LoadLocal (witnessParameter 2 true witnessIntType false),
            .LoadLocal (LocalVariable.frame (-1)), .Constant .null, .Constant .null,
            .AssertAssignable witnessIntType, .Drop, .Drop]),
          (.implicit_redefinitions, [.LoadLocal (witnessParameter 2 true witnessIntType false),
            .RedefinitionWithType witnessIntType,
            .StoreLocal (witnessParameter 2 true witnessIntType false), .Drop]),
          (.explicit_checks, [.LoadLocal (witnessParameter 3 true witnessIntType true),
            .LoadLocal (LocalVariable.frame (-1)), .Constant .null, .Constant .null,
            .AssertAssignable witnessIntType, .Drop, .Drop])] ∧
      ∃ (bounds : Fragment) (per_parameter : List (List (CheckSink × Fragment))),
        items = (CheckSink.implicit_checks, bounds) :: per_parameter.flatten ∧
          per_parameter.length = 4 := by
  have h1 := (BuildArgumentTypeChecks_parameter_checks
    { witnessIsolate with should_emit_strong_mode_checks := false }
    .kCheckAllTypeParameterBounds true witnessCheckedBuilder).1 rfl
  have h2 := (BuildArgumentTypeChecks_parameter_checks witnessIsolate
    .kCheckAllTypeParameterBounds true witnessCheckedBuilder).2 rfl
  refine ⟨h1.1, ?_⟩
  have hok : (match BuildArgumentTypeChecks witnessIsolate .kCheckAllTypeParameterBounds true
        witnessCheckedBuilder with
      | .ok (items, _) => decide (items.map (fun p => (p.1, p.2.instrs)) =
        [(.implicit_checks, []),
          (.implicit_checks, [.LoadLocal (witnessParameter 2 true witnessIntType false),
            .LoadLocal (LocalVariable.frame (-1)), .Constant .null, .Constant .null,
            .AssertAssignable witnessIntType, .Drop, .Drop]),
          (.implicit_redefinitions, [.LoadLocal (witnessParameter 2 true witnessIntType false),
            .RedefinitionWithType witnessIntType,
            .StoreLocal (witnessParameter 2 true witnessIntType false), .Drop]),
          (.explicit_checks, [.LoadLocal (witnessParameter 3 true witnessIntType true),
            .LoadLocal (LocalVariable.frame (-1)), .Constant .null, .Constant .null,
            .AssertAssignable witnessIntType, .Drop, .Drop])])
      | .error _ => false) = true := by decide!
  cases hr : BuildArgumentTypeChecks witnessIsolate .kCheckAllTypeParameterBounds true
      witnessCheckedBuilder with
  | error e => rw [hr] at hok; cases hok
  | ok r =>
    obtain ⟨items, b1⟩ := r
    rw [hr] at hok
    obtain ⟨bounds, per_parameter, hitems, hall⟩ := h2 items b1 hr
    exact ⟨items, b1, rfl, of_decide_eq_true hok, bounds, per_parameter, hitems,
      by simpa using hall.length_eq.symm⟩

/-! ### The context depth never goes below zero -/

theorem DepthPost_of_StackOnly {α : Type} {m : Build α} (h : StackOnly m) (d : Int) :
    DepthPost d (fun e => e = d) m := by
  intro b a b1 hd hb
  obtain ⟨s, rfl⟩ := h b a b1 hb
  exact hd

theorem DepthPost_bind {α β : Type} {d : Int} {Q R : Int → Prop} {m : Build α}
    {f : α → Build β} (hm : DepthPost d Q m) (h : ∀ a e, Q e → DepthPost e R (f a)) :
    DepthPost d R (m >>= f) := by
  intro b r b1 hd hb
  obtain ⟨a, b2, h1, h2⟩ := Build.bind_ok_inv m f b (r, b1) hb
  exact h a _ (hm b a b2 hd h1) b2 r b1 rfl h2

theorem DepthPost_stack_bind {α β : Type} {d : Int} {R : Int → Prop} {m : Build α}
    {f : α → Build β} (hm : StackOnly m) (h : ∀ a, DepthPost d R (f a)) :
    DepthPost d R (m >>= f) :=
  DepthPost_bind (DepthPost_of_StackOnly hm d) (fun a e he => by subst he; exact h a)

theorem DepthPost_getBuilder_bind {β : Type} {d : Int} {R : Int → Prop}
    {f : FlowGraphBuilder → Build β} (h : ∀ b0, b0.context_depth_ = d → DepthPost d R (f b0)) :
    DepthPost d R (getBuilder >>= f) := by
  intro b r b1 hd hb
  obtain ⟨a, b2, h1, h2⟩ := Build.bind_ok_inv getBuilder f b (r, b1) hb
  simp only [getBuilder, Except.ok.injEq, Prod.mk.injEq] at h1
  obtain ⟨rfl, rfl⟩ := h1
  exact h _ hd _ r b1 hd h2

theorem DepthPost_ASSERT_bind {β : Type} {d : Int} {R : Int → Prop} {c : Bool}
    {f : Unit → Build β} (h : c = true → DepthPost d R (f ())) :
    DepthPost d R (ASSERT c >>= f) := by
  intro b r b1 hd hb
  obtain ⟨a, b2, h1, h2⟩ := Build.bind_ok_inv (ASSERT c) f b (r, b1) hb
  have hc := Ensures_ASSERT c b a b2 h1
  obtain ⟨s, rfl⟩ := StackOnly_ASSERT c b a b2 h1
  exact h hc { b with stack_ := s } r b1 hd h2

theorem DepthPost_setBuilder (b1 : FlowGraphBuilder) (d : Int) :
    DepthPost d (fun e => e = b1.context_depth_) (setBuilder b1) := by
  intro b a b2 _ hb
  simp only [setBuilder, Except.ok.injEq, Prod.mk.injEq] at hb
  rw [← hb.2]

theorem DepthPost_pure {α : Type} {d : Int} {Q : Int → Prop} (a : α) (h : Q d) :
    DepthPost d Q (pure a : Build α) := by
  intro b a1 b1 hd hb
  rw [Build.run_pure] at hb
  simp only [Except.ok.injEq, Prod.mk.injEq] at hb
  rw [← hb.2, hd]
  exact h

theorem DepthPost_mono {α : Type} {d : Int} {Q R : Int → Prop} {m : Build α}
    (hm : DepthPost d Q m) (h : ∀ e, Q e → R e) : DepthPost d R m :=
  fun b a b1 hd hb => h _ (hm b a b1 hd hb)

theorem StackOnly_lookupScope (o : Int) : StackOnly (lookupScope o) := by
  intro b a b1 hb
  unfold lookupScope at hb
  split at hb
  · simp only [reduceCtorEq] at hb
  · split at hb
    · simp only [reduceCtorEq] at hb
    · simp only [Except.ok.injEq, Prod.mk.injEq] at hb
      exact ⟨b.stack_, hb.2.symm⟩

/-- A successful `AdjustContextTo(t)` ends at depth `t`, which lies between 0
and the starting depth. -/
theorem AdjustContextTo_depth (t d : Int) :
    DepthPost d (fun e => e = t ∧ 0 ≤ t ∧ t ≤ d) (AdjustContextTo t) := by
  intro b f b1 hd hb
  subst hd
  by_cases ha : (decide (t ≤ b.context_depth_) && decide (t ≥ 0)) = true
  · have ha1 := ha
    simp only [Bool.and_eq_true, decide_eq_true_eq] at ha1
    by_cases hlt : t < b.context_depth_
    · rw [AdjustContextTo_lower b t (by omega) hlt] at hb
      simp only [Except.ok.injEq, Prod.mk.injEq] at hb
      rw [← hb.2]
      exact ⟨rfl, by omega, by omega⟩
    · simp only [AdjustContextTo, Build.run_bind, getBuilder, ASSERT, ha, if_true, hlt,
        if_false, Build.run_pure, Except.ok.injEq, Prod.mk.injEq] at hb
      rw [← hb.2]
      exact ⟨by omega, by omega, by omega⟩
  · simp [AdjustContextTo, Build.run_bind, getBuilder, ASSERT, ha] at hb

/-- A successful `PushContext` ends one level deeper. -/
theorem PushContext_depth (scope : LocalScope) (d : Int) :
    DepthPost d (fun e => e = d + 1) (PushContext scope) := by
  unfold KernelToIL.PushContext
  refine DepthPost_stack_bind (StackOnly_ASSERT _) (fun _ => ?_)
  refine DepthPost_stack_bind (StackOnly_emitDefinition _ _) (fun _ => ?_)
  refine DepthPost_stack_bind StackOnly_MakeTemporary (fun _ => ?_)
  refine DepthPost_getBuilder_bind (fun b0 _ => ?_)
  refine DepthPost_stack_bind (StackOnly_LoadLocal _) (fun _ => ?_)
  refine DepthPost_stack_bind (StackOnly_LoadLocal _) (fun _ => ?_)
  refine DepthPost_stack_bind (StackOnly_emitEffect _ _) (fun _ => ?_)
  refine DepthPost_stack_bind (StackOnly_emitDefinition _ _) (fun _ => ?_)
  refine DepthPost_getBuilder_bind (fun b1 hb1 => ?_)
  refine DepthPost_bind (DepthPost_setBuilder _ _) (fun _ e he => ?_)
  exact DepthPost_pure _ (by rw [he, ← hb1])

/-- A successful `PopContext` ends one level up, at a depth that is not
negative. -/
theorem PopContext_depth (d : Int) :
    DepthPost d (fun e => e = d - 1 ∧ 0 ≤ e) PopContext := by
  unfold KernelToIL.PopContext
  refine DepthPost_getBuilder_bind (fun b0 hb0 => ?_)
  refine DepthPost_mono (AdjustContextTo_depth _ d) ?_
  rintro e ⟨he, h0, _⟩
  rw [hb0] at he h0
  exact ⟨he, by omega⟩

/-- A successful `EnterScope` stays at the depth or ends one level deeper. -/
theorem EnterScope_depth (o d : Int) :
    DepthPost d (fun e => e = d ∨ e = d + 1) (EnterScope o) := by
  unfold KernelToIL.EnterScope
  refine DepthPost_stack_bind (StackOnly_lookupScope o) (fun scope => ?_)
  split
  · refine DepthPost_bind (PushContext_depth scope d) (fun _ e he => ?_)
    refine DepthPost_stack_bind (StackOnly_emitEffect _ _) (fun _ => ?_)
    exact DepthPost_pure _ (Or.inr he)
  · exact DepthPost_pure _ (Or.inl rfl)

/-- A successful `ExitScope` stays at the depth or ends one level up, at a
depth that is not negative. -/
theorem ExitScope_depth (o d : Int) :
    DepthPost d (fun e => e = d ∨ (e = d - 1 ∧ 0 ≤ e)) (ExitScope o) := by
  unfold KernelToIL.ExitScope
  refine DepthPost_stack_bind (StackOnly_lookupScope o) (fun scope => ?_)
  dsimp only
  split
  · refine DepthPost_bind (PopContext_depth d) (fun _ e he => ?_)
    exact DepthPost_pure _ (Or.inr he)
  · exact DepthPost_pure _ (Or.inl rfl)

/-- At a depth that is not positive `PopContext` fails its assertion. -/
theorem PopContext_underflow (b : FlowGraphBuilder) (h : b.context_depth_ ≤ 0) :
    PopContext b = .error .assertion := by
  have ha : (decide (b.context_depth_ - 1 ≤ b.context_depth_) &&
      decide (b.context_depth_ - 1 ≥ 0)) = false := by
    simp only [Bool.and_eq_false_iff, decide_eq_false_iff_not]; omega
  simp only [PopContext, AdjustContextTo, Build.run_bind, getBuilder, ASSERT, ha,
    Bool.false_eq_true, if_false]

/-- At a depth that is not positive `ExitScope` of a scope that owns context
variables fails the assertion. -/
theorem ExitScope_underflow (b : FlowGraphBuilder) (r : ScopeBuildingResult)
    (scope : LocalScope) (o : Int) (hs : b.scopes_ = some r) (ho : r.Lookup o = some scope)
    (hn : 0 < scope.num_context_variables) (h : b.context_depth_ ≤ 0) :
    ExitScope o b = .error .assertion := by
  have hp := PopContext_underflow b h
  simp only [ExitScope, lookupScope, hs, ho, Build.run_bind, hn, if_true, hp]

/-! ### The fragment and the context depth of `CatchBlockEntry` -/

theorem EmitsFrom_of_Emits {b : FlowGraphBuilder} {m : Build Fragment} {l : List Instr}
    (h : Emits m l) (hs : StackOnly m) : EmitsFrom b m l :=
  fun s f b1 hb => ⟨h _ f b1 hb, hs { b with stack_ := s } f b1 hb⟩

theorem EmitsFrom_pure (b : FlowGraphBuilder) (l : List Instr) :
    EmitsFrom b (pure ⟨l, false⟩) l :=
  EmitsFrom_of_Emits (Emits_pure l) (StackOnly_pure _)

/-- `LoadLocal` emits the instructions listed by `loadLocalInstrs` for the
depth of the builder. -/
theorem EmitsFrom_LoadLocal (b : FlowGraphBuilder) (v : LocalVariable) :
    EmitsFrom b (LoadLocal v)
      (loadLocalInstrs b.parsed_function_.current_context_var v b.context_depth_) := by
  intro s f b1 hb
  refine ⟨?_, StackOnly_LoadLocal v { b with stack_ := s } f b1 hb⟩
  unfold loadLocalInstrs
  cases hc : v.is_captured with
  | false =>
    rw [LoadLocal_frame_run v { b with stack_ := s } hc] at hb
    simp only [Except.ok.injEq, Prod.mk.injEq] at hb
    simp [← hb.1]
  | true =>
    cases ho : v.owner with
    | none => simp [LoadLocal, hc, ho, Build.fail] at hb
    | some owner =>
      by_cases hl : owner.context_level ≤ b.context_depth_
      · rw [LoadLocal_captured_run v owner { b with stack_ := s } hc ho hl] at hb
        simp only [Except.ok.injEq, Prod.mk.injEq] at hb
        simp [← hb.1]
      · have hf := LoadContextAt_fail { b with stack_ := s } owner.context_level
          (by simp only; omega)
        simp [LoadLocal, hc, ho, Build.run_bind, hf] at hb

theorem EmitsFrom_seqFrom (b : FlowGraphBuilder) (ms : List (Build Fragment))
    (ls : List (List Instr)) (h : List.Forall₂ (EmitsFrom b) ms ls) (l0 : List Instr) :
    EmitsFrom b (Build.seqFrom ⟨l0, false⟩ ms) (l0 ++ ls.flatten) := by
  induction h generalizing l0 with
  | nil =>
    intro s f b1 hb
    simp only [Build.seqFrom, Build.run_pure, Except.ok.injEq, Prod.mk.injEq] at hb
    exact ⟨by simp [← hb.1], s, hb.2.symm⟩
  | @cons m l ms ls hm _ ih =>
    intro s f b1 hb
    rw [Build.seqFrom] at hb
    obtain ⟨f1, b2, h1, h2⟩ := Build.bind_ok_inv _ _ _ _ hb
    obtain ⟨rfl, s1, rfl⟩ := hm s f1 b2 h1
    rw [Fragment.append_open_open] at h2
    obtain ⟨hf, hs⟩ := ih (l0 ++ l) s1 f b1 h2
    exact ⟨by simpa [List.append_assoc] using hf, hs⟩

theorem EmitsFrom_seq (b : FlowGraphBuilder) (ms : List (Build Fragment))
    (ls : List (List Instr)) (h : List.Forall₂ (EmitsFrom b) ms ls) :
    EmitsFrom b (Build.seq ms) ls.flatten := by
  have := EmitsFrom_seqFrom b ms ls h []
  simpa [Build.seq, Fragment.empty] using this

theorem EmitsFrom_ASSERT_bind {b : FlowGraphBuilder} {c : Bool} {f : Unit → Build Fragment}
    {l : List Instr} (h : c = true → EmitsFrom b (f ()) l) : EmitsFrom b (ASSERT c >>= f) l := by
  intro s r b1 hb
  obtain ⟨a, b2, h1, h2⟩ := Build.bind_ok_inv (ASSERT c) f _ (r, b1) hb
  have hc := Ensures_ASSERT c _ a b2 h1
  obtain ⟨s1, rfl⟩ := StackOnly_ASSERT c _ a b2 h1
  exact h hc s1 r b1 h2

theorem ASSERT_inv (c : Bool) (b : FlowGraphBuilder) (u : Unit) (b1 : FlowGraphBuilder)
    (h : ASSERT c b = .ok (u, b1)) : c = true ∧ b1 = b := by
  unfold KernelToIL.ASSERT at h
  split at h
  · rename_i hc
    simp only [Except.ok.injEq, Prod.mk.injEq] at h
    exact ⟨hc, h.2.symm⟩
  · simp only [reduceCtorEq] at h

theorem variableAt_inv (list : List LocalVariable) (index : Int) (b : FlowGraphBuilder)
    (v : LocalVariable) (b1 : FlowGraphBuilder) (h : variableAt list index b = .ok (v, b1)) :
    b1 = b ∧ ∀ b2, variableAt list index b2 = .ok (v, b2) := by
  unfold variableAt at h
  split at h
  · simp only [reduceCtorEq] at h
  · rename_i hi
    split at h
    · rename_i w hw
      simp only [Except.ok.injEq, Prod.mk.injEq] at h
      obtain ⟨rfl, rfl⟩ := h
      refine ⟨rfl, fun b2 => ?_⟩
      simp only [variableAt, hi, if_false, hw]
    · simp only [reduceCtorEq] at h

theorem getScopes_inv (b : FlowGraphBuilder) (r : ScopeBuildingResult) (b1 : FlowGraphBuilder)
    (h : getScopes b = .ok (r, b1)) : b1 = b ∧ b.scopes_ = some r := by
  unfold getScopes at h
  split at h
  · rename_i r0 hr
    simp only [Except.ok.injEq, Prod.mk.injEq] at h
    obtain ⟨rfl, rfl⟩ := h
    exact ⟨rfl, hr⟩
  · simp only [reduceCtorEq] at h

/-- The accessor `CurrentException` changes nothing and depends only on the
scopes and the catch depth. -/
theorem CurrentException_inv (b : FlowGraphBuilder) (v : LocalVariable) (b1 : FlowGraphBuilder)
    (h : CurrentException b = .ok (v, b1)) :
    b1 = b ∧ ∀ b2, b2.scopes_ = b.scopes_ → b2.more_ = b.more_ →
      CurrentException b2 = .ok (v, b2) := by
  unfold KernelToIL.CurrentException at h
  obtain ⟨r, b2, h1, h2⟩ := Build.bind_ok_inv _ _ _ _ h
  obtain ⟨rfl, hr⟩ := getScopes_inv _ _ _ h1
  obtain ⟨b0, b3, h3, h4⟩ := Build.bind_ok_inv _ _ _ _ h2
  simp only [getBuilder, Except.ok.injEq, Prod.mk.injEq] at h3
  obtain ⟨rfl, rfl⟩ := h3
  obtain ⟨rfl, hv⟩ := variableAt_inv _ _ _ _ _ h4
  refine ⟨rfl, fun b2 hs hm => ?_⟩
  simp only [CurrentException, Build.run_bind, getScopes, hs, hr, getBuilder, hm]
  exact hv b2

theorem CurrentStackTrace_inv (b : FlowGraphBuilder) (v : LocalVariable) (b1 : FlowGraphBuilder)
    (h : CurrentStackTrace b = .ok (v, b1)) :
    b1 = b ∧ ∀ b2, b2.scopes_ = b.scopes_ → b2.more_ = b.more_ →
      CurrentStackTrace b2 = .ok (v, b2) := by
  unfold KernelToIL.CurrentStackTrace at h
  obtain ⟨r, b2, h1, h2⟩ := Build.bind_ok_inv _ _ _ _ h
  obtain ⟨rfl, hr⟩ := getScopes_inv _ _ _ h1
  obtain ⟨b0, b3, h3, h4⟩ := Build.bind_ok_inv _ _ _ _ h2
  simp only [getBuilder, Except.ok.injEq, Prod.mk.injEq] at h3
  obtain ⟨rfl, rfl⟩ := h3
  obtain ⟨rfl, hv⟩ := variableAt_inv _ _ _ _ _ h4
  refine ⟨rfl, fun b2 hs hm => ?_⟩
  simp only [CurrentStackTrace, Build.run_bind, getScopes, hs, hr, getBuilder, hm]
  exact hv b2

theorem CurrentRawException_inv (b : FlowGraphBuilder) (v : LocalVariable)
    (b1 : FlowGraphBuilder) (h : CurrentRawException b = .ok (v, b1)) :
    b1 = b ∧ ∀ b2, b2.scopes_ = b.scopes_ → b2.more_ = b.more_ →
      CurrentRawException b2 = .ok (v, b2) := by
  unfold KernelToIL.CurrentRawException at h
  obtain ⟨r, b2, h1, h2⟩ := Build.bind_ok_inv _ _ _ _ h
  obtain ⟨rfl, hr⟩ := getScopes_inv _ _ _ h1
  obtain ⟨b0, b3, h3, h4⟩ := Build.bind_ok_inv _ _ _ _ h2
  simp only [getBuilder, Except.ok.injEq, Prod.mk.injEq] at h3
  obtain ⟨rfl, rfl⟩ := h3
  obtain ⟨rfl, hv⟩ := variableAt_inv _ _ _ _ _ h4
  refine ⟨rfl, fun b2 hs hm => ?_⟩
  simp only [CurrentRawException, Build.run_bind, getScopes, hs, hr, getBuilder, hm]
  exact hv b2

theorem CurrentRawStackTrace_inv (b : FlowGraphBuilder) (v : LocalVariable)
    (b1 : FlowGraphBuilder) (h : CurrentRawStackTrace b = .ok (v, b1)) :
    b1 = b ∧ ∀ b2, b2.scopes_ = b.scopes_ → b2.more_ = b.more_ →
      CurrentRawStackTrace b2 = .ok (v, b2) := by
  unfold KernelToIL.CurrentRawStackTrace at h
  obtain ⟨r, b2, h1, h2⟩ := Build.bind_ok_inv _ _ _ _ h
  obtain ⟨rfl, hr⟩ := getScopes_inv _ _ _ h1
  obtain ⟨b0, b3, h3, h4⟩ := Build.bind_ok_inv _ _ _ _ h2
  simp only [getBuilder, Except.ok.injEq, Prod.mk.injEq] at h3
  obtain ⟨rfl, rfl⟩ := h3
  obtain ⟨rfl, hv⟩ := variableAt_inv _ _ _ _ _ h4
  refine ⟨rfl, fun b2 hs hm => ?_⟩
  simp only [CurrentRawStackTrace, Build.run_bind, getScopes, hs, hr, getBuilder, hm]
  exact hv b2

theorem CurrentCatchContext_inv (b : FlowGraphBuilder) (v : LocalVariable)
    (b1 : FlowGraphBuilder) (h : CurrentCatchContext b = .ok (v, b1)) :
    b1 = b ∧ ∀ b2, b2.scopes_ = b.scopes_ → b2.more_ = b.more_ →
      CurrentCatchContext b2 = .ok (v, b2) := by
  unfold KernelToIL.CurrentCatchContext at h
  obtain ⟨r, b2, h1, h2⟩ := Build.bind_ok_inv _ _ _ _ h
  obtain ⟨rfl, hr⟩ := getScopes_inv _ _ _ h1
  obtain ⟨b0, b3, h3, h4⟩ := Build.bind_ok_inv _ _ _ _ h2
  simp only [getBuilder, Except.ok.injEq, Prod.mk.injEq] at h3
  obtain ⟨rfl, rfl⟩ := h3
  obtain ⟨rfl, hv⟩ := variableAt_inv _ _ _ _ _ h4
  refine ⟨rfl, fun b2 hs hm => ?_⟩
  simp only [CurrentCatchContext, Build.run_bind, getScopes, hs, hr, getBuilder, hm]
  exact hv b2

/-- The condition of the closure-context restore reads the exception variable
and, when that one is not captured, the catch-context variable. -/
theorem shouldRestoreClosureContext_inv (b : FlowGraphBuilder) (r : Bool)
    (b1 : FlowGraphBuilder) (h : shouldRestoreClosureContext b = .ok (r, b1)) :
    b1 = b ∧ ∃ exception_var, CurrentException b = .ok (exception_var, b) ∧
      (exception_var.is_captured = true → r = true) ∧
      (exception_var.is_captured = false →
        ∃ catch_context, CurrentCatchContext b = .ok (catch_context, b) ∧
          r = catch_context.is_captured) := by
  unfold KernelToIL.shouldRestoreClosureContext at h
  obtain ⟨ev, b2, h1, h2⟩ := Build.bind_ok_inv _ _ _ _ h
  obtain ⟨rfl, _⟩ := CurrentException_inv _ _ _ h1
  cases hc : ev.is_captured with
  | true =>
    simp only [hc, if_true, Build.run_pure, Except.ok.injEq, Prod.mk.injEq] at h2
    exact ⟨h2.2.symm, ev, h1, fun _ => h2.1.symm, fun hh => by simp [hc] at hh⟩
  | false =>
    simp only [hc, Bool.false_eq_true, if_false] at h2
    obtain ⟨cc, b3, h3, h4⟩ := Build.bind_ok_inv _ _ _ _ h2
    obtain ⟨rfl, _⟩ := CurrentCatchContext_inv _ _ _ h3
    simp only [Build.run_pure, Except.ok.injEq, Prod.mk.injEq] at h4
    exact ⟨h4.2.symm, ev, h1, fun hh => by simp [hc] at hh, fun _ => ⟨cc, h3, h4.1.symm⟩⟩

/-- The assertion on the level of the catch-context variable changes nothing;
past it a captured catch-context variable is owned by a scope of level 0. -/
theorem assertCatchContextLevel_inv (b : FlowGraphBuilder) (u : Unit) (b1 : FlowGraphBuilder)
    (h : assertCatchContextLevel b = .ok (u, b1)) :
    b1 = b ∧ ∃ catch_context, CurrentCatchContext b = .ok (catch_context, b) ∧
      (catch_context.is_captured = true →
        ∃ owner, catch_context.owner = some owner ∧ owner.context_level = 0) := by
  unfold KernelToIL.assertCatchContextLevel at h
  obtain ⟨cc, b2, h1, h2⟩ := Build.bind_ok_inv _ _ _ _ h
  obtain ⟨rfl, _⟩ := CurrentCatchContext_inv _ _ _ h1
  cases hc : cc.is_captured with
  | false =>
    simp only [hc, Bool.not_false, if_true, Build.run_pure, Except.ok.injEq,
      Prod.mk.injEq] at h2
    exact ⟨h2.2.symm, cc, h1, fun hh => by simp [hc] at hh⟩
  | true =>
    simp only [hc, Bool.not_true, Bool.false_eq_true, if_false] at h2
    cases ho : cc.owner with
    | none => simp [ho, Build.fail] at h2
    | some owner =>
      simp only [ho] at h2
      obtain ⟨hl, hs⟩ := ASSERT_inv _ _ _ _ h2
      exact ⟨hs, cc, h1, fun _ => ⟨owner, ho, by simpa using hl⟩⟩

theorem PostFrom_apply {α : Type} {b : FlowGraphBuilder} {R : α → Prop} {m : Build α}
    (h : PostFrom b R m) {s : List Instr} {a : α} {b1 : FlowGraphBuilder}
    (hb : m { b with stack_ := s } = .ok (a, b1)) : R a ∧ ∃ s1, b1 = { b with stack_ := s1 } :=
  h s a b1 hb

theorem PostFrom_mono {α : Type} {b : FlowGraphBuilder} {Q R : α → Prop} {m : Build α}
    (hm : PostFrom b Q m) (h : ∀ a, Q a → R a) : PostFrom b R m :=
  fun s a b1 hb => ⟨h a (hm s a b1 hb).1, (hm s a b1 hb).2⟩

theorem PostFrom_pure {α : Type} {b : FlowGraphBuilder} {R : α → Prop} {a : α} (h : R a) :
    PostFrom b R (pure a : Build α) := by
  intro s a1 b1 hb
  rw [Build.run_pure] at hb
  simp only [Except.ok.injEq, Prod.mk.injEq] at hb
  exact ⟨hb.1 ▸ h, s, hb.2.symm⟩

theorem PostFrom_ASSERT_bind {α : Type} {b : FlowGraphBuilder} {c : Bool} {f : Unit → Build α}
    {R : α → Prop} (h : c = true → PostFrom b R (f ())) : PostFrom b R (ASSERT c >>= f) := by
  intro s r b1 hb
  obtain ⟨a, b2, h1, h2⟩ := Build.bind_ok_inv (ASSERT c) f _ (r, b1) hb
  obtain ⟨hc, rfl⟩ := ASSERT_inv c _ a b2 h1
  exact h hc s r b1 h2

theorem PostFrom_ParameterVariable_bind {α : Type} {b : FlowGraphBuilder} {i : Nat}
    {f : LocalVariable → Build α} {R : α → Prop}
    (h : ∀ p, b.parsed_function_.parameters.get? i = some p → PostFrom b R (f p)) :
    PostFrom b R (ParameterVariable i >>= f) := by
  intro s r b1 hb
  obtain ⟨p, b2, h1, h2⟩ := Build.bind_ok_inv (ParameterVariable i) f _ (r, b1) hb
  unfold ParameterVariable at h1
  split at h1
  · rename_i v hv
    simp only [Except.ok.injEq, Prod.mk.injEq] at h1
    obtain ⟨rfl, rfl⟩ := h1
    exact h _ hv s r b1 h2
  · simp only [reduceCtorEq] at h1

/-- The store of a raw variable into the context slot of a captured one. -/
theorem EmitsFrom_contextStore (b : FlowGraphBuilder) (v raw : LocalVariable) :
    EmitsFrom b
      (if v.is_captured then
        Build.seq [LoadLocal b.parsed_function_.current_context_var, LoadLocal raw,
          StoreInstanceField (.ContextVariable v)]
      else pure Fragment.empty)
      (contextStoreInstrs b.parsed_function_.current_context_var b.context_depth_ v raw) := by
  unfold contextStoreInstrs
  split
  · have h := EmitsFrom_seq b _ [_, _, _]
      (.cons (EmitsFrom_LoadLocal b b.parsed_function_.current_context_var)
        (.cons (EmitsFrom_LoadLocal b raw)
          (.cons (EmitsFrom_of_Emits (Emits_emitEffect 2 (.StoreInstanceField (.ContextVariable v)))
            (StackOnly_emitEffect _ _)) .nil)))
    simpa using h
  · exact EmitsFrom_pure b []

/-- The restore of the closure context: the function is a closure function,
its parameter 0 is not captured, and the context of that closure is stored
into the current-context variable. -/
theorem PostFrom_closureContextRestore (b : FlowGraphBuilder) (r : Bool) :
    PostFrom b
      (fun f =>
        (r = true → b.parsed_function_.function.IsClosureFunction = true ∧
          ∃ p, b.parsed_function_.parameters.get? 0 = some p ∧ p.is_captured = false) ∧
        f = ⟨if r then closureContextRestoreInstrs b.parsed_function_.current_context_var
            (b.parsed_function_.parameters.get? 0) else [], false⟩)
      (if r then do
        ASSERT b.parsed_function_.function.IsClosureFunction
        let closure_parameter ← ParameterVariable 0
        ASSERT (!closure_parameter.is_captured)
        Build.seq [LoadLocal closure_parameter, LoadNativeField .Closure_context,
          StoreLocal b.parsed_function_.current_context_var, Drop]
      else pure Fragment.empty) := by
  cases r with
  | false =>
    simp only [Bool.false_eq_true, if_false]
    exact PostFrom_pure (by simp [Fragment.empty])
  | true =>
    simp only [if_true]
    refine PostFrom_ASSERT_bind (fun hclosure => ?_)
    refine PostFrom_ParameterVariable_bind (fun p hp => ?_)
    refine PostFrom_ASSERT_bind (fun hcap => ?_)
    have hcap1 : p.is_captured = false := by simpa using hcap
    have h := EmitsFrom_seq b _ [_, _, _, _]
      (.cons (EmitsFrom_LoadLocal b p)
        (.cons (EmitsFrom_of_Emits (Emits_emitDefinition 1 (.LoadNativeField .Closure_context))
            (StackOnly_emitDefinition _ _))
          (.cons (EmitsFrom_of_Emits
              (Emits_emitDefinition 1 (.StoreLocal b.parsed_function_.current_context_var))
              (StackOnly_emitDefinition _ _))
            (.cons (EmitsFrom_of_Emits (Emits_emitEffect 1 .Drop) (StackOnly_emitEffect _ _))
              .nil))))
    refine PostFrom_mono h (fun f hf => ⟨fun _ => ⟨hclosure, p, hp, hcap1⟩, ?_⟩)
    rw [hf]
    simp only [closureContextRestoreInstrs, hp, loadLocalInstrs, hcap1]
    simp

/-- The load of the saved catch context. -/
theorem EmitsFrom_loadCatchContext (b b0 : FlowGraphBuilder) (catch_context : LocalVariable)
    (hs : b0.scopes_ = b.scopes_) (hm : b0.more_ = b.more_)
    (hcc : CurrentCatchContext b = .ok (catch_context, b)) :
    EmitsFrom b0 (CurrentCatchContext >>= LoadLocal)
      (loadLocalInstrs b0.parsed_function_.current_context_var catch_context
        b0.context_depth_) := by
  intro s f b1 hb
  obtain ⟨cc, b2, h1, h2⟩ := Build.bind_ok_inv _ _ _ _ hb
  obtain ⟨rfl, hcc1⟩ := CurrentCatchContext_inv _ _ _ h1
  have h3 := hcc1 b hs.symm hm.symm
  rw [hcc] at h3
  simp only [Except.ok.injEq, Prod.mk.injEq, and_true] at h3
  subst h3
  exact EmitsFrom_LoadLocal b0 catch_context s f b1 h2

/-- A successful `CatchBlockEntry`: the variables it reads, the conditions
its assertions establish, the fragment it returns, and the builder it leaves,
which differs from the starting one at most in the pending values. -/
theorem CatchBlockEntry_run (handler_index : Int) (needs_stacktrace is_synthesized : Bool)
    (b : FlowGraphBuilder) (f : Fragment) (b1 : FlowGraphBuilder)
    (hrun : CatchBlockEntry handler_index needs_stacktrace is_synthesized b = .ok (f, b1)) :
    ∃ exception_var stacktrace_var raw_exception_var raw_stacktrace_var catch_context,
      CurrentException b = .ok (exception_var, b) ∧
      CurrentStackTrace b = .ok (stacktrace_var, b) ∧
      CurrentRawException b = .ok (raw_exception_var, b) ∧
      CurrentRawStackTrace b = .ok (raw_stacktrace_var, b) ∧
      CurrentCatchContext b = .ok (catch_context, b) ∧
      (catch_context.is_captured = true →
        ∃ owner, catch_context.owner = some owner ∧ owner.context_level = 0) ∧
      ((exception_var.is_captured || catch_context.is_captured) = true →
        b.parsed_function_.function.IsClosureFunction = true ∧
        ∃ p, b.parsed_function_.parameters.get? 0 = some p ∧ p.is_captured = false) ∧
      f = ⟨.CatchBlockEntry handler_index needs_stacktrace is_synthesized ::
          ((if exception_var.is_captured || catch_context.is_captured then
              closureContextRestoreInstrs b.parsed_function_.current_context_var
                (b.parsed_function_.parameters.get? 0)
            else []) ++
            contextStoreInstrs b.parsed_function_.current_context_var b.context_depth_
              exception_var raw_exception_var ++
            contextStoreInstrs b.parsed_function_.current_context_var b.context_depth_
              stacktrace_var raw_stacktrace_var ++
            catchContextRestoreInstrs b.parsed_function_.current_context_var catch_context),
        false⟩ ∧
      ∃ s1, b1 = { b with stack_ := s1 } := by
  unfold KernelToIL.CatchBlockEntry at hrun
  obtain ⟨ev, c1, h1, hrun1⟩ := Build.bind_ok_inv _ _ _ _ hrun
  clear hrun
  have e1 := (CurrentException_inv _ _ _ h1).1.symm
  subst e1
  obtain ⟨sv, c2, h2, hrun2⟩ := Build.bind_ok_inv _ _ _ _ hrun1
  clear hrun1
  have e2 := (CurrentStackTrace_inv _ _ _ h2).1.symm
  subst e2
  obtain ⟨rev, c3, h3, hrun3⟩ := Build.bind_ok_inv _ _ _ _ hrun2
  clear hrun2
  have e3 := (CurrentRawException_inv _ _ _ h3).1.symm
  subst e3
  obtain ⟨rsv, c4, h4, hrun4⟩ := Build.bind_ok_inv _ _ _ _ hrun3
  clear hrun3
  have e4 := (CurrentRawStackTrace_inv _ _ _ h4).1.symm
  subst e4
  obtain ⟨r, c5, h5, hrun5⟩ := Build.bind_ok_inv _ _ _ _ hrun4
  clear hrun4
  obtain ⟨e5, ev1, hev1, hr1, hr2⟩ := shouldRestoreClosureContext_inv _ _ _ h5
  have e5 := e5.symm
  subst e5
  rw [h1] at hev1
  simp only [Except.ok.injEq, Prod.mk.injEq, and_true] at hev1
  subst hev1
  obtain ⟨b0, c6, h6, hrun6⟩ := Build.bind_ok_inv _ _ _ _ hrun5
  clear hrun5
  simp only [getBuilder, Except.ok.injEq, Prod.mk.injEq] at h6
  obtain ⟨e6, e7⟩ := h6
  subst e6
  subst e7
  simp only [Build.seqFrom, Fragment.single] at hrun6
  -- the restore of the closure context
  obtain ⟨f1, c7, hs1, hrun7⟩ := Build.bind_ok_inv _ _ _ _ hrun6
  clear hrun6
  obtain ⟨⟨hfact, ef1⟩, s1, ec7⟩ := PostFrom_closureContextRestore b r b.stack_ f1 c7 hs1
  subst ef1
  subst ec7
  rw [Fragment.append_open_open] at hrun7
  -- the store of the exception
  obtain ⟨f2, c8, hs2, hrun8⟩ := Build.bind_ok_inv _ _ _ _ hrun7
  clear hrun7
  obtain ⟨ef2, s2, ec8⟩ := EmitsFrom_contextStore b ev rev s1 f2 c8 hs2
  subst ef2
  subst ec8
  rw [Fragment.append_open_open] at hrun8
  -- the store of the stack trace
  obtain ⟨f3, c9, hs3, hrun9⟩ := Build.bind_ok_inv _ _ _ _ hrun8
  clear hrun8
  obtain ⟨ef3, s3, ec9⟩ := EmitsFrom_contextStore b sv rsv s2 f3 c9 hs3
  subst ef3
  subst ec9
  rw [Fragment.append_open_open] at hrun9
  -- the restore of the saved catch context
  obtain ⟨f4, c10, hs4, hrun10⟩ := Build.bind_ok_inv _ _ _ _ hrun9
  clear hrun9
  simp only [Build.run_pure, Except.ok.injEq, Prod.mk.injEq] at hrun10
  obtain ⟨ef, eb1⟩ := hrun10
  subst ef
  subst eb1
  obtain ⟨b3, c11, h7, hs5⟩ := Build.bind_ok_inv _ _ _ _ hs4
  clear hs4
  simp only [getBuilder, Except.ok.injEq, Prod.mk.injEq] at h7
  obtain ⟨e8, e9⟩ := h7
  subst e8
  subst e9
  obtain ⟨u, c12, h8, hs6⟩ := Build.bind_ok_inv _ _ _ _ hs5
  clear hs5
  obtain ⟨e10, cc, hcc, hlevel⟩ := assertCatchContextLevel_inv _ _ _ h8
  subst e10
  have hcc0 : CurrentCatchContext b = .ok (cc, b) :=
    (CurrentCatchContext_inv _ _ _ hcc).2 b rfl rfl
  obtain ⟨u1, c13, h9, hs7⟩ := Build.bind_ok_inv _ _ _ _ hs6
  clear hs6
  simp only [setContextDepth, Build.run_bind, getBuilder, setBuilder, Except.ok.injEq,
    Prod.mk.injEq, true_and] at h9
  subst h9
  obtain ⟨restore, c14, h10, hs8⟩ := Build.bind_ok_inv _ _ _ _ hs7
  clear hs7
  have hseq := EmitsFrom_seq { b with context_depth_ := 0 } _ [_, _, _]
    (.cons (EmitsFrom_loadCatchContext b { b with context_depth_ := 0 } cc rfl rfl hcc0)
      (.cons (EmitsFrom_of_Emits
          (Emits_emitDefinition 1 (.StoreLocal b.parsed_function_.current_context_var))
          (StackOnly_emitDefinition _ _))
        (.cons (EmitsFrom_of_Emits (Emits_emitEffect 1 .Drop) (StackOnly_emitEffect _ _))
          .nil)))
  obtain ⟨erestore, s4, ec14⟩ := hseq s3 restore c14 h10
  subst erestore
  subst ec14
  obtain ⟨u2, c15, h11, hs9⟩ := Build.bind_ok_inv _ _ _ _ hs8
  clear hs8
  simp only [setContextDepth, Build.run_bind, getBuilder, setBuilder, Except.ok.injEq,
    Prod.mk.injEq, true_and] at h11
  subst h11
  simp only [Build.run_pure, Except.ok.injEq, Prod.mk.injEq] at hs9
  obtain ⟨ef4, ec10⟩ := hs9
  subst ef4
  subst ec10
  have hr : r = (ev.is_captured || cc.is_captured) := by
    cases hc : ev.is_captured with
    | true => simpa using hr1 hc
    | false =>
      obtain ⟨cc1, hcc1, hr3⟩ := hr2 hc
      rw [hcc0] at hcc1
      simp only [Except.ok.injEq, Prod.mk.injEq, and_true] at hcc1
      subst hcc1
      simpa using hr3
  subst hr
  refine ⟨ev, sv, rev, rsv, cc, h1, h2, h3, h4, hcc0, hlevel, hfact, ?_, s4, rfl⟩
  rw [Fragment.append_open_open]
  simp [catchContextRestoreInstrs, List.append_assoc]

/-- C23: the context depth never becomes negative.  From a builder whose depth
is not negative, every successful call of `EnterScope`, `ExitScope`,
`PushContext`, `PopContext`, `AdjustContextTo` and `CatchBlockEntry` leaves a
depth that is not negative; and at depth 0 `PopContext`, and `ExitScope` for a
scope that owns context variables, fail the assertion. -/
theorem context_depth_never_negative (b : FlowGraphBuilder) (hd : 0 ≤ b.context_depth_) :
    (∀ o r b1, EnterScope o b = .ok (r, b1) → 0 ≤ b1.context_depth_) ∧
    (∀ o f b1, ExitScope o b = .ok (f, b1) → 0 ≤ b1.context_depth_) ∧
    (∀ scope f b1, PushContext scope b = .ok (f, b1) → 0 ≤ b1.context_depth_) ∧
    (∀ f b1, PopContext b = .ok (f, b1) → 0 ≤ b1.context_depth_) ∧
    (∀ t f b1, AdjustContextTo t b = .ok (f, b1) → 0 ≤ b1.context_depth_) ∧
    (∀ handler_index needs_stacktrace is_synthesized f b1,
      CatchBlockEntry handler_index needs_stacktrace is_synthesized b = .ok (f, b1) →
        0 ≤ b1.context_depth_) ∧
    (b.context_depth_ = 0 →
      PopContext b = .error .assertion ∧
      ∀ r scope o, b.scopes_ = some r → r.Lookup o = some scope →
        0 < scope.num_context_variables → ExitScope o b = .error .assertion) := by
  refine ⟨?_, ?_, ?_, ?_, ?_, ?_, ?_⟩
  · intro o r b1 h
    rcases EnterScope_depth o _ b r b1 rfl h with h1 | h1 <;> omega
  · intro o f b1 h
    rcases ExitScope_depth o _ b f b1 rfl h with h1 | ⟨_, h1⟩ <;> omega
  · intro scope f b1 h
    have h1 := PushContext_depth scope _ b f b1 rfl h
    omega
  · intro f b1 h
    exact (PopContext_depth _ b f b1 rfl h).2
  · intro t f b1 h
    obtain ⟨h1, h2, _⟩ := AdjustContextTo_depth t _ b f b1 rfl h
    omega
  · intro handler_index needs_stacktrace is_synthesized f b1 h
    obtain ⟨_, _, _, _, _, _, _, _, _, _, _, _, _, s1, rfl⟩ :=
      CatchBlockEntry_run handler_index needs_stacktrace is_synthesized b f b1 h
    exact hd
  · intro h0
    exact ⟨PopContext_underflow b (le_of_eq h0),
      fun r scope o hs ho hn => ExitScope_underflow b r scope o hs ho hn (le_of_eq h0)⟩

/-- C23 at concrete builders: at depth 2 each call succeeds and leaves a depth
that is not negative; at depth 0 `PopContext` and `ExitScope` of the scope at
offset 5, which owns a context variable, fail the assertion. -/
theorem context_depth_never_negative_witness :
    (∃ r b1, EnterScope 5 witnessBuilder = .ok (r, b1) ∧ 0 ≤ b1.context_depth_) ∧
    (∃ f b1, ExitScope 5 witnessBuilder = .ok (f, b1) ∧ 0 ≤ b1.context_depth_) ∧
    (∃ f b1, PushContext ⟨1, 3, [7]⟩ witnessBuilder = .ok (f, b1) ∧ 0 ≤ b1.context_depth_) ∧
    (∃ f b1, PopContext witnessBuilder = .ok (f, b1) ∧ 0 ≤ b1.context_depth_) ∧
    (∃ f b1, AdjustContextTo 0 witnessBuilder = .ok (f, b1) ∧ 0 ≤ b1.context_depth_) ∧
    (∃ f b1, CatchBlockEntry 0 false false witnessCatchEntryBuilder = .ok (f, b1) ∧
      0 ≤ b1.context_depth_) ∧
    PopContext witnessShallowBuilder = .error .assertion ∧
    ExitScope 5 witnessShallowBuilder = .error .assertion := by
  have h := context_depth_never_negative witnessBuilder (by decide)
  have hc := context_depth_never_negative witnessCatchEntryBuilder (by decide)
  have h0 := (context_depth_never_negative witnessShallowBuilder (by decide)).2.2.2.2.2.2 rfl
  refine ⟨?_, ?_, ?_, ?_, ?_, ?_, h0.1, h0.2 witnessScopes ⟨1, 3, [7]⟩ 5 rfl (by decide)
    (by decide)⟩
  · have hok : (match EnterScope 5 witnessBuilder with
        | .ok _ => true
        | .error _ => false) = true := by decide!
    cases hr : EnterScope 5 witnessBuilder with
    | error e => rw [hr] at hok; cases hok
    | ok x => exact ⟨x.1, x.2, rfl, h.1 5 x.1 x.2 hr⟩
  · have hok : (match ExitScope 5 witnessBuilder with
        | .ok _ => true
        | .error _ => false) = true := by decide!
    cases hr : ExitScope 5 witnessBuilder with
    | error e => rw [hr] at hok; cases hok
    | ok x => exact ⟨x.1, x.2, rfl, h.2.1 5 x.1 x.2 hr⟩
  · have hok : (match PushContext ⟨1, 3, [7]⟩ witnessBuilder with
        | .ok _ => true
        | .error _ => false) = true := by decide!
    cases hr : PushContext ⟨1, 3, [7]⟩ witnessBuilder with
    | error e => rw [hr] at hok; cases hok
    | ok x => exact ⟨x.1, x.2, rfl, h.2.2.1 _ x.1 x.2 hr⟩
  · have hok : (match PopContext witnessBuilder with
        | .ok _ => true
        | .error _ => false) = true := by decide!
    cases hr : PopContext witnessBuilder with
    | error e => rw [hr] at hok; cases hok
    | ok x => exact ⟨x.1, x.2, rfl, h.2.2.2.1 x.1 x.2 hr⟩
  · have hok : (match AdjustContextTo 0 witnessBuilder with
        | .ok _ => true
        | .error _ => false) = true := by decide!
    cases hr : AdjustContextTo 0 witnessBuilder with
    | error e => rw [hr] at hok; cases hok
    | ok x => exact ⟨x.1, x.2, rfl, h.2.2.2.2.1 0 x.1 x.2 hr⟩
  · have hok : (match CatchBlockEntry 0 false false witnessCatchEntryBuilder with
        | .ok _ => true
        | .error _ => false) = true := by decide!
    cases hr : CatchBlockEntry 0 false false witnessCatchEntryBuilder with
    | error e => rw [hr] at hok; cases hok
    | ok x => exact ⟨x.1, x.2, rfl, hc.2.2.2.2.2.1 0 false false x.1 x.2 hr⟩

/-- C24: a successful `CatchBlockEntry` leaves the context depth as it was,
whatever the starting depth.  Its fragment is the catch block entry, the
restore of the closure context into the current-context variable when the
exception or the catch-context variable is captured, then the stores of the
raw exception and the raw stack trace into the context, then the load of the
saved catch-context variable, its store into the current-context variable and
a drop.  That load is the one `LoadLocal` builds at depth 0: for a captured
catch-context variable the current context and the slot of the variable, with
no parent hop. -/
theorem CatchBlockEntry_context_depth (handler_index : Int)
    (needs_stacktrace is_synthesized : Bool) (b : FlowGraphBuilder) (f : Fragment)
    (b1 : FlowGraphBuilder)
    (hrun : CatchBlockEntry handler_index needs_stacktrace is_synthesized b = .ok (f, b1)) :
    b1.context_depth_ = b.context_depth_ ∧
    ∃ exception_var stacktrace_var raw_exception_var raw_stacktrace_var catch_context,
      CurrentException b = .ok (exception_var, b) ∧
      CurrentStackTrace b = .ok (stacktrace_var, b) ∧
      CurrentRawException b = .ok (raw_exception_var, b) ∧
      CurrentRawStackTrace b = .ok (raw_stacktrace_var, b) ∧
      CurrentCatchContext b = .ok (catch_context, b) ∧
      f.instrs = .CatchBlockEntry handler_index needs_stacktrace is_synthesized ::
        ((if exception_var.is_captured || catch_context.is_captured then
            closureContextRestoreInstrs b.parsed_function_.current_context_var
              (b.parsed_function_.parameters.get? 0)
          else []) ++
          contextStoreInstrs b.parsed_function_.current_context_var b.context_depth_
            exception_var raw_exception_var ++
          contextStoreInstrs b.parsed_function_.current_context_var b.context_depth_
            stacktrace_var raw_stacktrace_var ++
          (loadLocalInstrs b.parsed_function_.current_context_var catch_context 0 ++
            [.StoreLocal b.parsed_function_.current_context_var, .Drop])) ∧
      (∃ top, LoadLocal catch_context { b with context_depth_ := 0 } =
        .ok (⟨loadLocalInstrs b.parsed_function_.current_context_var catch_context 0, false⟩,
          { b with context_depth_ := 0, stack_ := top :: b.stack_ })) ∧
      (catch_context.is_captured = true →
        loadLocalInstrs b.parsed_function_.current_context_var catch_context 0 =
          [.LoadLocal b.parsed_function_.current_context_var,
            .LoadNativeField (.ContextVariable catch_context)]) ∧
      ((exception_var.is_captured || catch_context.is_captured) = true →
        ∃ closure_parameter,
          b.parsed_function_.parameters.get? 0 = some closure_parameter ∧
          closureContextRestoreInstrs b.parsed_function_.current_context_var
              (b.parsed_function_.parameters.get? 0) =
            [.LoadLocal closure_parameter, .LoadNativeField .Closure_context,
              .StoreLocal b.parsed_function_.current_context_var, .Drop]) := by
  obtain ⟨ev, sv, rev, rsv, cc, h1, h2, h3, h4, h5, hlevel, hfact, hf, s1, hb1⟩ :=
    CatchBlockEntry_run handler_index needs_stacktrace is_synthesized b f b1 hrun
  subst hb1
  subst hf
  refine ⟨rfl, ev, sv, rev, rsv, cc, h1, h2, h3, h4, h5, rfl, ?_, ?_, ?_⟩
  · cases hc : cc.is_captured with
    | false =>
      refine ⟨.LoadLocal cc, ?_⟩
      rw [LoadLocal_frame_run cc _ hc]
      simp [loadLocalInstrs, hc]
    | true =>
      obtain ⟨owner, ho, hl⟩ := hlevel hc
      refine ⟨.LoadNativeField (.ContextVariable cc), ?_⟩
      rw [LoadLocal_captured_run cc owner { b with context_depth_ := 0 } hc ho (le_of_eq hl)]
      simp [loadLocalInstrs, hc, ho]
  · intro hc
    obtain ⟨owner, ho, hl⟩ := hlevel hc
    simp [loadLocalInstrs, hc, ho, hl, contextLoadInstrs]
  · intro hc
    obtain ⟨_, p, hp, _⟩ := hfact hc
    exact ⟨p, hp, by simp only [closureContextRestoreInstrs, hp]⟩

/-- C24 at a concrete builder of depth 2 in a closure function whose
exception and catch-context variables are captured: the closure context is
restored first, the raw exception is stored into the current context, the
saved catch context is read from the current context without a parent hop,
and the depth stays 2. -/
theorem CatchBlockEntry_context_depth_witness :
    ∃ f b1, CatchBlockEntry 0 false false witnessCatchEntryBuilder = .ok (f, b1) ∧
      b1.context_depth_ = 2 ∧
      f.instrs =
        [.CatchBlockEntry 0 false false,
          .LoadLocal (LocalVariable.frame 1), .LoadNativeField .Closure_context,
          .StoreLocal (LocalVariable.frame 0), .Drop,
          .LoadLocal (LocalVariable.frame 0), .LoadLocal (LocalVariable.frame 12),
          .StoreInstanceField (.ContextVariable witnessCapturedException),
          .LoadLocal (LocalVariable.frame 0),
          .LoadNativeField (.ContextVariable witnessCapturedCatchContext),
          .StoreLocal (LocalVariable.frame 0), .Drop] := by
  have hok : (match CatchBlockEntry 0 false false witnessCatchEntryBuilder with
      | .ok _ => true
      | .error _ => false) = true := by decide!
  cases hr : CatchBlockEntry 0 false false witnessCatchEntryBuilder with
  | error e => rw [hr] at hok; cases hok
  | ok x =>
    obtain ⟨f, b1⟩ := x
    obtain ⟨hd, ev, sv, rev, rsv, cc, h1, h2, h3, h4, h5, hf, -⟩ :=
      CatchBlockEntry_context_depth 0 false false witnessCatchEntryBuilder f b1 hr
    have e1 : ev = witnessCapturedException := by
      have : CurrentException witnessCatchEntryBuilder =
        .ok (witnessCapturedException, witnessCatchEntryBuilder) := rfl
      rw [this] at h1
      simp only [Except.ok.injEq, Prod.mk.injEq, and_true] at h1
      exact h1.symm
    have e2 : sv = LocalVariable.frame 11 := by
      have : CurrentStackTrace witnessCatchEntryBuilder =
        .ok (LocalVariable.frame 11, witnessCatchEntryBuilder) := rfl
      rw [this] at h2
      simp only [Except.ok.injEq, Prod.mk.injEq, and_true] at h2
      exact h2.symm
    have e3 : rev = LocalVariable.frame 12 := by
      have : CurrentRawException witnessCatchEntryBuilder =
        .ok (LocalVariable.frame 12, witnessCatchEntryBuilder) := rfl
      rw [this] at h3
      simp only [Except.ok.injEq, Prod.mk.injEq, and_true] at h3
      exact h3.symm
    have e4 : rsv = LocalVariable.frame 13 := by
      have : CurrentRawStackTrace witnessCatchEntryBuilder =
        .ok (LocalVariable.frame 13, witnessCatchEntryBuilder) := rfl
      rw [this] at h4
      simp only [Except.ok.injEq, Prod.mk.injEq, and_true] at h4
      exact h4.symm
    have e5 : cc = witnessCapturedCatchContext := by
      have : CurrentCatchContext witnessCatchEntryBuilder =
        .ok (witnessCapturedCatchContext, witnessCatchEntryBuilder) := rfl
      rw [this] at h5
      simp only [Except.ok.injEq, Prod.mk.injEq, and_true] at h5
      exact h5.symm
    subst e1 e2 e3 e4 e5
    refine ⟨f, b1, rfl, hd, ?_⟩
    rw [hf]
    decide

/-! ### The dispatch on recognized methods is exhaustive -/

/-- C25: for every kind `k` and every value of the causal-async-stacks flag, if
`IsRecognizedMethodForFlowGraph` answers true for a function of kind `k`, the
switch of `BuildGraphOfRecognizedMethod` selects a case block for `k` and not
its `default` block; so past the entry assertion the `UNREACHABLE()` of the
`default` block is not run. -/
theorem recognized_dispatch_exhaustive (FLAG_causal_async_stacks : Bool)
    (k : MethodRecognizer.Kind) (function : Function) (hk : function.recognized_kind = k)
    (h : IsRecognizedMethodForFlowGraph FLAG_causal_async_stacks function = true) :
    (∃ block, recognizedMethodBlock k = some block) ∧
    ∃ block, recognizedMethodDispatch FLAG_causal_async_stacks function = .ok (some block) := by
  have h1 : ∃ block, recognizedMethodBlock k = some block := by
    unfold IsRecognizedMethodForFlowGraph at h
    rw [hk] at h
    cases k <;> first
      | exact ⟨_, rfl⟩
      | exact absurd h Bool.false_ne_true
  refine ⟨h1, ?_⟩
  obtain ⟨block, hb⟩ := h1
  exact ⟨block, by simp only [recognizedMethodDispatch, h, if_true, hk, hb]⟩

/-- C25 at concrete functions: a function recognized as `kFfiLoadInt16` runs the
block of the FFI loads, and with the flag off one recognized as
`kAsyncStackTraceHelper` runs its own block. -/
theorem recognized_dispatch_exhaustive_witness :
    ((∃ block, recognizedMethodBlock .kFfiLoadInt16 = some block) ∧
      ∃ block, recognizedMethodDispatch true
        { plainFunction with recognized_kind := .kFfiLoadInt16 } = .ok (some block)) ∧
    ((∃ block, recognizedMethodBlock .kAsyncStackTraceHelper = some block) ∧
      ∃ block, recognizedMethodDispatch false
        { plainFunction with recognized_kind := .kAsyncStackTraceHelper } = .ok (some block)) :=
  ⟨recognized_dispatch_exhaustive true .kFfiLoadInt16
      { plainFunction with recognized_kind := .kFfiLoadInt16 } rfl rfl,
    recognized_dispatch_exhaustive false .kAsyncStackTraceHelper
      { plainFunction with recognized_kind := .kAsyncStackTraceHelper } rfl rfl⟩

/-! ### The element size of the FFI load is unboxed to another representation -/

/-- The address computations with the element size unboxed to `kUnboxedIntPtr`
and to `kUnboxedFfiIntPtr` differ, in the instruction at position 8 and
nowhere else. -/
theorem ffiAddressInstrs_differ (p0 p1 : LocalVariable) (size : Int) :
    ffiAddressInstrs p0 p1 size .kUnboxedIntPtr ≠
      ffiAddressInstrs p0 p1 size .kUnboxedFfiIntPtr ∧
    (ffiAddressInstrs p0 p1 size .kUnboxedIntPtr).get? 8 = some (.Unbox .kUnboxedIntPtr) ∧
    (ffiAddressInstrs p0 p1 size .kUnboxedFfiIntPtr).get? 8 =
      some (.Unbox .kUnboxedFfiIntPtr) ∧
    ∀ n, n ≠ 8 → (ffiAddressInstrs p0 p1 size .kUnboxedIntPtr).get? n =
      (ffiAddressInstrs p0 p1 size .kUnboxedFfiIntPtr).get? n := by
  refine ⟨?_, rfl, rfl, ?_⟩
  · intro h
    have h8 := congrArg (fun l => l.get? 8) h
    simp [ffiAddressInstrs] at h8
  · intro n hn
    unfold ffiAddressInstrs
    rcases n with _ | _ | _ | _ | _ | _ | _ | _ | _ | n
    · rfl
    · rfl
    · rfl
    · rfl
    · rfl
    · rfl
    · rfl
    · rfl
    · exact absurd rfl hn
    · rfl

/-- C26 evaluated at the `Int32` load and store of a 32-bit target, on frame
parameters: both cases succeed; from the load of the pointer through
`ConvertIntptrToUntagged` and the constant index 0 the store unboxes pointer
address, index and element size to `kUnboxedFfiIntPtr`, the representation of
its multiply and add, while the load unboxes the element size to
`kUnboxedIntPtr`; the two sequences are not identical. -/
theorem FfiLoadCase_size_not_in_ffi_representation :
    ∃ load bl store bs,
      FfiLoadCase 4 (witnessFfiFunction .kFfiLoadInt32 .kFfiInt32Cid 2) .kFfiLoadInt32
        (witnessFfiBuilder .kFfiLoadInt32 .kFfiInt32Cid 2) = .ok (load, bl) ∧
      FfiStoreCase 4 (witnessFfiFunction .kFfiStoreInt32 .kFfiInt32Cid 3) .kFfiStoreInt32
        (witnessFfiBuilder .kFfiStoreInt32 .kFfiInt32Cid 3) = .ok (store, bs) ∧
      load.instrs.take 13 =
        [.LoadLocal (LocalVariable.frame 1), .CheckNull,
          .LoadNativeField .Pointer_c_memory_address, .Unbox .kUnboxedFfiIntPtr,
          .LoadLocal (LocalVariable.frame 2), .CheckNull, .Unbox .kUnboxedFfiIntPtr,
          .Constant (.int 4), .Unbox .kUnboxedIntPtr,
          .BinaryIntegerOp .kMUL .kUnboxedFfiIntPtr true,
          .BinaryIntegerOp .kADD .kUnboxedFfiIntPtr true, .ConvertIntptrToUntagged,
          .Constant (.int 0)] ∧
      store.instrs.take 13 =
        [.LoadLocal (LocalVariable.frame 1), .CheckNull,
          .LoadNativeField .Pointer_c_memory_address, .Unbox .kUnboxedFfiIntPtr,
          .LoadLocal (LocalVariable.frame 2), .CheckNull, .Unbox .kUnboxedFfiIntPtr,
          .Constant (.int 4), .Unbox .kUnboxedFfiIntPtr,
          .BinaryIntegerOp .kMUL .kUnboxedFfiIntPtr true,
          .BinaryIntegerOp .kADD .kUnboxedFfiIntPtr true, .ConvertIntptrToUntagged,
          .Constant (.int 0)] ∧
      load.instrs.take 13 ≠ store.instrs.take 13 := by
  have hl := FfiLoadCase_run 4 (witnessFfiFunction .kFfiLoadInt32 .kFfiInt32Cid 2) .kFfiLoadInt32
    .kFfiInt32Cid ⟨.kFfiInt32Cid, true, false⟩ (witnessFfiBuilder .kFfiLoadInt32 .kFfiInt32Cid 2)
    (LocalVariable.frame 1) (LocalVariable.frame 2) rfl rfl rfl rfl (by decide) rfl rfl rfl rfl
    (by decide)
  have hs := FfiStoreCase_run 4 (witnessFfiFunction .kFfiStoreInt32 .kFfiInt32Cid 3)
    .kFfiStoreInt32 .kFfiInt32Cid ⟨.kFfiInt32Cid, true, false⟩
    (witnessFfiBuilder .kFfiStoreInt32 .kFfiInt32Cid 3)
    (LocalVariable.frame 1) (LocalVariable.frame 2) (LocalVariable.frame 3) rfl rfl rfl rfl
    (by decide) rfl rfl rfl rfl rfl rfl
  exact ⟨_, _, _, _, hl, hs, by decide, by decide, by decide⟩

/-! ### The two FFI argument conversions mirror each other -/

/-- `FfiPointerFromAddress` on a builder with a pending address. -/
theorem FfiPointerFromAddress_run (result_type : FfiSignatureType) (x : Instr) (d : Int)
    (st : List Instr) (pa : Int) (pf : ParsedFunction) (sc : Option ScopeBuildingResult)
    (ac : ActiveClass) (mo : BuilderFields)
    (ha : (result_type.arguments.IsNull || result_type.arguments.IsInstantiated .kAny) = true)
    (hp : 0 ≤ pa) (hc : pf.expression_temp_var.is_captured = false) :
    FfiPointerFromAddress result_type ⟨d, x :: st, pa, pf, sc, ac, mo⟩ =
      .ok (⟨ffiPointerFromAddressInstrs result_type pf.expression_temp_var st.length, false⟩,
        ⟨d, .LoadLocal pf.expression_temp_var :: st, pa, pf, sc, ac, mo⟩) := by
  have ct : ∀ k : Int, (LocalVariable.frame k).is_captured = false := fun _ => rfl
  have hp1 : decide (pa + 1 - 1 ≥ 0) = true := by
    simp only [decide_eq_true_eq]; omega
  have hp0 : decide (pa ≥ 0) = true := by
    simp only [decide_eq_true_eq]; omega
  have hpa : pa + 1 - 1 = pa := by omega
  simp only [FfiPointerFromAddress, ha, Build.run_bind, Build.run_pure, MakeTemporary_run,
    getBuilder_run, ASSERT_true, Build.seq, Build.seqFrom, Constant, emitDefinition_zero,
    PushArgument_run, AllocateObject, GetArguments, collectArguments, Pop, Push, setBuilder,
    decide_True, hp1, hp0, Nat.cast_one, List.length_cons, Nat.cast_add,
    LoadLocal_frame _ (ct _), LoadLocal_frame _ hc, StoreInstanceField, StoreLocal, Drop,
    emitEffect_two, emitDefinition_one, emitEffect_one, Fragment.empty, Fragment.single,
    Fragment.nil_append, Fragment.append_cons, List.nil_append, List.cons_append, hpa,
    ffiPointerFromAddressInstrs]

/-- `FfiConvertArgumentToDart` of a type that is neither a pointer nor void, on
a builder with a pending value. -/
theorem FfiConvertArgumentToDart_run (ffi_type : FfiSignatureType) (rep : Representation)
    (x : Instr) (d : Int) (st : List Instr) (pa : Int) (pf : ParsedFunction)
    (sc : Option ScopeBuildingResult) (ac : ActiveClass) (mo : BuilderFields)
    (hp : ffi_type.NativeTypeIsPointer = false) (hv : ffi_type.NativeTypeIsVoid = false) :
    FfiConvertArgumentToDart ffi_type rep ⟨d, x :: st, pa, pf, sc, ac, mo⟩ =
      .ok (⟨ffiRepresentationChange ffi_type rep ffi_type.TypeRepresentation ++
          [.Box ffi_type.TypeRepresentation], false⟩,
        ⟨d, .Box ffi_type.TypeRepresentation :: st, pa, pf, sc, ac, mo⟩) := by
  unfold KernelToIL.FfiConvertArgumentToDart ffiRepresentationChange
  by_cases hr : rep = ffi_type.TypeRepresentation
  · by_cases hs : ffi_type.TypeSmallRepresentation = .kNoSmallRepresentation
    · simp only [hp, hv, hr, hs, if_true, if_false, Bool.false_eq_true, ↓reduceIte, ne_eq,
        not_true_eq_false, Build.seq, Build.seqFrom, Build.run_bind, Build.run_pure, Box,
        FfiUnboxedExtend, emitDefinition_one, Fragment.empty_append,
        Fragment.append_open_open, List.cons_append, List.nil_append, Fragment.empty,
        List.append_nil]
    · simp only [hp, hv, hr, hs, if_true, if_false, Bool.false_eq_true, ↓reduceIte, ne_eq,
        not_true_eq_false, Build.seq, Build.seqFrom, Build.run_bind, Build.run_pure, Box,
        FfiUnboxedExtend, emitDefinition_one, Fragment.empty_append,
        Fragment.append_open_open, List.cons_append, List.nil_append]
  · simp only [hp, hv, hr, if_true, if_false, Bool.false_eq_true, ↓reduceIte, ne_eq,
      not_false_eq_true, Build.seq, Build.seqFrom, Build.run_bind, Build.run_pure, Box,
      BitCast, emitDefinition_one, Fragment.empty_append, Fragment.append_open_open,
      List.cons_append, List.nil_append]

/-- The instructions of `FfiConvertArgumentToNative` for a type that is no
pointer: null check, unboxing, change of representation. -/
theorem ffiConvertArgumentToNativeInstrs_value (ffi_type : FfiSignatureType)
    (rep : Representation) (hp : ffi_type.NativeTypeIsPointer = false) :
    ffiConvertArgumentToNativeInstrs ffi_type rep =
      [.CheckNull, .Unbox ffi_type.TypeRepresentation] ++
        ffiRepresentationChange ffi_type ffi_type.TypeRepresentation rep := by
  simp [ffiConvertArgumentToNativeInstrs, ffiRepresentationChange, hp]

/-- C27: on a builder with a pending value both conversions succeed, and for
a type that is neither a pointer nor void, with Dart-side representation `d`
and native representation `n`: when `d` differs from `n`, ToNative emits null
check, `Unbox(d)`, `BitCast(d, n)` and ToDart emits `BitCast(n, d)`, `Box(d)`;
when they are equal, ToNative emits null check, `Unbox(d)` and ToDart `Box(d)`,
with the same width extension after the unboxing and before the boxing exactly
when the type has a small representation; so ToDart is ToNative without its
null check, read backwards with every step replaced by its opposite.  For a
pointer type ToNative emits null check, the load of the address field and its
unboxing to `kUnboxedFfiIntPtr`, and ToDart boxes that representation and
stores the address into a newly allocated `Pointer`.  For void ToDart drops
the value and pushes null. -/
theorem FfiConvertArgument_mirror (function : Function) (ffi_type : FfiSignatureType)
    (native_representation : Representation) (b : FlowGraphBuilder) (x : Instr)
    (rest : List Instr) (hs : b.stack_ = x :: rest) :
    (ffi_type.NativeTypeIsPointer = false → ffi_type.NativeTypeIsVoid = false →
      ∃ to_native to_dart top,
        FfiConvertArgumentToNative function ffi_type native_representation b =
          .ok (⟨to_native, false⟩, { b with stack_ := top :: rest }) ∧
        FfiConvertArgumentToDart ffi_type native_representation b =
          .ok (⟨to_dart, false⟩,
            { b with stack_ := .Box ffi_type.TypeRepresentation :: rest }) ∧
        (ffi_type.TypeRepresentation ≠ native_representation →
          to_native = [.CheckNull, .Unbox ffi_type.TypeRepresentation,
            .BitCast ffi_type.TypeRepresentation native_representation] ∧
          to_dart = [.BitCast native_representation ffi_type.TypeRepresentation,
            .Box ffi_type.TypeRepresentation]) ∧
        (ffi_type.TypeRepresentation = native_representation →
          ffi_type.TypeSmallRepresentation = .kNoSmallRepresentation →
          to_native = [.CheckNull, .Unbox ffi_type.TypeRepresentation] ∧
          to_dart = [.Box ffi_type.TypeRepresentation]) ∧
        (ffi_type.TypeRepresentation = native_representation →
          ffi_type.TypeSmallRepresentation ≠ .kNoSmallRepresentation →
          to_native = [.CheckNull, .Unbox ffi_type.TypeRepresentation,
            .UnboxedWidthExtender ffi_type.TypeRepresentation
              ffi_type.TypeSmallRepresentation] ∧
          to_dart = [.UnboxedWidthExtender ffi_type.TypeRepresentation
              ffi_type.TypeSmallRepresentation, .Box ffi_type.TypeRepresentation]) ∧
        to_dart = (to_native.tail.reverse.map Instr.mirror)) ∧
    (ffi_type.NativeTypeIsPointer = true →
      FfiConvertArgumentToNative function ffi_type native_representation b =
        .ok (⟨[.CheckNull, .LoadNativeField .Pointer_c_memory_address,
            .Unbox .kUnboxedFfiIntPtr], false⟩,
          { b with stack_ := .Unbox .kUnboxedFfiIntPtr :: rest }) ∧
      ((ffi_type.arguments.IsNull || ffi_type.arguments.IsInstantiated .kAny) = true →
        0 ≤ b.pending_argument_count_ →
        b.parsed_function_.expression_temp_var.is_captured = false →
        FfiConvertArgumentToDart ffi_type native_representation b =
          .ok (⟨.Box .kUnboxedFfiIntPtr ::
              ffiPointerFromAddressInstrs ffi_type b.parsed_function_.expression_temp_var
                rest.length, false⟩,
            { b with stack_ := .LoadLocal b.parsed_function_.expression_temp_var :: rest }))) ∧
    (ffi_type.NativeTypeIsPointer = false → ffi_type.NativeTypeIsVoid = true →
      FfiConvertArgumentToDart ffi_type native_representation b =
        .ok (⟨[.Drop, .Constant .null], false⟩, { b with stack_ := .Constant .null :: rest })) := by
  obtain ⟨d, st, pa, pf, sc, ac, mo⟩ := b
  simp only at hs
  subst hs
  refine ⟨?_, ?_, ?_⟩
  · intro hp hv
    obtain ⟨y, hy⟩ := FfiConvertArgumentToNative_run function ffi_type native_representation
      x d rest pa pf sc ac mo
    rw [ffiConvertArgumentToNativeInstrs_value ffi_type native_representation hp] at hy
    refine ⟨_, _, y, hy,
      FfiConvertArgumentToDart_run ffi_type native_representation x d rest pa pf sc ac mo hp hv,
      ?_, ?_, ?_, ?_⟩
    · intro hne
      have hne1 : native_representation ≠ ffi_type.TypeRepresentation := fun h => hne h.symm
      simp [ffiRepresentationChange, hne, hne1]
    · intro he hsmall
      simp [ffiRepresentationChange, he, hsmall]
    · intro he hsmall
      simp [ffiRepresentationChange, he, hsmall]
    · by_cases he : ffi_type.TypeRepresentation = native_representation
      · by_cases hsmall : ffi_type.TypeSmallRepresentation = .kNoSmallRepresentation
        · simp [ffiRepresentationChange, he, hsmall, Instr.mirror]
        · simp [ffiRepresentationChange, he, hsmall, Instr.mirror]
      · have hne1 : native_representation ≠ ffi_type.TypeRepresentation := fun h => he h.symm
        simp [ffiRepresentationChange, he, hne1, Instr.mirror]
  · intro hp
    refine ⟨?_, ?_⟩
    · simp only [FfiConvertArgumentToNative, hp, if_true, Build.seq, Build.seqFrom,
        Build.run_bind, Build.run_pure, CheckNullOptimized, LoadNativeField, UnboxTruncate,
        emitDefinition_one, Fragment.empty_append, Fragment.append_open_open,
        List.cons_append, List.nil_append]
    · intro ha hpa hc
      simp only at hpa hc
      have h := FfiPointerFromAddress_run ffi_type (.Box .kUnboxedFfiIntPtr) d rest pa pf sc ac
        mo ha hpa hc
      simp only [FfiConvertArgumentToDart, hp, if_true, Build.seq, Build.seqFrom,
        Build.run_bind, Build.run_pure, Box, emitDefinition_one, h, Fragment.empty_append,
        Fragment.append_open_open, List.cons_append, List.nil_append]
  · intro hp hv
    simp only [FfiConvertArgumentToDart, hp, hv, if_true, if_false, Bool.false_eq_true,
      Build.seq, Build.seqFrom, Build.run_bind, Build.run_pure, Drop, NullConstant, Constant,
      emitEffect_one, emitDefinition_zero, Fragment.empty_append, Fragment.append_open_open,
      List.cons_append, List.nil_append]

/-- C27 at concrete types, on a builder with one pending value: an `Int8`
passed in its own representation is extended in both directions; a `Float`
passed in the representation of `Int32` is bit-cast in both directions; a
pointer is unboxed from and wrapped into a `Pointer` object; void gives null. -/
theorem FfiConvertArgument_mirror_witness :
    (∃ top,
      FfiConvertArgumentToNative witnessFunction witnessSmallType (.ofType .kFfiInt32Cid)
          witnessBuilder =
        .ok (⟨[.CheckNull, .Unbox (.ofType .kFfiInt32Cid),
            .UnboxedWidthExtender (.ofType .kFfiInt32Cid) (.small 8)], false⟩,
          { witnessBuilder with stack_ := [top] }) ∧
      FfiConvertArgumentToDart witnessSmallType (.ofType .kFfiInt32Cid) witnessBuilder =
        .ok (⟨[.UnboxedWidthExtender (.ofType .kFfiInt32Cid) (.small 8),
            .Box (.ofType .kFfiInt32Cid)], false⟩,
          { witnessBuilder with stack_ := [.Box (.ofType .kFfiInt32Cid)] })) ∧
    (∃ top,
      FfiConvertArgumentToNative witnessFunction witnessFloatType (.ofType .kFfiInt32Cid)
          witnessBuilder =
        .ok (⟨[.CheckNull, .Unbox (.ofType .kFfiFloatCid),
            .BitCast (.ofType .kFfiFloatCid) (.ofType .kFfiInt32Cid)], false⟩,
          { witnessBuilder with stack_ := [top] }) ∧
      FfiConvertArgumentToDart witnessFloatType (.ofType .kFfiInt32Cid) witnessBuilder =
        .ok (⟨[.BitCast (.ofType .kFfiInt32Cid) (.ofType .kFfiFloatCid),
            .Box (.ofType .kFfiFloatCid)], false⟩,
          { witnessBuilder with stack_ := [.Box (.ofType .kFfiFloatCid)] })) ∧
    (FfiConvertArgumentToNative witnessFunction witnessPointerType .kUnboxedFfiIntPtr
          witnessBuilder =
        .ok (⟨[.CheckNull, .LoadNativeField .Pointer_c_memory_address,
            .Unbox .kUnboxedFfiIntPtr], false⟩,
          { witnessBuilder with stack_ := [.Unbox .kUnboxedFfiIntPtr] }) ∧
      FfiConvertArgumentToDart witnessPointerType .kUnboxedFfiIntPtr witnessBuilder =
        .ok (⟨[.Box .kUnboxedFfiIntPtr, .Constant (.typeArguments witnessPointerType.arguments),
            .PushArgument, .AllocateObject .pointer_class 1,
            .LoadLocal (LocalVariable.frame (-2)), .LoadLocal (LocalVariable.frame (-1)),
            .StoreInstanceField .Pointer_c_memory_address,
            .StoreLocal (LocalVariable.frame 100), .Drop, .Drop,
            .LoadLocal (LocalVariable.frame 100)], false⟩,
          { witnessBuilder with stack_ := [.LoadLocal (LocalVariable.frame 100)] })) ∧
    FfiConvertArgumentToDart witnessVoidType (.ofType .kFfiInt32Cid) witnessBuilder =
      .ok (⟨[.Drop, .Constant .null], false⟩,
        { witnessBuilder with stack_ := [.Constant .null] }) := by
  refine ⟨?_, ?_, ?_, ?_⟩
  · obtain ⟨tn, td, top, h1, h2, -, -, hsmall, -⟩ :=
      (FfiConvertArgument_mirror witnessFunction witnessSmallType (.ofType .kFfiInt32Cid)
        witnessBuilder (.Constant .null) [] rfl).1 rfl rfl
    obtain ⟨e1, e2⟩ := hsmall rfl (by decide)
    subst e1 e2
    exact ⟨top, h1, h2⟩
  · obtain ⟨tn, td, top, h1, h2, hne, -, -, -⟩ :=
      (FfiConvertArgument_mirror witnessFunction witnessFloatType (.ofType .kFfiInt32Cid)
        witnessBuilder (.Constant .null) [] rfl).1 rfl rfl
    obtain ⟨e1, e2⟩ := hne (by decide)
    subst e1 e2
    exact ⟨top, h1, h2⟩
  · have h := (FfiConvertArgument_mirror witnessFunction witnessPointerType .kUnboxedFfiIntPtr
      witnessBuilder (.Constant .null) [] rfl).2.1 rfl
    exact ⟨h.1, h.2 rfl (by decide) rfl⟩
  · exact (FfiConvertArgument_mirror witnessFunction witnessVoidType (.ofType .kFfiInt32Cid)
      witnessBuilder (.Constant .null) [] rfl).2.2 rfl rfl

end KernelToIL

/-! ## Theorems about the type testing stubs -/

namespace TypeTestingStubs

theorem ASSERT_ok (c : Bool) (h : c = true) : ASSERT c = .ok () := by
  simp [ASSERT, h]

/-- C13: once stubs are initialized `DefaultCodeForType` always returns a
stub, chosen by this table read in order: Object, dynamic or void give the
top-type stub; a TypeRef the type-ref stub; a Type or TypeParameter the
lazy-specialize stub if and only if precompiled mode is off and
`lazy_specialize` is true, and otherwise the default stub; anything else the
unreachable stub. -/
theorem DefaultCodeForType_table (vm : VM) (type : AbstractType) (lazy_specialize : Bool)
    (hinit : vm.StubCode_HasBeenInitialized = true) :
    DefaultCodeForType vm type lazy_specialize =
      .ok (some
        (if type = vm.ObjectType ∨ type = vm.DynamicType ∨ type = vm.VoidType then
          Code.TopTypeTypeTest
        else if type.IsTypeRef = true then Code.TypeRefTypeTest
        else if type.IsType = true ∨ type.IsTypeParameter = true then
          (if vm.FLAG_precompiled_mode = false ∧ lazy_specialize = true then
            Code.LazySpecializeTypeTest
          else Code.DefaultTypeTest)
        else Code.UnreachableTypeTest)) ∧
    ((type.IsType = true ∨ type.IsTypeParameter = true) → type ≠ vm.ObjectType →
      type ≠ vm.DynamicType → type ≠ vm.VoidType →
      (DefaultCodeForType vm type lazy_specialize = .ok (some .LazySpecializeTypeTest) ↔
        vm.FLAG_precompiled_mode = false ∧ lazy_specialize = true)) := by
  have hkind : type.IsTypeRef = true → ¬(type.IsType = true ∨ type.IsTypeParameter = true) := by
    cases type <;> simp [AbstractType.IsTypeRef, AbstractType.IsType, AbstractType.IsTypeParameter]
  constructor
  · unfold DefaultCodeForType
    simp only [hinit, Bool.not_true, Bool.false_eq_true, if_false, Bool.or_eq_true,
      decide_eq_true_eq, Bool.and_eq_true, Bool.not_eq_true', or_assoc]
    split
    · rfl
    · split
      · rfl
      · split
        · cases vm.FLAG_precompiled_mode <;> cases lazy_specialize <;> rfl
        · rfl
  · intro hk h1 h2 h3
    have href : ¬ type.IsTypeRef = true := fun h => hkind h hk
    unfold DefaultCodeForType
    simp only [hinit, Bool.not_true, Bool.false_eq_true, if_false, Bool.or_eq_true,
      decide_eq_true_eq, h1, h2, h3, or_self, href, hk, if_true]
    cases vm.FLAG_precompiled_mode <;> cases lazy_specialize <;> simp [pure, Except.pure]

theorem DefaultCodeForType_table_witness :
    DefaultCodeForType witnessVM witnessStringType true = .ok (some .LazySpecializeTypeTest) ∧
    DefaultCodeForType witnessVM witnessStringType false = .ok (some .DefaultTypeTest) ∧
    DefaultCodeForType witnessVM witnessVoidType true = .ok (some .TopTypeTypeTest) ∧
    DefaultCodeForType witnessVM (.typeRef 9 canonicalFlags witnessStringType) true =
      .ok (some .TypeRefTypeTest) ∧
    DefaultCodeForType witnessVM (.other 10 canonicalFlags) true =
      .ok (some .UnreachableTypeTest) := by
  refine ⟨?_, ?_, ?_, ?_, ?_⟩
  · exact (DefaultCodeForType_table witnessVM witnessStringType true rfl).1
  · exact (DefaultCodeForType_table witnessVM witnessStringType false rfl).1
  · exact (DefaultCodeForType_table witnessVM witnessVoidType true rfl).1
  · exact (DefaultCodeForType_table witnessVM (.typeRef 9 canonicalFlags witnessStringType) true
      rfl).1
  · exact (DefaultCodeForType_table witnessVM (.other 10 canonicalFlags) true rfl).1

/-- C14: on a target other than IA32 and outside the precompiled runtime,
with stubs initialized, for a canonical Type other than Object and dynamic for
which the oracle answers no to both `CanUseSubtypeRangeCheckFor` and
`CanUseGenericSubtypeRangeCheckFor`, `BuildCodeForType` returns null (no code
object, so no instruction is emitted) and `OptimizedCodeForType` returns the
default type-test stub. -/
theorem OptimizedCodeForType_without_range_check (vm : VM) (hi : HierarchyInfo)
    (type : AbstractType) (hia32 : vm.TARGET_ARCH_IA32 = false)
    (hruntime : vm.DART_PRECOMPILED_RUNTIME = false)
    (hinit : vm.StubCode_HasBeenInitialized = true) (hhi : vm.hierarchy_info = some hi)
    (hcanonical : type.IsCanonical = true) (htype : type.IsType = true)
    (hobject : type ≠ vm.ObjectType) (hdynamic : type ≠ vm.DynamicType)
    (hsubtype : hi.CanUseSubtypeRangeCheckFor type = false)
    (hgeneric : hi.CanUseGenericSubtypeRangeCheckFor type = false) :
    BuildCodeForType vm type = .ok none ∧
      OptimizedCodeForType vm type = .ok (some .DefaultTypeTest) := by
  have href : type.IsTypeRef = false := by
    cases type <;> simp_all [AbstractType.IsTypeRef, AbstractType.IsType]
  have hbuild : BuildCodeForType vm type = .ok none := by
    simp [BuildCodeForType, hhi, hsubtype, hgeneric, pure, Except.pure]
  refine ⟨hbuild, ?_⟩
  simp [OptimizedCodeForType, hia32, hruntime, hinit, ASSERT, href, hobject, hdynamic,
    hcanonical, htype, hbuild, bind, Except.bind, pure, Except.pure]

theorem OptimizedCodeForType_without_range_check_witness :
    BuildCodeForType witnessVM witnessIntType = .ok none ∧
      OptimizedCodeForType witnessVM witnessIntType = .ok (some .DefaultTypeTest) :=
  OptimizedCodeForType_without_range_check witnessVM witnessHierarchyInfo witnessIntType rfl rfl
    rfl rfl rfl rfl (by decide) (by decide) (by decide) rfl

theorem DefaultCodeForType_not_lazy (vm : VM) (type : AbstractType) :
    DefaultCodeForType vm type false ≠ .ok (some .LazySpecializeTypeTest) := by
  intro h
  cases hinit : vm.StubCode_HasBeenInitialized with
  | true =>
    rw [(DefaultCodeForType_table vm type false hinit).1] at h
    simp only [Except.ok.injEq, Option.some.injEq] at h
    split at h
    · cases h
    · split at h
      · cases h
      · split at h
        · simp at h
        · cases h
  | false =>
    unfold DefaultCodeForType at h
    simp only [hinit, Bool.not_false, if_true, ASSERT, bind, Except.bind, pure, Except.pure] at h
    cases type <;> simp only [AbstractType.IsType, AbstractType.type_class_id, if_true,
      Bool.false_eq_true, if_false, reduceCtorEq] at h
    split at h <;> simp at h

theorem BuildCodeForType_not_stub (vm : VM) (type : AbstractType) (code : Code)
    (h : BuildCodeForType vm type = .ok (some code)) :
    ∃ instructions, code = .built type instructions := by
  unfold BuildCodeForType at h
  split at h
  · simp at h
  · split at h
    · simp [pure, Except.pure] at h
    · split at h
      · simp at h
      · simp only [bind, Except.bind, pure, Except.pure] at h
        split at h
        · simp at h
        · rename_i instructions _
          simp only [Except.ok.injEq, Option.some.injEq] at h
          exact ⟨instructions, h.symm⟩

theorem OptimizedCodeForType_not_lazy (vm : VM) (type : AbstractType) :
    OptimizedCodeForType vm type ≠ .ok (some .LazySpecializeTypeTest) := by
  intro h
  unfold OptimizedCodeForType at h
  simp only [ASSERT, bind, Except.bind, pure, Except.pure] at h
  repeat' first
    | exact absurd h (DefaultCodeForType_not_lazy vm type)
    | (simp at h; done)
    | split at h
  rename_i code hcode hsome
  simp only [Except.ok.injEq] at h
  subst h
  obtain ⟨instructions, hi⟩ := BuildCodeForType_not_stub vm type _ hcode
  cases hi

theorem SpecializeStubFor_installs (vm : VM) (type : AbstractType) (stubs stubs1 : StubTable)
    (h : SpecializeStubFor vm type stubs = .ok stubs1) :
    stubs1 type ≠ some .LazySpecializeTypeTest ∧
    OptimizedCodeForType vm type = .ok (stubs1 type) ∧
    ∀ t, t ≠ type → stubs1 t = stubs t := by
  unfold SpecializeStubFor at h
  cases hc : OptimizedCodeForType vm type with
  | error e => simp [hc, bind, Except.bind] at h
  | ok code =>
    simp only [hc, bind, Except.bind, pure, Except.pure, Except.ok.injEq] at h
    subst h
    have hself : SetTypeTestingStub stubs type code type = code := by
      simp [SetTypeTestingStub]
    have hne : code ≠ some .LazySpecializeTypeTest := by
      intro hcode
      rw [hcode] at hc
      exact OptimizedCodeForType_not_lazy vm type hc
    refine ⟨by rw [hself]; exact hne, by rw [hself], ?_⟩
    intro t ht
    simp [SetTypeTestingStub, ht]

/-- A type test never installs the lazy-specialize stub on a type that does
not carry it. -/
theorem runTypeTest_keeps (vm : VM) (t type : AbstractType) (stubs stubs1 : StubTable)
    (h : runTypeTest vm t stubs = .ok stubs1)
    (hne : stubs type ≠ some .LazySpecializeTypeTest) :
    stubs1 type ≠ some .LazySpecializeTypeTest := by
  unfold runTypeTest at h
  split at h
  · obtain ⟨h1, _, h3⟩ := SpecializeStubFor_installs vm t stubs stubs1 h
    by_cases ht : type = t
    · subst ht
      exact h1
    · rw [h3 type ht]
      exact hne
  · simp only [pure, Except.pure, Except.ok.injEq] at h
    subst h
    exact hne

theorem runTypeTests_cons (vm : VM) (t : AbstractType) (rest : List AbstractType)
    (stubs : StubTable) (specialized : List AbstractType) (stubsN : StubTable)
    (h : runTypeTests vm (t :: rest) stubs = .ok (specialized, stubsN)) :
    ∃ stubs1 specialized1, runTypeTest vm t stubs = .ok stubs1 ∧
      runTypeTests vm rest stubs1 = .ok (specialized1, stubsN) ∧
      specialized =
        if stubs t = some .LazySpecializeTypeTest then t :: specialized1 else specialized1 := by
  rw [runTypeTests] at h
  cases h1 : runTypeTest vm t stubs with
  | error e => simp [h1, bind, Except.bind] at h
  | ok stubs1 =>
    cases h2 : runTypeTests vm rest stubs1 with
    | error e => simp [h1, h2, bind, Except.bind] at h
    | ok r =>
      obtain ⟨specialized1, stubs2⟩ := r
      simp only [h1, h2, bind, Except.bind, pure, Except.pure] at h
      by_cases hlazy : stubs t = some .LazySpecializeTypeTest
      · simp only [hlazy, if_true, Except.ok.injEq, Prod.mk.injEq] at h
        obtain ⟨e1, e2⟩ := h
        subst e1 e2
        exact ⟨stubs1, specialized1, rfl, h2, by simp [hlazy]⟩
      · simp only [hlazy, if_false, Except.ok.injEq, Prod.mk.injEq] at h
        obtain ⟨e1, e2⟩ := h
        subst e1 e2
        exact ⟨stubs1, specialized1, rfl, h2, by simp [hlazy]⟩

/-- A type that does not carry the lazy-specialize stub is not specialized by
any run of type tests, and does not carry that stub afterwards. -/
theorem runTypeTests_keeps (vm : VM) (type : AbstractType) (tests : List AbstractType) :
    ∀ (stubs : StubTable) (specialized : List AbstractType) (stubsN : StubTable),
      runTypeTests vm tests stubs = .ok (specialized, stubsN) →
      stubs type ≠ some .LazySpecializeTypeTest →
      type ∉ specialized ∧ stubsN type ≠ some .LazySpecializeTypeTest := by
  induction tests with
  | nil =>
    intro stubs specialized stubsN h hne
    simp only [runTypeTests, pure, Except.pure, Except.ok.injEq, Prod.mk.injEq] at h
    obtain ⟨h1, h2⟩ := h
    subst h1 h2
    exact ⟨List.not_mem_nil _, hne⟩
  | cons t rest ih =>
    intro stubs specialized stubsN h hne
    obtain ⟨stubs1, specialized1, h1, h2, h3⟩ := runTypeTests_cons vm t rest stubs _ _ h
    obtain ⟨hmem, hN⟩ := ih stubs1 specialized1 stubsN h2 (runTypeTest_keeps vm t type _ _ h1 hne)
    refine ⟨?_, hN⟩
    rw [h3]
    split
    · rename_i hlazy
      intro hin
      rcases List.mem_cons.mp hin with heq | hin1
      · subst heq
        exact hne hlazy
      · exact hmem hin1
    · exact hmem

/-- In a run of type tests each type is specialized at most once. -/
theorem runTypeTests_once (vm : VM) (type : AbstractType) (tests : List AbstractType) :
    ∀ (stubs : StubTable) (specialized : List AbstractType) (stubsN : StubTable),
      runTypeTests vm tests stubs = .ok (specialized, stubsN) →
      specialized.count type ≤ 1 := by
  induction tests with
  | nil =>
    intro stubs specialized stubsN h
    simp only [runTypeTests, pure, Except.pure, Except.ok.injEq, Prod.mk.injEq] at h
    rw [← h.1]
    simp
  | cons t rest ih =>
    intro stubs specialized stubsN h
    obtain ⟨stubs1, specialized1, h1, h2, h3⟩ := runTypeTests_cons vm t rest stubs _ _ h
    have hrest := ih stubs1 specialized1 stubsN h2
    rw [h3]
    split
    · rename_i hlazy
      by_cases ht : t = type
      · subst ht
        have hspec : SpecializeStubFor vm t stubs = .ok stubs1 := by
          simpa [runTypeTest, hlazy] using h1
        have hne := (SpecializeStubFor_installs vm t stubs stubs1 hspec).1
        have hnot := (runTypeTests_keeps vm t rest stubs1 specialized1 stubsN h2 hne).1
        rw [List.count_cons_self, List.count_eq_zero_of_not_mem hnot]
      · rw [List.count_cons]
        simpa [ht] using hrest
    · exact hrest

/-- A type outside the collected ones keeps its stub. -/
theorem DeoptimizeTypeTestingStubs_other (vm : VM) (type : AbstractType)
    (types : List AbstractType) :
    ∀ (stubs stubs2 : StubTable), DeoptimizeTypeTestingStubs vm types stubs = .ok stubs2 →
      type ∉ types → stubs2 type = stubs type := by
  induction types with
  | nil =>
    intro stubs stubs2 h _
    simp only [DeoptimizeTypeTestingStubs, pure, Except.pure, Except.ok.injEq] at h
    rw [h]
  | cons t rest ih =>
    intro stubs stubs2 h hmem
    rw [DeoptimizeTypeTestingStubs] at h
    cases hc : DefaultCodeForType vm t true with
    | error e => simp [hc, bind, Except.bind] at h
    | ok code =>
      simp only [hc, bind, Except.bind] at h
      have hne : type ≠ t := fun heq => hmem (heq ▸ List.mem_cons_self _ _)
      rw [ih _ _ h (fun hin => hmem (List.mem_cons_of_mem _ hin))]
      simp [SetTypeTestingStub, hne]

/-- Every collected type ends with the stub `DefaultCodeForType(type)`. -/
theorem DeoptimizeTypeTestingStubs_installs (vm : VM) (type : AbstractType)
    (types : List AbstractType) :
    ∀ (stubs stubs2 : StubTable), DeoptimizeTypeTestingStubs vm types stubs = .ok stubs2 →
      type ∈ types → DefaultCodeForType vm type true = .ok (stubs2 type) := by
  induction types with
  | nil =>
    intro stubs stubs2 _ hmem
    exact absurd hmem (List.not_mem_nil _)
  | cons t rest ih =>
    intro stubs stubs2 h hmem
    rw [DeoptimizeTypeTestingStubs] at h
    cases hc : DefaultCodeForType vm t true with
    | error e => simp [hc, bind, Except.bind] at h
    | ok code =>
      simp only [hc, bind, Except.bind] at h
      by_cases hin : type ∈ rest
      · exact ih _ _ h hin
      · have heq : type = t := by
          rcases List.mem_cons.mp hmem with heq | hin1
          · exact heq
          · exact absurd hin1 hin
        subst heq
        rw [DeoptimizeTypeTestingStubs_other vm type rest _ _ h hin, hc]
        simp [SetTypeTestingStub]

/-- C22 (counterexample): the first test of `int`, which carries the
lazy-specialize stub, specializes it and installs the default stub; then
`DeoptimizeTypeTestingStubs` runs and installs the lazy-specialize stub on
`int` again; the next test of `int` specializes it a second time. -/
theorem SpecializeStubFor_twice_after_deoptimization :
    ∃ stubs1 stubs2 stubs3,
      runTypeTests witnessVM [witnessIntType] (fun _ => some .LazySpecializeTypeTest) =
        .ok ([witnessIntType], stubs1) ∧
      stubs1 witnessIntType = some .DefaultTypeTest ∧
      DeoptimizeTypeTestingStubs witnessVM [witnessIntType] stubs1 = .ok stubs2 ∧
      stubs2 witnessIntType = some .LazySpecializeTypeTest ∧
      runTypeTest witnessVM witnessIntType stubs2 =
        SpecializeStubFor witnessVM witnessIntType stubs2 ∧
      runTypeTests witnessVM [witnessIntType] stubs2 = .ok ([witnessIntType], stubs3) ∧
      stubs3 witnessIntType = some .DefaultTypeTest := by
  have hopt : OptimizedCodeForType witnessVM witnessIntType = .ok (some .DefaultTypeTest) := by
    rfl
  have hdef : DefaultCodeForType witnessVM witnessIntType true =
      .ok (some .LazySpecializeTypeTest) := by rfl
  refine ⟨SetTypeTestingStub (fun _ => some .LazySpecializeTypeTest) witnessIntType
      (some .DefaultTypeTest),
    SetTypeTestingStub (SetTypeTestingStub (fun _ => some .LazySpecializeTypeTest)
      witnessIntType (some .DefaultTypeTest)) witnessIntType (some .LazySpecializeTypeTest),
    SetTypeTestingStub (SetTypeTestingStub (SetTypeTestingStub
      (fun _ => some .LazySpecializeTypeTest) witnessIntType (some .DefaultTypeTest))
      witnessIntType (some .LazySpecializeTypeTest)) witnessIntType (some .DefaultTypeTest),
    ?_, ?_, ?_, ?_, ?_, ?_, ?_⟩
  · simp [runTypeTests, runTypeTest, SpecializeStubFor, hopt, bind, Except.bind, pure,
      Except.pure]
  · simp [SetTypeTestingStub]
  · simp [DeoptimizeTypeTestingStubs, hdef, bind, Except.bind, pure, Except.pure]
  · simp [SetTypeTestingStub]
  · simp [runTypeTest, SetTypeTestingStub]
  · simp [runTypeTests, runTypeTest, SpecializeStubFor, hopt, bind, Except.bind, pure,
      Except.pure, SetTypeTestingStub]
  · simp [SetTypeTestingStub]

/-- C22 (amended): `OptimizedCodeForType` never returns the lazy-specialize
stub, for any type and any configuration; so whenever `SpecializeStubFor`
succeeds the stub it installs on the type is not the lazy-specialize stub, the
stubs of other types are untouched, and no later run of type tests specializes
the type again or brings the lazy-specialize stub back; in any run of type
tests a type is specialized at most once.  `DeoptimizeTypeTestingStubs`
installs `DefaultCodeForType(type)` on every collected type; when that is the
lazy-specialize stub, the next test of the type calls `SpecializeStubFor`
again. -/
theorem SpecializeStubFor_once (vm : VM) (type : AbstractType) :
    OptimizedCodeForType vm type ≠ .ok (some .LazySpecializeTypeTest) ∧
    (∀ stubs stubs1, SpecializeStubFor vm type stubs = .ok stubs1 →
      stubs1 type ≠ some .LazySpecializeTypeTest ∧
      OptimizedCodeForType vm type = .ok (stubs1 type) ∧
      (∀ t, t ≠ type → stubs1 t = stubs t) ∧
      ∀ tests specialized stubsN, runTypeTests vm tests stubs1 = .ok (specialized, stubsN) →
        type ∉ specialized ∧ stubsN type ≠ some .LazySpecializeTypeTest) ∧
    (∀ tests stubs specialized stubsN,
      runTypeTests vm tests stubs = .ok (specialized, stubsN) → specialized.count type ≤ 1) ∧
    (∀ types stubs stubs2, DeoptimizeTypeTestingStubs vm types stubs = .ok stubs2 →
      type ∈ types →
      DefaultCodeForType vm type true = .ok (stubs2 type) ∧
      (stubs2 type = some .LazySpecializeTypeTest →
        runTypeTest vm type stubs2 = SpecializeStubFor vm type stubs2)) := by
  refine ⟨OptimizedCodeForType_not_lazy vm type, ?_, ?_, ?_⟩
  · intro stubs stubs1 h
    obtain ⟨h1, h2, h3⟩ := SpecializeStubFor_installs vm type stubs stubs1 h
    exact ⟨h1, h2, h3, fun tests specialized stubsN hrun =>
      runTypeTests_keeps vm type tests stubs1 specialized stubsN hrun h1⟩
  · intro tests stubs specialized stubsN hrun
    exact runTypeTests_once vm type tests stubs specialized stubsN hrun
  · intro types stubs stubs2 h hmem
    refine ⟨DeoptimizeTypeTestingStubs_installs vm type types stubs stubs2 h hmem, ?_⟩
    intro hlazy
    simp [runTypeTest, hlazy]

/-- C22 (amended) at `int`: its specialization installs the default stub, and
three later tests of `int` and `String` specialize `String` once and `int` not
again. -/
theorem SpecializeStubFor_once_witness :
    ∃ stubs1 specialized stubsN,
      SpecializeStubFor witnessVM witnessIntType (fun _ => some .LazySpecializeTypeTest) =
        .ok stubs1 ∧
      stubs1 witnessIntType = some .DefaultTypeTest ∧
      runTypeTests witnessVM [witnessIntType, witnessStringType, witnessIntType] stubs1 =
        .ok (specialized, stubsN) ∧
      witnessIntType ∉ specialized ∧
      specialized.count witnessStringType ≤ 1 ∧
      stubsN witnessIntType ≠ some .LazySpecializeTypeTest := by
  have hopt : OptimizedCodeForType witnessVM witnessIntType = .ok (some .DefaultTypeTest) := by
    rfl
  have hrun : SpecializeStubFor witnessVM witnessIntType (fun _ => some .LazySpecializeTypeTest) =
      .ok (SetTypeTestingStub (fun _ => some .LazySpecializeTypeTest) witnessIntType
        (some .DefaultTypeTest)) := by
    unfold SpecializeStubFor
    rw [hopt]
    rfl
  have hok : (match runTypeTests witnessVM [witnessIntType, witnessStringType, witnessIntType]
      (SetTypeTestingStub (fun _ => some .LazySpecializeTypeTest) witnessIntType
        (some .DefaultTypeTest)) with
      | .ok _ => true
      | .error _ => false) = true := by decide
  cases hr : runTypeTests witnessVM [witnessIntType, witnessStringType, witnessIntType]
      (SetTypeTestingStub (fun _ => some .LazySpecializeTypeTest) witnessIntType
        (some .DefaultTypeTest)) with
  | error e => rw [hr] at hok; cases hok
  | ok r =>
    obtain ⟨specialized, stubsN⟩ := r
    have h := SpecializeStubFor_once witnessVM witnessIntType
    have hs := SpecializeStubFor_once witnessVM witnessStringType
    obtain ⟨_, _, _, hlater⟩ := h.2.1 _ _ hrun
    obtain ⟨hnot, hN⟩ := hlater _ _ _ hr
    exact ⟨_, specialized, stubsN, hrun, by simp [SetTypeTestingStub], hr, hnot,
      hs.2.2.1 _ _ _ _ hr, hN⟩

theorem OptimizedCodeForType_void_not_top (vm : VM) (hia32 : vm.TARGET_ARCH_IA32 = false)
    (hobject : vm.VoidType ≠ vm.ObjectType) (hdynamic : vm.VoidType ≠ vm.DynamicType)
    (hcanonical : vm.VoidType.IsCanonical = true) (htype : vm.VoidType.IsType = true) :
    OptimizedCodeForType vm vm.VoidType ≠ .ok (some .TopTypeTypeTest) := by
  have href : vm.VoidType.IsTypeRef = false := by
    cases hv : vm.VoidType <;> simp_all [AbstractType.IsTypeRef, AbstractType.IsType]
  intro h
  unfold OptimizedCodeForType at h
  simp only [hia32, Bool.not_false, if_true, ASSERT, bind, Except.bind, pure, Except.pure, href,
    Bool.false_eq_true, if_false, hobject, hdynamic, decide_False, Bool.or_self, hcanonical,
    htype, Bool.and_self] at h
  repeat' first
    | (simp at h; done)
    | split at h
  rename_i code hcode hsome
  simp only [Except.ok.injEq] at h
  subst h
  obtain ⟨instructions, hi⟩ := BuildCodeForType_not_stub vm vm.VoidType _ hcode
  cases hi

/-- C28 (counterexample): with stubs initialized on a target other than IA32,
`DefaultCodeForType` maps the canonical type `void` to the top-type stub,
while `OptimizedCodeForType` does not test for `void`, asks the oracle and
returns the default stub; for Object and dynamic both return the top-type
stub, and on IA32 `OptimizedCodeForType` returns it for `void` too. -/
theorem OptimizedCodeForType_void :
    DefaultCodeForType witnessVM witnessVM.VoidType true = .ok (some .TopTypeTypeTest) ∧
    OptimizedCodeForType witnessVM witnessVM.VoidType = .ok (some .DefaultTypeTest) ∧
    OptimizedCodeForType witnessVM witnessVM.ObjectType = .ok (some .TopTypeTypeTest) ∧
    OptimizedCodeForType witnessVM witnessVM.DynamicType = .ok (some .TopTypeTypeTest) ∧
    OptimizedCodeForType { witnessVM with TARGET_ARCH_IA32 := true } witnessVM.VoidType =
      .ok (some .TopTypeTypeTest) := by
  exact ⟨rfl, rfl, rfl, rfl, rfl⟩

/-- C28 (amended): with stubs initialized, `DefaultCodeForType` and
`OptimizedCodeForType` both return the top-type stub for Object and for
dynamic, whatever the configuration and the hierarchy oracle.  For `void`,
which `DefaultCodeForType` also maps to the top-type stub, so does
`OptimizedCodeForType` on IA32; on any other target it treats `void` as any
other canonical type and does not return the top-type stub. -/
theorem OptimizedCodeForType_top_types (vm : VM) (lazy_specialize : Bool)
    (hinit : vm.StubCode_HasBeenInitialized = true)
    (hobject : vm.ObjectType.IsType = true) (hdynamic : vm.DynamicType.IsType = true) :
    DefaultCodeForType vm vm.ObjectType lazy_specialize = .ok (some .TopTypeTypeTest) ∧
    OptimizedCodeForType vm vm.ObjectType = .ok (some .TopTypeTypeTest) ∧
    DefaultCodeForType vm vm.DynamicType lazy_specialize = .ok (some .TopTypeTypeTest) ∧
    OptimizedCodeForType vm vm.DynamicType = .ok (some .TopTypeTypeTest) ∧
    DefaultCodeForType vm vm.VoidType lazy_specialize = .ok (some .TopTypeTypeTest) ∧
    (vm.TARGET_ARCH_IA32 = true →
      OptimizedCodeForType vm vm.VoidType = .ok (some .TopTypeTypeTest)) ∧
    (vm.TARGET_ARCH_IA32 = false → vm.VoidType ≠ vm.ObjectType →
      vm.VoidType ≠ vm.DynamicType → vm.VoidType.IsCanonical = true →
      vm.VoidType.IsType = true →
      OptimizedCodeForType vm vm.VoidType ≠ .ok (some .TopTypeTypeTest)) := by
  have hd : ∀ type, type = vm.ObjectType ∨ type = vm.DynamicType ∨ type = vm.VoidType →
      ∀ l, DefaultCodeForType vm type l = .ok (some .TopTypeTypeTest) := by
    intro type ht l
    unfold DefaultCodeForType
    simp only [hinit, Bool.not_true, Bool.false_eq_true, if_false, Bool.or_eq_true,
      decide_eq_true_eq, or_assoc, ht, if_true, pure, Except.pure]
  have ho : ∀ type, type = vm.ObjectType ∨ type = vm.DynamicType → type.IsType = true →
      OptimizedCodeForType vm type = .ok (some .TopTypeTypeTest) := by
    intro type ht hty
    have href : type.IsTypeRef = false := by
      cases type <;> simp_all [AbstractType.IsTypeRef, AbstractType.IsType]
    cases hia : vm.TARGET_ARCH_IA32 with
    | true =>
      unfold OptimizedCodeForType
      simp only [hia, Bool.not_true, Bool.false_eq_true, if_false]
      exact hd type (by rcases ht with h | h <;> simp [h]) false
    | false =>
      unfold OptimizedCodeForType
      simp only [hia, Bool.not_false, if_true, hinit, ASSERT, bind, Except.bind, pure,
        Except.pure, href, Bool.false_eq_true, if_false, Bool.or_eq_true, decide_eq_true_eq, ht]
  refine ⟨hd _ (Or.inl rfl) _, ho _ (Or.inl rfl) hobject, hd _ (Or.inr (Or.inl rfl)) _,
    ho _ (Or.inr rfl) hdynamic, hd _ (Or.inr (Or.inr rfl)) _, ?_, ?_⟩
  · intro hia
    unfold OptimizedCodeForType
    simp only [hia, Bool.not_true, Bool.false_eq_true, if_false]
    exact hd _ (Or.inr (Or.inr rfl)) false
  · intro hia h1 h2 h3 h4
    exact OptimizedCodeForType_void_not_top vm hia h1 h2 h3 h4

/-- C28 (amended) at the sample configuration, and at the same one on IA32. -/
theorem OptimizedCodeForType_top_types_witness :
    (DefaultCodeForType witnessVM witnessObjectType true = .ok (some .TopTypeTypeTest) ∧
      OptimizedCodeForType witnessVM witnessObjectType = .ok (some .TopTypeTypeTest) ∧
      DefaultCodeForType witnessVM witnessDynamicType true = .ok (some .TopTypeTypeTest) ∧
      OptimizedCodeForType witnessVM witnessDynamicType = .ok (some .TopTypeTypeTest) ∧
      DefaultCodeForType witnessVM witnessVoidType true = .ok (some .TopTypeTypeTest) ∧
      OptimizedCodeForType witnessVM witnessVoidType ≠ .ok (some .TopTypeTypeTest)) ∧
    OptimizedCodeForType { witnessVM with TARGET_ARCH_IA32 := true } witnessVoidType =
      .ok (some .TopTypeTypeTest) := by
  have h := OptimizedCodeForType_top_types witnessVM true rfl rfl rfl
  have h32 := OptimizedCodeForType_top_types { witnessVM with TARGET_ARCH_IA32 := true } true
    rfl rfl rfl
  exact ⟨⟨h.1, h.2.1, h.2.2.1, h.2.2.2.1, h.2.2.2.2.1,
    h.2.2.2.2.2.2 rfl (by decide) (by decide) rfl rfl⟩, h32.2.2.2.2.2.1 rfl⟩

theorem AssemblerSafeName_length (s : List Nat) :
    (AssemblerSafeName s).length = s.length := by
  induction s with
  | nil => rfl
  | cons c rest ih =>
    unfold AssemblerSafeName
    split
    · rfl
    · simp [ih]

theorem isAssemblerSafeChar_iff (c : Nat) :
    isAssemblerSafeChar c = true ↔
      (97 ≤ c ∧ c ≤ 122) ∨ (65 ≤ c ∧ c ≤ 90) ∨ (48 ≤ c ∧ c ≤ 57) ∨ c = 95 := by
  have hchars : 'a'.toNat = 97 ∧ 'z'.toNat = 122 ∧ 'A'.toNat = 65 ∧ 'Z'.toNat = 90 ∧
      '0'.toNat = 48 ∧ '9'.toNat = 57 ∧ '_'.toNat = 95 := by decide
  obtain ⟨ha, hz, hA, hZ, h0, h9, hu⟩ := hchars
  unfold isAssemblerSafeChar
  rw [ha, hz, hA, hZ, h0, h9, hu]
  simp only [Bool.or_eq_true, Bool.and_eq_true, decide_eq_true_eq, ge_iff_le, or_assoc]

theorem AssemblerSafeName_cons (c : Nat) (rest : List Nat) (hc : c ≠ 0) :
    AssemblerSafeName (c :: rest) =
      (if isAssemblerSafeChar c = true then c else 95) :: AssemblerSafeName rest := by
  rw [AssemblerSafeName, if_neg hc]
  cases h : isAssemblerSafeChar c
  · simp
  · simp

theorem AssemblerSafeName_idempotent (s : List Nat) :
    AssemblerSafeName (AssemblerSafeName s) = AssemblerSafeName s := by
  induction s with
  | nil => rfl
  | cons c rest ih =>
    by_cases hc : c = 0
    · subst hc
      simp [AssemblerSafeName]
    · rw [AssemblerSafeName_cons c rest hc]
      by_cases hsafe : isAssemblerSafeChar c = true
      · rw [if_pos hsafe, AssemblerSafeName_cons c _ hc, if_pos hsafe, ih]
      · rw [if_neg hsafe, AssemblerSafeName_cons 95 _ (by decide), ih]
        simp

theorem AssemblerSafeName_map (s : List Nat) (hs : 0 ∉ s) :
    AssemblerSafeName s = s.map (fun c =>
      if (97 ≤ c ∧ c ≤ 122) ∨ (65 ≤ c ∧ c ≤ 90) ∨ (48 ≤ c ∧ c ≤ 57) ∨ c = 95 then c
      else 95) := by
  induction s with
  | nil => rfl
  | cons c rest ih =>
    have hc : c ≠ 0 := fun h => hs (by simp [h])
    have hrest : 0 ∉ rest := fun h => hs (by simp [h])
    rw [AssemblerSafeName_cons c rest hc, ih hrest, List.map_cons]
    simp only [isAssemblerSafeChar_iff]

/-- C30: `AssemblerSafeName` keeps the length of every buffer; on a string
(no NUL before its end) it keeps each character that is an ASCII letter, a
digit or an underscore and replaces every other character by an underscore, so
the result holds only such characters; and applying it twice gives the same
as applying it once. -/
theorem AssemblerSafeName_spec (s : List Nat) :
    (AssemblerSafeName s).length = s.length ∧
    AssemblerSafeName (AssemblerSafeName s) = AssemblerSafeName s ∧
    (0 ∉ s →
      AssemblerSafeName s = s.map (fun c =>
        if (97 ≤ c ∧ c ≤ 122) ∨ (65 ≤ c ∧ c ≤ 90) ∨ (48 ≤ c ∧ c ≤ 57) ∨ c = 95 then c
        else 95) ∧
      ∀ c ∈ AssemblerSafeName s,
        (97 ≤ c ∧ c ≤ 122) ∨ (65 ≤ c ∧ c ≤ 90) ∨ (48 ≤ c ∧ c ≤ 57) ∨ c = 95) := by
  refine ⟨AssemblerSafeName_length s, AssemblerSafeName_idempotent s,
    fun hs => ⟨AssemblerSafeName_map s hs, ?_⟩⟩
  intro c hc
  rw [AssemblerSafeName_map s hs] at hc
  obtain ⟨d, _, rfl⟩ := List.mem_map.mp hc
  by_cases hsafe : (97 ≤ d ∧ d ≤ 122) ∨ (65 ≤ d ∧ d ≤ 90) ∨ (48 ≤ d ∧ d ≤ 57) ∨ d = 95
  · rw [if_pos hsafe]
    exact hsafe
  · rw [if_neg hsafe]
    simp

theorem AssemblerSafeName_spec_witness :
    AssemblerSafeName [97, 45, 66, 58, 57, 95, 200] = [97, 95, 66, 95, 57, 95, 95] ∧
    ∀ c ∈ AssemblerSafeName [97, 45, 66, 58, 57, 95, 200],
      (97 ≤ c ∧ c ≤ 122) ∨ (65 ≤ c ∧ c ≤ 90) ∨ (48 ≤ c ∧ c ≤ 57) ∨ c = 95 := by
  have h := (AssemblerSafeName_spec [97, 45, 66, 58, 57, 95, 200]).2.2 (by decide)
  exact ⟨by rw [h.1]; decide, h.2⟩

/-! ### The emitted code -/

theorem exec_jump (vm : VM) (i : Asm) (rest : List Asm) (m m1 : Machine) (l : Label)
    (h : step vm i m = .jump l m1) : exec vm (i :: rest) none m = exec vm rest (some l) m1 := by
  simp only [exec, h]

theorem exec_bind (vm : VM) (l : Label) (rest : List Asm) (m : Machine) :
    exec vm (.Bind l :: rest) (some l) m = exec vm rest none m := by
  simp only [exec, if_true]

/-- C15 (counterexample): for the sample type `String`, whose class has a
subtype range, `BuildOptimizedTypeTestStubFastCases` emits the class-id range
check first and the fast case for null after it: the emitted code does not
start with the null fast case. -/
theorem BuildOptimizedTypeTestStubFastCases_null_not_first :
    BuildOptimizedTypeTestStubFastCases witnessVM witnessHierarchyInfo witnessStringType
        (witnessPlainClass 61) .kInstanceReg .kClassIdReg =
      .ok [.BranchIfSmi .kInstanceReg .cid_range_failed,
        .LoadClassId .kClassIdReg .kInstanceReg,
        .CidRangesCheck .kClassIdReg [⟨61, 61⟩] .is_subtype .cid_range_failed true,
        .Bind .is_subtype, .Ret, .Bind .cid_range_failed,
        .CompareObjectNull .kInstanceReg, .BranchIf .NOT_EQUAL .non_null, .Ret,
        .Bind .non_null] ∧
    ¬ ∃ code rest,
      BuildOptimizedTypeTestStubFastCases witnessVM witnessHierarchyInfo witnessStringType
        (witnessPlainClass 61) .kInstanceReg .kClassIdReg = .ok code ∧
      code = nullFastCase .kInstanceReg ++ rest := by
  have hrun : BuildOptimizedTypeTestStubFastCases witnessVM witnessHierarchyInfo
      witnessStringType (witnessPlainClass 61) .kInstanceReg .kClassIdReg =
      .ok [.BranchIfSmi .kInstanceReg .cid_range_failed,
        .LoadClassId .kClassIdReg .kInstanceReg,
        .CidRangesCheck .kClassIdReg [⟨61, 61⟩] .is_subtype .cid_range_failed true,
        .Bind .is_subtype, .Ret, .Bind .cid_range_failed,
        .CompareObjectNull .kInstanceReg, .BranchIf .NOT_EQUAL .non_null, .Ret,
        .Bind .non_null] := by
    rfl
  refine ⟨hrun, ?_⟩
  rintro ⟨code, rest, hcode, hshape⟩
  rw [hrun] at hcode
  simp only [Except.ok.injEq] at hcode
  subst hcode
  simp [nullFastCase] at hshape

theorem mem_insertAll (set tas : List TypeArguments) (t : TypeArguments) :
    t ∈ insertAll set tas ↔ t ∈ set ∨ t ∈ tas := by
  induction tas generalizing set with
  | nil => simp [insertAll]
  | cons ta rest ih =>
    rw [insertAll, ih]
    by_cases h : ta ∈ set
    · simp only [HasKey, h, decide_True, Bool.not_true, Bool.false_eq_true, if_false,
        List.mem_cons]
      constructor
      · rintro (h1 | h1)
        · exact Or.inl h1
        · exact Or.inr (Or.inr h1)
      · rintro (h1 | h1 | h1)
        · exact Or.inl h1
        · exact Or.inl (h1 ▸ h)
        · exact Or.inr h1
    · simp only [HasKey, h, decide_False, Bool.not_false, if_true, Insert, List.mem_append,
        List.mem_singleton, List.mem_cons]
      tauto

theorem insertAll_single (set : List TypeArguments) (ta : TypeArguments) :
    insertAll set [ta] = if ta ∈ set then set else set ++ [ta] := by
  by_cases h : ta ∈ set <;> simp [insertAll, HasKey, Insert, h]

theorem insertAlongSuperclasses_single (ta : TypeArguments) (klass : ClassAttrs)
    (superclasses : List ClassAttrs) (sets : Nat → List TypeArguments)
    (hends : chainEnds klass superclasses = true) :
    ∃ sets1, insertAlongSuperclasses [ta] klass superclasses sets = .ok sets1 ∧
      ∀ cid, sets1 cid =
        if cid ∈ reachedClasses klass superclasses ∧ ta ∉ sets cid then sets cid ++ [ta]
        else sets cid := by
  induction superclasses generalizing klass sets with
  | nil =>
    have hk : ¬ klass.NumTypeArguments > 0 := by
      simp only [chainEnds, decide_eq_true_eq] at hends
      omega
    exact ⟨sets, by simp [insertAlongSuperclasses, hk], fun cid => by simp [reachedClasses, hk]⟩
  | cons s rest ih =>
    by_cases hk : klass.NumTypeArguments > 0
    · have hends1 : chainEnds s rest = true := by
        simp only [chainEnds, Bool.or_eq_true, decide_eq_true_eq] at hends
        rcases hends with h | h
        · omega
        · exact h
      obtain ⟨sets1, hrun, hsets⟩ := ih s
        (fun cid => if cid = klass.id then insertAll (sets klass.id) [ta] else sets cid) hends1
      refine ⟨sets1, by simp only [insertAlongSuperclasses, hk, if_true]; exact hrun, ?_⟩
      intro cid
      rw [hsets cid]
      simp only [reachedClasses, hk, if_true, List.mem_cons, insertAll_single]
      by_cases hc : cid = klass.id
      · subst hc
        by_cases hm : ta ∈ sets klass.id
        · simp [hm]
        · simp [hm]
      · simp [hc]
    · exact ⟨sets, by simp [insertAlongSuperclasses, hk], fun cid => by simp [reachedClasses, hk]⟩

/-- C17: `UseTypeArgumentsInInstanceCreation(klass, ta)`.  When `ta` is null or
canonical, the assertion on its length holds, `ta` is instantiated or its
enclosing class is found, and the superclass chain reaches a class without
type arguments, the call succeeds and the recorded set of each class changes
like this: for `klass` and the superclasses reached by following `SuperClass`
while `NumTypeArguments > 0`, `ta` is appended unless it was there, and every
other set is unchanged; so `ta` is recorded for each reached class, once if it
was there at most once, and a second identical call changes nothing.  When
`ta` is non-null and not canonical, or canonical and uninstantiated with no
enclosing class found, the call changes nothing. -/
theorem UseTypeArgumentsInInstanceCreation_records (env : TypeUsageEnv) (klass : Class)
    (ta : TypeArguments) (info : TypeUsageInfo) :
    ((ta.IsNull = true ∨ ta.IsCanonical = true) →
      (ta.IsNull = true ∨ klass.NumTypeArguments ≤ (ta.Length : Int)) →
      (ta.IsNull = true ∨ ta.IsInstantiated = true ∨ (env.FindClass ta).isSome = true) →
      chainEnds klass.toClassAttrs klass.superclasses = true →
      ∃ info1, UseTypeArgumentsInInstanceCreation env klass ta info = .ok info1 ∧
        info1.assert_assignable_types_ = info.assert_assignable_types_ ∧
        (∀ cid, info1.instance_creation_arguments_ cid =
          if cid ∈ reachedClasses klass.toClassAttrs klass.superclasses ∧
              ta ∉ info.instance_creation_arguments_ cid then
            info.instance_creation_arguments_ cid ++ [ta]
          else info.instance_creation_arguments_ cid) ∧
        (∀ cid, cid ∈ reachedClasses klass.toClassAttrs klass.superclasses →
          ta ∈ info1.instance_creation_arguments_ cid ∧
          ((info.instance_creation_arguments_ cid).count ta ≤ 1 →
            (info1.instance_creation_arguments_ cid).count ta = 1)) ∧
        (∀ cid, cid ∉ reachedClasses klass.toClassAttrs klass.superclasses →
          info1.instance_creation_arguments_ cid = info.instance_creation_arguments_ cid) ∧
        (klass.NumTypeArguments > 0 →
          klass.id ∈ reachedClasses klass.toClassAttrs klass.superclasses) ∧
        ∃ info2, UseTypeArgumentsInInstanceCreation env klass ta info1 = .ok info2 ∧
          info2.assert_assignable_types_ = info1.assert_assignable_types_ ∧
          ∀ cid, info2.instance_creation_arguments_ cid =
            info1.instance_creation_arguments_ cid) ∧
    (ta.IsNull = false → ta.IsCanonical = false →
      UseTypeArgumentsInInstanceCreation env klass ta info = .ok info) ∧
    (ta.IsNull = false → ta.IsCanonical = true → klass.NumTypeArguments ≤ (ta.Length : Int) →
      ta.IsInstantiated = false → (env.FindClass ta).isNone = true →
      UseTypeArgumentsInInstanceCreation env klass ta info = .ok info) := by
  have hrun : ∀ info0 : TypeUsageInfo,
      (ta.IsNull = true ∨ ta.IsCanonical = true) →
      (ta.IsNull = true ∨ klass.NumTypeArguments ≤ (ta.Length : Int)) →
      (ta.IsNull = true ∨ ta.IsInstantiated = true ∨ (env.FindClass ta).isSome = true) →
      chainEnds klass.toClassAttrs klass.superclasses = true →
      ∃ info1, UseTypeArgumentsInInstanceCreation env klass ta info0 = .ok info1 ∧
        info1.assert_assignable_types_ = info0.assert_assignable_types_ ∧
        ∀ cid, info1.instance_creation_arguments_ cid =
          if cid ∈ reachedClasses klass.toClassAttrs klass.superclasses ∧
              ta ∉ info0.instance_creation_arguments_ cid then
            info0.instance_creation_arguments_ cid ++ [ta]
          else info0.instance_creation_arguments_ cid := by
    intro info0 h1 h2 h3 hends
    obtain ⟨sets1, hins, hsets⟩ := insertAlongSuperclasses_single ta klass.toClassAttrs
      klass.superclasses info0.instance_creation_arguments_ hends
    have hc1 : (ta.IsNull || ta.IsCanonical) = true := by
      rcases h1 with h | h <;> simp [h]
    have hc2 : (ta.IsNull || decide (klass.NumTypeArguments ≤ (ta.Length : Int))) = true := by
      rcases h2 with h | h <;> simp [h]
    have hc3 : (!ta.IsNull && !ta.IsInstantiated && (env.FindClass ta).isNone) = false := by
      rcases h3 with h | h | h
      · simp [h]
      · simp [h]
      · cases hf : env.FindClass ta with
        | none => rw [hf] at h; cases h
        | some c => simp
    refine ⟨{ info0 with instance_creation_arguments_ := sets1 }, ?_, rfl, hsets⟩
    unfold UseTypeArgumentsInInstanceCreation
    simp only [hc1, if_true, hc2, ASSERT, bind, Except.bind, hc3, Bool.false_eq_true, if_false,
      hins, pure, Except.pure]
  refine ⟨fun h1 h2 h3 hends => ?_, fun hnull hcanon => ?_, fun hnull hcanon hlen hinst hfind => ?_⟩
  · obtain ⟨info1, hok, hassert, hsets⟩ := hrun info h1 h2 h3 hends
    obtain ⟨info2, hok2, hassert2, hsets2⟩ := hrun info1 h1 h2 h3 hends
    have hmem : ∀ cid, cid ∈ reachedClasses klass.toClassAttrs klass.superclasses →
        ta ∈ info1.instance_creation_arguments_ cid := by
      intro cid hcid
      rw [hsets cid]
      by_cases hm : ta ∈ info.instance_creation_arguments_ cid
      · simp [hm]
      · simp [hcid, hm]
    refine ⟨info1, hok, hassert, hsets, fun cid hcid => ⟨hmem cid hcid, fun hcount => ?_⟩,
      fun cid hcid => ?_, fun hpos => ?_, info2, hok2, hassert2, fun cid => ?_⟩
    · rw [hsets cid]
      by_cases hm : ta ∈ info.instance_creation_arguments_ cid
      · simp only [hm, not_true_eq_false, and_false, if_false]
        have := List.count_pos_iff.mpr hm
        omega
      · simp only [hcid, hm, not_false_eq_true, and_self, if_true, List.count_append,
          List.count_singleton_self]
        rw [List.count_eq_zero_of_not_mem hm]
    · rw [hsets cid]
      simp [hcid]
    · cases hs : klass.superclasses <;> simp [reachedClasses, hpos]
    · rw [hsets2 cid]
      by_cases hcid : cid ∈ reachedClasses klass.toClassAttrs klass.superclasses
      · simp [hmem cid hcid]
      · simp [hcid]
  · unfold UseTypeArgumentsInInstanceCreation
    simp [hnull, hcanon, pure, Except.pure]
  · unfold UseTypeArgumentsInInstanceCreation
    simp [hnull, hcanon, hlen, hinst, hfind, ASSERT, bind, Except.bind, pure, Except.pure]

theorem insertAlongSuperclasses_grows (tas : List TypeArguments) (klass : ClassAttrs)
    (superclasses : List ClassAttrs) (sets sets1 : Nat → List TypeArguments)
    (h : insertAlongSuperclasses tas klass superclasses sets = .ok sets1) :
    (∀ cid t, t ∈ sets cid → t ∈ sets1 cid) ∧
    (∀ cid, cid ∈ reachedClasses klass superclasses → ∀ t, t ∈ tas → t ∈ sets1 cid) := by
  induction superclasses generalizing klass sets with
  | nil =>
    by_cases hk : klass.NumTypeArguments > 0
    · simp [insertAlongSuperclasses, hk] at h
    · simp only [insertAlongSuperclasses, hk, if_false, Except.ok.injEq] at h
      subst h
      exact ⟨fun _ _ ht => ht, fun cid hcid => by simp [reachedClasses, hk] at hcid⟩
  | cons s rest ih =>
    by_cases hk : klass.NumTypeArguments > 0
    · simp only [insertAlongSuperclasses, hk, if_true] at h
      obtain ⟨hmono, hreached⟩ := ih s _ h
      have hstep : ∀ cid t, t ∈ sets cid →
          t ∈ (if cid = klass.id then insertAll (sets klass.id) tas else sets cid) := by
        intro cid t ht
        by_cases hc : cid = klass.id
        · subst hc
          simp only [if_true]
          exact (mem_insertAll _ _ _).mpr (Or.inl ht)
        · simp only [hc, if_false]
          exact ht
      refine ⟨fun cid t ht => hmono cid t (hstep cid t ht), fun cid hcid t ht => ?_⟩
      simp only [reachedClasses, hk, if_true, List.mem_cons] at hcid
      rcases hcid with hc | hc
      · subst hc
        apply hmono
        simp only [if_true]
        exact (mem_insertAll _ _ _).mpr (Or.inr ht)
      · exact hreached cid hc t ht
    · simp only [insertAlongSuperclasses, hk, if_false, Except.ok.injEq] at h
      subst h
      exact ⟨fun _ _ ht => ht, fun cid hcid => by simp [reachedClasses, hk] at hcid⟩

theorem addDelayed_list (temp : TypeArguments) (state : Bool × List TypeArguments) :
    (addDelayed temp state).2 = state.2 ++ [temp] := by
  unfold addDelayed
  split <;> rfl

theorem instantiateWithAll_run (env : TypeUsageEnv) (klass : Class) (ta : TypeArguments)
    (cs : List TypeArguments) (state state1 : Bool × List TypeArguments)
    (h : instantiateWithAll env klass ta cs state = .ok state1) :
    (∀ t, t ∈ state.2 → t ∈ state1.2) ∧
    ∀ c, c ∈ cs → (c.IsNull = true ∨ c.IsInstantiated = true) →
      ∃ r, env.Instantiate klass ta c = .ok r ∧ r ∈ state1.2 := by
  induction cs generalizing state with
  | nil =>
    simp only [instantiateWithAll, pure, Except.pure, Except.ok.injEq] at h
    subst h
    exact ⟨fun _ ht => ht, fun c hc => by simp at hc⟩
  | cons c0 rest ih =>
    by_cases hc0 : (c0.IsNull || c0.IsInstantiated) = true
    · simp only [instantiateWithAll, hc0, if_true, bind, Except.bind] at h
      cases hr : env.Instantiate klass ta c0 with
      | error e => simp [hr] at h
      | ok r =>
        simp only [hr] at h
        obtain ⟨hmono, hall⟩ := ih _ h
        have hr1 : r ∈ state1.2 := hmono r (by rw [addDelayed_list]; simp)
        refine ⟨fun t ht => hmono t (by rw [addDelayed_list]; simp [ht]), fun c hc hok => ?_⟩
        rcases List.mem_cons.mp hc with rfl | hc
        · exact ⟨r, hr, hr1⟩
        · exact hall c hc hok
    · simp only [instantiateWithAll, hc0, if_false] at h
      obtain ⟨hmono, hall⟩ := ih _ h
      refine ⟨hmono, fun c hc hok => ?_⟩
      rcases List.mem_cons.mp hc with rfl | hc
      · exfalso
        apply hc0
        rcases hok with h1 | h1 <;> simp [h1]
      · exact hall c hc hok

theorem collectDelayed_run (env : TypeUsageEnv) (klass : Class)
    (sets : Nat → List TypeArguments) (vs : List TypeArguments)
    (state state1 : Bool × List TypeArguments)
    (h : collectDelayed env klass sets vs state = .ok state1) :
    (∀ t, t ∈ state.2 → t ∈ state1.2) ∧
    ∀ v, v ∈ vs → v.IsNull = false → v.IsInstantiated = false →
      ∀ enclosing, env.FindClass v = some enclosing → enclosing ≠ klass →
      ∀ c, c ∈ sets enclosing.id → (c.IsNull = true ∨ c.IsInstantiated = true) →
        ∃ r, env.Instantiate klass v c = .ok r ∧ r ∈ state1.2 := by
  induction vs generalizing state with
  | nil =>
    simp only [collectDelayed, pure, Except.pure, Except.ok.injEq] at h
    subst h
    exact ⟨fun _ ht => ht, fun v hv => by simp at hv⟩
  | cons v0 rest ih =>
    by_cases hv0 : (!v0.IsNull && !v0.IsInstantiated) = true
    · by_cases hne : env.FindClass v0 ≠ some klass
      · cases hf : env.FindClass v0 with
        | none => simp [collectDelayed, hv0, hf] at h
        | some enclosing0 =>
          have hne1 : some enclosing0 ≠ some klass := by rw [← hf]; exact hne
          simp only [collectDelayed, hv0, if_true, hf, ne_eq, hne1, not_false_eq_true, bind,
            Except.bind] at h
          cases hi : instantiateWithAll env klass v0 (sets enclosing0.id) state with
          | error e => simp [hi] at h
          | ok state0 =>
            simp only [hi] at h
            obtain ⟨hmono0, hall0⟩ := instantiateWithAll_run env klass v0 _ state state0 hi
            obtain ⟨hmono, hall⟩ := ih _ h
            refine ⟨fun t ht => hmono t (hmono0 t ht),
              fun v hv hnull hinst enclosing hfind hneq c hc hok => ?_⟩
            rcases List.mem_cons.mp hv with rfl | hv
            · rw [hf] at hfind
              cases hfind
              obtain ⟨r, hr, hmem⟩ := hall0 c hc hok
              exact ⟨r, hr, hmono r hmem⟩
            · exact hall v hv hnull hinst enclosing hfind hneq c hc hok
      · have heq : env.FindClass v0 = some klass := by
          by_contra hcon
          exact hne hcon
        simp only [collectDelayed, hv0, if_true, heq, ne_eq, not_true_eq_false, if_false]
          at h
        obtain ⟨hmono, hall⟩ := ih _ h
        refine ⟨hmono, fun v hv hnull hinst enclosing hfind hneq c hc hok => ?_⟩
        rcases List.mem_cons.mp hv with rfl | hv
        · rw [heq] at hfind
          cases hfind
          exact absurd rfl hneq
        · exact hall v hv hnull hinst enclosing hfind hneq c hc hok
    · simp only [collectDelayed, hv0, if_false] at h
      obtain ⟨hmono, hall⟩ := ih _ h
      refine ⟨hmono, fun v hv hnull hinst enclosing hfind hneq c hc hok => ?_⟩
      rcases List.mem_cons.mp hv with rfl | hv
      · exfalso
        apply hv0
        simp [hnull, hinst]
      · exact hall v hv hnull hinst enclosing hfind hneq c hc hok

/-- What one visit of class id `cid` in `PropagateTypeArguments` has recorded,
given the sets `before` the visit and `after` it. -/
theorem propagateClass_run (env : TypeUsageEnv) (cid : Nat) (info info1 : TypeUsageInfo)
    (h : propagateClass env cid info = .ok info1) :
    info1.assert_assignable_types_ = info.assert_assignable_types_ ∧
    (∀ c t, t ∈ info.instance_creation_arguments_ c → t ∈ info1.instance_creation_arguments_ c) ∧
    ∀ klass, env.At cid = some klass →
      ∀ v, v ∈ info.instance_creation_arguments_ cid → v.IsNull = false →
        v.IsInstantiated = false →
      ∀ enclosing, env.FindClass v = some enclosing → enclosing ≠ klass →
      ∀ c, c ∈ info.instance_creation_arguments_ enclosing.id →
        (c.IsNull = true ∨ c.IsInstantiated = true) →
        ∃ r, env.Instantiate klass v c = .ok r ∧
          ∀ id, id ∈ reachedClasses klass.toClassAttrs klass.superclasses →
            r ∈ info1.instance_creation_arguments_ id := by
  unfold propagateClass at h
  cases hk : env.At cid with
  | none =>
    simp only [hk, pure, Except.pure, Except.ok.injEq] at h
    subst h
    exact ⟨rfl, fun _ _ ht => ht, fun klass hklass => by cases hklass⟩
  | some klass0 =>
    simp only [hk, bind, Except.bind] at h
    cases hd : collectDelayed env klass0 info.instance_creation_arguments_
        (info.instance_creation_arguments_ cid) (false, []) with
    | error e => simp [hd] at h
    | ok state =>
      simp only [hd] at h
      obtain ⟨_, hall⟩ := collectDelayed_run env klass0 _ _ _ state hd
      by_cases hlen : state.2.length > 0
      · simp only [hlen, if_true] at h
        cases hins : insertAlongSuperclasses state.2 klass0.toClassAttrs klass0.superclasses
            info.instance_creation_arguments_ with
        | error e => simp [hins] at h
        | ok sets1 =>
          simp only [hins, pure, Except.pure, Except.ok.injEq] at h
          subst h
          obtain ⟨hmono, hreached⟩ := insertAlongSuperclasses_grows _ _ _ _ sets1 hins
          refine ⟨rfl, hmono, fun klass hklass v hv hnull hinst enclosing hfind hne c hc hok => ?_⟩
          cases hklass
          obtain ⟨r, hr, hmem⟩ := hall v hv hnull hinst enclosing hfind hne c hc hok
          exact ⟨r, hr, fun id hid => hreached id hid r hmem⟩
      · simp only [hlen, if_false, pure, Except.pure, Except.ok.injEq] at h
        subst h
        refine ⟨rfl, fun _ _ ht => ht,
          fun klass hklass v hv hnull hinst enclosing hfind hne c hc hok => ?_⟩
        cases hklass
        obtain ⟨r, hr, hmem⟩ := hall v hv hnull hinst enclosing hfind hne c hc hok
        have : state.2.length = 0 := by omega
        rw [List.length_eq_zero] at this
        rw [this] at hmem
        cases hmem

theorem propagateClasses_run (env : TypeUsageEnv) (cids : List Nat) (info info1 : TypeUsageInfo)
    (h : propagateClasses env cids info = .ok info1) :
    info1.assert_assignable_types_ = info.assert_assignable_types_ ∧
    (∀ c t, t ∈ info.instance_creation_arguments_ c → t ∈ info1.instance_creation_arguments_ c) ∧
    ∀ cid, cid ∈ cids → ∀ klass, env.At cid = some klass →
      ∀ v, v ∈ info.instance_creation_arguments_ cid → v.IsNull = false →
        v.IsInstantiated = false →
      ∀ enclosing, env.FindClass v = some enclosing → enclosing ≠ klass →
      ∀ c, c ∈ info.instance_creation_arguments_ enclosing.id →
        (c.IsNull = true ∨ c.IsInstantiated = true) →
        ∃ r, env.Instantiate klass v c = .ok r ∧
          ∀ id, id ∈ reachedClasses klass.toClassAttrs klass.superclasses →
            r ∈ info1.instance_creation_arguments_ id := by
  induction cids generalizing info with
  | nil =>
    simp only [propagateClasses, pure, Except.pure, Except.ok.injEq] at h
    subst h
    exact ⟨rfl, fun _ _ ht => ht, fun cid hcid => by simp at hcid⟩
  | cons cid0 rest ih =>
    simp only [propagateClasses, bind, Except.bind] at h
    cases h0 : propagateClass env cid0 info with
    | error e => simp [h0] at h
    | ok info0 =>
      simp only [h0] at h
      obtain ⟨ha0, hmono0, hall0⟩ := propagateClass_run env cid0 info info0 h0
      obtain ⟨ha, hmono, hall⟩ := ih info0 h
      refine ⟨ha.trans ha0, fun c t ht => hmono c t (hmono0 c t ht),
        fun cid hcid klass hklass v hv hnull hinst enclosing hfind hne c hc hok => ?_⟩
      rcases List.mem_cons.mp hcid with rfl | hcid
      · obtain ⟨r, hr, hmem⟩ := hall0 klass hklass v hv hnull hinst enclosing hfind hne c hc hok
        exact ⟨r, hr, fun id hid => hmono id r (hmem id hid)⟩
      · exact hall cid hcid klass hklass v (hmono0 cid v hv) hnull hinst enclosing hfind hne c
          (hmono0 _ c hc) hok

/-- C20: whenever `PropagateTypeArguments` completes, no vector has left any
set (and the types tested against are untouched), and for every valid class
`klass` at a class id below `cid_count`, every non-null uninstantiated vector
`v` recorded for it before the pass whose enclosing class is a different
class, and every null or instantiated vector `c` recorded for the enclosing
class before the pass, `Instantiate(klass, v, c)` has a result and that result
is recorded for `klass` and for every superclass reached by following
`SuperClass` while `NumTypeArguments > 0`; the pass is two rounds over all
class ids. -/
theorem PropagateTypeArguments_records (env : TypeUsageEnv) (info info1 : TypeUsageInfo)
    (h : PropagateTypeArguments env info = .ok info1) :
    (∀ c t, t ∈ info.instance_creation_arguments_ c → t ∈ info1.instance_creation_arguments_ c) ∧
    info1.assert_assignable_types_ = info.assert_assignable_types_ ∧
    (∀ cid klass, cid < env.cid_count → env.At cid = some klass →
      ∀ v, v ∈ info.instance_creation_arguments_ cid → v.IsNull = false →
        v.IsInstantiated = false →
      ∀ enclosing, env.FindClass v = some enclosing → enclosing ≠ klass →
      ∀ c, c ∈ info.instance_creation_arguments_ enclosing.id →
        (c.IsNull = true ∨ c.IsInstantiated = true) →
        ∃ r, env.Instantiate klass v c = .ok r ∧
          ∀ id, id ∈ reachedClasses klass.toClassAttrs klass.superclasses →
            r ∈ info1.instance_creation_arguments_ id) ∧
    PropagateTypeArguments env info =
      (propagateClasses env (List.range env.cid_count) info >>=
        propagateClasses env (List.range env.cid_count)) := by
  have hshape : PropagateTypeArguments env info =
      (propagateClasses env (List.range env.cid_count) info >>=
        propagateClasses env (List.range env.cid_count)) := by
    simp only [PropagateTypeArguments, kPropgationRounds, propagateRounds, propagateRound, bind,
      Except.bind, pure, Except.pure]
    cases propagateClasses env (List.range env.cid_count) info with
    | error e => rfl
    | ok i1 =>
      simp only
      cases propagateClasses env (List.range env.cid_count) i1 <;> rfl
  have key : ∃ infoA, propagateClasses env (List.range env.cid_count) info = .ok infoA ∧
      propagateClasses env (List.range env.cid_count) infoA = .ok info1 := by
    rw [hshape] at h
    simp only [bind, Except.bind] at h
    cases h1 : propagateClasses env (List.range env.cid_count) info with
    | error e => simp [h1] at h
    | ok infoA =>
      simp only [h1] at h
      exact ⟨infoA, rfl, h⟩
  obtain ⟨infoA, h1, h2⟩ := key
  obtain ⟨ha1, hmono1, hall1⟩ := propagateClasses_run env _ info infoA h1
  obtain ⟨ha2, hmono2, _⟩ := propagateClasses_run env _ infoA info1 h2
  refine ⟨fun c t ht => hmono2 c t (hmono1 c t ht), ha2.trans ha1,
    fun cid klass hcid hklass v hv hnull hinst enclosing hfind hne c hc hok => ?_, hshape⟩
  obtain ⟨r, hr, hmem⟩ := hall1 cid (List.mem_range.mpr hcid) klass hklass v hv hnull hinst
    enclosing hfind hne c hc hok
  exact ⟨r, hr, fun id hid => hmono2 id r (hmem id hid)⟩

theorem mem_UseTypeInAssertAssignable (info : TypeUsageInfo) (x t : AbstractType) :
    (t ∈ (UseTypeInAssertAssignable info x).assert_assignable_types_ ↔
      t ∈ info.assert_assignable_types_ ∨ t = x) ∧
    (UseTypeInAssertAssignable info x).instance_creation_arguments_ =
      info.instance_creation_arguments_ := by
  unfold UseTypeInAssertAssignable AddTypeToSet
  by_cases h : x ∈ info.assert_assignable_types_
  · simp only [HasKey, h, decide_True, Bool.not_true, Bool.false_eq_true, if_false, and_true]
    constructor
    · exact fun ht => Or.inl ht
    · rintro (ht | ht)
      · exact ht
      · exact ht ▸ h
  · simp [HasKey, h, Insert]

theorem useVectors_run (i : Nat) (tas : List TypeArguments) (info info1 : TypeUsageInfo)
    (h : useVectors i tas info = .ok info1) :
    info1.instance_creation_arguments_ = info.instance_creation_arguments_ ∧
    ∀ t, t ∈ info1.assert_assignable_types_ ↔
      t ∈ info.assert_assignable_types_ ∨
        ∃ ta, ta ∈ tas ∧ ta.IsNull = false ∧ ta.TypeAt i = .ok t ∧ t.IsInstantiated = true := by
  induction tas generalizing info with
  | nil =>
    simp only [useVectors, pure, Except.pure, Except.ok.injEq] at h
    subst h
    exact ⟨rfl, fun t => by simp⟩
  | cons ta0 rest ih =>
    cases hnull : ta0.IsNull with
    | true =>
      simp only [useVectors, hnull, Bool.not_true, Bool.false_eq_true, if_false] at h
      obtain ⟨hs, hm⟩ := ih info h
      refine ⟨hs, fun t => ?_⟩
      rw [hm t]
      constructor
      · rintro (ht | ⟨ta, hta, h1, h2, h3⟩)
        · exact Or.inl ht
        · exact Or.inr ⟨ta, List.mem_cons_of_mem _ hta, h1, h2, h3⟩
      · rintro (ht | ⟨ta, hta, h1, h2, h3⟩)
        · exact Or.inl ht
        · rcases List.mem_cons.mp hta with rfl | hta
          · rw [hnull] at h1
            cases h1
          · exact Or.inr ⟨ta, hta, h1, h2, h3⟩
    | false =>
      simp only [useVectors, hnull, Bool.not_false, if_true, bind, Except.bind] at h
      cases htype : ta0.TypeAt i with
      | error e => simp [htype] at h
      | ok type =>
        simp only [htype] at h
        obtain ⟨hs, hm⟩ := ih _ h
        cases hinst : type.IsInstantiated with
        | true =>
          simp only [hinst, if_true] at hs hm
          refine ⟨hs.trans (mem_UseTypeInAssertAssignable info type type).2, fun t => ?_⟩
          rw [hm t, (mem_UseTypeInAssertAssignable info type t).1]
          constructor
          · rintro ((ht | ht) | ⟨ta, hta, h1, h2, h3⟩)
            · exact Or.inl ht
            · subst ht
              exact Or.inr ⟨ta0, List.mem_cons_self _ _, hnull, htype, hinst⟩
            · exact Or.inr ⟨ta, List.mem_cons_of_mem _ hta, h1, h2, h3⟩
          · rintro (ht | ⟨ta, hta, h1, h2, h3⟩)
            · exact Or.inl (Or.inl ht)
            · rcases List.mem_cons.mp hta with rfl | hta
              · rw [htype] at h2
                cases h2
                exact Or.inl (Or.inr rfl)
              · exact Or.inr ⟨ta, hta, h1, h2, h3⟩
        | false =>
          simp only [hinst, Bool.false_eq_true, if_false] at hs hm
          refine ⟨hs, fun t => ?_⟩
          rw [hm t]
          constructor
          · rintro (ht | ⟨ta, hta, h1, h2, h3⟩)
            · exact Or.inl ht
            · exact Or.inr ⟨ta, List.mem_cons_of_mem _ hta, h1, h2, h3⟩
          · rintro (ht | ⟨ta, hta, h1, h2, h3⟩)
            · exact Or.inl ht
            · rcases List.mem_cons.mp hta with rfl | hta
              · rw [htype] at h2
                cases h2
                rw [hinst] at h3
                cases h3
              · exact Or.inr ⟨ta, hta, h1, h2, h3⟩

theorem updateParameters_run (klass : Class) (cid : Nat) (tested : List AbstractType)
    (indices : List Nat) (info info1 : TypeUsageInfo)
    (h : updateParameters klass cid tested indices info = .ok info1) :
    info1.instance_creation_arguments_ = info.instance_creation_arguments_ ∧
    ∀ t, t ∈ info1.assert_assignable_types_ ↔
      t ∈ info.assert_assignable_types_ ∨
        ∃ i, i ∈ indices ∧ ∃ param, klass.type_parameters.TypeAt i = .ok param ∧
          param ∈ tested ∧
          ∃ ta, ta ∈ info.instance_creation_arguments_ cid ∧ ta.IsNull = false ∧
            ta.TypeAt i = .ok t ∧ t.IsInstantiated = true := by
  induction indices generalizing info with
  | nil =>
    simp only [updateParameters, pure, Except.pure, Except.ok.injEq] at h
    subst h
    exact ⟨rfl, fun t => by simp⟩
  | cons i0 rest ih =>
    simp only [updateParameters, bind, Except.bind] at h
    cases hparam : klass.type_parameters.TypeAt i0 with
    | error e => simp [hparam] at h
    | ok param0 =>
      simp only [hparam] at h
      by_cases htested : param0 ∈ tested
      · simp only [HasKey, htested, decide_True, if_true] at h
        cases hv : useVectors i0 (info.instance_creation_arguments_ cid) info with
        | error e => simp [hv] at h
        | ok info0 =>
          simp only [hv] at h
          obtain ⟨hs0, hm0⟩ := useVectors_run i0 _ info info0 hv
          obtain ⟨hs, hm⟩ := ih info0 h
          refine ⟨hs.trans hs0, fun t => ?_⟩
          rw [hm t, hm0 t, hs0]
          constructor
          · rintro ((ht | ⟨ta, hta, h1, h2, h3⟩) | ⟨i, hi, param, hp, hpt, hrest⟩)
            · exact Or.inl ht
            · exact Or.inr ⟨i0, List.mem_cons_self _ _, param0, hparam, htested, ta, hta, h1,
                h2, h3⟩
            · exact Or.inr ⟨i, List.mem_cons_of_mem _ hi, param, hp, hpt, hrest⟩
          · rintro (ht | ⟨i, hi, param, hp, hpt, ta, hta, h1, h2, h3⟩)
            · exact Or.inl (Or.inl ht)
            · rcases List.mem_cons.mp hi with rfl | hi
              · exact Or.inl (Or.inr ⟨ta, hta, h1, h2, h3⟩)
              · exact Or.inr ⟨i, hi, param, hp, hpt, ta, hta, h1, h2, h3⟩
      · simp only [HasKey, htested, decide_False, Bool.false_eq_true, if_false] at h
        obtain ⟨hs, hm⟩ := ih info h
        refine ⟨hs, fun t => ?_⟩
        rw [hm t]
        constructor
        · rintro (ht | ⟨i, hi, hrest⟩)
          · exact Or.inl ht
          · exact Or.inr ⟨i, List.mem_cons_of_mem _ hi, hrest⟩
        · rintro (ht | ⟨i, hi, param, hp, hpt, hrest⟩)
          · exact Or.inl ht
          · rcases List.mem_cons.mp hi with rfl | hi
            · rw [hparam] at hp
              cases hp
              exact absurd hpt htested
            · exact Or.inr ⟨i, hi, param, hp, hpt, hrest⟩

theorem updateClass_run (env : TypeUsageEnv) (tested : List AbstractType) (cid : Nat)
    (info info1 : TypeUsageInfo) (h : updateClass env tested cid info = .ok info1) :
    info1.instance_creation_arguments_ = info.instance_creation_arguments_ ∧
    ∀ t, t ∈ info1.assert_assignable_types_ ↔
      t ∈ info.assert_assignable_types_ ∨
        takenFrom env info.instance_creation_arguments_ tested cid t := by
  unfold updateClass at h
  unfold takenFrom
  cases hk : env.At cid with
  | none =>
    simp only [hk, pure, Except.pure, Except.ok.injEq] at h
    subst h
    exact ⟨rfl, fun t => by simp⟩
  | some klass =>
    simp only [hk] at h
    by_cases hnta : klass.NumTypeArguments ≤ 0
    · simp only [hnta, decide_True, if_true, pure, Except.pure, Except.ok.injEq] at h
      subst h
      refine ⟨rfl, fun t => ?_⟩
      constructor
      · exact fun ht => Or.inl ht
      · rintro (ht | ⟨k, hk1, hpos, _⟩)
        · exact ht
        · cases hk1
          omega
    · simp only [hnta, decide_False, Bool.false_eq_true, if_false] at h
      obtain ⟨hs, hm⟩ := updateParameters_run klass cid tested _ info info1 h
      refine ⟨hs, fun t => ?_⟩
      rw [hm t]
      constructor
      · rintro (ht | ⟨i, hi, hrest⟩)
        · exact Or.inl ht
        · exact Or.inr ⟨klass, rfl, by omega, i, List.mem_range.mp hi, hrest⟩
      · rintro (ht | ⟨k, hk1, _, i, hi, hrest⟩)
        · exact Or.inl ht
        · cases hk1
          exact Or.inr ⟨i, List.mem_range.mpr hi, hrest⟩

theorem updateClasses_run (env : TypeUsageEnv) (tested : List AbstractType) (cids : List Nat)
    (info info1 : TypeUsageInfo) (h : updateClasses env tested cids info = .ok info1) :
    info1.instance_creation_arguments_ = info.instance_creation_arguments_ ∧
    ∀ t, t ∈ info1.assert_assignable_types_ ↔
      t ∈ info.assert_assignable_types_ ∨
        ∃ cid, cid ∈ cids ∧ takenFrom env info.instance_creation_arguments_ tested cid t := by
  induction cids generalizing info with
  | nil =>
    simp only [updateClasses, pure, Except.pure, Except.ok.injEq] at h
    subst h
    exact ⟨rfl, fun t => by simp⟩
  | cons cid0 rest ih =>
    simp only [updateClasses, bind, Except.bind] at h
    cases h0 : updateClass env tested cid0 info with
    | error e => simp [h0] at h
    | ok info0 =>
      simp only [h0] at h
      obtain ⟨hs0, hm0⟩ := updateClass_run env tested cid0 info info0 h0
      obtain ⟨hs, hm⟩ := ih info0 h
      refine ⟨hs.trans hs0, fun t => ?_⟩
      rw [hm t, hm0 t, hs0]
      constructor
      · rintro ((ht | ht) | ⟨cid, hcid, hrest⟩)
        · exact Or.inl ht
        · exact Or.inr ⟨cid0, List.mem_cons_self _ _, ht⟩
        · exact Or.inr ⟨cid, List.mem_cons_of_mem _ hcid, hrest⟩
      · rintro (ht | ⟨cid, hcid, hrest⟩)
        · exact Or.inl (Or.inl ht)
        · rcases List.mem_cons.mp hcid with rfl | hcid
          · exact Or.inl (Or.inr hrest)
          · exact Or.inr ⟨cid, hcid, hrest⟩

theorem mem_foldl_AddToSetIfParameter (types set : List AbstractType) (p : AbstractType) :
    p ∈ types.foldl AddToSetIfParameter set ↔
      p ∈ set ∨ (p ∈ types ∧ p.IsTypeParameter = true) := by
  induction types generalizing set with
  | nil => simp
  | cons t0 rest ih =>
    rw [List.foldl_cons, ih]
    unfold AddToSetIfParameter
    cases hp : t0.IsTypeParameter with
    | false =>
      simp only [Bool.false_eq_true, if_false, List.mem_cons]
      constructor
      · rintro (h | ⟨h1, h2⟩)
        · exact Or.inl h
        · exact Or.inr ⟨Or.inr h1, h2⟩
      · rintro (h | ⟨h1 | h1, h2⟩)
        · exact Or.inl h
        · subst h1
          rw [hp] at h2
          cases h2
        · exact Or.inr ⟨h1, h2⟩
    | true =>
      simp only [if_true, List.mem_cons]
      by_cases hmem : t0 ∈ set
      · simp only [HasKey, hmem, decide_True, Bool.not_true, Bool.false_eq_true, if_false]
        constructor
        · rintro (h | ⟨h1, h2⟩)
          · exact Or.inl h
          · exact Or.inr ⟨Or.inr h1, h2⟩
        · rintro (h | ⟨h1 | h1, h2⟩)
          · exact Or.inl h
          · exact Or.inl (h1 ▸ hmem)
          · exact Or.inr ⟨h1, h2⟩
      · simp only [HasKey, hmem, decide_False, Bool.not_false, if_true, Insert,
          List.mem_append, List.mem_singleton]
        constructor
        · rintro ((h | h) | ⟨h1, h2⟩)
          · exact Or.inl h
          · exact Or.inr ⟨Or.inl h, h ▸ hp⟩
          · exact Or.inr ⟨Or.inr h1, h2⟩
        · rintro (h | ⟨h1 | h1, h2⟩)
          · exact Or.inl (Or.inl h)
          · exact Or.inl (Or.inr h1)
          · exact Or.inr ⟨h1, h2⟩

theorem UpdateAssertAssignableTypes_run (vm : VM) (env : TypeUsageEnv)
    (tested : List AbstractType) (info info1 : TypeUsageInfo)
    (h : UpdateAssertAssignableTypes vm env tested info = .ok info1) :
    info1.instance_creation_arguments_ = info.instance_creation_arguments_ ∧
    ∀ t, t ∈ info1.assert_assignable_types_ ↔
      t ∈ info.assert_assignable_types_ ∨ t = vm.DynamicType ∨ t = vm.ObjectType ∨
        ∃ cid, cid < env.cid_count ∧
          takenFrom env info.instance_creation_arguments_ tested cid t := by
  unfold UpdateAssertAssignableTypes at h
  obtain ⟨hs, hm⟩ := updateClasses_run env tested _ _ info1 h
  have hs2 := (mem_UseTypeInAssertAssignable
    (UseTypeInAssertAssignable info vm.DynamicType) vm.ObjectType vm.ObjectType).2
  have hs1 := (mem_UseTypeInAssertAssignable info vm.DynamicType vm.DynamicType).2
  refine ⟨hs.trans (hs2.trans hs1), fun t => ?_⟩
  rw [hm t, (mem_UseTypeInAssertAssignable _ vm.ObjectType t).1,
    (mem_UseTypeInAssertAssignable info vm.DynamicType t).1, hs2, hs1]
  constructor
  · rintro (((ht | ht) | ht) | ⟨cid, hcid, hrest⟩)
    · exact Or.inl ht
    · exact Or.inr (Or.inl ht)
    · exact Or.inr (Or.inr (Or.inl ht))
    · exact Or.inr (Or.inr (Or.inr ⟨cid, List.mem_range.mp hcid, hrest⟩))
  · rintro (ht | ht | ht | ⟨cid, hcid, hrest⟩)
    · exact Or.inl (Or.inl (Or.inl ht))
    · exact Or.inl (Or.inl (Or.inr ht))
    · exact Or.inl (Or.inr ht)
    · exact Or.inr ⟨cid, List.mem_range.mpr hcid, hrest⟩

theorem IsUsedInTypeTest_direct (info : TypeUsageInfo) (t : AbstractType)
    (href : t.IsTypeRef = false) (hfin : t.IsFinalized = true) :
    IsUsedInTypeTest info t = true ↔ t ∈ info.assert_assignable_types_ := by
  cases t <;> simp_all [IsUsedInTypeTest, HasKey, AbstractType.IsTypeRef]

/-- C18: whenever `BuildTypeUsageInformation` completes, the recorded vectors
are those left by `PropagateTypeArguments`, and a type is in the set of types
tested against if and only if it was there before (passed to
`UseTypeInAssertAssignable`), or is dynamic or Object, or is an instantiated
entry that `UpdateAssertAssignableTypes` reads from a non-null vector recorded
for a valid class with type arguments, one of whose own type parameters was
in the set before; `IsUsedInTypeTest` reports membership in that set for
finalized types (other than type references).  So a type that was not in the
set before, is neither dynamic nor Object and is no entry of any recorded
vector is not in the set. -/
theorem BuildTypeUsageInformation_tested (vm : VM) (env : TypeUsageEnv)
    (info info1 : TypeUsageInfo) (h : BuildTypeUsageInformation vm env info = .ok info1) :
    (∃ propagated, PropagateTypeArguments env info = .ok propagated ∧
      info1.instance_creation_arguments_ = propagated.instance_creation_arguments_) ∧
    (∀ t, t ∈ info1.assert_assignable_types_ ↔
      t ∈ info.assert_assignable_types_ ∨ t = vm.DynamicType ∨ t = vm.ObjectType ∨
        ∃ cid klass i param ta, cid < env.cid_count ∧ env.At cid = some klass ∧
          klass.NumTypeArguments > 0 ∧ i < klass.NumTypeParameters ∧
          klass.type_parameters.TypeAt i = .ok param ∧
          param ∈ info.assert_assignable_types_ ∧ param.IsTypeParameter = true ∧
          ta ∈ info1.instance_creation_arguments_ cid ∧ ta.IsNull = false ∧
          ta.TypeAt i = .ok t ∧ t.IsInstantiated = true) ∧
    (∀ t, t.IsTypeRef = false → t.IsFinalized = true →
      (IsUsedInTypeTest info1 t = true ↔ t ∈ info1.assert_assignable_types_)) ∧
    (∀ t, t ∉ info.assert_assignable_types_ → t ≠ vm.DynamicType → t ≠ vm.ObjectType →
      (∀ cid ta i, ta ∈ info1.instance_creation_arguments_ cid → ta.TypeAt i ≠ .ok t) →
      t ∉ info1.assert_assignable_types_) := by
  unfold BuildTypeUsageInformation at h
  simp only [bind, Except.bind] at h
  cases hp : PropagateTypeArguments env info with
  | error e => simp [hp] at h
  | ok propagated =>
    simp only [hp] at h
    obtain ⟨_, hassert, _, _⟩ := PropagateTypeArguments_records env info propagated hp
    obtain ⟨hs, hm⟩ := UpdateAssertAssignableTypes_run vm env _ propagated info1 h
    have hiff : ∀ t, t ∈ info1.assert_assignable_types_ ↔
        t ∈ info.assert_assignable_types_ ∨ t = vm.DynamicType ∨ t = vm.ObjectType ∨
          ∃ cid klass i param ta, cid < env.cid_count ∧ env.At cid = some klass ∧
            klass.NumTypeArguments > 0 ∧ i < klass.NumTypeParameters ∧
            klass.type_parameters.TypeAt i = .ok param ∧
            param ∈ info.assert_assignable_types_ ∧ param.IsTypeParameter = true ∧
            ta ∈ info1.instance_creation_arguments_ cid ∧ ta.IsNull = false ∧
            ta.TypeAt i = .ok t ∧ t.IsInstantiated = true := by
      intro t
      rw [hm t, hassert, hs]
      unfold takenFrom CollectTypeParametersUsedInAssertAssignable
      simp only [mem_foldl_AddToSetIfParameter, List.not_mem_nil, false_or, hassert]
      constructor
      · rintro (ht | ht | ht | ⟨cid, hcid, klass, hk, hpos, i, hi, param, hp1, ⟨hp2, hp3⟩, ta,
          hta, h1, h2, h3⟩)
        · exact Or.inl ht
        · exact Or.inr (Or.inl ht)
        · exact Or.inr (Or.inr (Or.inl ht))
        · exact Or.inr (Or.inr (Or.inr ⟨cid, klass, i, param, ta, hcid, hk, hpos, hi, hp1, hp2,
            hp3, hta, h1, h2, h3⟩))
      · rintro (ht | ht | ht | ⟨cid, klass, i, param, ta, hcid, hk, hpos, hi, hp1, hp2, hp3,
          hta, h1, h2, h3⟩)
        · exact Or.inl ht
        · exact Or.inr (Or.inl ht)
        · exact Or.inr (Or.inr (Or.inl ht))
        · exact Or.inr (Or.inr (Or.inr ⟨cid, hcid, klass, hk, hpos, i, hi, param, hp1,
            ⟨hp2, hp3⟩, ta, hta, h1, h2, h3⟩))
    refine ⟨⟨propagated, rfl, hs⟩, hiff, fun t href hfin => IsUsedInTypeTest_direct info1 t href hfin,
      fun t hnot hdyn hobj hnone hmem => ?_⟩
    rcases (hiff t).mp hmem with ht | ht | ht | ⟨cid, klass, i, param, ta, _, _, _, _, _, _, _,
      hta, _, h2, _⟩
    · exact hnot ht
    · exact hdyn ht
    · exact hobj ht
    · exact hnone cid ta i hta h2

theorem BuildTypeUsageInformation_tested_witness :
    ∃ info1, BuildTypeUsageInformation witnessVM witnessEnv witnessInfo = .ok info1 ∧
      info1.assert_assignable_types_ =
        [witnessT, witnessDynamicType, witnessObjectType, witnessStringType] ∧
      info1.instance_creation_arguments_ 91 =
        [witnessVectorBU, witnessVectorStringDynamic, witnessVectorStringInt] ∧
      IsUsedInTypeTest info1 witnessStringType = true ∧
      witnessIntType ∉ info1.assert_assignable_types_ := by
  have hok : (match BuildTypeUsageInformation witnessVM witnessEnv witnessInfo with
      | .ok info1 => decide (info1.assert_assignable_types_ =
            [witnessT, witnessDynamicType, witnessObjectType, witnessStringType] ∧
          info1.instance_creation_arguments_ 91 =
            [witnessVectorBU, witnessVectorStringDynamic, witnessVectorStringInt])
      | .error _ => false) = true := by decide
  cases hr : BuildTypeUsageInformation witnessVM witnessEnv witnessInfo with
  | error e => rw [hr] at hok; cases hok
  | ok info1 =>
    rw [hr] at hok
    obtain ⟨h1, h2⟩ := of_decide_eq_true hok
    obtain ⟨_, _, hused, _⟩ := BuildTypeUsageInformation_tested witnessVM witnessEnv witnessInfo
      info1 hr
    refine ⟨info1, rfl, h1, h2, (hused witnessStringType rfl rfl).mpr ?_, ?_⟩
    · rw [h1]; decide
    · rw [h1]; decide

/-- C19 (the code at the failing input): for the class `B<T> extends
A<String>` (one own type parameter, two type arguments), the recorded vector
`[String, int]` of `B<int>` and `T` tested against, `UpdateAssertAssignableTypes`
reads the entry at position 0 and adds `String`; the value substituted for
`T`, `int` at position 1, is not added. -/
theorem UpdateAssertAssignableTypes_reads_position_i :
    ∃ info1, UpdateAssertAssignableTypes witnessVM witnessEnv [witnessT] witnessInfoB =
        .ok info1 ∧
      info1.assert_assignable_types_ =
        [witnessT, witnessDynamicType, witnessObjectType, witnessStringType] ∧
      witnessIntType ∉ info1.assert_assignable_types_ ∧
      witnessVectorStringInt.TypeAtOffset
        ((witnessBClass.NumTypeArguments : Int) - witnessBClass.NumTypeParameters + 0) =
        .ok witnessIntType := by
  have hok : (match UpdateAssertAssignableTypes witnessVM witnessEnv [witnessT] witnessInfoB with
      | .ok info1 => decide (info1.assert_assignable_types_ =
            [witnessT, witnessDynamicType, witnessObjectType, witnessStringType])
      | .error _ => false) = true := by decide
  cases hr : UpdateAssertAssignableTypes witnessVM witnessEnv [witnessT] witnessInfoB with
  | error e => rw [hr] at hok; cases hok
  | ok info1 =>
    rw [hr] at hok
    have h1 := of_decide_eq_true hok
    exact ⟨info1, rfl, h1, by rw [h1]; decide, rfl⟩

/-- C29 (the code at the failing input): while the class `D` is processed,
with `[P]` recorded for it and the null vector and `[dynamic, int]` recorded
for the enclosing class `Pair`, both instantiations give the null vector and
the delayed list receives it twice: the branch taken once the flag is set
adds the vector as well. -/
theorem collectDelayed_adds_null_twice :
    collectDelayed witnessNullEnv witnessDClass witnessNullSets (witnessNullSets 93)
        (false, []) = .ok (true, [none, none]) ∧
    addDelayed none (true, [none]) = (true, [none, none]) := by
  constructor <;> rfl

theorem PropagateTypeArguments_records_witness :
    ∃ info1, PropagateTypeArguments witnessEnv witnessInfo = .ok info1 ∧
      witnessVectorStringInt ∈ info1.instance_creation_arguments_ 91 ∧
      witnessVectorStringInt ∈ info1.instance_creation_arguments_ 90 ∧
      witnessVectorBU ∈ info1.instance_creation_arguments_ 91 := by
  have hok : (match PropagateTypeArguments witnessEnv witnessInfo with
      | .ok _ => true
      | .error _ => false) = true := by decide
  cases hr : PropagateTypeArguments witnessEnv witnessInfo with
  | error e => rw [hr] at hok; cases hok
  | ok info1 =>
    obtain ⟨hmono, _, hall, _⟩ := PropagateTypeArguments_records witnessEnv witnessInfo info1 hr
    obtain ⟨r, hrun, hmem⟩ := hall 91 witnessBClass (by decide) (by decide) witnessVectorBU
      (by decide) rfl rfl witnessCClass (by decide) (by decide) witnessVectorInt (by decide)
      (Or.inr rfl)
    have hr1 : r = witnessVectorStringInt := by
      have : witnessEnv.Instantiate witnessBClass witnessVectorBU witnessVectorInt =
          .ok witnessVectorStringInt := rfl
      rw [this] at hrun
      cases hrun
      rfl
    subst hr1
    exact ⟨info1, rfl, hmem 91 (by decide), hmem 90 (by decide), hmono 91 _ (by decide)⟩

theorem UseTypeArgumentsInInstanceCreation_records_witness :
    ∃ info1, UseTypeArgumentsInInstanceCreation witnessEnv witnessBClass witnessVectorStringInt
        witnessInfo = .ok info1 ∧
      info1.instance_creation_arguments_ 91 = [witnessVectorBU, witnessVectorStringInt] ∧
      info1.instance_creation_arguments_ 90 = [witnessVectorBU, witnessVectorStringInt] ∧
      info1.instance_creation_arguments_ 92 = [none, witnessVectorInt] ∧
      UseTypeArgumentsInInstanceCreation witnessEnv witnessBClass
        (some ⟨49, [witnessStringType, witnessIntType], false, true⟩) witnessInfo =
        .ok witnessInfo := by
  have h := UseTypeArgumentsInInstanceCreation_records witnessEnv witnessBClass
    witnessVectorStringInt witnessInfo
  obtain ⟨info1, hok, _, hsets, _⟩ := h.1 (Or.inr rfl) (Or.inr (by decide)) (Or.inr (Or.inl rfl))
    (by decide)
  have h2 := (UseTypeArgumentsInInstanceCreation_records witnessEnv witnessBClass
    (some ⟨49, [witnessStringType, witnessIntType], false, true⟩) witnessInfo).2.1 rfl rfl
  refine ⟨info1, hok, ?_, ?_, ?_, h2⟩
  · rw [hsets 91]; decide
  · rw [hsets 90]; decide
  · rw [hsets 92]; decide

end TypeTestingStubs
